import Mathlib

/-!
# Process and vcore lifecycle core (kern/src/process.c)

A shallow embedding of the process state machine, the vcore/pcore maps, the
three vcore lists and the grant/revoke protocol of `kern/src/process.c`.

The embedding is sequential: every function is run to completion by one core
while it holds `proc_lock`.  The C code's stateful operations become functions
from a state `Sys` to a result that is either the next state or a fault
together with the state at which the kernel stopped.
-/

namespace Akaros

/-! ## Machine arithmetic -/

/-- Modulus of `uint32_t`. -/
def U32_MOD : Nat := 4294967296

/-- The C expression `a + b` on `uint32_t`. -/
def u32_add (a b : Nat) : Nat := (a + b) % U32_MOD

/-- The C expression `a - b` on `uint32_t`. -/
def u32_sub (a b : Nat) : Nat := (a + (U32_MOD - b % U32_MOD)) % U32_MOD

/-- Modelled from the spec: `ros/resource.h` is not among the sources; the
`amt_wanted` and `amt_granted` counters of `resources[RES_CORES]` are `size_t`,
taken here as the 32-bit word of the original x86 target. -/
def SIZE_MOD : Nat := 4294967296

/-- The C expression `a + b` on `size_t`. -/
def sz_add (a b : Nat) : Nat := (a + b) % SIZE_MOD

/-- The C expression `a - b` on `size_t`. -/
def sz_sub (a b : Nat) : Nat := (a + (SIZE_MOD - b % SIZE_MOD)) % SIZE_MOD

/-! ## Process states

Modelled from the spec: `kern/include/process.h` is not among the sources.  The
seven process states of the data model are the distinct one-bit flags that the
tests `state & (A | B)` of `__proc_set_state` rely on. -/

def PROC_CREATED : Nat := 0x01
def PROC_RUNNABLE_S : Nat := 0x02
def PROC_RUNNING_S : Nat := 0x04
def PROC_WAITING : Nat := 0x08
def PROC_DYING : Nat := 0x10
def PROC_RUNNABLE_M : Nat := 0x20
def PROC_RUNNING_M : Nat := 0x40

/-- The seven process states. -/
def ALL_STATES : List Nat :=
  [PROC_CREATED, PROC_RUNNABLE_S, PROC_RUNNING_S, PROC_WAITING, PROC_DYING,
   PROC_RUNNABLE_M, PROC_RUNNING_M]

/-- Modelled from the spec: the flag bits of the per-vcore `flags` word
(`ros/event.h` is not among the sources). -/
def VC_K_LOCK : Nat := 0x001
def VC_PREEMPTED : Nat := 0x002

/-- The C expression `flags & ~bit` on a 32-bit word. -/
def clear_bits (flags bit : Nat) : Nat := flags &&& (0xFFFFFFFF ^^^ bit)

/-! ## Data model -/

/-- How the kernel stops when it does not return normally. -/
inductive Fault where
  /-- A call of `panic()`. -/
  | panic
  /-- A failed `assert()`. -/
  | assertion
  /-- A busy-wait loop whose exit condition only another core could establish. -/
  | spin
  /-- A `TAILQ_REMOVE(head, elm)` of the last entry of another list than the
  one `head` names: the macro sets the tail pointer of `head` into that other
  list, and the three lists are tail queues no more.  The kernel runs on; what
  the later list macros do is then no function of the three lists, and the
  run is followed no further. -/
  | tailq
  /-- A dereference of a null pointer. -/
  | null_deref
  deriving DecidableEq, Repr

/-- Contents of a `struct trapframe`.  The architecture code that builds frames
is not among the sources; a frame records how it was built. -/
inductive TrapFrame where
  /-- A frame with uninterpreted contents; `raw 0` is the all-zero frame. -/
  | raw (tag : Nat)
  /-- The result of `proc_init_trapframe(tf, vcoreid, entry, stack)`. -/
  | init (vcoreid entry stack : Nat)
  /-- The result of `proc_secure_trapframe` on a frame. -/
  | secured (tf : TrapFrame)
  deriving DecidableEq, Repr

/-- An entry of `procinfo->vcoremap` (a `struct vcore`), named by its index. -/
structure Vcore where
  pcoreid : Nat
  valid : Bool
  preempt_served : Bool
  preempt_pending : Nat
  deriving DecidableEq, Repr

/-- An entry of `procinfo->pcoremap`. -/
structure Pcore where
  vcoreid : Nat
  valid : Bool
  deriving DecidableEq, Repr

/-- The per-vcore shared control block `procdata->vcore_preempt_data[i]`. -/
structure PreemptData where
  notif_tf : TrapFrame
  preempt_tf : TrapFrame
  preempt_anc : Nat
  notif_pending : Bool
  notif_disabled : Bool
  can_rcv_msg : Bool
  flags : Nat
  transition_stack : Nat
  deriving DecidableEq, Repr

/-- Where `pcpui->cur_tf` points. -/
inductive TfPtr where
  | null
  /-- The address of `p->env_tf`. -/
  | env_tf
  /-- The address of this core's `actual_tf`. -/
  | actual_tf
  deriving DecidableEq, Repr

/-- The fields of `struct per_cpu_info` used by process.c.  A process pointer
is the pid of the process, `none` is the null pointer. -/
structure PerCpuInfo where
  owning_proc : Option Nat
  cur_proc : Option Nat
  cur_tf : TfPtr
  actual_tf : TrapFrame
  cur_sysc : Bool
  /-- The floating point state held by the core. -/
  fpu : Nat
  deriving DecidableEq, Repr

/-- The kernel message handlers of process.c. -/
inductive Handler where
  | startcore | notify | preempt | death | tlbshootdown
  deriving DecidableEq, Repr

/-- One call of `send_kernel_message(dst, handler, a0, a1, a2, type)`.  An `a0`
that is a process pointer is the pid of the process, `none` is the literal 0. -/
structure KMsg where
  dst : Nat
  handler : Handler
  a0 : Option Nat
  a1 : Nat
  a2 : Nat
  /-- True for `KMSG_IMMEDIATE`, false for `KMSG_ROUTINE`. -/
  immediate : Bool
  deriving DecidableEq, Repr

/-- Event types posted by process.c. -/
inductive EvType where
  | EV_PREEMPT_PENDING | EV_VCORE_PREEMPT | EV_CHECK_MSGS
  deriving DecidableEq, Repr

/-- One call of `send_kernel_event(p, &msg, vcoreid)`. -/
structure Event where
  ev_type : EvType
  ev_arg1 : Nat
  ev_arg2 : Nat
  vcoreid : Nat
  deriving DecidableEq, Repr

/-- The two lists a pcore can be granted from. -/
inductive VcList where
  | bulk_preempted | inactive
  deriving DecidableEq, Repr

/-- The state process.c works on: one process `p` (its `struct proc`, `procinfo`
and `procdata`), the per-core data, and the calls made on the collaborators
(kernel messages, events, scheduler), each in call order. -/
@[ext]
structure Sys where
  pid : Nat
  ppid : Nat
  state : Nat
  exitcode : Nat
  /-- The count of `p->p_kref`. -/
  refcnt : Int
  env_tf : TrapFrame
  env_ancillary_state : Nat
  env_entry : Nat
  online_vcs : List Nat
  bulk_preempted_vcs : List Nat
  inactive_vcs : List Nat
  /-- The field `resources[RES_CORES].amt_wanted`. -/
  amt_wanted : Nat
  /-- The field `resources[RES_CORES].amt_granted`. -/
  amt_granted : Nat
  num_vcores : Nat
  is_mcp : Bool
  coremap_seqctr : Nat
  vcoremap : Nat → Vcore
  pcoremap : Nat → Pcore
  vcore_preempt_data : Nat → PreemptData
  /-- True once `close_all_files` has run. -/
  files_closed : Bool
  /-- True while `p` is in `pid_hash`. -/
  in_pid_hash : Bool
  /-- True once `__proc_free` has run. -/
  freed : Bool
  per_cpu_info : Nat → PerCpuInfo
  /-- Reference counts of the processes other than `p`, by pid. -/
  other_refcnt : Nat → Int
  kmsgs : List KMsg
  events : List Event
  /-- The arguments of the `put_idle_core` calls. -/
  idle_cores : List Nat
  /-- The pids passed to `schedule_scp`. -/
  scheduled : List Nat

/-- Result of running a function of process.c: the state it returns in, or the
fault and the state at which the kernel stopped. -/
abbrev Res := Except (Fault × Sys) Sys

/-- Stop with fault `f` in state `s`. -/
def fault {α : Type} (f : Fault) (s : Sys) : Except (Fault × Sys) α := .error (f, s)

/-- Array store `a[i] = v`. -/
def upd {α : Type} (a : Nat → α) (i : Nat) (v : α) : Nat → α :=
  fun j => if j = i then v else a j

/-! ## Collaborators -/

/-- The call `send_kernel_message(dst, handler, a0, 0, 0, KMSG_IMMEDIATE)`. -/
def send_kernel_message (s : Sys) (dst : Nat) (h : Handler) (a0 : Option Nat) : Sys :=
  { s with kmsgs := s.kmsgs ++ [⟨dst, h, a0, 0, 0, true⟩] }

/-- The call `send_kernel_event(p, &msg, vcoreid)`. -/
def send_kernel_event (s : Sys) (ev : Event) : Sys :=
  { s with events := s.events ++ [ev] }

/-- The call `put_idle_core(pcoreid)`. -/
def put_idle_core (s : Sys) (pcoreid : Nat) : Sys :=
  { s with idle_cores := s.idle_cores ++ [pcoreid] }

/-- The call `schedule_scp(p)`. -/
def schedule_scp (s : Sys) : Sys :=
  { s with scheduled := s.scheduled ++ [s.pid] }

/-- The call `__seq_start_write(&p->procinfo->coremap_seqctr)`. -/
def __seq_start_write (s : Sys) : Sys :=
  { s with coremap_seqctr := u32_add s.coremap_seqctr 1 }

/-- The call `__seq_end_write(&p->procinfo->coremap_seqctr)`. -/
def __seq_end_write (s : Sys) : Sys :=
  { s with coremap_seqctr := u32_add s.coremap_seqctr 1 }

/-! ## State machine -/

/-- The function `__proc_set_state`: checks the transition, then stores. -/
def __proc_set_state (s : Sys) (state : Nat) : Res :=
  let curstate := s.state
  if curstate = PROC_CREATED then
    if state &&& (PROC_RUNNABLE_S ||| PROC_DYING) = 0 then fault .panic s
    else .ok { s with state := state }
  else if curstate = PROC_RUNNABLE_S then
    if state &&& (PROC_RUNNING_S ||| PROC_DYING) = 0 then fault .panic s
    else .ok { s with state := state }
  else if curstate = PROC_RUNNING_S then
    if state &&& (PROC_RUNNABLE_S ||| PROC_RUNNABLE_M ||| PROC_WAITING ||| PROC_DYING) = 0
    then fault .panic s
    else .ok { s with state := state }
  else if curstate = PROC_WAITING then
    if state &&& (PROC_RUNNABLE_S ||| PROC_RUNNABLE_M) = 0 then fault .panic s
    else .ok { s with state := state }
  else if curstate = PROC_DYING then
    if state ≠ PROC_CREATED then fault .panic s
    else .ok { s with state := state }
  else if curstate = PROC_RUNNABLE_M then
    if state &&& (PROC_RUNNING_M ||| PROC_DYING) = 0 then fault .panic s
    else .ok { s with state := state }
  else if curstate = PROC_RUNNING_M then
    if state &&& (PROC_RUNNABLE_S ||| PROC_RUNNABLE_M ||| PROC_WAITING ||| PROC_DYING) = 0
    then fault .panic s
    else .ok { s with state := state }
  else .ok { s with state := state }

/-- The allowed-transition table of the specification (section 4.4). -/
def allowed (src dst : Nat) : Bool :=
  (src == PROC_CREATED && (dst == PROC_RUNNABLE_S || dst == PROC_DYING)) ||
  (src == PROC_RUNNABLE_S && (dst == PROC_RUNNING_S || dst == PROC_DYING)) ||
  (src == PROC_RUNNING_S && (dst == PROC_RUNNABLE_S || dst == PROC_RUNNABLE_M ||
    dst == PROC_WAITING || dst == PROC_DYING)) ||
  (src == PROC_WAITING && (dst == PROC_RUNNABLE_S || dst == PROC_RUNNABLE_M)) ||
  (src == PROC_RUNNABLE_M && (dst == PROC_RUNNING_M || dst == PROC_DYING)) ||
  (src == PROC_RUNNING_M && (dst == PROC_RUNNABLE_S || dst == PROC_RUNNABLE_M ||
    dst == PROC_WAITING || dst == PROC_DYING))

/-! ## Vcore and pcore maps -/

/-- The function `is_mapped_vcore`. -/
def is_mapped_vcore (s : Sys) (pcoreid : Nat) : Bool := (s.pcoremap pcoreid).valid

/-- The function `vcore_is_mapped`. -/
def vcore_is_mapped (s : Sys) (vcoreid : Nat) : Bool := (s.vcoremap vcoreid).valid

/-- The function `get_vcoreid`: asserts that the pcore is mapped. -/
def get_vcoreid (s : Sys) (pcoreid : Nat) : Except (Fault × Sys) Nat :=
  if is_mapped_vcore s pcoreid then .ok (s.pcoremap pcoreid).vcoreid
  else fault .assertion s

/-- The function `try_get_pcoreid`. -/
def try_get_pcoreid (s : Sys) (vcoreid : Nat) : Nat := (s.vcoremap vcoreid).pcoreid

/-- The function `get_pcoreid`: asserts that the vcore is mapped. -/
def get_pcoreid (s : Sys) (vcoreid : Nat) : Except (Fault × Sys) Nat :=
  if vcore_is_mapped s vcoreid then .ok (try_get_pcoreid s vcoreid)
  else fault .assertion s

/-- The function `__map_vcore`.  The loop `while (vcoremap[vcoreid].valid)
cpu_relax();` is left only when another core clears the flag; run alone it
never ends on a mapped vcore. -/
def __map_vcore (s : Sys) (vcoreid pcoreid : Nat) : Res :=
  if (s.vcoremap vcoreid).valid then fault .spin s
  else
    .ok { s with
      vcoremap := upd s.vcoremap vcoreid
        { s.vcoremap vcoreid with pcoreid := pcoreid, valid := true }
      pcoremap := upd s.pcoremap pcoreid { vcoreid := vcoreid, valid := true } }

/-- The function `__unmap_vcore`. -/
def __unmap_vcore (s : Sys) (vcoreid : Nat) : Sys :=
  { s with
    pcoremap := upd s.pcoremap (s.vcoremap vcoreid).pcoreid
      { s.pcoremap (s.vcoremap vcoreid).pcoreid with valid := false }
    vcoremap := upd s.vcoremap vcoreid { s.vcoremap vcoreid with valid := false } }

/-! ## Vcore lists

Modelled from the spec: `sys/queue.h` is not among the sources.  A tail queue
of vcores is the list of their indices, head first.  `TAILQ_INSERT_HEAD` and
`TAILQ_INSERT_TAIL` add at the two ends.  `TAILQ_REMOVE(head, elm)` does not
check that `elm` is on the list `head` names: it follows the links of `elm`, and
uses `head` only to move its tail pointer when `elm` has no successor.  So an
entry of the named list is unlinked from it; an entry of another list that has
a successor is unlinked from the list it is on, and the kernel runs on; the
last entry of another list leaves the tail pointer of `head` inside that list
(`Fault.tailq`); and an entry on none of the lists has the null links that
`proc_init_procinfo` gave it, which the macro writes through. -/

/-- The statement `TAILQ_REMOVE(&p->online_vcs, vc, list)`. -/
def online_remove (s : Sys) (vc : Nat) : Res :=
  if vc ∈ s.online_vcs then .ok { s with online_vcs := s.online_vcs.erase vc }
  else if vc ∈ s.bulk_preempted_vcs.dropLast then
    .ok { s with bulk_preempted_vcs := s.bulk_preempted_vcs.erase vc }
  else if vc ∈ s.inactive_vcs.dropLast then
    .ok { s with inactive_vcs := s.inactive_vcs.erase vc }
  else if vc ∈ s.bulk_preempted_vcs ∨ vc ∈ s.inactive_vcs then fault .tailq s
  else fault .null_deref s

/-- The statement `TAILQ_REMOVE(&p->inactive_vcs, vc, list)`. -/
def inactive_remove (s : Sys) (vc : Nat) : Res :=
  if vc ∈ s.inactive_vcs then .ok { s with inactive_vcs := s.inactive_vcs.erase vc }
  else if vc ∈ s.online_vcs.dropLast then
    .ok { s with online_vcs := s.online_vcs.erase vc }
  else if vc ∈ s.bulk_preempted_vcs.dropLast then
    .ok { s with bulk_preempted_vcs := s.bulk_preempted_vcs.erase vc }
  else if vc ∈ s.online_vcs ∨ vc ∈ s.bulk_preempted_vcs then fault .tailq s
  else fault .null_deref s

/-- The statement `TAILQ_INSERT_HEAD(&p->inactive_vcs, vc, list)`. -/
def inactive_insert_head (s : Sys) (vc : Nat) : Sys :=
  { s with inactive_vcs := vc :: s.inactive_vcs }

/-- The statement `TAILQ_INSERT_TAIL(&p->online_vcs, vc, list)`. -/
def online_insert_tail (s : Sys) (vc : Nat) : Sys :=
  { s with online_vcs := s.online_vcs ++ [vc] }

/-! ## Reference counting

Modelled from the spec: `kref.h` is not among the sources.  `proc_incref` adds
to the count; `proc_decref` takes one from it and runs the destructor
`__proc_free` when the count reaches zero. -/

/-- The function `__proc_free`: asserts a zero count, removes `p` from the pid
hash (a panic when it is not there) and frees it. -/
def __proc_free (s : Sys) : Res :=
  if s.refcnt ≠ 0 then fault .assertion s
  else if !s.in_pid_hash then fault .panic s
  else .ok { s with in_pid_hash := false, freed := true }

/-- The function `proc_incref` applied to `p`. -/
def proc_incref (s : Sys) (val : Nat) : Sys :=
  { s with refcnt := s.refcnt + val }

/-- The function `proc_decref` applied to the process with pid `q`. -/
def proc_decref (s : Sys) (q : Nat) : Res :=
  if q = s.pid then
    let s1 := { s with refcnt := s.refcnt - 1 }
    if s1.refcnt = 0 then __proc_free s1 else .ok s1
  else .ok { s with other_refcnt := upd s.other_refcnt q (s.other_refcnt q - 1) }

/-! ## Core granting -/

/-- The list `vc_list` points to. -/
def vc_list_get (s : Sys) (l : VcList) : List Nat :=
  match l with
  | .bulk_preempted => s.bulk_preempted_vcs
  | .inactive => s.inactive_vcs

/-- Store into the list `vc_list` points to. -/
def vc_list_set (s : Sys) (l : VcList) (vcs : List Nat) : Sys :=
  match l with
  | .bulk_preempted => { s with bulk_preempted_vcs := vcs }
  | .inactive => { s with inactive_vcs := vcs }

/-- The function `__proc_give_a_pcore`: takes the first vcore of `vc_list`,
puts it at the tail of the online list and maps it to `pcore`. -/
def __proc_give_a_pcore (s : Sys) (pcore : Nat) (vc_list : VcList) :
    Except (Fault × Sys) (Bool × Sys) :=
  match vc_list_get s vc_list with
  | [] => .ok (false, s)
  | new_vc :: rest =>
    match __map_vcore (online_insert_tail (vc_list_set s vc_list rest) new_vc) new_vc pcore with
    | .ok s1 => .ok (true, s1)
    | .error e => .error e

/-- The loop of `__proc_give_cores_runnable` over `pc_arr`. -/
def give_cores_runnable_loop (s : Sys) : List Nat → Res
  | [] => .ok s
  | pc :: pcs =>
    match __proc_give_a_pcore s pc .bulk_preempted with
    | .error e => .error e
    | .ok (true, s1) => give_cores_runnable_loop s1 pcs
    | .ok (false, s1) =>
      match __proc_give_a_pcore s1 pc .inactive with
      | .error e => .error e
      | .ok (true, s2) => give_cores_runnable_loop s2 pcs
      | .ok (false, s2) => fault .assertion s2

/-- The function `__proc_give_cores_runnable`; `num` is the length of `pc_arr`. -/
def __proc_give_cores_runnable (s : Sys) (pc_arr : List Nat) : Res :=
  if s.state ≠ PROC_RUNNABLE_M then fault .assertion s
  else if pc_arr.length = 0 then fault .assertion s
  else
    let s1 := __seq_start_write s
    let s2 := { s1 with num_vcores := u32_add s1.num_vcores pc_arr.length }
    match give_cores_runnable_loop s2 pc_arr with
    | .error e => .error e
    | .ok s3 => .ok (__seq_end_write s3)

/-- The loop of `__proc_give_cores_running` over `pc_arr`. -/
def give_cores_running_loop (s : Sys) : List Nat → Res
  | [] => .ok s
  | pc :: pcs =>
    match __proc_give_a_pcore s pc .inactive with
    | .error e => .error e
    | .ok (false, s1) => fault .assertion s1
    | .ok (true, s1) =>
      give_cores_running_loop (send_kernel_message s1 pc .startcore (some s1.pid)) pcs

/-- The function `__proc_give_cores_running`; `num` is the length of `pc_arr`. -/
def __proc_give_cores_running (s : Sys) (pc_arr : List Nat) : Res :=
  let s1 := proc_incref s (pc_arr.length * 2)
  let s2 := __seq_start_write s1
  let s3 := { s2 with num_vcores := u32_add s2.num_vcores pc_arr.length }
  if s3.bulk_preempted_vcs ≠ [] then fault .assertion s3
  else
    match give_cores_running_loop s3 pc_arr with
    | .error e => .error e
    | .ok s4 => .ok (__seq_end_write s4)

/-- The loop `for (i = 0; i < num; i++) put_idle_core(pc_arr[i]);`. -/
def put_idle_cores (s : Sys) : List Nat → Sys
  | [] => s
  | pc :: pcs => put_idle_cores (put_idle_core s pc) pcs

/-- The function `__proc_give_cores`; `num` is the length of `pc_arr`, and
`MAX_NUM_CPUS` is the constant of that name, which the sources do not define. -/
def __proc_give_cores (MAX_NUM_CPUS : Nat) (s : Sys) (pc_arr : List Nat) : Res :=
  if ¬ (u32_add pc_arr.length s.num_vcores ≤ MAX_NUM_CPUS) then fault .assertion s
  else if s.state = PROC_RUNNABLE_S ∨ s.state = PROC_RUNNING_S then fault .panic s
  else if s.state = PROC_DYING ∨ s.state = PROC_WAITING then .ok (put_idle_cores s pc_arr)
  else if s.state = PROC_RUNNABLE_M then
    match __proc_give_cores_runnable s pc_arr with
    | .error e => .error e
    | .ok s1 => .ok { s1 with amt_granted := sz_add s1.amt_granted pc_arr.length }
  else if s.state = PROC_RUNNING_M then
    match __proc_give_cores_running s pc_arr with
    | .error e => .error e
    | .ok s1 => .ok { s1 with amt_granted := sz_add s1.amt_granted pc_arr.length }
  else fault .panic s

/-! ## Core revocation -/

/-- The function `__proc_revoke_core`. -/
def __proc_revoke_core (s : Sys) (vcoreid : Nat) (preempt : Bool) : Res :=
  match get_pcoreid s vcoreid with
  | .error e => .error e
  | .ok pcoreid =>
    if preempt then
      let vcpd := s.vcore_preempt_data vcoreid
      let s1 := { s with
        vcore_preempt_data :=
          upd s.vcore_preempt_data vcoreid { vcpd with flags := vcpd.flags ||| VC_K_LOCK } }
      .ok (send_kernel_message s1 pcoreid .preempt (some s1.pid))
    else .ok (send_kernel_message s pcoreid .death none)

/-- The loop of `__proc_revoke_allcores` over the online list. -/
def revoke_allcores_loop (s : Sys) (preempt : Bool) : List Nat → Res
  | [] => .ok s
  | vc :: vcs =>
    match __proc_revoke_core s vc preempt with
    | .error e => .error e
    | .ok s1 => revoke_allcores_loop s1 preempt vcs

/-- The function `__proc_revoke_allcores`. -/
def __proc_revoke_allcores (s : Sys) (preempt : Bool) : Res :=
  revoke_allcores_loop s preempt s.online_vcs

/-- The loop of `__proc_unmap_allcores` over the online list. -/
def unmap_allcores_loop (s : Sys) : List Nat → Sys
  | [] => s
  | vc :: vcs => unmap_allcores_loop (__unmap_vcore s vc) vcs

/-- The function `__proc_unmap_allcores`. -/
def __proc_unmap_allcores (s : Sys) : Sys :=
  unmap_allcores_loop s s.online_vcs

/-- One iteration of the loop of `__proc_take_corelist`, for the pcore `pc`. -/
def take_corelist_step (s : Sys) (pc : Nat) (preempt : Bool) : Res :=
  match get_vcoreid s pc with
  | .error e => .error e
  | .ok vcoreid =>
    match get_pcoreid s vcoreid with
    | .error e => .error e
    | .ok pc2 =>
      if pc ≠ pc2 then fault .assertion s
      else
        let revoked : Res :=
          if s.state = PROC_RUNNING_M then __proc_revoke_core s vcoreid preempt
          else if s.state ≠ PROC_RUNNABLE_M then fault .assertion s
          else .ok (__unmap_vcore s vcoreid)
        match revoked with
        | .error e => .error e
        | .ok s1 =>
          match online_remove s1 vcoreid with
          | .error e => .error e
          | .ok s2 => .ok (inactive_insert_head s2 vcoreid)

/-- The loop of `__proc_take_corelist` over `pc_arr`. -/
def take_corelist_loop (s : Sys) (preempt : Bool) : List Nat → Res
  | [] => .ok s
  | pc :: pcs =>
    match take_corelist_step s pc preempt with
    | .error e => .error e
    | .ok s1 => take_corelist_loop s1 preempt pcs

/-- The function `__proc_take_corelist`; `num` is the length of `pc_arr`. -/
def __proc_take_corelist (s : Sys) (pc_arr : List Nat) (preempt : Bool) : Res :=
  match take_corelist_loop (__seq_start_write s) preempt pc_arr with
  | .error e => .error e
  | .ok s1 =>
    let s2 := { s1 with num_vcores := u32_sub s1.num_vcores pc_arr.length }
    let s3 := __seq_end_write s2
    .ok { s3 with amt_granted := sz_sub s3.amt_granted pc_arr.length }

/-- The loop of `__proc_take_allcores` that moves every online vcore to the head
of the bulk-preempted list (`preempt`) or of the inactive list. -/
def take_allcores_move (s : Sys) (preempt : Bool) : List Nat → Res
  | [] => .ok s
  | vc :: vcs =>
    match online_remove s vc with
    | .error e => .error e
    | .ok s1 =>
      if preempt then
        take_allcores_move { s1 with bulk_preempted_vcs := vc :: s1.bulk_preempted_vcs }
          preempt vcs
      else take_allcores_move (inactive_insert_head s1 vc) preempt vcs

/-- The function `__proc_take_allcores`: returns the pcores written to `pc_arr`
(their number is the return value) and the new state. -/
def __proc_take_allcores (s : Sys) (preempt : Bool) :
    Except (Fault × Sys) (List Nat × Sys) :=
  let s1 := __seq_start_write s
  let pc_arr := s1.online_vcs.map (fun vc => (s1.vcoremap vc).pcoreid)
  let revoked : Res :=
    if s1.state = PROC_RUNNING_M then __proc_revoke_allcores s1 preempt
    else if s1.state ≠ PROC_RUNNABLE_M then fault .assertion s1
    else .ok (__proc_unmap_allcores s1)
  match revoked with
  | .error e => .error e
  | .ok s2 =>
    match take_allcores_move s2 preempt s2.online_vcs with
    | .error e => .error e
    | .ok s3 =>
      if s3.online_vcs ≠ [] then fault .assertion s3
      else if pc_arr.length % U32_MOD ≠ s3.num_vcores then fault .assertion s3
      else
        let s4 := __seq_end_write { s3 with num_vcores := 0 }
        .ok (pc_arr, { s4 with amt_granted := 0 })

/-- The function `__proc_take_allcores_dumb`. -/
def __proc_take_allcores_dumb (s : Sys) (preempt : Bool) : Res :=
  match __proc_take_allcores s preempt with
  | .error e => .error e
  | .ok (pc_arr, s1) => .ok (put_idle_cores s1 pc_arr)

/-! ## Per-core helpers -/

/-- Store into `procdata->vcore_preempt_data[vcoreid]`. -/
def set_vcpd (s : Sys) (vcoreid : Nat) (d : PreemptData) : Sys :=
  { s with vcore_preempt_data := upd s.vcore_preempt_data vcoreid d }

/-- Store into `procinfo->vcoremap[vcoreid]`. -/
def set_vcore (s : Sys) (vcoreid : Nat) (vc : Vcore) : Sys :=
  { s with vcoremap := upd s.vcoremap vcoreid vc }

/-- Store into `per_cpu_info[coreid]`. -/
def set_pcpui (s : Sys) (coreid : Nat) (c : PerCpuInfo) : Sys :=
  { s with per_cpu_info := upd s.per_cpu_info coreid c }

/-- The read `*pcpui->cur_tf` on core `coreid`. -/
def read_cur_tf (s : Sys) (coreid : Nat) : Except (Fault × Sys) TrapFrame :=
  match (s.per_cpu_info coreid).cur_tf with
  | .null => fault .null_deref s
  | .env_tf => .ok s.env_tf
  | .actual_tf => .ok (s.per_cpu_info coreid).actual_tf

/-- The function `clear_owning_proc`.  The statement `if (p);` guards nothing:
`proc_decref(p)` runs whatever `p` is. -/
def clear_owning_proc (s : Sys) (coreid : Nat) : Res :=
  let p := (s.per_cpu_info coreid).owning_proc
  let s1 := set_pcpui s coreid
    { s.per_cpu_info coreid with owning_proc := none, cur_tf := .null }
  match p with
  | none => fault .null_deref s1
  | some q => proc_decref s1 q

/-- Modelled from the spec: `__abandon_core` is architecture code that is not
among the sources; it leaves the process context of the core, dropping the
reference held by `cur_proc`. -/
def __abandon_core (s : Sys) (coreid : Nat) : Res :=
  match (s.per_cpu_info coreid).cur_proc with
  | none => fault .null_deref s
  | some q =>
    match proc_decref s q with
    | .error e => .error e
    | .ok s1 => .ok (set_pcpui s1 coreid { s1.per_cpu_info coreid with cur_proc := none })

/-- The function `abandon_core` run on core `coreid`. -/
def abandon_core (s : Sys) (coreid : Nat) : Res :=
  let s1 := set_pcpui s coreid { s.per_cpu_info coreid with cur_sysc := false }
  if (s1.per_cpu_info coreid).cur_proc.isSome then __abandon_core s1 coreid else .ok s1

/-- The function `__set_proc_current` run on core `coreid`. -/
def __set_proc_current (s : Sys) (coreid : Nat) : Res :=
  if some s.pid ≠ (s.per_cpu_info coreid).cur_proc then
    let s1 := proc_incref s 1
    let dropped : Res :=
      match (s1.per_cpu_info coreid).cur_proc with
      | some q => proc_decref s1 q
      | none => .ok s1
    match dropped with
    | .error e => .error e
    | .ok s2 => .ok (set_pcpui s2 coreid { s2.per_cpu_info coreid with cur_proc := some s2.pid })
  else .ok s

/-- The function `__set_curtf_to_vcoreid` run on core `coreid`. -/
def __set_curtf_to_vcoreid (s : Sys) (coreid vcoreid : Nat) : Res :=
  let vcpd := s.vcore_preempt_data vcoreid
  let vcpd1 := { vcpd with can_rcv_msg := true, flags := clear_bits vcpd.flags VC_PREEMPTED }
  let s1 := set_vcpd s vcoreid vcpd1
  let pcpui := s1.per_cpu_info coreid
  if vcpd1.notif_disabled then
    .ok (set_pcpui s1 coreid
      { pcpui with fpu := vcpd1.preempt_anc, actual_tf := .secured vcpd1.preempt_tf,
                   cur_tf := .actual_tf })
  else if vcpd1.transition_stack = 0 then fault .assertion s1
  else
    let s2 := set_vcpd s1 vcoreid { vcpd1 with notif_disabled := true }
    .ok (set_pcpui s2 coreid
      { pcpui with actual_tf := .init vcoreid s2.env_entry vcpd1.transition_stack,
                   cur_tf := .actual_tf })

/-! ## Running a process -/

/-- The statement `TAILQ_REMOVE(&p->bulk_preempted_vcs, vc, list)`. -/
def bulk_remove (s : Sys) (vc : Nat) : Res :=
  if vc ∈ s.bulk_preempted_vcs then
    .ok { s with bulk_preempted_vcs := s.bulk_preempted_vcs.erase vc }
  else if vc ∈ s.online_vcs.dropLast then
    .ok { s with online_vcs := s.online_vcs.erase vc }
  else if vc ∈ s.inactive_vcs.dropLast then
    .ok { s with inactive_vcs := s.inactive_vcs.erase vc }
  else if vc ∈ s.online_vcs ∨ vc ∈ s.inactive_vcs then fault .tailq s
  else fault .null_deref s

/-- The loop of `__send_bulkp_events` over the bulk-preempted list. -/
def send_bulkp_events_loop (s : Sys) : List Nat → Res
  | [] => .ok s
  | vc :: vcs =>
    match bulk_remove (send_kernel_event s ⟨.EV_VCORE_PREEMPT, 0, vc, 0⟩) vc with
    | .error e => .error e
    | .ok s1 => send_bulkp_events_loop (inactive_insert_head s1 vc) vcs

/-- The function `__send_bulkp_events`. -/
def __send_bulkp_events (s : Sys) : Res :=
  send_bulkp_events_loop s s.bulk_preempted_vcs

/-- The loop of `__proc_run_m` that sends `__startcore` to every online vcore. -/
def run_m_startcores (s : Sys) : List Nat → Sys
  | [] => s
  | vc :: vcs =>
    run_m_startcores (send_kernel_message s (s.vcoremap vc).pcoreid .startcore (some s.pid)) vcs

/-- The function `__proc_run_m`. -/
def __proc_run_m (s : Sys) : Res :=
  if s.state = PROC_DYING then .ok s
  else if s.state = PROC_RUNNABLE_M then
    if s.num_vcores ≠ 0 then
      match __send_bulkp_events s with
      | .error e => .error e
      | .ok s1 =>
        match __proc_set_state s1 PROC_RUNNING_M with
        | .error e => .error e
        | .ok s2 =>
          let s3 := proc_incref s2 ((s2.num_vcores * 2) % U32_MOD)
          .ok (run_m_startcores s3 s3.online_vcs)
    else .ok s
  else if s.state = PROC_RUNNING_M ∨ s.state = PROC_WAITING then .ok s
  else fault .panic s

/-- The function `proc_run_s` run on core `coreid`. -/
def proc_run_s (s : Sys) (coreid : Nat) : Res :=
  if s.state = PROC_DYING then .ok s
  else if s.state = PROC_RUNNABLE_S then
    if (s.per_cpu_info coreid).cur_proc = some s.pid then fault .assertion s
    else
      match __proc_set_state s PROC_RUNNING_S with
      | .error e => .error e
      | .ok s1 =>
        let s2 := __seq_start_write s1
        let s3 := { s2 with num_vcores := 0 }
        match __map_vcore s3 0 coreid with
        | .error e => .error e
        | .ok s4 =>
          let s5 := __seq_end_write s4
          let s6 := proc_incref s5 1
          match __set_proc_current s6 coreid with
          | .error e => .error e
          | .ok s7 =>
            .ok (set_pcpui s7 coreid
              { s7.per_cpu_info coreid with cur_tf := .env_tf, owning_proc := some s7.pid })
  else fault .panic s

/-- The function `proc_destroy`. -/
def proc_destroy (s : Sys) : Res :=
  if s.state = PROC_DYING then .ok s
  else
    let revoked : Res :=
      if s.state = PROC_RUNNABLE_M then __proc_take_allcores_dumb s false
      else if s.state = PROC_RUNNABLE_S then .ok s
      else if s.state = PROC_RUNNING_S then
        match get_pcoreid s 0 with
        | .error e => .error e
        | .ok pc =>
          .ok (__seq_end_write (__seq_start_write (send_kernel_message s pc .death none)))
      else if s.state = PROC_RUNNING_M then __proc_take_allcores_dumb s false
      else if s.state = PROC_CREATED then .ok s
      else fault .panic s
    match revoked with
    | .error e => .error e
    | .ok s1 =>
      match __proc_set_state s1 PROC_DYING with
      | .error e => .error e
      | .ok s2 => proc_decref { s2 with files_closed := true } s2.pid

/-- The function `__proc_switch_to_m` run on core `coreid`. -/
def __proc_switch_to_m (s : Sys) (coreid : Nat) : Res :=
  if s.state = PROC_RUNNING_S then
    if (s.per_cpu_info coreid).cur_proc ≠ some s.pid then fault .panic s
    else
      match get_pcoreid s 0 with
      | .error e => .error e
      | .ok pc =>
        if pc ≠ coreid then fault .panic s
        else if (s.per_cpu_info coreid).cur_tf = .null then fault .assertion s
        else
          match read_cur_tf s coreid with
          | .error e => .error e
          | .ok tf =>
            let s1 := set_vcpd s 0 { s.vcore_preempt_data 0 with notif_tf := tf }
            match clear_owning_proc s1 coreid with
            | .error e => .error e
            | .ok s2 =>
              let s3 := set_vcpd s2 0
                { s2.vcore_preempt_data 0 with preempt_anc := (s2.per_cpu_info coreid).fpu }
              let s4 :=
                if (s3.vcore_preempt_data 0).notif_disabled then
                  set_vcpd s3 0 { s3.vcore_preempt_data 0 with notif_disabled := false }
                else s3
              let s5 := __seq_end_write (__unmap_vcore (__seq_start_write s4) 0)
              match __proc_set_state s5 PROC_RUNNABLE_M with
              | .error e => .error e
              | .ok s6 => .ok { s6 with is_mcp := true }
  else if s.state = PROC_RUNNABLE_S then fault .panic s
  else .ok s

/-- The function `__proc_wakeup`. -/
def __proc_wakeup (s : Sys) : Res :=
  if s.state ≠ PROC_WAITING then .ok s
  else if s.is_mcp then __proc_set_state s PROC_RUNNABLE_M
  else
    match __proc_set_state s PROC_RUNNABLE_S with
    | .error e => .error e
    | .ok s1 => .ok (schedule_scp s1)

/-- The function `proc_notify`. -/
def proc_notify (s : Sys) (vcoreid : Nat) : Sys :=
  let s1 := set_vcpd s vcoreid { s.vcore_preempt_data vcoreid with notif_pending := true }
  if !(s1.vcore_preempt_data vcoreid).notif_disabled then
    if s1.state &&& PROC_RUNNING_M ≠ 0 ∧ vcore_is_mapped s1 vcoreid then
      send_kernel_message s1 (try_get_pcoreid s1 vcoreid) .notify (some s1.pid)
    else s1
  else s1

/-! ## Yield -/

/-- The function `__proc_yield_s`; `tf` is `current_tf` of core `coreid`. -/
def __proc_yield_s (s : Sys) (coreid : Nat) : Res :=
  if s.state ≠ PROC_RUNNING_S then fault .assertion s
  else
    match read_cur_tf s coreid with
    | .error e => .error e
    | .ok tf =>
      let s1 := { s with env_tf := tf, env_ancillary_state := (s.per_cpu_info coreid).fpu }
      match __proc_set_state (__unmap_vcore s1 0) PROC_RUNNABLE_S with
      | .error e => .error e
      | .ok s2 => .ok (schedule_scp s2)

/-- The exit path `out_yield_core` of `proc_yield`: the passed reference is
dropped, the core gives up the process and idles. -/
def out_yield_core (s : Sys) (pcoreid : Nat) : Res :=
  match proc_decref s s.pid with
  | .error e => .error e
  | .ok s1 =>
    match clear_owning_proc s1 pcoreid with
    | .error e => .error e
    | .ok s2 => abandon_core s2 pcoreid

/-- The part of `proc_yield` that gives the core up, once the vcore is off the
online list: the vcore goes to the head of the inactive list and is unmapped,
the counts are lowered and the pcore is handed back to the idle-core pool. -/
def yield_m_release (s : Sys) (pcoreid vcoreid : Nat) (being_nice : Bool) : Sys :=
  let s2 := __seq_start_write (inactive_insert_head s vcoreid)
  let s3 := set_vcpd s2 vcoreid { s2.vcore_preempt_data vcoreid with notif_disabled := false }
  let s4 := __unmap_vcore s3 vcoreid
  let s5 := { s4 with num_vcores := u32_sub s4.num_vcores 1 }
  let s6 := { s5 with amt_granted := s5.num_vcores % SIZE_MOD }
  let s7 := if !being_nice then { s6 with amt_wanted := s6.num_vcores % SIZE_MOD } else s6
  put_idle_core (__seq_end_write s7) pcoreid

/-- The part of `proc_yield` that runs once a `RUNNING_M` caller on vcore
`vcoreid` has passed the early checks. -/
def yield_m_commit (s : Sys) (pcoreid vcoreid : Nat) (being_nice : Bool) : Res :=
  match online_remove s vcoreid with
  | .error e => .error e
  | .ok s1 =>
    if (s1.vcore_preempt_data vcoreid).notif_pending then
      .ok (online_insert_tail s1 vcoreid)
    else
      let s8 := yield_m_release s1 pcoreid vcoreid being_nice
      let last : Res :=
        if s8.num_vcores = 0 then __proc_set_state { s8 with amt_wanted := 1 } PROC_WAITING
        else .ok s8
      match last with
      | .error e => .error e
      | .ok s9 => out_yield_core s9 pcoreid

/-- The function `proc_yield` called on core `pcoreid`. -/
def proc_yield (s : Sys) (pcoreid : Nat) (being_nice : Bool) : Res :=
  if s.state = PROC_RUNNING_S then
    match __proc_yield_s s pcoreid with
    | .error e => .error e
    | .ok s1 => out_yield_core s1 pcoreid
  else if s.state = PROC_RUNNING_M then
    if !is_mapped_vcore s pcoreid then .ok s
    else
      match get_vcoreid s pcoreid with
      | .error e => .error e
      | .ok vcoreid =>
        let vc := s.vcoremap vcoreid
        if being_nice ∧ vc.preempt_pending = 0 then .ok s
        else if vc.preempt_served then .ok s
        else
          let s1 := if vc.preempt_pending ≠ 0 then set_vcore s vcoreid { vc with preempt_pending := 0 }
                    else s
          if (s1.vcore_preempt_data vcoreid).notif_pending then .ok s1
          else yield_m_commit s1 pcoreid vcoreid being_nice
  else if s.state = PROC_DYING ∨ s.state = PROC_RUNNABLE_M then .ok s
  else fault .panic s

/-! ## Preemption -/

/-- The function `__proc_preempt_warn`. -/
def __proc_preempt_warn (s : Sys) (vcoreid when : Nat) : Sys :=
  send_kernel_event (set_vcore s vcoreid { s.vcoremap vcoreid with preempt_pending := when })
    ⟨.EV_PREEMPT_PENDING, vcoreid, 0, vcoreid⟩

/-- The loop of `__proc_preempt_warnall` over the online list. -/
def preempt_warnall_loop (s : Sys) (when : Nat) : List Nat → Sys
  | [] => s
  | vc :: vcs => preempt_warnall_loop (__proc_preempt_warn s vc when) when vcs

/-- The function `__proc_preempt_warnall`. -/
def __proc_preempt_warnall (s : Sys) (when : Nat) : Sys :=
  preempt_warnall_loop s when s.online_vcs

/-- The function `__proc_preempt_core`. -/
def __proc_preempt_core (s : Sys) (pcoreid : Nat) : Res :=
  match get_vcoreid s pcoreid with
  | .error e => .error e
  | .ok vcoreid =>
    let s1 := set_vcore s vcoreid { s.vcoremap vcoreid with preempt_served := true }
    match __proc_take_corelist s1 [pcoreid] true with
    | .error e => .error e
    | .ok s2 => .ok (send_kernel_event s2 ⟨.EV_VCORE_PREEMPT, 0, vcoreid, 0⟩)

/-- The loop of `__proc_preempt_all` over the online list. -/
def preempt_all_loop (s : Sys) : List Nat → Sys
  | [] => s
  | vc :: vcs =>
    preempt_all_loop (set_vcore s vc { s.vcoremap vc with preempt_served := true }) vcs

/-- The function `__proc_preempt_all`. -/
def __proc_preempt_all (s : Sys) : Res :=
  __proc_take_allcores_dumb (preempt_all_loop s s.online_vcs) true

/-- The function `proc_preempt_core`; `warn_time` is `read_tsc() + usec2tsc(usec)`. -/
def proc_preempt_core (s : Sys) (pcoreid warn_time : Nat) : Res :=
  if s.state ≠ PROC_RUNNING_M then .ok s
  else
    let preempted : Res :=
      if is_mapped_vcore s pcoreid then
        match get_vcoreid s pcoreid with
        | .error e => .error e
        | .ok vcoreid =>
          match __proc_preempt_core (__proc_preempt_warn s vcoreid warn_time) pcoreid with
          | .error e => .error e
          | .ok s1 => .ok (put_idle_core s1 pcoreid)
      else .ok s
    match preempted with
    | .error e => .error e
    | .ok s2 => if s2.num_vcores = 0 then __proc_set_state s2 PROC_RUNNABLE_M else .ok s2

/-- The function `proc_preempt_all`; `warn_time` is `read_tsc() + usec2tsc(usec)`. -/
def proc_preempt_all (s : Sys) (warn_time : Nat) : Res :=
  if s.state ≠ PROC_RUNNING_M then .ok s
  else
    match __proc_preempt_all (__proc_preempt_warnall s warn_time) with
    | .error e => .error e
    | .ok s1 =>
      if s1.num_vcores ≠ 0 then fault .assertion s1
      else __proc_set_state s1 PROC_RUNNABLE_M

/-- The function `proc_change_to_vcore` called on core `pcoreid`. -/
def proc_change_to_vcore (s : Sys) (pcoreid new_vcoreid : Nat) (enable_my_notif : Bool) : Res :=
  if vcore_is_mapped s new_vcoreid then .ok s
  else if s.state = PROC_RUNNING_M then
    if !is_mapped_vcore s pcoreid then .ok s
    else
      match get_vcoreid s pcoreid with
      | .error e => .error e
      | .ok caller_vcoreid =>
        let caller_vcpd := s.vcore_preempt_data caller_vcoreid
        if !caller_vcpd.notif_disabled then .ok s
        else if (s.vcoremap caller_vcoreid).preempt_served then .ok s
        else
          let saved : Res :=
            if enable_my_notif then
              .ok (set_vcpd s caller_vcoreid { caller_vcpd with notif_disabled := false })
            else
              match read_cur_tf s pcoreid with
              | .error e => .error e
              | .ok tf =>
                .ok (set_vcpd s caller_vcoreid
                  { caller_vcpd with preempt_tf := tf,
                                     preempt_anc := (s.per_cpu_info pcoreid).fpu,
                                     flags := caller_vcpd.flags ||| VC_PREEMPTED })
          match saved with
          | .error e => .error e
          | .ok s1 =>
            match online_remove s1 caller_vcoreid with
            | .error e => .error e
            | .ok s2 =>
              match inactive_remove (inactive_insert_head s2 caller_vcoreid) new_vcoreid with
              | .error e => .error e
              | .ok s3 =>
                let s4 := __unmap_vcore (__seq_start_write (online_insert_tail s3 new_vcoreid))
                  caller_vcoreid
                match __map_vcore s4 new_vcoreid pcoreid with
                | .error e => .error e
                | .ok s5 =>
                  let s6 := send_kernel_event (__seq_end_write s5)
                    ⟨if enable_my_notif then .EV_CHECK_MSGS else .EV_VCORE_PREEMPT, 0,
                     caller_vcoreid, new_vcoreid⟩
                  __set_curtf_to_vcoreid s6 pcoreid new_vcoreid
  else if s.state = PROC_RUNNING_S ∨ s.state = PROC_DYING ∨ s.state = PROC_RUNNABLE_M then .ok s
  else fault .panic s

/-! ## Kernel message handlers

Each handler runs on the core `coreid` the message was sent to.  The maps and
control blocks of processes other than `p` are not part of the state: for
another process a handler is followed on the per-core process pointers and on
the reference counts only.  Frames carry no privilege level, so the check
`assert(!in_kernel(cur_tf))` has no counterpart. -/

/-- The handler `__startcore` on core `coreid` with `a0` the process to run. -/
def __startcore (s : Sys) (coreid : Nat) (a0 : Option Nat) : Res :=
  match a0 with
  | none => fault .assertion s
  | some p_to_run =>
    let pcpui := s.per_cpu_info coreid
    if pcpui.owning_proc.isSome then fault .assertion s
    else
      let s1 := set_pcpui s coreid { pcpui with owning_proc := some p_to_run }
      let installed : Res :=
        if (s1.per_cpu_info coreid).cur_proc.isNone then
          .ok (set_pcpui s1 coreid { s1.per_cpu_info coreid with cur_proc := some p_to_run })
        else proc_decref s1 p_to_run
      match installed with
      | .error e => .error e
      | .ok s2 =>
        if p_to_run ≠ s2.pid then .ok s2
        else
          match get_vcoreid s2 coreid with
          | .error e => .error e
          | .ok vcoreid => __set_curtf_to_vcoreid s2 coreid vcoreid

/-- The handler `__notify` on core `coreid` with `a0` the notified process. -/
def __notify (s : Sys) (coreid : Nat) (a0 : Option Nat) : Res :=
  let pcpui := s.per_cpu_info coreid
  if a0 ≠ pcpui.owning_proc then .ok s
  else if pcpui.cur_tf = .null then fault .assertion s
  else if pcpui.cur_tf ≠ .actual_tf then fault .assertion s
  else if a0 ≠ some s.pid then .ok s
  else
    match get_vcoreid s coreid with
    | .error e => .error e
    | .ok vcoreid =>
      let vcpd := s.vcore_preempt_data vcoreid
      if vcpd.notif_disabled then .ok s
      else
        let s1 := set_vcpd s vcoreid
          { vcpd with notif_disabled := true, notif_pending := false,
                      notif_tf := pcpui.actual_tf }
        .ok (set_pcpui s1 coreid
          { pcpui with actual_tf := .init vcoreid s1.env_entry vcpd.transition_stack })

/-- The handler `__preempt` on core `coreid` with `a0` the preempted process. -/
def __preempt (s : Sys) (coreid : Nat) (a0 : Option Nat) : Res :=
  let pcpui := s.per_cpu_info coreid
  if a0 = none then fault .assertion s
  else if a0 ≠ pcpui.owning_proc then fault .panic s
  else if pcpui.cur_tf = .null then fault .assertion s
  else if pcpui.cur_tf ≠ .actual_tf then fault .assertion s
  else if a0 ≠ some s.pid then clear_owning_proc s coreid
  else
    match get_vcoreid s coreid with
    | .error e => .error e
    | .ok vcoreid =>
      let s1 := set_vcore s vcoreid
        { s.vcoremap vcoreid with preempt_served := false, preempt_pending := 0 }
      let vcpd := s1.vcore_preempt_data vcoreid
      let vcpd1 :=
        if vcpd.notif_disabled then { vcpd with preempt_tf := pcpui.actual_tf }
        else { vcpd with notif_tf := pcpui.actual_tf }
      let vcpd2 := { vcpd1 with preempt_anc := pcpui.fpu }
      let vcpd3 := { vcpd2 with flags := clear_bits (vcpd2.flags ||| VC_PREEMPTED) VC_K_LOCK }
      clear_owning_proc (__unmap_vcore (set_vcpd s1 vcoreid vcpd3) vcoreid) coreid

/-- The handler `__death` on core `coreid`. -/
def __death (s : Sys) (coreid : Nat) : Res :=
  match (s.per_cpu_info coreid).owning_proc with
  | none => .ok s
  | some q =>
    if q ≠ s.pid then clear_owning_proc s coreid
    else
      match get_vcoreid s coreid with
      | .error e => .error e
      | .ok vcoreid => clear_owning_proc (__unmap_vcore s vcoreid) coreid

/-- The handler of message `m`, run on the core the message was sent to. -/
def run_handler (s : Sys) (m : KMsg) : Res :=
  match m.handler with
  | .startcore => __startcore s m.dst m.a0
  | .notify => __notify s m.dst m.a0
  | .preempt => __preempt s m.dst m.a0
  | .death => __death s m.dst
  | .tlbshootdown => .ok s

/-! ## Allocation -/

/-- The all-zero `struct vcore`, `struct pcore_map` entry and control block. -/
def Vcore.zero : Vcore := ⟨0, false, false, 0⟩
def Pcore.zero : Pcore := ⟨0, false⟩
def PreemptData.zero : PreemptData := ⟨.raw 0, .raw 0, 0, false, false, false, 0, 0⟩

/-- The state after a successful `proc_alloc` that obtained the pid `pid`, for a
parent with pid `ppid` (0 for none) on a machine with `num_cpus` cores; the
per-core data and the counts of the other processes are those of the running
kernel. -/
def proc_alloc (pcpu : Nat → PerCpuInfo) (others : Nat → Int) (pid ppid num_cpus : Nat) : Sys :=
  { pid := pid, ppid := ppid, state := PROC_CREATED, exitcode := 1337, refcnt := 2,
    env_tf := .raw 0, env_ancillary_state := 0, env_entry := 0,
    online_vcs := [], bulk_preempted_vcs := [], inactive_vcs := List.range num_cpus,
    amt_wanted := 0, amt_granted := 0, num_vcores := 0, is_mcp := false,
    coremap_seqctr := 0, vcoremap := fun _ => Vcore.zero, pcoremap := fun _ => Pcore.zero,
    vcore_preempt_data := fun _ => PreemptData.zero,
    files_closed := false, in_pid_hash := false, freed := false,
    per_cpu_info := pcpu, other_refcnt := others,
    kmsgs := [], events := [], idle_cores := [], scheduled := [] }

/-- The function `__proc_ready`. -/
def __proc_ready (s : Sys) : Sys := { s with in_pid_hash := true }

/-! ## Runs of a process -/

/-- A per-core record with no process on the core. -/
def PerCpuInfo.idle : PerCpuInfo := ⟨none, none, .null, .raw 0, false, 0⟩

/-- The three vcore lists, one after the other. -/
def all_vcs (s : Sys) : List Nat :=
  s.online_vcs ++ (s.bulk_preempted_vcs ++ s.inactive_vcs)

/-- The vcore a pcore is mapped to, for each pcore of `pcs`. -/
def vcs_of (s : Sys) (pcs : List Nat) : List Nat :=
  pcs.map (fun pc => (s.pcoremap pc).vcoreid)

/-- The pcores of `pcs` are mapped to distinct vcores, each on the online list:
what `__proc_take_corelist` takes for granted of its list when it unlinks each
vcore with `TAILQ_REMOVE(&p->online_vcs, vc, list)`. -/
def take_list_online (s : Sys) (pcs : List Nat) : Prop :=
  (vcs_of s pcs).Nodup ∧ ∀ v ∈ vcs_of s pcs, v ∈ s.online_vcs

/-- The vcore that runs on the mapped pcore `pc` of a `RUNNING_M` process is on
the online list: what `proc_yield`, `proc_change_to_vcore` and
`proc_preempt_core` take for granted of the pcore they are called for (`we're
on the online list`) when they unlink its vcore with
`TAILQ_REMOVE(&p->online_vcs, vc, list)`. -/
def caller_online (s : Sys) (pc : Nat) : Prop :=
  s.state = PROC_RUNNING_M → is_mapped_vcore s pc = true →
    (s.pcoremap pc).vcoreid ∈ s.online_vcs

/-- The unmapped vcore `new_vcoreid` that `proc_change_to_vcore` is to start for
a `RUNNING_M` process is on the inactive list: what the function takes for
granted when it unlinks it with `TAILQ_REMOVE(&p->inactive_vcs, new_vc, list)`. -/
def target_inactive (s : Sys) (new_vcoreid : Nat) : Prop :=
  s.state = PROC_RUNNING_M → vcore_is_mapped s new_vcoreid = false →
    new_vcoreid ∈ s.inactive_vcs

instance take_list_online_decidable (s : Sys) (pcs : List Nat) :
    Decidable (take_list_online s pcs) := by
  unfold take_list_online
  infer_instance

instance caller_online_decidable (s : Sys) (pc : Nat) : Decidable (caller_online s pc) := by
  unfold caller_online
  infer_instance

instance target_inactive_decidable (s : Sys) (v : Nat) : Decidable (target_inactive s v) := by
  unfold target_inactive
  infer_instance

/-- One operation on the process `p`, run to completion without a fault.  The
operations are those of process.c on a process and on its cores, but for
`__proc_switch_to_s`, which process.c retires (`Old code ... Don't use this`);
`give_cores` is called with distinct pcores that are not mapped, a kernel
message is handled when it is the oldest pending one for its core, and user
space may write the control block of a vcore at any time.  Every
`TAILQ_REMOVE` is applied to an entry of the list it names: the pcores of
`__proc_take_corelist` are mapped to distinct vcores of the online list,
`proc_yield`, `proc_preempt_core` and `proc_change_to_vcore` are called for a
pcore whose vcore is online (`caller_online`), and the vcore that
`proc_change_to_vcore` starts is inactive (`target_inactive`).  process.c
checks none of this; `Op` is the relation without these conditions. -/
inductive Step (MAX_NUM_CPUS : Nat) : Sys → Sys → Prop
  | ready (s : Sys) : Step MAX_NUM_CPUS s (__proc_ready s)
  /-- Modelled from the spec: the caller that makes a created process
  runnable is not among the sources (section 8, scenario 1: `CREATED` to
  `RUNNABLE_S`). -/
  | make_runnable {s s1 : Sys} :
      s.state = PROC_CREATED → __proc_set_state s PROC_RUNNABLE_S = .ok s1 →
      Step MAX_NUM_CPUS s s1
  | run_s {s s1 : Sys} (coreid : Nat) :
      proc_run_s s coreid = .ok s1 → Step MAX_NUM_CPUS s s1
  | switch_to_m {s s1 : Sys} (coreid : Nat) :
      __proc_switch_to_m s coreid = .ok s1 → Step MAX_NUM_CPUS s s1
  | give_cores {s s1 : Sys} (pc_arr : List Nat) :
      pc_arr.Nodup → (∀ pc ∈ pc_arr, is_mapped_vcore s pc = false) →
      __proc_give_cores MAX_NUM_CPUS s pc_arr = .ok s1 → Step MAX_NUM_CPUS s s1
  | run_m {s s1 : Sys} : __proc_run_m s = .ok s1 → Step MAX_NUM_CPUS s s1
  | take_corelist {s s1 : Sys} (pc_arr : List Nat) (preempt : Bool) :
      take_list_online s pc_arr →
      __proc_take_corelist s pc_arr preempt = .ok s1 → Step MAX_NUM_CPUS s s1
  | take_allcores {s s1 : Sys} (preempt : Bool) (pc_arr : List Nat) :
      __proc_take_allcores s preempt = .ok (pc_arr, s1) → Step MAX_NUM_CPUS s s1
  | take_allcores_dumb {s s1 : Sys} (preempt : Bool) :
      __proc_take_allcores_dumb s preempt = .ok s1 → Step MAX_NUM_CPUS s s1
  | yield {s s1 : Sys} (coreid : Nat) (being_nice : Bool) :
      caller_online s coreid →
      proc_yield s coreid being_nice = .ok s1 → Step MAX_NUM_CPUS s s1
  | preempt_core {s s1 : Sys} (pcoreid warn_time : Nat) :
      caller_online s pcoreid →
      proc_preempt_core s pcoreid warn_time = .ok s1 → Step MAX_NUM_CPUS s s1
  | preempt_all {s s1 : Sys} (warn_time : Nat) :
      proc_preempt_all s warn_time = .ok s1 → Step MAX_NUM_CPUS s s1
  | change_to_vcore {s s1 : Sys} (coreid new_vcoreid : Nat) (enable_my_notif : Bool) :
      caller_online s coreid → target_inactive s new_vcoreid →
      proc_change_to_vcore s coreid new_vcoreid enable_my_notif = .ok s1 →
      Step MAX_NUM_CPUS s s1
  | destroy {s s1 : Sys} : proc_destroy s = .ok s1 → Step MAX_NUM_CPUS s s1
  | wakeup {s s1 : Sys} : __proc_wakeup s = .ok s1 → Step MAX_NUM_CPUS s s1
  | notify (s : Sys) (vcoreid : Nat) : Step MAX_NUM_CPUS s (proc_notify s vcoreid)
  | incref (s : Sys) (val : Nat) : Step MAX_NUM_CPUS s (proc_incref s val)
  | decref {s s1 : Sys} : proc_decref s s.pid = .ok s1 → Step MAX_NUM_CPUS s s1
  | user_write (s : Sys) (vcoreid : Nat) (d : PreemptData) :
      Step MAX_NUM_CPUS s (set_vcpd s vcoreid d)
  | deliver {s s1 : Sys} (pre post : List KMsg) (m : KMsg) :
      s.kmsgs = pre ++ m :: post → (∀ m1 ∈ pre, m1.dst ≠ m.dst) →
      run_handler { s with kmsgs := pre ++ post } m = .ok s1 → Step MAX_NUM_CPUS s s1

/-- The states a process goes through: the state after `proc_alloc` on a
machine with `num_cpus` cores, and every state one operation away from a
reachable state in which `p` has not been freed. -/
inductive Reachable (MAX_NUM_CPUS num_cpus : Nat) : Sys → Prop
  | alloc (pcpu : Nat → PerCpuInfo) (others : Nat → Int) (pid ppid : Nat) :
      Reachable MAX_NUM_CPUS num_cpus (proc_alloc pcpu others pid ppid num_cpus)
  | step {s s1 : Sys} :
      Reachable MAX_NUM_CPUS num_cpus s → s.freed = false → Step MAX_NUM_CPUS s s1 →
      Reachable MAX_NUM_CPUS num_cpus s1

/-- A process in state `DYING` with the four vcores of a four-core machine. -/
def dying_proc : Sys :=
  { proc_alloc (fun _ => PerCpuInfo.idle) (fun _ => 0) 1 0 4 with
    state := PROC_DYING, refcnt := 1 }

/-- The invariant that the vcore map and the pcore map are mutually inverse. -/
def maps_inverse (s : Sys) : Prop :=
  ∀ v p : Nat, ((s.pcoremap p).valid = true ∧ (s.pcoremap p).vcoreid = v) ↔
    ((s.vcoremap v).valid = true ∧ (s.vcoremap v).pcoreid = p)

/-- A state with vcore 1 mapped to pcore 7 and nothing else mapped. -/
def one_mapped : Sys :=
  { dying_proc with
    state := PROC_RUNNABLE_M
    vcoremap := upd (fun _ => Vcore.zero) 1 ⟨7, true, false, 0⟩
    pcoremap := upd (fun _ => Pcore.zero) 7 ⟨1, true⟩ }

/-- The vcore map after mapping, pair by pair, each vcore to the pcore it is
paired with. -/
def vcoremap_after (vm : Nat → Vcore) : List (Nat × Nat) → Nat → Vcore
  | [] => vm
  | (v, pc) :: ps => vcoremap_after (upd vm v { vm v with pcoreid := pc, valid := true }) ps

/-- The pcore map after mapping, pair by pair, each vcore to the pcore it is
paired with. -/
def pcoremap_after (pm : Nat → Pcore) : List (Nat × Nat) → Nat → Pcore
  | [] => pm
  | (v, pc) :: ps => pcoremap_after (upd pm pc { vcoreid := v, valid := true }) ps

/-- The first `n` vcores of the sequence `bulk_preempted_vcs ++ inactive_vcs`. -/
def next_vcs (s : Sys) (n : Nat) : List Nat :=
  (s.bulk_preempted_vcs ++ s.inactive_vcs).take n

/-- A `RUNNABLE_M` process of a four-core machine with vcore 2 bulk-preempted
and the other three vcores inactive. -/
def runnable_m_proc : Sys :=
  { dying_proc with
    state := PROC_RUNNABLE_M, is_mcp := true
    bulk_preempted_vcs := [2], inactive_vcs := [0, 1, 3] }

/-- The state in which `__proc_give_cores_runnable` returns when it grants the
pcores `pcs`. -/
def give_runnable_result (s : Sys) (pcs : List Nat) : Sys :=
  { s with
    coremap_seqctr := u32_add (u32_add s.coremap_seqctr 1) 1
    num_vcores := u32_add s.num_vcores pcs.length
    online_vcs := s.online_vcs ++ next_vcs s pcs.length
    bulk_preempted_vcs := s.bulk_preempted_vcs.drop pcs.length
    inactive_vcs := s.inactive_vcs.drop (pcs.length - s.bulk_preempted_vcs.length)
    vcoremap := vcoremap_after s.vcoremap ((next_vcs s pcs.length).zip pcs)
    pcoremap := pcoremap_after s.pcoremap ((next_vcs s pcs.length).zip pcs) }

/-- The `__startcore` message `__proc_give_cores_running` sends to pcore `pc`. -/
def startcore_msg (s : Sys) (pc : Nat) : KMsg := ⟨pc, .startcore, some s.pid, 0, 0, true⟩

/-- The state in which `__proc_give_cores_running` returns when it grants the
pcores `pcs`. -/
def give_running_result (s : Sys) (pcs : List Nat) : Sys :=
  { s with
    refcnt := s.refcnt + (pcs.length * 2 : Nat)
    coremap_seqctr := u32_add (u32_add s.coremap_seqctr 1) 1
    num_vcores := u32_add s.num_vcores pcs.length
    online_vcs := s.online_vcs ++ s.inactive_vcs.take pcs.length
    inactive_vcs := s.inactive_vcs.drop pcs.length
    vcoremap := vcoremap_after s.vcoremap ((s.inactive_vcs.take pcs.length).zip pcs)
    pcoremap := pcoremap_after s.pcoremap ((s.inactive_vcs.take pcs.length).zip pcs)
    kmsgs := s.kmsgs ++ pcs.map (startcore_msg s) }

/-- A `RUNNING_M` process of a four-core machine with vcore 2 online on pcore 5
and the other three vcores inactive. -/
def running_m_proc : Sys :=
  { dying_proc with
    state := PROC_RUNNING_M, is_mcp := true, refcnt := 4, num_vcores := 1, amt_granted := 1
    online_vcs := [2], inactive_vcs := [0, 1, 3]
    vcoremap := upd (fun _ => Vcore.zero) 2 ⟨5, true, false, 0⟩
    pcoremap := upd (fun _ => Pcore.zero) 5 ⟨2, true⟩ }

/-- The message `__proc_revoke_core` sends to pcore `pc`. -/
def revoke_msg (s : Sys) (preempt : Bool) (pc : Nat) : KMsg :=
  if preempt then ⟨pc, .preempt, some s.pid, 0, 0, true⟩ else ⟨pc, .death, none, 0, 0, true⟩

/-- The control blocks after `VC_K_LOCK` was set for each vcore of `vs`. -/
def vcpd_locked (d : Nat → PreemptData) : List Nat → Nat → PreemptData
  | [] => d
  | v :: vs => vcpd_locked (upd d v { d v with flags := (d v).flags ||| VC_K_LOCK }) vs

/-- The state after one iteration of the loop of `__proc_take_corelist` on a
`RUNNABLE_M` process, for a pcore `pc` mapped to an online vcore. -/
def take_step_runnable (s : Sys) (pc : Nat) : Sys :=
  { __unmap_vcore s (s.pcoremap pc).vcoreid with
    online_vcs := s.online_vcs.erase (s.pcoremap pc).vcoreid
    inactive_vcs := (s.pcoremap pc).vcoreid :: s.inactive_vcs }

/-- The state after one iteration of the loop of `__proc_take_corelist` on a
`RUNNING_M` process, for a pcore `pc` mapped to an online vcore. -/
def take_step_running (s : Sys) (pc : Nat) (preempt : Bool) : Sys :=
  { s with
    online_vcs := s.online_vcs.erase (s.pcoremap pc).vcoreid
    inactive_vcs := (s.pcoremap pc).vcoreid :: s.inactive_vcs
    kmsgs := s.kmsgs ++ [revoke_msg s preempt pc]
    vcore_preempt_data :=
      if preempt then vcpd_locked s.vcore_preempt_data [(s.pcoremap pc).vcoreid]
      else s.vcore_preempt_data }

/-- The state in which `__proc_take_corelist` returns on a `RUNNABLE_M` process,
for pcores `pcs` mapped to online vcores. -/
def take_runnable_result (s : Sys) (pcs : List Nat) : Sys :=
  { s with
    coremap_seqctr := u32_add (u32_add s.coremap_seqctr 1) 1
    num_vcores := u32_sub s.num_vcores pcs.length
    amt_granted := sz_sub s.amt_granted pcs.length
    online_vcs := s.online_vcs.diff (vcs_of s pcs)
    inactive_vcs := (vcs_of s pcs).reverse ++ s.inactive_vcs
    vcoremap := (unmap_allcores_loop (__seq_start_write s) (vcs_of s pcs)).vcoremap
    pcoremap := (unmap_allcores_loop (__seq_start_write s) (vcs_of s pcs)).pcoremap }

/-- The state in which `__proc_take_corelist` returns on a `RUNNING_M` process,
for pcores `pcs` mapped to online vcores. -/
def take_running_result (s : Sys) (pcs : List Nat) (preempt : Bool) : Sys :=
  { s with
    coremap_seqctr := u32_add (u32_add s.coremap_seqctr 1) 1
    num_vcores := u32_sub s.num_vcores pcs.length
    amt_granted := sz_sub s.amt_granted pcs.length
    online_vcs := s.online_vcs.diff (vcs_of s pcs)
    inactive_vcs := (vcs_of s pcs).reverse ++ s.inactive_vcs
    kmsgs := s.kmsgs ++ pcs.map (revoke_msg (__seq_start_write s) preempt)
    vcore_preempt_data :=
      if preempt then vcpd_locked s.vcore_preempt_data (vcs_of s pcs)
      else s.vcore_preempt_data }

/-- True for the two messages that revoke a core, `__preempt` and `__death`. -/
def is_revoke (m : KMsg) : Bool :=
  m.handler = .preempt || m.handler = .death

/-- The cores to which a revocation message is pending, oldest first. -/
def revokes (s : Sys) : List Nat := (s.kmsgs.filter is_revoke).map KMsg.dst

/-- The part of the state the list and map invariants speak about. -/
structure Core where
  state : Nat
  online : List Nat
  bulk : List Nat
  inactive : List Nat
  num_vcores : Nat
  is_mcp : Bool
  vvalid : Nat → Bool
  vpcore : Nat → Nat
  pmap : Nat → Pcore
  revokes : List Nat

/-- The projection of a state on its `Core`. -/
def core (s : Sys) : Core :=
  { state := s.state, online := s.online_vcs, bulk := s.bulk_preempted_vcs,
    inactive := s.inactive_vcs, num_vcores := s.num_vcores, is_mcp := s.is_mcp,
    vvalid := fun v => (s.vcoremap v).valid, vpcore := fun v => (s.vcoremap v).pcoreid,
    pmap := s.pcoremap, revokes := revokes s }

/-- The three lists of a `Core`, one after the other. -/
def Core.all (c : Core) : List Nat := c.online ++ (c.bulk ++ c.inactive)

/-- The effect of `__unmap_vcore` on a `Core`. -/
def Core.unmap (c : Core) (v : Nat) : Core :=
  { c with
    pmap := upd c.pmap (c.vpcore v) { c.pmap (c.vpcore v) with valid := false }
    vvalid := upd c.vvalid v false }

/-- The effect of a returning `__map_vcore` on a `Core`. -/
def Core.map (c : Core) (v pc : Nat) : Core :=
  { c with
    vvalid := upd c.vvalid v true
    vpcore := upd c.vpcore v pc
    pmap := upd c.pmap pc { vcoreid := v, valid := true } }

/-- The list of a `Core` that `l` names. -/
def Core.list (c : Core) (l : VcList) : List Nat :=
  match l with
  | .bulk_preempted => c.bulk
  | .inactive => c.inactive

/-- The effect on a `Core` of moving the vcore `v` from the list `l` to the tail
of the online list and mapping it to `pc`. -/
def Core.give (c : Core) (l : VcList) (v pc : Nat) : Core :=
  match l with
  | .bulk_preempted =>
    ({ c with online := c.online ++ [v], bulk := c.bulk.erase v } : Core).map v pc
  | .inactive =>
    ({ c with online := c.online ++ [v], inactive := c.inactive.erase v } : Core).map v pc

/-- The effect on a `Core` of moving the vcore of pcore `pc` from the online list
to the head of the inactive list and unmapping it. -/
def Core.take_unmap (c : Core) (pc : Nat) : Core :=
  ({ c with
    online := c.online.erase (c.pmap pc).vcoreid
    inactive := (c.pmap pc).vcoreid :: c.inactive } : Core).unmap (c.pmap pc).vcoreid

/-- The effect on a `Core` of moving the vcore of pcore `pc` from the online list
to the head of the inactive list and sending a revocation message to `pc`. -/
def Core.take_revoke (c : Core) (pc : Nat) : Core :=
  { c with
    online := c.online.erase (c.pmap pc).vcoreid
    inactive := (c.pmap pc).vcoreid :: c.inactive
    revokes := c.revokes ++ [pc] }

/-- The invariant of the lists and maps of a process on a machine with `n`
vcores, as it holds between any two steps of an operation: the three lists
hold `n` vcores, none twice; vcores are online only in the `_M` states; an
online vcore is mapped, and its pcore maps back to it; a mapped pcore points to
a mapped vcore that points back; unless the process is dying, revocation
messages are pending for distinct mapped pcores whose vcores are off the
online list; a process in an `_M` state or `WAITING` is an MCP; and no
revocation is pending for a process that has only been in `_S` states. -/
structure InvL (n : Nat) (c : Core) : Prop where
  nodup : c.all.Nodup
  len : c.all.length = n
  on_m : c.state = PROC_RUNNABLE_M ∨ c.state = PROC_RUNNING_M ∨ c.online = []
  on_valid : ∀ v ∈ c.online, c.vvalid v = true ∧ c.pmap (c.vpcore v) = ⟨v, true⟩
  p_inv : ∀ p, (c.pmap p).valid = true →
    c.vvalid (c.pmap p).vcoreid = true ∧ c.vpcore (c.pmap p).vcoreid = p
  rev : c.state = PROC_DYING ∨
    (c.revokes.Nodup ∧
      ∀ p ∈ c.revokes, (c.pmap p).valid = true ∧ (c.pmap p).vcoreid ∉ c.online)
  mcp : c.state = PROC_RUNNABLE_M ∨ c.state = PROC_RUNNING_M ∨ c.state = PROC_WAITING →
    c.is_mcp = true
  s_rev : c.state = PROC_CREATED ∨ c.state = PROC_RUNNABLE_S ∨ c.state = PROC_RUNNING_S →
    c.revokes = []

/-- The effect on a `Core` of unmapping the vcores `vs` one after the other. -/
def Core.unmap_list (c : Core) : List Nat → Core
  | [] => c
  | v :: vs => Core.unmap_list (c.unmap v) vs

/-- The effect on a `Core` of moving every online vcore to the head of the
bulk-preempted list (`preempt`) or of the inactive list, one after the other. -/
def Core.move_all (c : Core) (preempt : Bool) : Core :=
  if preempt then { c with online := [], bulk := c.online.reverse ++ c.bulk }
  else { c with online := [], inactive := c.online.reverse ++ c.inactive }

/-- The invariant of the lists and maps of a process on a machine with `n`
vcores, as it holds when no operation is under way: `InvL`, and `num_vcores`
is the length of the online list. -/
def InvC (n : Nat) (c : Core) : Prop :=
  InvL n c ∧ c.num_vcores = c.online.length

/-- The three vcore lists are duplicate-free and pairwise disjoint. -/
def lists_partition (s : Sys) : Prop :=
  s.online_vcs.Nodup ∧ s.bulk_preempted_vcs.Nodup ∧ s.inactive_vcs.Nodup ∧
  (∀ v ∈ s.online_vcs, v ∉ s.bulk_preempted_vcs) ∧
  (∀ v ∈ s.online_vcs, v ∉ s.inactive_vcs) ∧
  (∀ v ∈ s.bulk_preempted_vcs, v ∉ s.inactive_vcs)

instance lists_partition_decidable (s : Sys) : Decidable (lists_partition s) := by
  unfold lists_partition
  infer_instance

/-- A run to completion of one of the operations that edit the vcore lists. -/
inductive ListEdit (MAX_NUM_CPUS : Nat) : Sys → Sys → Prop
  | give_cores {s s1 : Sys} (pc_arr : List Nat) :
      __proc_give_cores MAX_NUM_CPUS s pc_arr = .ok s1 → ListEdit MAX_NUM_CPUS s s1
  | take_corelist {s s1 : Sys} (pc_arr : List Nat) (preempt : Bool) :
      __proc_take_corelist s pc_arr preempt = .ok s1 → ListEdit MAX_NUM_CPUS s s1
  | take_allcores {s s1 : Sys} (preempt : Bool) (pc_arr : List Nat) :
      __proc_take_allcores s preempt = .ok (pc_arr, s1) → ListEdit MAX_NUM_CPUS s s1
  | run_m {s s1 : Sys} : __proc_run_m s = .ok s1 → ListEdit MAX_NUM_CPUS s s1
  | yield {s s1 : Sys} (coreid : Nat) (being_nice : Bool) :
      proc_yield s coreid being_nice = .ok s1 → ListEdit MAX_NUM_CPUS s s1
  | change_to_vcore {s s1 : Sys} (coreid new_vcoreid : Nat) (enable_my_notif : Bool) :
      proc_change_to_vcore s coreid new_vcoreid enable_my_notif = .ok s1 →
      ListEdit MAX_NUM_CPUS s s1

/-- A process just allocated on a four-core machine whose cores are idle. -/
def fresh_proc : Sys := proc_alloc (fun _ => PerCpuInfo.idle) (fun _ => 0) 1 0 4

/-- A `RUNNABLE_M` process of a four-core machine with vcore 0 online on pcore 9,
vcore 2 bulk-preempted and the other two vcores inactive. -/
def draining_proc : Sys :=
  { dying_proc with
    state := PROC_RUNNABLE_M, is_mcp := true, num_vcores := 1, amt_granted := 1
    online_vcs := [0], bulk_preempted_vcs := [2], inactive_vcs := [1, 3]
    vcoremap := upd (fun _ => Vcore.zero) 0 ⟨9, true, false, 0⟩
    pcoremap := upd (fun _ => Pcore.zero) 9 ⟨0, true⟩ }

/-- The process `running_m_proc` while its vcore 2 runs on pcore 5 with
notifications disabled; every vcore has a transition stack. -/
def on_core_proc : Sys :=
  { running_m_proc with
    per_cpu_info := upd (fun _ => PerCpuInfo.idle) 5
      ⟨some 1, some 1, .actual_tf, .raw 7, false, 0⟩
    vcore_preempt_data := upd (fun _ => { PreemptData.zero with transition_stack := 64 }) 2
      { PreemptData.zero with transition_stack := 64, notif_disabled := true } }

/-- The pcore each vcore of `vs` is mapped to. -/
def pcs_of (s : Sys) (vs : List Nat) : List Nat :=
  vs.map (fun v => (s.vcoremap v).pcoreid)

/-- The state in which `__proc_take_allcores` returns on a process in
`RUNNABLE_M` or `RUNNING_M` whose count agrees with its online list. -/
def take_all_result (s : Sys) (preempt : Bool) : Sys :=
  { s with
    coremap_seqctr := u32_add (u32_add s.coremap_seqctr 1) 1
    num_vcores := 0
    amt_granted := 0
    online_vcs := []
    bulk_preempted_vcs :=
      if preempt then s.online_vcs.reverse ++ s.bulk_preempted_vcs else s.bulk_preempted_vcs
    inactive_vcs :=
      if preempt then s.inactive_vcs else s.online_vcs.reverse ++ s.inactive_vcs
    vcoremap :=
      if s.state = PROC_RUNNING_M then s.vcoremap
      else (unmap_allcores_loop s s.online_vcs).vcoremap
    pcoremap :=
      if s.state = PROC_RUNNING_M then s.pcoremap
      else (unmap_allcores_loop s s.online_vcs).pcoremap
    kmsgs :=
      if s.state = PROC_RUNNING_M then
        s.kmsgs ++ (pcs_of s s.online_vcs).map (revoke_msg s preempt)
      else s.kmsgs
    vcore_preempt_data :=
      if s.state = PROC_RUNNING_M ∧ preempt = true then
        vcpd_locked s.vcore_preempt_data s.online_vcs
      else s.vcore_preempt_data }

/-- A `RUNNABLE_M` process of a four-core machine with vcores 0 and 1 online on
pcores 9 and 11 and the other two vcores inactive. -/
def two_online_proc : Sys :=
  { dying_proc with
    state := PROC_RUNNABLE_M, is_mcp := true, num_vcores := 2, amt_granted := 2
    online_vcs := [0, 1], inactive_vcs := [2, 3]
    vcoremap := upd (upd (fun _ => Vcore.zero) 0 ⟨9, true, false, 0⟩) 1 ⟨11, true, false, 0⟩
    pcoremap := upd (upd (fun _ => Pcore.zero) 9 ⟨0, true⟩) 11 ⟨1, true⟩ }

/-- The event `__send_bulkp_events` posts for the vcore `v`. -/
def bulkp_event (v : Nat) : Event := ⟨.EV_VCORE_PREEMPT, 0, v, 0⟩

/-- The state in which `__proc_run_m` returns on a `RUNNABLE_M` process with a
non-zero `num_vcores`. -/
def run_m_result (s : Sys) : Sys :=
  { s with
    state := PROC_RUNNING_M
    refcnt := s.refcnt + ((s.num_vcores * 2) % U32_MOD : Nat)
    bulk_preempted_vcs := []
    inactive_vcs := s.bulk_preempted_vcs.reverse ++ s.inactive_vcs
    events := s.events ++ s.bulk_preempted_vcs.map bulkp_event
    kmsgs := s.kmsgs ++ (pcs_of s s.online_vcs).map (startcore_msg s) }

/-- The state in which `proc_run_s`, called on core `coreid`, returns on a
`RUNNABLE_S` process that is not current there and whose vcore 0 is unmapped. -/
def run_s_result (s : Sys) (coreid : Nat) : Sys :=
  { s with
    state := PROC_RUNNING_S
    coremap_seqctr := u32_add (u32_add s.coremap_seqctr 1) 1
    num_vcores := 0
    vcoremap := upd s.vcoremap 0 { s.vcoremap 0 with pcoreid := coreid, valid := true }
    pcoremap := upd s.pcoremap coreid { vcoreid := 0, valid := true }
    refcnt := s.refcnt + (1 : Nat) + (1 : Nat)
    other_refcnt :=
      match (s.per_cpu_info coreid).cur_proc with
      | some q => upd s.other_refcnt q (s.other_refcnt q - 1)
      | none => s.other_refcnt
    per_cpu_info := upd s.per_cpu_info coreid
      { s.per_cpu_info coreid with
        cur_proc := some s.pid, cur_tf := .env_tf, owning_proc := some s.pid } }

/-- The process `fresh_proc` once it has been made runnable. -/
def runnable_s_proc : Sys := { fresh_proc with state := PROC_RUNNABLE_S }

/-- The state after `proc_decref(p)` drops one reference of `p`: the count is
one lower, and `p` is freed when that was the last reference. -/
def decref_result (s : Sys) : Sys :=
  if s.refcnt - 1 = 0 then { s with refcnt := s.refcnt - 1, in_pid_hash := false, freed := true }
  else { s with refcnt := s.refcnt - 1 }

/-- The state after the exit path `out_yield_core` of `proc_yield` on core
`pcoreid`, when `p` owns the core and is current on it and holds more than the
three references dropped there. -/
def yield_exit_result (s : Sys) (pcoreid : Nat) : Sys :=
  { s with
    refcnt := s.refcnt - 1 - 1 - 1
    per_cpu_info := upd s.per_cpu_info pcoreid
      { s.per_cpu_info pcoreid with
        owning_proc := none, cur_proc := none, cur_tf := .null, cur_sysc := false } }

/-- The state in which `proc_yield`, called on core `pcoreid`, returns when a
`RUNNING_M` process gives up the vcore mapped to that core. -/
def yield_m_result (s : Sys) (pcoreid : Nat) (being_nice : Bool) : Sys :=
  let v := (s.pcoremap pcoreid).vcoreid
  let r := yield_m_release
    { s with
      vcoremap := upd s.vcoremap v { s.vcoremap v with preempt_pending := 0 }
      online_vcs := s.online_vcs.erase v } pcoreid v being_nice
  yield_exit_result
    (if r.num_vcores = 0 then { r with amt_wanted := 1, state := PROC_WAITING } else r) pcoreid

/-- The process `on_core_proc` once `preempt_served` is set for its vcore 2. -/
def served_proc : Sys :=
  { on_core_proc with vcoremap := upd (fun _ => Vcore.zero) 2 ⟨5, true, true, 0⟩ }

/-- A `RUNNING_M` process of a four-core machine with vcores 0 and 1 online on
pcores 9 and 11, which it owns and on which it is current; every vcore has a
transition stack. -/
def two_running_proc : Sys :=
  { two_online_proc with
    state := PROC_RUNNING_M, refcnt := 6
    per_cpu_info := upd (upd (fun _ => PerCpuInfo.idle) 9
      ⟨some 1, some 1, .actual_tf, .raw 7, false, 0⟩) 11
      ⟨some 1, some 1, .actual_tf, .raw 8, false, 0⟩
    vcore_preempt_data := fun _ => { PreemptData.zero with transition_stack := 64 } }

/-- The vcore map after `__proc_preempt_warn` stored the time `w` for each vcore
of `vs`. -/
def vcoremap_warned (vm : Nat → Vcore) (w : Nat) : List Nat → Nat → Vcore
  | [] => vm
  | v :: vs => vcoremap_warned (upd vm v { vm v with preempt_pending := w }) w vs

/-- The vcore map after `preempt_served` was set for each vcore of `vs`. -/
def vcoremap_served (vm : Nat → Vcore) : List Nat → Nat → Vcore
  | [] => vm
  | v :: vs => vcoremap_served (upd vm v { vm v with preempt_served := true }) vs

/-- The event `__proc_preempt_warn` posts for the vcore `v`. -/
def warn_event (v : Nat) : Event := ⟨.EV_PREEMPT_PENDING, v, 0, v⟩

/-- The state in which `proc_preempt_all(p, usec)` returns on a `RUNNING_M`
process whose count agrees with its online list; `w` is the warning time. -/
def preempt_all_result (s : Sys) (w : Nat) : Sys :=
  let s1 := __proc_preempt_warnall s w
  let s2 := preempt_all_loop s1 s1.online_vcs
  { put_idle_cores (take_all_result s2 true) (pcs_of s2 s2.online_vcs) with
    state := PROC_RUNNABLE_M }

/-- The state in which the handler `__preempt` returns on core `coreid`, when `p`
owns the core and the core is mapped; `v` is the vcore of the core. -/
def preempt_handler_result (s : Sys) (coreid : Nat) : Sys :=
  let v := (s.pcoremap coreid).vcoreid
  let pcpui := s.per_cpu_info coreid
  let s1 := set_vcore s v { s.vcoremap v with preempt_served := false, preempt_pending := 0 }
  let vcpd := s1.vcore_preempt_data v
  let vcpd1 :=
    if vcpd.notif_disabled then { vcpd with preempt_tf := pcpui.actual_tf }
    else { vcpd with notif_tf := pcpui.actual_tf }
  let s2 := __unmap_vcore (set_vcpd s1 v
    { vcpd1 with preempt_anc := pcpui.fpu,
                 flags := clear_bits (vcpd1.flags ||| VC_PREEMPTED) VC_K_LOCK }) v
  decref_result (set_pcpui s2 coreid
    { s2.per_cpu_info coreid with owning_proc := none, cur_tf := .null })

/-- The state in which `__set_curtf_to_vcoreid(p, vcoreid)` returns on core
`coreid`, when the vcore has a transition stack or notifications disabled. -/
def set_curtf_result (s : Sys) (coreid vcoreid : Nat) : Sys :=
  let vcpd := s.vcore_preempt_data vcoreid
  let vcpd1 := { vcpd with can_rcv_msg := true, flags := clear_bits vcpd.flags VC_PREEMPTED }
  let pcpui := s.per_cpu_info coreid
  if vcpd.notif_disabled then
    set_pcpui (set_vcpd s vcoreid vcpd1) coreid
      { pcpui with fpu := vcpd.preempt_anc, actual_tf := .secured vcpd.preempt_tf,
                   cur_tf := .actual_tf }
  else
    set_pcpui (set_vcpd (set_vcpd s vcoreid vcpd1) vcoreid
        { vcpd1 with notif_disabled := true }) coreid
      { pcpui with actual_tf := .init vcoreid s.env_entry vcpd.transition_stack,
                   cur_tf := .actual_tf }

/-- The state after `__startcore` sorted out the references on core `coreid`:
`p` owns the core, and is installed as `cur_proc` if the core had none, else
the extra reference is dropped. -/
def startcore_installed (s : Sys) (coreid : Nat) : Sys :=
  let s1 := set_pcpui s coreid { s.per_cpu_info coreid with owning_proc := some s.pid }
  if (s.per_cpu_info coreid).cur_proc.isNone then
    set_pcpui s1 coreid { s1.per_cpu_info coreid with cur_proc := some s.pid }
  else { s1 with refcnt := s1.refcnt - 1 }

/-- The state in which the handler `__notify` returns on core `coreid` when it
delivers the notification to the vcore of the core. -/
def notify_result (s : Sys) (coreid : Nat) : Sys :=
  let v := (s.pcoremap coreid).vcoreid
  let pcpui := s.per_cpu_info coreid
  let vcpd := s.vcore_preempt_data v
  let s1 := set_vcpd s v
    { vcpd with notif_disabled := true, notif_pending := false, notif_tf := pcpui.actual_tf }
  set_pcpui s1 coreid { pcpui with actual_tf := .init v s.env_entry vcpd.transition_stack }

/-- The state in which `__proc_switch_to_m` returns on core `coreid` for a
`RUNNING_S` process that owns the core; `tf` is the frame `*current_tf`. -/
def switch_to_m_result (s : Sys) (coreid : Nat) (tf : TrapFrame) : Sys :=
  let s1 := set_vcpd s 0 { s.vcore_preempt_data 0 with notif_tf := tf }
  let s2 := decref_result (set_pcpui s1 coreid
    { s1.per_cpu_info coreid with owning_proc := none, cur_tf := .null })
  let s3 := set_vcpd s2 0
    { s2.vcore_preempt_data 0 with preempt_anc := (s2.per_cpu_info coreid).fpu }
  let s4 :=
    if (s3.vcore_preempt_data 0).notif_disabled then
      set_vcpd s3 0 { s3.vcore_preempt_data 0 with notif_disabled := false }
    else s3
  let s5 := __seq_end_write (__unmap_vcore (__seq_start_write s4) 0)
  { s5 with state := PROC_RUNNABLE_M, is_mcp := true }
/-- The part of `__proc_switch_to_m` after `clear_owning_proc`, from the state
`x` on core `coreid`. -/
def switch_to_m_tail (x : Sys) (coreid : Nat) : Sys :=
  let s3 := set_vcpd x 0
    { x.vcore_preempt_data 0 with preempt_anc := (x.per_cpu_info coreid).fpu }
  let s4 :=
    if (s3.vcore_preempt_data 0).notif_disabled then
      set_vcpd s3 0 { s3.vcore_preempt_data 0 with notif_disabled := false }
    else s3
  let s5 := __seq_end_write (__unmap_vcore (__seq_start_write s4) 0)
  { s5 with state := PROC_RUNNABLE_M, is_mcp := true }

/-- The count of the process with pid `q`. -/
def refcnt_of (s : Sys) (q : Nat) : Int :=
  if q = s.pid then s.refcnt else s.other_refcnt q

/-- The call `hashtable_search(pid_hash, pid)`: the process registered under
`pid`, named by its pid, or `none` for a null pointer. -/
def pid_hash_search (s : Sys) (others : Nat → Bool) (pid : Nat) : Option Nat :=
  if pid = s.pid then (if s.in_pid_hash then some pid else none)
  else if others pid then some pid else none

/-- The call `kref_get_not_zero(&q->p_kref, inc)` on the process with pid `q`. -/
def kref_get_not_zero (s : Sys) (q inc : Nat) : Bool × Sys :=
  if refcnt_of s q = 0 then (false, s)
  else if q = s.pid then (true, proc_incref s inc)
  else (true, { s with other_refcnt := upd s.other_refcnt q (s.other_refcnt q + inc) })

/-- The function `pid2proc`: the process returned (`none` for 0) and the new
state. -/
def pid2proc (s : Sys) (others : Nat → Bool) (pid : Nat) : Option Nat × Sys :=
  match pid_hash_search s others pid with
  | none => (none, s)
  | some p =>
    match kref_get_not_zero s p 1 with
    | (false, s1) => (none, s1)
    | (true, s1) => (some p, s1)

/-! ## The pid allocator -/

/-- The constant `PID_MAX`: pids go from 0 to 32767, with 0 reserved. -/
def PID_MAX : Nat := 32767

/-- The allocator's data: the bitmap `pid_bmask` over `[0, PID_MAX]` and the
static cursor `next_free_pid` of `get_free_pid`. -/
structure PidAlloc where
  pid_bmask : Nat → Bool
  next_free_pid : Nat

/-- Modelled from the spec: the bitmap macros are not among the sources;
`GET_BITMASK_BIT(m, i)` reads bit `i`. -/
def GET_BITMASK_BIT (m : Nat → Bool) (i : Nat) : Bool := m i

/-- Modelled from the spec: `SET_BITMASK_BIT(m, i)` sets bit `i` and no other. -/
def SET_BITMASK_BIT (m : Nat → Bool) (i : Nat) : Nat → Bool :=
  fun k => if k = i then true else m k

/-- Modelled from the spec: `CLR_BITMASK_BIT(m, i)` clears bit `i` and no other. -/
def CLR_BITMASK_BIT (m : Nat → Bool) (i : Nat) : Nat → Bool :=
  fun k => if k = i then false else m k

/-- The allocator after `proc_init`: the static bitmap is all clear but for bit
0 (`pid 0 is reserved`), the static cursor starts at 1. -/
def pid_bmask_init : PidAlloc :=
  { pid_bmask := SET_BITMASK_BIT (fun _ => false) 0, next_free_pid := 1 }

/-- Modelled from the spec: the macro `FOR_CIRC_BUFFER(next, size, var)` is not
among the sources; it runs its body `size` times at most, `var` starting at the
value `next` has on entry and stepping to `(var + 1) % size`.  The body is that
of `get_free_pid`: `n` is the number of rounds left, `i` the loop variable; the
result is `my_pid` with the allocator after the loop. -/
def get_free_pid_loop (size : Nat) : Nat → Nat → PidAlloc → Nat × PidAlloc
  | 0, _, a => (0, a)
  | n + 1, i, a =>
    let a1 := { a with next_free_pid := (a.next_free_pid + 1) % size }
    if !GET_BITMASK_BIT a1.pid_bmask i then
      (i, { a1 with pid_bmask := SET_BITMASK_BIT a1.pid_bmask i })
    else get_free_pid_loop size n ((i + 1) % size) a1

/-- The function `get_free_pid`: the pid returned (0 for none) and the
allocator after the call. -/
def get_free_pid (a : PidAlloc) : Nat × PidAlloc :=
  get_free_pid_loop (PID_MAX + 1) (PID_MAX + 1) a.next_free_pid a

/-- The function `put_free_pid`. -/
def put_free_pid (a : PidAlloc) (pid : Nat) : PidAlloc :=
  { a with pid_bmask := CLR_BITMASK_BIT a.pid_bmask pid }

/-- The allocator after `n` further calls of `get_free_pid`. -/
def get_free_pid_calls : Nat → PidAlloc → PidAlloc
  | 0, a => a
  | n + 1, a => get_free_pid_calls n (get_free_pid a).2

/-- The allocator states reached from `proc_init`, each with the pids handed out
and not yet given back: `get_free_pid` is called at will, `put_free_pid` on a
pid that is handed out. -/
inductive PidReachable : PidAlloc → List Nat → Prop
  | init : PidReachable pid_bmask_init []
  | get (a : PidAlloc) (live : List Nat) :
      PidReachable a live → (get_free_pid a).1 ≠ 0 →
      PidReachable (get_free_pid a).2 ((get_free_pid a).1 :: live)
  | get_none (a : PidAlloc) (live : List Nat) :
      PidReachable a live → (get_free_pid a).1 = 0 →
      PidReachable (get_free_pid a).2 live
  | put (a : PidAlloc) (live : List Nat) (pid : Nat) :
      PidReachable a live → pid ∈ live →
      PidReachable (put_free_pid a pid) (live.erase pid)

/-- What holds of every reachable allocator state: bit 0 is set, the cursor is
within the bitmap, the pids handed out are distinct, non-zero, at most
`PID_MAX`, and their bits are set. -/
structure PidInv (a : PidAlloc) (live : List Nat) : Prop where
  bit0 : a.pid_bmask 0 = true
  cursor : a.next_free_pid ≤ PID_MAX
  nodup : live.Nodup
  set : ∀ p, p ∈ live → a.pid_bmask p = true
  range : ∀ p, p ∈ live → 1 ≤ p ∧ p ≤ PID_MAX

/-- The spec's words for the inactive list after `proc_alloc`: all `MAX_VCORES`
entries of `vcoremap[]`, in index order.  `MAX_VCORES`, the length of the
array, is a constant the sources do not define. -/
def spec_inactive_vcs (MAX_VCORES : Nat) : List Nat := List.range MAX_VCORES

/-- The resource counts of a process and its seqlock counter. -/
structure Acct where
  amt_wanted : Nat
  amt_granted : Nat
  num_vcores : Nat
  coremap_seqctr : Nat

/-- The projection of a state on its `Acct`. -/
def acct (s : Sys) : Acct :=
  { amt_wanted := s.amt_wanted, amt_granted := s.amt_granted, num_vcores := s.num_vcores,
    coremap_seqctr := s.coremap_seqctr }

/-- The mapping that a reader of the maps follows: the `valid` flag and the
pcore of every `vcoremap[]` entry, and the `pcoremap[]` entries. -/
def coremaps (s : Sys) : (Nat → Bool × Nat) × (Nat → Pcore) :=
  (fun v => ((s.vcoremap v).valid, (s.vcoremap v).pcoreid), s.pcoremap)

/-- The process `on_core_proc` when it wants four cores and a preemption of its
vcore 2 has been announced. -/
def warned_proc : Sys :=
  { on_core_proc with
    amt_wanted := 4
    vcoremap := upd (fun _ => Vcore.zero) 2 ⟨5, true, false, 1000⟩ }

/-- The process `two_running_proc` when it wants four cores and a preemption of
its vcore 0 has been announced. -/
def warned_two_proc : Sys :=
  { two_running_proc with
    amt_wanted := 4
    vcoremap := upd (upd (fun _ => Vcore.zero) 0 ⟨9, true, false, 1000⟩) 1 ⟨11, true, false, 0⟩ }

/-- The process `warned_proc` with a notification pending on each of its vcores. -/
def notified_proc : Sys :=
  { warned_proc with
    vcore_preempt_data := fun _ => { PreemptData.zero with notif_pending := true } }

/-- The three list heads of a process. -/
inductive TqHead where
  | online
  | bulk_preempted
  | inactive
  deriving DecidableEq, Repr

/-- The address of a link: `&head->tqh_first` or `&vc->list.tqe_next`. -/
inductive TqAddr where
  | first (h : TqHead)
  | next (vc : Nat)
  deriving DecidableEq, Repr

/-- The link fields of the three heads and of the vcores.  A `tqe_prev` of
`none` is the null pointer that the `memset` of `proc_init_procinfo` leaves in
a vcore that was never linked. -/
structure TqHeap where
  tqh_first : TqHead → Option Nat
  tqh_last : TqHead → TqAddr
  tqe_next : Nat → Option Nat
  tqe_prev : Nat → Option TqAddr

/-- The store `*a = x` through the address of a link. -/
def TqHeap.store (m : TqHeap) (a : TqAddr) (x : Option Nat) : TqHeap :=
  match a with
  | .first h => { m with tqh_first := fun k => if k = h then x else m.tqh_first k }
  | .next vc => { m with tqe_next := upd m.tqe_next vc x }

/-- The store `head->tqh_last = a`. -/
def TqHeap.set_last (m : TqHeap) (h : TqHead) (a : TqAddr) : TqHeap :=
  { m with tqh_last := fun k => if k = h then a else m.tqh_last k }

/-- The three heads after `TAILQ_INIT`, no vcore linked. -/
def tq_empty : TqHeap :=
  ⟨fun _ => none, fun h => .first h, fun _ => none, fun _ => none⟩

/-- The macro `TAILQ_INSERT_HEAD(head, elm, list)`. -/
def TAILQ_INSERT_HEAD (m : TqHeap) (head : TqHead) (elm : Nat) : TqHeap :=
  let m1 := { m with tqe_next := upd m.tqe_next elm (m.tqh_first head) }
  let m2 :=
    match m1.tqe_next elm with
    | some f => { m1 with tqe_prev := upd m1.tqe_prev f (some (.next elm)) }
    | none => m1.set_last head (.next elm)
  let m3 := m2.store (.first head) (some elm)
  { m3 with tqe_prev := upd m3.tqe_prev elm (some (.first head)) }

/-- The macro `TAILQ_INSERT_TAIL(head, elm, list)`. -/
def TAILQ_INSERT_TAIL (m : TqHeap) (head : TqHead) (elm : Nat) : TqHeap :=
  let m1 := { m with tqe_next := upd m.tqe_next elm none }
  let m2 := { m1 with tqe_prev := upd m1.tqe_prev elm (some (m1.tqh_last head)) }
  let m3 := m2.store (m2.tqh_last head) (some elm)
  m3.set_last head (.next elm)

/-- The macro `TAILQ_REMOVE(head, elm, list)`; `none` when it writes through a
null `tqe_prev`. -/
def TAILQ_REMOVE (m : TqHeap) (head : TqHead) (elm : Nat) : Option TqHeap :=
  match m.tqe_prev elm with
  | none => none
  | some prev =>
    let m1 :=
      match m.tqe_next elm with
      | some nx => { m with tqe_prev := upd m.tqe_prev nx (some prev) }
      | none => m.set_last head prev
    some (m1.store prev (m1.tqe_next elm))

/-- The vcores met from `cur` on along `tqe_next`, at most `fuel` of them. -/
def tq_chain_from (m : TqHeap) : Nat → Option Nat → List Nat
  | 0, _ => []
  | _ + 1, none => []
  | fuel + 1, some vc => vc :: tq_chain_from m fuel (m.tqe_next vc)

/-- What `TAILQ_FOREACH(vc, head, list)` visits, at most `fuel` vcores. -/
def tq_chain (m : TqHeap) (head : TqHead) (fuel : Nat) : List Nat :=
  tq_chain_from m fuel (m.tqh_first head)

/-- The cells of the three lists `online`, `bulk` and `inactive`, each built by
`TAILQ_INSERT_TAIL` of its vcores in turn. -/
def tq_of_lists (online bulk inactive : List Nat) : TqHeap :=
  inactive.foldl (fun m vc => TAILQ_INSERT_TAIL m .inactive vc)
    (bulk.foldl (fun m vc => TAILQ_INSERT_TAIL m .bulk_preempted vc)
      (online.foldl (fun m vc => TAILQ_INSERT_TAIL m .online vc) tq_empty))

/-- The four list statements of `proc_change_to_vcore`: the caller's vcore
goes from the online list to the head of the inactive list, the new vcore from
the inactive list to the tail of the online list. -/
def change_to_vcore_lists (m : TqHeap) (caller_vc new_vc : Nat) : Option TqHeap :=
  match TAILQ_REMOVE m .online caller_vc with
  | none => none
  | some m1 =>
    match TAILQ_REMOVE (TAILQ_INSERT_HEAD m1 .inactive caller_vc) .inactive new_vc with
    | none => none
    | some m2 => some (TAILQ_INSERT_TAIL m2 .online new_vc)

/-! # Theorems -/

/-! ## State machine -/

/-- C1: from each of the six states other than `DYING`, `__proc_set_state` to
one of the seven states stores the target and returns exactly when the
transition is in the allowed-transition table; every other pair panics with
`p->state` unchanged. -/
theorem proc_set_state_table (s : Sys) (t : Nat)
    (hs : s.state ∈ [PROC_CREATED, PROC_RUNNABLE_S, PROC_RUNNING_S, PROC_WAITING,
      PROC_RUNNABLE_M, PROC_RUNNING_M])
    (ht : t ∈ ALL_STATES) :
    (__proc_set_state s t = .ok { s with state := t } ↔ allowed s.state t = true) ∧
    (allowed s.state t = false → __proc_set_state s t = .error (.panic, s)) := by
  simp only [List.mem_cons, List.mem_singleton, ALL_STATES, List.mem_nil_iff, or_false] at hs ht
  rcases hs with h | h | h | h | h | h <;> rcases ht with rfl | rfl | rfl | rfl | rfl | rfl | rfl <;>
    simp [__proc_set_state, h, allowed, fault, PROC_CREATED, PROC_RUNNABLE_S, PROC_RUNNING_S,
      PROC_WAITING, PROC_DYING, PROC_RUNNABLE_M, PROC_RUNNING_M] <;> decide

theorem proc_set_state_table_witness :
    PROC_RUNNING_S ∈ [PROC_CREATED, PROC_RUNNABLE_S, PROC_RUNNING_S, PROC_WAITING,
      PROC_RUNNABLE_M, PROC_RUNNING_M] ∧ PROC_WAITING ∈ ALL_STATES ∧
    ((__proc_set_state { dying_proc with state := PROC_RUNNING_S } PROC_WAITING =
        .ok { { dying_proc with state := PROC_RUNNING_S } with state := PROC_WAITING } ↔
      allowed PROC_RUNNING_S PROC_WAITING = true) ∧
     (allowed PROC_RUNNING_S PROC_WAITING = false →
       __proc_set_state { dying_proc with state := PROC_RUNNING_S } PROC_WAITING =
        .error (.panic, { dying_proc with state := PROC_RUNNING_S }))) :=
  ⟨by decide, by decide,
   proc_set_state_table { dying_proc with state := PROC_RUNNING_S } PROC_WAITING
     (by decide) (by decide)⟩

/-- C2, as stated, fails: a `DYING` process is moved to `CREATED` by
`__proc_set_state`, which returns normally. -/
theorem dying_to_created_accepted :
    dying_proc.state = PROC_DYING ∧ PROC_CREATED ∈ ALL_STATES ∧
    (__proc_set_state dying_proc PROC_CREATED).toOption.map Sys.state = some PROC_CREATED :=
  ⟨rfl, by decide, rfl⟩

/-- C2, amended: from `DYING`, `__proc_set_state` panics for every target other
than `CREATED`, and accepts `CREATED`. -/
theorem dying_only_to_created (s : Sys) (t : Nat) (hs : s.state = PROC_DYING) :
    (t ≠ PROC_CREATED → __proc_set_state s t = .error (.panic, s)) ∧
    (t = PROC_CREATED → __proc_set_state s t = .ok { s with state := PROC_CREATED }) := by
  constructor
  · intro h
    simp [__proc_set_state, hs, h, fault, PROC_CREATED, PROC_RUNNABLE_S, PROC_RUNNING_S,
      PROC_WAITING, PROC_DYING, PROC_RUNNABLE_M, PROC_RUNNING_M]
    intro h2; exact absurd h2 h
  · rintro rfl
    simp [__proc_set_state, hs, fault, PROC_CREATED, PROC_RUNNABLE_S, PROC_RUNNING_S,
      PROC_WAITING, PROC_DYING, PROC_RUNNABLE_M, PROC_RUNNING_M]

theorem dying_only_to_created_witness :
    dying_proc.state = PROC_DYING ∧
    (PROC_RUNNABLE_S ≠ PROC_CREATED →
      __proc_set_state dying_proc PROC_RUNNABLE_S = .error (.panic, dying_proc)) ∧
    (PROC_RUNNABLE_S = PROC_CREATED →
      __proc_set_state dying_proc PROC_RUNNABLE_S =
        .ok { dying_proc with state := PROC_CREATED }) :=
  ⟨rfl, dying_only_to_created dying_proc PROC_RUNNABLE_S rfl⟩

/-! ## Vcore and pcore maps -/

theorem map_vcore_ok (s : Sys) (v pc : Nat) (hv : (s.vcoremap v).valid = false) :
    __map_vcore s v pc = .ok { s with
      vcoremap := upd s.vcoremap v { s.vcoremap v with pcoreid := pc, valid := true }
      pcoremap := upd s.pcoremap pc { vcoreid := v, valid := true } } := by
  simp [__map_vcore, hv]

/-- C6: on a state whose vcore and pcore maps are mutually inverse,
`__map_vcore` of an unmapped vcore `v` to an unmapped pcore `pc` returns with
the maps still mutually inverse, and `__unmap_vcore` of a mapped vcore `v2`
keeps them mutually inverse; mapping `v` to `pc` and then unmapping `v` leaves
`vcoremap[v]` and `pcoremap[pc]` invalid. -/
theorem map_unmap_keep_inverse (s : Sys) (v pc v2 : Nat) (hinv : maps_inverse s)
    (hv : (s.vcoremap v).valid = false) (hpc : (s.pcoremap pc).valid = false)
    (hv2 : (s.vcoremap v2).valid = true) :
    (∃ s1, __map_vcore s v pc = .ok s1 ∧ maps_inverse s1 ∧
      ((__unmap_vcore s1 v).vcoremap v).valid = false ∧
      ((__unmap_vcore s1 v).pcoremap pc).valid = false) ∧
    maps_inverse (__unmap_vcore s v2) := by
  refine ⟨⟨_, map_vcore_ok s v pc hv, ?_, ?_, ?_⟩, ?_⟩
  · intro a b
    have h := hinv a b
    have h1 := hinv v b
    have h2 := hinv a pc
    simp only [upd]
    by_cases ha : a = v
    · subst ha
      by_cases hb : b = pc
      · subst hb; simp
      · simp only [hv, false_and, iff_false, Bool.false_eq_true] at h1
        simp only [hb, if_false, if_true]
        constructor
        · intro hx; exact absurd hx h1
        · intro hx; exact absurd hx.2.symm hb
    · by_cases hb : b = pc
      · subst hb
        simp only [hpc, false_and, false_iff, Bool.false_eq_true] at h2
        simp only [ha, if_false, if_true]
        constructor
        · intro hx; exact absurd hx.2.symm ha
        · intro hx; exact absurd hx h2
      · simp only [ha, hb, if_false]; exact h
  · simp [__unmap_vcore, upd]
  · simp [__unmap_vcore, upd]
  · intro a b
    have h := hinv a b
    have h1 := hinv v2 b
    have h2 := hinv a (s.vcoremap v2).pcoreid
    simp only [__unmap_vcore, upd]
    by_cases ha : a = v2
    · subst ha
      simp only [if_true]
      constructor
      · intro hx
        by_cases hb : b = (s.vcoremap a).pcoreid
        · simp [hb] at hx
        · simp only [hb, if_false] at hx
          exact absurd (h1.mp hx).2.symm hb
      · intro hx; simp at hx
    · simp only [ha, if_false]
      by_cases hb : b = (s.vcoremap v2).pcoreid
      · subst hb
        simp only [if_true]
        constructor
        · intro hx; simp at hx
        · intro hx
          have h3 := (hinv v2 (s.vcoremap v2).pcoreid).mpr ⟨hv2, rfl⟩
          have h4 := h2.mpr hx
          exact absurd (h4.2.symm.trans h3.2) ha
      · simp only [hb, if_false]; exact h

theorem map_unmap_keep_inverse_witness :
    maps_inverse one_mapped ∧ (one_mapped.vcoremap 0).valid = false ∧
    (one_mapped.pcoremap 5).valid = false ∧ (one_mapped.vcoremap 1).valid = true ∧
    ((∃ s1, __map_vcore one_mapped 0 5 = .ok s1 ∧ maps_inverse s1 ∧
      ((__unmap_vcore s1 0).vcoremap 0).valid = false ∧
      ((__unmap_vcore s1 0).pcoremap 5).valid = false) ∧
    maps_inverse (__unmap_vcore one_mapped 1)) := by
  have hinv : maps_inverse one_mapped := by
    intro a b
    simp only [one_mapped, upd]
    by_cases ha : a = 1 <;> by_cases hb : b = 7 <;> simp [ha, hb, Vcore.zero, Pcore.zero]
    · exact fun h => hb h.symm
    · exact fun h => ha h.symm
  exact ⟨hinv, rfl, rfl, rfl, map_unmap_keep_inverse one_mapped 0 5 1 hinv rfl rfl rfl⟩

/-! ## Core granting -/

theorem vcoremap_after_not_mem (ps : List (Nat × Nat)) :
    ∀ (vm : Nat → Vcore) (v : Nat), v ∉ ps.map Prod.fst → vcoremap_after vm ps v = vm v := by
  induction ps with
  | nil => intro vm v _; rfl
  | cons p ps ih =>
    intro vm v hv
    obtain ⟨a, b⟩ := p
    simp only [List.map_cons, List.mem_cons, not_or] at hv
    simp only [vcoremap_after]
    rw [ih _ v hv.2]
    simp [upd, hv.1]

theorem pcoremap_after_not_mem (ps : List (Nat × Nat)) :
    ∀ (pm : Nat → Pcore) (pc : Nat), pc ∉ ps.map Prod.snd → pcoremap_after pm ps pc = pm pc := by
  induction ps with
  | nil => intro pm pc _; rfl
  | cons p ps ih =>
    intro pm pc hpc
    obtain ⟨a, b⟩ := p
    simp only [List.map_cons, List.mem_cons, not_or] at hpc
    simp only [pcoremap_after]
    rw [ih _ pc hpc.2]
    simp [upd, hpc.1]

theorem vcoremap_after_mem (ps : List (Nat × Nat)) :
    ∀ (vm : Nat → Vcore) (v pc : Nat), (ps.map Prod.fst).Nodup → (v, pc) ∈ ps →
      vcoremap_after vm ps v = { vm v with pcoreid := pc, valid := true } := by
  induction ps with
  | nil => intro vm v pc _ h; simp at h
  | cons p ps ih =>
    intro vm v pc hnd h
    obtain ⟨a, b⟩ := p
    simp only [List.map_cons, List.nodup_cons] at hnd
    simp only [vcoremap_after]
    rcases List.mem_cons.mp h with h1 | h1
    · obtain ⟨rfl, rfl⟩ := Prod.mk.inj h1
      rw [vcoremap_after_not_mem ps _ v hnd.1]
      simp [upd]
    · have hne : v ≠ a := by
        intro hva; subst hva
        exact hnd.1 (List.mem_map.mpr ⟨(v, pc), h1, rfl⟩)
      rw [ih _ v pc hnd.2 h1]
      simp [upd, hne]

theorem pcoremap_after_mem (ps : List (Nat × Nat)) :
    ∀ (pm : Nat → Pcore) (v pc : Nat), (ps.map Prod.snd).Nodup → (v, pc) ∈ ps →
      pcoremap_after pm ps pc = { vcoreid := v, valid := true } := by
  induction ps with
  | nil => intro pm v pc _ h; simp at h
  | cons p ps ih =>
    intro pm v pc hnd h
    obtain ⟨a, b⟩ := p
    simp only [List.map_cons, List.nodup_cons] at hnd
    simp only [pcoremap_after]
    rcases List.mem_cons.mp h with h1 | h1
    · obtain ⟨rfl, rfl⟩ := Prod.mk.inj h1
      rw [pcoremap_after_not_mem ps _ pc hnd.1]
      simp [upd]
    · exact ih _ v pc hnd.2 h1

theorem give_a_pcore_nil (s : Sys) (pc : Nat) (l : VcList) (h : vc_list_get s l = []) :
    __proc_give_a_pcore s pc l = .ok (false, s) := by
  simp [__proc_give_a_pcore, h]

theorem give_a_pcore_cons (s : Sys) (pc : Nat) (l : VcList) (v : Nat) (rest : List Nat)
    (h : vc_list_get s l = v :: rest) (hv : (s.vcoremap v).valid = false) :
    __proc_give_a_pcore s pc l = .ok (true,
      { (online_insert_tail (vc_list_set s l rest) v) with
        vcoremap := upd s.vcoremap v { s.vcoremap v with pcoreid := pc, valid := true }
        pcoremap := upd s.pcoremap pc { vcoreid := v, valid := true } }) := by
  have h2 : ((online_insert_tail (vc_list_set s l rest) v).vcoremap v).valid = false := by
    cases l <;> simpa [online_insert_tail, vc_list_set] using hv
  simp only [__proc_give_a_pcore, h]
  rw [map_vcore_ok _ _ _ h2]
  cases l <;> rfl

theorem give_cores_runnable_loop_ok (pcs : List Nat) :
    ∀ s : Sys, pcs.length ≤ (s.bulk_preempted_vcs ++ s.inactive_vcs).length →
      ((s.bulk_preempted_vcs ++ s.inactive_vcs).take pcs.length).Nodup →
      (∀ v ∈ (s.bulk_preempted_vcs ++ s.inactive_vcs).take pcs.length,
        (s.vcoremap v).valid = false) →
      give_cores_runnable_loop s pcs = .ok { s with
        online_vcs := s.online_vcs ++ (s.bulk_preempted_vcs ++ s.inactive_vcs).take pcs.length
        bulk_preempted_vcs := s.bulk_preempted_vcs.drop pcs.length
        inactive_vcs := s.inactive_vcs.drop (pcs.length - s.bulk_preempted_vcs.length)
        vcoremap := vcoremap_after s.vcoremap
          (((s.bulk_preempted_vcs ++ s.inactive_vcs).take pcs.length).zip pcs)
        pcoremap := pcoremap_after s.pcoremap
          (((s.bulk_preempted_vcs ++ s.inactive_vcs).take pcs.length).zip pcs) } := by
  induction pcs with
  | nil => intro s _ _ _; simp [give_cores_runnable_loop, vcoremap_after, pcoremap_after]
  | cons pc pcs ih =>
    intro s hlen hnd hinv
    cases hb : s.bulk_preempted_vcs with
    | nil =>
      cases hi : s.inactive_vcs with
      | nil => simp [hb, hi] at hlen
      | cons a as =>
        simp only [hb, hi, List.nil_append, List.length_cons, List.take_succ_cons,
          List.nodup_cons, List.mem_cons, forall_eq_or_imp, Nat.add_le_add_iff_right] at hlen hnd hinv
        have h1 : vc_list_get s .bulk_preempted = [] := hb
        have h2 : vc_list_get s .inactive = a :: as := hi
        simp only [give_cores_runnable_loop]
        rw [give_a_pcore_nil s pc _ h1]
        simp only []
        rw [give_a_pcore_cons s pc _ a as h2 hinv.1]
        simp only []
        rw [ih]
        · simp [online_insert_tail, vc_list_set, hb, hi, vcoremap_after, pcoremap_after, List.zip]
        · simpa [online_insert_tail, vc_list_set, hb] using hlen
        · simpa [online_insert_tail, vc_list_set, hb] using hnd.2
        · intro v hv
          simp only [online_insert_tail, vc_list_set, hb, List.nil_append] at hv
          have hne : v ≠ a := fun h => hnd.1 (h ▸ hv)
          simpa [online_insert_tail, vc_list_set, upd, hne] using hinv.2 v hv
    | cons b bs =>
      simp only [hb, List.cons_append, List.length_cons, List.take_succ_cons,
        List.nodup_cons, List.mem_cons, forall_eq_or_imp, Nat.add_le_add_iff_right] at hlen hnd hinv
      have h1 : vc_list_get s .bulk_preempted = b :: bs := hb
      simp only [give_cores_runnable_loop]
      rw [give_a_pcore_cons s pc _ b bs h1 hinv.1]
      simp only []
      rw [ih]
      · simp [online_insert_tail, vc_list_set, hb, vcoremap_after, pcoremap_after, List.zip]
      · simpa [online_insert_tail, vc_list_set] using hlen
      · simpa [online_insert_tail, vc_list_set] using hnd.2
      · intro v hv
        simp only [online_insert_tail, vc_list_set] at hv
        have hne : v ≠ b := fun h => hnd.1 (h ▸ hv)
        simpa [online_insert_tail, vc_list_set, upd, hne] using hinv.2 v hv
theorem u32_add_small (a b : Nat) (h : a + b < U32_MOD) : u32_add a b = a + b := by
  simp [u32_add, Nat.mod_eq_of_lt h]

/-- C7: for a `RUNNABLE_M` process, `__proc_give_cores` with `n >= 1` distinct
pcores, `n` at most the number of bulk-preempted and inactive vcores (the first
`n` of which are distinct and unmapped), maps the i-th pcore to the i-th vcore
of `bulk_preempted_vcs ++ inactive_vcs`, takes these vcores off the heads of
their lists and appends them in order to `online_vcs`, adds `n` to `num_vcores`
and to `amt_granted`, and leaves the state, the reference count and the sent
kernel messages as they were. -/
theorem give_cores_runnable_m (MAX_NUM_CPUS : Nat) (s : Sys) (pcs : List Nat)
    (hst : s.state = PROC_RUNNABLE_M) (hne : pcs ≠ []) (hpcs : pcs.Nodup)
    (hlen : pcs.length ≤ s.bulk_preempted_vcs.length + s.inactive_vcs.length)
    (hnd : (next_vcs s pcs.length).Nodup)
    (hun : ∀ v ∈ next_vcs s pcs.length, (s.vcoremap v).valid = false)
    (hmax : pcs.length + s.num_vcores ≤ MAX_NUM_CPUS) (hM : MAX_NUM_CPUS < U32_MOD) :
    ∃ s1, __proc_give_cores MAX_NUM_CPUS s pcs = .ok s1 ∧
      s1.online_vcs = s.online_vcs ++ next_vcs s pcs.length ∧
      s1.bulk_preempted_vcs = s.bulk_preempted_vcs.drop pcs.length ∧
      s1.inactive_vcs = s.inactive_vcs.drop (pcs.length - s.bulk_preempted_vcs.length) ∧
      (∀ p ∈ (next_vcs s pcs.length).zip pcs,
        s1.vcoremap p.1 = { s.vcoremap p.1 with pcoreid := p.2, valid := true } ∧
        s1.pcoremap p.2 = { vcoreid := p.1, valid := true }) ∧
      s1.num_vcores = s.num_vcores + pcs.length ∧
      s1.amt_granted = sz_add s.amt_granted pcs.length ∧
      (s.amt_granted + pcs.length < SIZE_MOD → s1.amt_granted = s.amt_granted + pcs.length) ∧
      s1.state = PROC_RUNNABLE_M ∧ s1.refcnt = s.refcnt ∧ s1.kmsgs = s.kmsgs := by
  have hlen2 : pcs.length ≤ (s.bulk_preempted_vcs ++ s.inactive_vcs).length := by
    simpa using hlen
  have hlen0 : pcs.length ≠ 0 := by
    intro h; exact hne (List.length_eq_zero.mp h)
  have hadd : u32_add pcs.length s.num_vcores = pcs.length + s.num_vcores :=
    u32_add_small _ _ (lt_of_le_of_lt hmax hM)
  have hadd2 : u32_add s.num_vcores pcs.length = s.num_vcores + pcs.length :=
    u32_add_small _ _ (by rw [Nat.add_comm]; exact lt_of_le_of_lt hmax hM)
  have hzl : ((next_vcs s pcs.length).zip pcs).map Prod.fst = next_vcs s pcs.length := by
    apply List.map_fst_zip
    simp [next_vcs, hlen2]
  have hzr : ((next_vcs s pcs.length).zip pcs).map Prod.snd = pcs := by
    apply List.map_snd_zip
    simp [next_vcs, hlen]
  have hrun : __proc_give_cores_runnable s pcs = .ok (give_runnable_result s pcs) := by
    unfold __proc_give_cores_runnable
    rw [if_neg (not_not.mpr hst), if_neg hlen0]
    simp only []
    rw [give_cores_runnable_loop_ok pcs]
    · rfl
    · exact hlen2
    · exact hnd
    · exact hun
  have hres : __proc_give_cores MAX_NUM_CPUS s pcs =
      .ok { give_runnable_result s pcs with
        amt_granted := sz_add (give_runnable_result s pcs).amt_granted pcs.length } := by
    unfold __proc_give_cores
    rw [if_neg (by rw [hadd]; exact not_not.mpr hmax), if_neg (by rw [hst]; decide),
      if_neg (by rw [hst]; decide), if_pos hst, hrun]
  refine ⟨_, hres, rfl, rfl, rfl, ?_, hadd2, rfl, ?_, hst, rfl, rfl⟩
  · intro p hp
    obtain ⟨v, pc⟩ := p
    constructor
    · exact vcoremap_after_mem _ _ v pc (by rw [hzl]; exact hnd) hp
    · exact pcoremap_after_mem _ _ v pc (by rw [hzr]; exact hpcs) hp
  · intro h
    show sz_add s.amt_granted pcs.length = _
    simp [sz_add, Nat.mod_eq_of_lt h]

theorem give_cores_runnable_m_witness :
    ∃ s1, __proc_give_cores 8 runnable_m_proc [9, 11] = .ok s1 ∧
      s1.online_vcs = runnable_m_proc.online_vcs ++ next_vcs runnable_m_proc 2 ∧
      s1.bulk_preempted_vcs = runnable_m_proc.bulk_preempted_vcs.drop 2 ∧
      s1.inactive_vcs = runnable_m_proc.inactive_vcs.drop (2 - 1) ∧
      (∀ p ∈ (next_vcs runnable_m_proc 2).zip [9, 11],
        s1.vcoremap p.1 = { runnable_m_proc.vcoremap p.1 with pcoreid := p.2, valid := true } ∧
        s1.pcoremap p.2 = { vcoreid := p.1, valid := true }) ∧
      s1.num_vcores = runnable_m_proc.num_vcores + 2 ∧
      s1.amt_granted = sz_add runnable_m_proc.amt_granted 2 ∧
      (runnable_m_proc.amt_granted + 2 < SIZE_MOD →
        s1.amt_granted = runnable_m_proc.amt_granted + 2) ∧
      s1.state = PROC_RUNNABLE_M ∧ s1.refcnt = runnable_m_proc.refcnt ∧
      s1.kmsgs = runnable_m_proc.kmsgs :=
  give_cores_runnable_m 8 runnable_m_proc [9, 11] rfl (by decide) (by decide) (by decide)
    (by decide) (fun _ _ => rfl) (by decide) (by decide)

theorem give_cores_running_loop_ok (pcs : List Nat) :
    ∀ s : Sys, pcs.length ≤ s.inactive_vcs.length →
      (s.inactive_vcs.take pcs.length).Nodup →
      (∀ v ∈ s.inactive_vcs.take pcs.length, (s.vcoremap v).valid = false) →
      give_cores_running_loop s pcs = .ok { s with
        online_vcs := s.online_vcs ++ s.inactive_vcs.take pcs.length
        inactive_vcs := s.inactive_vcs.drop pcs.length
        vcoremap := vcoremap_after s.vcoremap ((s.inactive_vcs.take pcs.length).zip pcs)
        pcoremap := pcoremap_after s.pcoremap ((s.inactive_vcs.take pcs.length).zip pcs)
        kmsgs := s.kmsgs ++ pcs.map (startcore_msg s) } := by
  induction pcs with
  | nil => intro s _ _ _; simp [give_cores_running_loop, vcoremap_after, pcoremap_after]
  | cons pc pcs ih =>
    intro s hlen hnd hinv
    cases hi : s.inactive_vcs with
    | nil => simp [hi] at hlen
    | cons a as =>
      simp only [hi, List.length_cons, List.take_succ_cons,
        List.nodup_cons, List.mem_cons, forall_eq_or_imp, Nat.add_le_add_iff_right] at hlen hnd hinv
      have h2 : vc_list_get s .inactive = a :: as := hi
      simp only [give_cores_running_loop]
      rw [give_a_pcore_cons s pc _ a as h2 hinv.1]
      simp only []
      rw [ih]
      · simp [online_insert_tail, vc_list_set, hi, vcoremap_after, pcoremap_after, List.zip,
          send_kernel_message, startcore_msg]
      · simpa [online_insert_tail, vc_list_set, send_kernel_message] using hlen
      · simpa [online_insert_tail, vc_list_set, send_kernel_message] using hnd.2
      · intro v hv
        simp only [online_insert_tail, vc_list_set, send_kernel_message] at hv
        have hne : v ≠ a := fun h => hnd.1 (h ▸ hv)
        simpa [online_insert_tail, vc_list_set, send_kernel_message, upd, hne] using hinv.2 v hv

/-- C8: for a `RUNNING_M` process with an empty bulk-preempted list,
`__proc_give_cores` with `n` distinct pcores, `n` at most the number of
inactive vcores (the first `n` of which are distinct and unmapped), takes the
first `n` inactive vcores in order, maps the i-th to the i-th pcore, appends
them to `online_vcs`, adds `n` to `num_vcores` and `amt_granted` and `2 * n` to
the reference count, and sends one immediate `__startcore` message carrying `p`
to each pcore, in array order; with a non-empty bulk-preempted list the call
stops on a failed assertion. -/
theorem give_cores_running_m (MAX_NUM_CPUS : Nat) (s : Sys) (pcs : List Nat)
    (hst : s.state = PROC_RUNNING_M) (hpcs : pcs.Nodup)
    (hlen : pcs.length ≤ s.inactive_vcs.length)
    (hnd : (s.inactive_vcs.take pcs.length).Nodup)
    (hun : ∀ v ∈ s.inactive_vcs.take pcs.length, (s.vcoremap v).valid = false)
    (hmax : pcs.length + s.num_vcores ≤ MAX_NUM_CPUS) (hM : MAX_NUM_CPUS < U32_MOD) :
    (s.bulk_preempted_vcs = [] →
      ∃ s1, __proc_give_cores MAX_NUM_CPUS s pcs = .ok s1 ∧
        s1.online_vcs = s.online_vcs ++ s.inactive_vcs.take pcs.length ∧
        s1.inactive_vcs = s.inactive_vcs.drop pcs.length ∧
        s1.bulk_preempted_vcs = [] ∧
        (∀ p ∈ (s.inactive_vcs.take pcs.length).zip pcs,
          s1.vcoremap p.1 = { s.vcoremap p.1 with pcoreid := p.2, valid := true } ∧
          s1.pcoremap p.2 = { vcoreid := p.1, valid := true }) ∧
        s1.num_vcores = s.num_vcores + pcs.length ∧
        s1.amt_granted = sz_add s.amt_granted pcs.length ∧
        (s.amt_granted + pcs.length < SIZE_MOD → s1.amt_granted = s.amt_granted + pcs.length) ∧
        s1.refcnt = s.refcnt + 2 * (pcs.length : Int) ∧
        s1.kmsgs = s.kmsgs ++ pcs.map (fun pc => ⟨pc, .startcore, some s.pid, 0, 0, true⟩) ∧
        s1.state = PROC_RUNNING_M) ∧
    (s.bulk_preempted_vcs ≠ [] →
      ∃ s1, __proc_give_cores MAX_NUM_CPUS s pcs = .error (.assertion, s1)) := by
  have hadd : u32_add pcs.length s.num_vcores = pcs.length + s.num_vcores :=
    u32_add_small _ _ (lt_of_le_of_lt hmax hM)
  have hadd2 : u32_add s.num_vcores pcs.length = s.num_vcores + pcs.length :=
    u32_add_small _ _ (by rw [Nat.add_comm]; exact lt_of_le_of_lt hmax hM)
  have hzl : ((s.inactive_vcs.take pcs.length).zip pcs).map Prod.fst =
      s.inactive_vcs.take pcs.length := by
    apply List.map_fst_zip
    simp [hlen]
  have hzr : ((s.inactive_vcs.take pcs.length).zip pcs).map Prod.snd = pcs := by
    apply List.map_snd_zip
    simp [hlen]
  have hpre : __proc_give_cores MAX_NUM_CPUS s pcs =
      (match __proc_give_cores_running s pcs with
       | .error e => .error e
       | .ok s1 => .ok { s1 with amt_granted := sz_add s1.amt_granted pcs.length }) := by
    unfold __proc_give_cores
    rw [if_neg (by rw [hadd]; exact not_not.mpr hmax), if_neg (by rw [hst]; decide),
      if_neg (by rw [hst]; decide), if_neg (by rw [hst]; decide), if_pos hst]
  constructor
  · intro hb
    have hrun : __proc_give_cores_running s pcs = .ok (give_running_result s pcs) := by
      unfold __proc_give_cores_running
      simp only []
      rw [if_neg (by simpa [__seq_start_write, proc_incref] using hb)]
      rw [give_cores_running_loop_ok pcs]
      · simp [give_running_result, __seq_end_write, __seq_start_write, proc_incref,
          startcore_msg]
      · exact hlen
      · exact hnd
      · exact hun
    have hres : __proc_give_cores MAX_NUM_CPUS s pcs =
        .ok { give_running_result s pcs with
          amt_granted := sz_add (give_running_result s pcs).amt_granted pcs.length } := by
      rw [hpre, hrun]
    refine ⟨_, hres, rfl, rfl, hb, ?_, hadd2, rfl, ?_, ?_, rfl, hst⟩
    · intro p hp
      obtain ⟨v, pc⟩ := p
      constructor
      · exact vcoremap_after_mem _ _ v pc (by rw [hzl]; exact hnd) hp
      · exact pcoremap_after_mem _ _ v pc (by rw [hzr]; exact hpcs) hp
    · intro h
      show sz_add s.amt_granted pcs.length = _
      simp [sz_add, Nat.mod_eq_of_lt h]
    · show s.refcnt + ((pcs.length * 2 : Nat) : Int) = _
      push_cast; ring
  · intro hb
    rw [hpre]
    unfold __proc_give_cores_running
    simp only []
    rw [if_pos (by simpa [__seq_start_write, proc_incref] using hb)]
    exact ⟨_, rfl⟩

theorem give_cores_running_m_witness :
    (running_m_proc.bulk_preempted_vcs = [] →
      ∃ s1, __proc_give_cores 8 running_m_proc [9, 11] = .ok s1 ∧
        s1.online_vcs = running_m_proc.online_vcs ++ running_m_proc.inactive_vcs.take 2 ∧
        s1.inactive_vcs = running_m_proc.inactive_vcs.drop 2 ∧
        s1.bulk_preempted_vcs = [] ∧
        (∀ p ∈ (running_m_proc.inactive_vcs.take 2).zip [9, 11],
          s1.vcoremap p.1 = { running_m_proc.vcoremap p.1 with pcoreid := p.2, valid := true } ∧
          s1.pcoremap p.2 = { vcoreid := p.1, valid := true }) ∧
        s1.num_vcores = running_m_proc.num_vcores + 2 ∧
        s1.amt_granted = sz_add running_m_proc.amt_granted 2 ∧
        (running_m_proc.amt_granted + 2 < SIZE_MOD →
          s1.amt_granted = running_m_proc.amt_granted + 2) ∧
        s1.refcnt = running_m_proc.refcnt + 2 * ((2 : Nat) : Int) ∧
        s1.kmsgs = running_m_proc.kmsgs ++
          [9, 11].map (fun pc => ⟨pc, .startcore, some running_m_proc.pid, 0, 0, true⟩) ∧
        s1.state = PROC_RUNNING_M) ∧
    (running_m_proc.bulk_preempted_vcs ≠ [] →
      ∃ s1, __proc_give_cores 8 running_m_proc [9, 11] = .error (.assertion, s1)) :=
  give_cores_running_m 8 running_m_proc [9, 11] rfl (by decide) (by decide) (by decide)
    (by intro v hv; simp [running_m_proc] at hv; rcases hv with rfl | rfl <;> rfl)
    (by decide) (by decide)

/-! ## Core revocation -/

theorem u32_sub_small (a b : Nat) (h : b ≤ a) (ha : a < U32_MOD) : u32_sub a b = a - b := by
  unfold u32_sub U32_MOD at *
  omega

theorem sz_sub_small (a b : Nat) (h : b ≤ a) (ha : a < SIZE_MOD) : sz_sub a b = a - b := by
  unfold sz_sub SIZE_MOD at *
  omega

theorem unmap_loop_vcoreid (vs : List Nat) :
    ∀ (s : Sys) (pc : Nat),
      ((unmap_allcores_loop s vs).pcoremap pc).vcoreid = (s.pcoremap pc).vcoreid := by
  induction vs with
  | nil => intro s pc; rfl
  | cons v vs ih =>
    intro s pc
    simp only [unmap_allcores_loop]
    rw [ih]
    simp only [__unmap_vcore, upd]
    split_ifs with h
    · subst h; rfl
    · rfl

theorem unmap_loop_pcoreid (vs : List Nat) :
    ∀ (s : Sys) (v : Nat),
      ((unmap_allcores_loop s vs).vcoremap v).pcoreid = (s.vcoremap v).pcoreid := by
  induction vs with
  | nil => intro s v; rfl
  | cons a vs ih =>
    intro s v
    simp only [unmap_allcores_loop]
    rw [ih]
    simp only [__unmap_vcore, upd]
    split_ifs with h
    · subst h; rfl
    · rfl

theorem unmap_loop_valid_of_false (vs : List Nat) :
    ∀ (s : Sys),
      (∀ v, (s.vcoremap v).valid = false → ((unmap_allcores_loop s vs).vcoremap v).valid = false) ∧
      (∀ pc, (s.pcoremap pc).valid = false →
        ((unmap_allcores_loop s vs).pcoremap pc).valid = false) := by
  induction vs with
  | nil => intro s; exact ⟨fun _ h => h, fun _ h => h⟩
  | cons a vs ih =>
    intro s
    simp only [unmap_allcores_loop]
    constructor
    · intro v hv
      apply (ih _).1
      simp only [__unmap_vcore, upd]
      split_ifs with h
      · rfl
      · exact hv
    · intro pc hpc
      apply (ih _).2
      simp only [__unmap_vcore, upd]
      split_ifs with h
      · rfl
      · exact hpc

theorem unmap_loop_unmapped (vs : List Nat) :
    ∀ (s : Sys) (v : Nat), v ∈ vs →
      ((unmap_allcores_loop s vs).vcoremap v).valid = false ∧
      ((unmap_allcores_loop s vs).pcoremap (s.vcoremap v).pcoreid).valid = false := by
  induction vs with
  | nil => intro s v h; simp at h
  | cons a vs ih =>
    intro s v hv
    simp only [unmap_allcores_loop]
    rcases List.mem_cons.mp hv with rfl | h
    · constructor
      · apply (unmap_loop_valid_of_false vs _).1
        simp [__unmap_vcore, upd]
      · apply (unmap_loop_valid_of_false vs _).2
        simp [__unmap_vcore, upd]
    · have := ih (__unmap_vcore s a) v h
      refine ⟨this.1, ?_⟩
      have hp : ((__unmap_vcore s a).vcoremap v).pcoreid = (s.vcoremap v).pcoreid := by
        simp only [__unmap_vcore, upd]
        split_ifs with h1
        · subst h1; rfl
        · rfl
      rw [← hp]; exact this.2
theorem unmap_loop_congr (vs : List Nat) :
    ∀ (s t : Sys), s.vcoremap = t.vcoremap → s.pcoremap = t.pcoremap →
      (unmap_allcores_loop s vs).vcoremap = (unmap_allcores_loop t vs).vcoremap ∧
      (unmap_allcores_loop s vs).pcoremap = (unmap_allcores_loop t vs).pcoremap := by
  induction vs with
  | nil => intro s t h1 h2; exact ⟨h1, h2⟩
  | cons a vs ih =>
    intro s t h1 h2
    simp only [unmap_allcores_loop]
    apply ih
    · simp only [__unmap_vcore, h1]
    · simp only [__unmap_vcore, h1, h2]

theorem take_corelist_step_runnable (s : Sys) (pc : Nat) (preempt : Bool)
    (hst : s.state = PROC_RUNNABLE_M) (hp : (s.pcoremap pc).valid = true)
    (hv : (s.vcoremap (s.pcoremap pc).vcoreid).valid = true)
    (hvp : (s.vcoremap (s.pcoremap pc).vcoreid).pcoreid = pc)
    (hon : (s.pcoremap pc).vcoreid ∈ s.online_vcs) :
    take_corelist_step s pc preempt = .ok (take_step_runnable s pc) := by
  simp [take_corelist_step, get_vcoreid, is_mapped_vcore, hp, get_pcoreid, vcore_is_mapped, hv,
    try_get_pcoreid, hvp, hst, online_remove, __unmap_vcore, hon, inactive_insert_head,
    PROC_RUNNABLE_M, PROC_RUNNING_M, take_step_runnable]

theorem take_corelist_step_running (s : Sys) (pc : Nat) (preempt : Bool)
    (hst : s.state = PROC_RUNNING_M) (hp : (s.pcoremap pc).valid = true)
    (hv : (s.vcoremap (s.pcoremap pc).vcoreid).valid = true)
    (hvp : (s.vcoremap (s.pcoremap pc).vcoreid).pcoreid = pc)
    (hon : (s.pcoremap pc).vcoreid ∈ s.online_vcs) :
    take_corelist_step s pc preempt = .ok (take_step_running s pc preempt) := by
  cases preempt <;>
  simp [take_corelist_step, get_vcoreid, is_mapped_vcore, hp, get_pcoreid, vcore_is_mapped, hv,
    try_get_pcoreid, hvp, hst, online_remove, hon, inactive_insert_head, __proc_revoke_core,
    send_kernel_message, revoke_msg, vcpd_locked, take_step_running]

theorem take_corelist_loop_runnable (pcs : List Nat) (preempt : Bool) :
    ∀ s : Sys, s.state = PROC_RUNNABLE_M → pcs.Nodup →
      (∀ pc ∈ pcs, (s.pcoremap pc).valid = true ∧
        (s.vcoremap (s.pcoremap pc).vcoreid).valid = true ∧
        (s.vcoremap (s.pcoremap pc).vcoreid).pcoreid = pc ∧
        (s.pcoremap pc).vcoreid ∈ s.online_vcs) →
      take_corelist_loop s preempt pcs = .ok { s with
        online_vcs := s.online_vcs.diff (vcs_of s pcs)
        inactive_vcs := (vcs_of s pcs).reverse ++ s.inactive_vcs
        vcoremap := (unmap_allcores_loop s (vcs_of s pcs)).vcoremap
        pcoremap := (unmap_allcores_loop s (vcs_of s pcs)).pcoremap } := by
  induction pcs with
  | nil => intro s _ _ _; simp [take_corelist_loop, vcs_of, unmap_allcores_loop]
  | cons pc pcs ih =>
    intro s hst hnd h
    simp only [List.mem_cons, forall_eq_or_imp, List.nodup_cons] at h hnd
    obtain ⟨⟨hp, hv, hvp, hon⟩, hrest⟩ := h
    simp only [take_corelist_loop]
    rw [take_corelist_step_runnable s pc preempt hst hp hv hvp hon]
    simp only []
    have hvcs : vcs_of (take_step_runnable s pc) pcs = vcs_of s pcs := by
      simp only [vcs_of]
      apply List.map_congr_left
      intro q _
      simp only [take_step_runnable, __unmap_vcore, upd]
      split_ifs with h1
      · subst h1; rfl
      · rfl
    rw [ih]
    · have hc := unmap_loop_congr (vcs_of s pcs) (take_step_runnable s pc)
        (__unmap_vcore s (s.pcoremap pc).vcoreid) rfl rfl
      congr 1
      apply Sys.ext <;> try rfl
      · show (s.online_vcs.erase (s.pcoremap pc).vcoreid).diff (vcs_of _ pcs) = _
        rw [hvcs]; simp [vcs_of, List.diff_cons]
      · show (vcs_of _ pcs).reverse ++ ((s.pcoremap pc).vcoreid :: s.inactive_vcs) = _
        rw [hvcs]; simp [vcs_of]
      · show (unmap_allcores_loop _ (vcs_of _ pcs)).vcoremap = _
        rw [hvcs, hc.1]; rfl
      · show (unmap_allcores_loop _ (vcs_of _ pcs)).pcoremap = _
        rw [hvcs, hc.2]; rfl
    · exact hst
    · exact hnd.2
    · intro q hq
      obtain ⟨hp2, hv2, hvp2, hon2⟩ := hrest q hq
      have hqne : q ≠ pc := fun h => hnd.1 (h ▸ hq)
      have hvne : (s.pcoremap q).vcoreid ≠ (s.pcoremap pc).vcoreid := by
        intro h
        rw [h] at hvp2
        exact hqne (hvp2.symm.trans hvp)
      have e1 : (take_step_runnable s pc).pcoremap q = s.pcoremap q := by
        simp only [take_step_runnable, __unmap_vcore, upd, hvp, hqne, if_false]
      have e2 : (take_step_runnable s pc).vcoremap (s.pcoremap q).vcoreid =
          s.vcoremap (s.pcoremap q).vcoreid := by
        simp only [take_step_runnable, __unmap_vcore, upd, hvne, if_false]
      rw [e1, e2]
      exact ⟨hp2, hv2, hvp2, (List.mem_erase_of_ne hvne).mpr hon2⟩
theorem take_corelist_loop_running (pcs : List Nat) (preempt : Bool) :
    ∀ s : Sys, s.state = PROC_RUNNING_M → pcs.Nodup →
      (∀ pc ∈ pcs, (s.pcoremap pc).valid = true ∧
        (s.vcoremap (s.pcoremap pc).vcoreid).valid = true ∧
        (s.vcoremap (s.pcoremap pc).vcoreid).pcoreid = pc ∧
        (s.pcoremap pc).vcoreid ∈ s.online_vcs) →
      take_corelist_loop s preempt pcs = .ok { s with
        online_vcs := s.online_vcs.diff (vcs_of s pcs)
        inactive_vcs := (vcs_of s pcs).reverse ++ s.inactive_vcs
        kmsgs := s.kmsgs ++ pcs.map (revoke_msg s preempt)
        vcore_preempt_data :=
          if preempt then vcpd_locked s.vcore_preempt_data (vcs_of s pcs)
          else s.vcore_preempt_data } := by
  induction pcs with
  | nil =>
    intro s _ _ _
    cases preempt <;> simp [take_corelist_loop, vcs_of, vcpd_locked]
  | cons pc pcs ih =>
    intro s hst hnd h
    simp only [List.mem_cons, forall_eq_or_imp, List.nodup_cons] at h hnd
    obtain ⟨⟨hp, hv, hvp, hon⟩, hrest⟩ := h
    simp only [take_corelist_loop]
    rw [take_corelist_step_running s pc preempt hst hp hv hvp hon]
    simp only []
    have hvcs : vcs_of (take_step_running s pc preempt) pcs = vcs_of s pcs := rfl
    rw [ih]
    · congr 1
      apply Sys.ext <;> try rfl
      · show (s.online_vcs.erase (s.pcoremap pc).vcoreid).diff (vcs_of _ pcs) = _
        rw [hvcs]; simp [vcs_of, List.diff_cons]
      · show (vcs_of _ pcs).reverse ++ ((s.pcoremap pc).vcoreid :: s.inactive_vcs) = _
        rw [hvcs]; simp [vcs_of]
      · cases preempt <;> simp [take_step_running, vcs_of, vcpd_locked]
      · show (s.kmsgs ++ [revoke_msg s preempt pc]) ++ pcs.map (revoke_msg _ preempt) = _
        simp [revoke_msg, take_step_running]
    · exact hst
    · exact hnd.2
    · intro q hq
      obtain ⟨hp2, hv2, hvp2, hon2⟩ := hrest q hq
      have hqne : q ≠ pc := fun h => hnd.1 (h ▸ hq)
      have hvne : (s.pcoremap q).vcoreid ≠ (s.pcoremap pc).vcoreid := by
        intro h
        rw [h] at hvp2
        exact hqne (hvp2.symm.trans hvp)
      exact ⟨hp2, hv2, hvp2, (List.mem_erase_of_ne hvne).mpr hon2⟩

/-- C9: for a process in `RUNNABLE_M` or `RUNNING_M` and distinct pcores, each
mapped to an online vcore, `__proc_take_corelist` takes each of these vcores
off `online_vcs` and puts it at the head of `inactive_vcs` (the bulk-preempted
list is untouched, whatever `preempt` is), subtracts their number from
`num_vcores` and `amt_granted`, and for each pcore unmaps the vcore
(`RUNNABLE_M`) or sends one immediate message to the pcore (`RUNNING_M`):
`__preempt` when `preempt` is set, `__death` otherwise. -/
theorem take_corelist_moves_to_inactive (s : Sys) (pcs : List Nat) (preempt : Bool)
    (hst : s.state = PROC_RUNNABLE_M ∨ s.state = PROC_RUNNING_M) (hpcs : pcs.Nodup)
    (hmap : ∀ pc ∈ pcs, (s.pcoremap pc).valid = true ∧
      (s.vcoremap (s.pcoremap pc).vcoreid).valid = true ∧
      (s.vcoremap (s.pcoremap pc).vcoreid).pcoreid = pc ∧
      (s.pcoremap pc).vcoreid ∈ s.online_vcs) :
    ∃ s1, __proc_take_corelist s pcs preempt = .ok s1 ∧
      s1.online_vcs = s.online_vcs.diff (vcs_of s pcs) ∧
      (s.online_vcs.Nodup →
        ∀ v, v ∈ s1.online_vcs ↔ v ∈ s.online_vcs ∧ v ∉ vcs_of s pcs) ∧
      s1.inactive_vcs = (vcs_of s pcs).reverse ++ s.inactive_vcs ∧
      s1.bulk_preempted_vcs = s.bulk_preempted_vcs ∧
      s1.num_vcores = u32_sub s.num_vcores pcs.length ∧
      s1.amt_granted = sz_sub s.amt_granted pcs.length ∧
      (pcs.length ≤ s.num_vcores → s.num_vcores < U32_MOD →
        s1.num_vcores + pcs.length = s.num_vcores) ∧
      (pcs.length ≤ s.amt_granted → s.amt_granted < SIZE_MOD →
        s1.amt_granted + pcs.length = s.amt_granted) ∧
      (s.state = PROC_RUNNABLE_M →
        s1.kmsgs = s.kmsgs ∧
        ∀ pc ∈ pcs, (s1.pcoremap pc).valid = false ∧
          (s1.vcoremap (s.pcoremap pc).vcoreid).valid = false) ∧
      (s.state = PROC_RUNNING_M →
        s1.kmsgs = s.kmsgs ++ pcs.map (fun pc =>
          if preempt then ⟨pc, .preempt, some s.pid, 0, 0, true⟩
          else ⟨pc, .death, none, 0, 0, true⟩) ∧
        s1.vcoremap = s.vcoremap ∧ s1.pcoremap = s.pcoremap) := by
  have hsub1 : pcs.length ≤ s.num_vcores → s.num_vcores < U32_MOD →
      u32_sub s.num_vcores pcs.length + pcs.length = s.num_vcores := by
    intro h1 h2; rw [u32_sub_small _ _ h1 h2]; omega
  have hsub2 : pcs.length ≤ s.amt_granted → s.amt_granted < SIZE_MOD →
      sz_sub s.amt_granted pcs.length + pcs.length = s.amt_granted := by
    intro h1 h2; rw [sz_sub_small _ _ h1 h2]; omega
  have hne : PROC_RUNNABLE_M ≠ PROC_RUNNING_M := by decide
  rcases hst with hst | hst
  · have hloop := take_corelist_loop_runnable pcs preempt (__seq_start_write s) hst hpcs hmap
    have hres : __proc_take_corelist s pcs preempt = .ok (take_runnable_result s pcs) := by
      unfold __proc_take_corelist
      rw [hloop]
      rfl
    refine ⟨_, hres, rfl, ?_, rfl, rfl, rfl, rfl, hsub1, hsub2, ?_, ?_⟩
    · intro hnd v
      exact hnd.mem_diff_iff
    · intro _
      refine ⟨rfl, ?_⟩
      intro pc hpc
      have hv : (s.pcoremap pc).vcoreid ∈ vcs_of s pcs :=
        List.mem_map.mpr ⟨pc, hpc, rfl⟩
      have := unmap_loop_unmapped (vcs_of s pcs) (__seq_start_write s) _ hv
      have hp := (hmap pc hpc).2.2.1
      constructor
      · have h2 := this.2
        rw [show ((__seq_start_write s).vcoremap (s.pcoremap pc).vcoreid).pcoreid = pc from hp] at h2
        exact h2
      · exact this.1
    · intro h; rw [hst] at h; exact absurd h hne
  · have hloop := take_corelist_loop_running pcs preempt (__seq_start_write s) hst hpcs hmap
    have hres : __proc_take_corelist s pcs preempt = .ok (take_running_result s pcs preempt) := by
      unfold __proc_take_corelist
      rw [hloop]
      rfl
    refine ⟨_, hres, rfl, ?_, rfl, rfl, rfl, rfl, hsub1, hsub2, ?_, ?_⟩
    · intro hnd v
      exact hnd.mem_diff_iff
    · intro h; rw [hst] at h; exact absurd h.symm hne
    · intro _
      refine ⟨?_, rfl, rfl⟩
      show s.kmsgs ++ pcs.map (revoke_msg (__seq_start_write s) preempt) = _
      congr 1

theorem take_corelist_moves_to_inactive_witness :
    ∃ s1, __proc_take_corelist running_m_proc [5] true = .ok s1 ∧
      s1.online_vcs = running_m_proc.online_vcs.diff (vcs_of running_m_proc [5]) ∧
      (running_m_proc.online_vcs.Nodup →
        ∀ v, v ∈ s1.online_vcs ↔ v ∈ running_m_proc.online_vcs ∧ v ∉ vcs_of running_m_proc [5]) ∧
      s1.inactive_vcs = (vcs_of running_m_proc [5]).reverse ++ running_m_proc.inactive_vcs ∧
      s1.bulk_preempted_vcs = running_m_proc.bulk_preempted_vcs ∧
      s1.num_vcores = u32_sub running_m_proc.num_vcores 1 ∧
      s1.amt_granted = sz_sub running_m_proc.amt_granted 1 ∧
      (1 ≤ running_m_proc.num_vcores → running_m_proc.num_vcores < U32_MOD →
        s1.num_vcores + 1 = running_m_proc.num_vcores) ∧
      (1 ≤ running_m_proc.amt_granted → running_m_proc.amt_granted < SIZE_MOD →
        s1.amt_granted + 1 = running_m_proc.amt_granted) ∧
      (running_m_proc.state = PROC_RUNNABLE_M →
        s1.kmsgs = running_m_proc.kmsgs ∧
        ∀ pc ∈ [5], (s1.pcoremap pc).valid = false ∧
          (s1.vcoremap (running_m_proc.pcoremap pc).vcoreid).valid = false) ∧
      (running_m_proc.state = PROC_RUNNING_M →
        s1.kmsgs = running_m_proc.kmsgs ++ [5].map (fun pc =>
          if true then ⟨pc, .preempt, some running_m_proc.pid, 0, 0, true⟩
          else ⟨pc, .death, none, 0, 0, true⟩) ∧
        s1.vcoremap = running_m_proc.vcoremap ∧ s1.pcoremap = running_m_proc.pcoremap) :=
  take_corelist_moves_to_inactive running_m_proc [5] true (Or.inr rfl) (by decide)
    (by intro pc hpc; simp at hpc; subst hpc; exact ⟨rfl, rfl, rfl, by decide⟩)

/-! ## Grant and revoke round trip -/

theorem give_cores_runnable_eq (MAX_NUM_CPUS : Nat) (s : Sys) (pcs : List Nat)
    (hst : s.state = PROC_RUNNABLE_M) (hne : pcs ≠ [])
    (hlen : pcs.length ≤ (s.bulk_preempted_vcs ++ s.inactive_vcs).length)
    (hnd : (next_vcs s pcs.length).Nodup)
    (hun : ∀ v ∈ next_vcs s pcs.length, (s.vcoremap v).valid = false)
    (hmax : pcs.length + s.num_vcores ≤ MAX_NUM_CPUS) (hM : MAX_NUM_CPUS < U32_MOD) :
    __proc_give_cores MAX_NUM_CPUS s pcs =
      .ok { give_runnable_result s pcs with
        amt_granted := sz_add (give_runnable_result s pcs).amt_granted pcs.length } := by
  have hlen0 : pcs.length ≠ 0 := by
    intro h; exact hne (List.length_eq_zero.mp h)
  have hadd : u32_add pcs.length s.num_vcores = pcs.length + s.num_vcores :=
    u32_add_small _ _ (lt_of_le_of_lt hmax hM)
  have hrun : __proc_give_cores_runnable s pcs = .ok (give_runnable_result s pcs) := by
    unfold __proc_give_cores_runnable
    rw [if_neg (not_not.mpr hst), if_neg hlen0]
    simp only []
    rw [give_cores_runnable_loop_ok pcs]
    · rfl
    · exact hlen
    · exact hnd
    · exact hun
  unfold __proc_give_cores
  rw [if_neg (by rw [hadd]; exact not_not.mpr hmax), if_neg (by rw [hst]; decide),
    if_neg (by rw [hst]; decide), if_pos hst, hrun]

theorem give_cores_running_eq (MAX_NUM_CPUS : Nat) (s : Sys) (pcs : List Nat)
    (hst : s.state = PROC_RUNNING_M) (hb : s.bulk_preempted_vcs = [])
    (hlen : pcs.length ≤ s.inactive_vcs.length)
    (hnd : (s.inactive_vcs.take pcs.length).Nodup)
    (hun : ∀ v ∈ s.inactive_vcs.take pcs.length, (s.vcoremap v).valid = false)
    (hmax : pcs.length + s.num_vcores ≤ MAX_NUM_CPUS) (hM : MAX_NUM_CPUS < U32_MOD) :
    __proc_give_cores MAX_NUM_CPUS s pcs =
      .ok { give_running_result s pcs with
        amt_granted := sz_add (give_running_result s pcs).amt_granted pcs.length } := by
  have hadd : u32_add pcs.length s.num_vcores = pcs.length + s.num_vcores :=
    u32_add_small _ _ (lt_of_le_of_lt hmax hM)
  have hrun : __proc_give_cores_running s pcs = .ok (give_running_result s pcs) := by
    unfold __proc_give_cores_running
    simp only []
    rw [if_neg (by simpa [__seq_start_write, proc_incref] using hb)]
    rw [give_cores_running_loop_ok pcs]
    · simp [give_running_result, __seq_end_write, __seq_start_write, proc_incref,
        startcore_msg]
    · exact hlen
    · exact hnd
    · exact hun
  unfold __proc_give_cores
  rw [if_neg (by rw [hadd]; exact not_not.mpr hmax), if_neg (by rw [hst]; decide),
    if_neg (by rw [hst]; decide), if_neg (by rw [hst]; decide), if_pos hst, hrun]

theorem take_corelist_runnable_eq (s : Sys) (pcs : List Nat) (preempt : Bool)
    (hst : s.state = PROC_RUNNABLE_M) (hpcs : pcs.Nodup)
    (hmap : ∀ pc ∈ pcs, (s.pcoremap pc).valid = true ∧
      (s.vcoremap (s.pcoremap pc).vcoreid).valid = true ∧
      (s.vcoremap (s.pcoremap pc).vcoreid).pcoreid = pc ∧
      (s.pcoremap pc).vcoreid ∈ s.online_vcs) :
    __proc_take_corelist s pcs preempt = .ok (take_runnable_result s pcs) := by
  have hloop := take_corelist_loop_runnable pcs preempt (__seq_start_write s) hst hpcs hmap
  unfold __proc_take_corelist
  rw [hloop]
  rfl

theorem take_corelist_running_eq (s : Sys) (pcs : List Nat) (preempt : Bool)
    (hst : s.state = PROC_RUNNING_M) (hpcs : pcs.Nodup)
    (hmap : ∀ pc ∈ pcs, (s.pcoremap pc).valid = true ∧
      (s.vcoremap (s.pcoremap pc).vcoreid).valid = true ∧
      (s.vcoremap (s.pcoremap pc).vcoreid).pcoreid = pc ∧
      (s.pcoremap pc).vcoreid ∈ s.online_vcs) :
    __proc_take_corelist s pcs preempt = .ok (take_running_result s pcs preempt) := by
  have hloop := take_corelist_loop_running pcs preempt (__seq_start_write s) hst hpcs hmap
  unfold __proc_take_corelist
  rw [hloop]
  rfl

/-- C10, as stated, fails: on a `RUNNABLE_M` process whose bulk-preempted list holds
vcore 2, granting pcore 9 and revoking it again leaves vcore 2 on the inactive
list, not on the bulk-preempted list it was on before. -/
theorem give_take_moves_bulk_vcore :
    runnable_m_proc.state = PROC_RUNNABLE_M ∧
    runnable_m_proc.bulk_preempted_vcs = [2] ∧ runnable_m_proc.inactive_vcs = [0, 1, 3] ∧
    (runnable_m_proc.pcoremap 9).valid = false ∧
    ((__proc_give_cores 8 runnable_m_proc [9]).toOption.bind
      (fun s1 => (__proc_take_corelist s1 [9] false).toOption)).map
        (fun s2 => (s2.bulk_preempted_vcs, s2.inactive_vcs)) = some ([], [2, 0, 1, 3]) := by
  refine ⟨rfl, rfl, rfl, rfl, ?_⟩
  rfl

/-- C10, amended: for a process in `RUNNABLE_M` or `RUNNING_M` that can accept one
more core (`v` is the next vcore to be granted, unmapped and not online) and
any pcore `pc`, `__proc_give_cores(p, [pc], 1)` followed by
`__proc_take_corelist(p, [pc], 1, false)` restores `num_vcores` and the online
list; it restores the bulk-preempted and inactive lists when the bulk-preempted
list is empty, and otherwise moves the head of the bulk-preempted list to the
head of the inactive list. -/
theorem give_take_round_trip (MAX_NUM_CPUS : Nat) (s : Sys) (pc v : Nat) (rest : List Nat)
    (hst : s.state = PROC_RUNNABLE_M ∨ s.state = PROC_RUNNING_M)
    (hnext : s.bulk_preempted_vcs ++ s.inactive_vcs = v :: rest)
    (hv : (s.vcoremap v).valid = false) (hvon : v ∉ s.online_vcs)
    (hrun : s.state = PROC_RUNNING_M → s.bulk_preempted_vcs = [])
    (hmax : 1 + s.num_vcores ≤ MAX_NUM_CPUS) (hM : MAX_NUM_CPUS < U32_MOD) :
    ∃ s1 s2, __proc_give_cores MAX_NUM_CPUS s [pc] = .ok s1 ∧
      __proc_take_corelist s1 [pc] false = .ok s2 ∧
      s2.num_vcores = s.num_vcores ∧ s2.online_vcs = s.online_vcs ∧
      (s.bulk_preempted_vcs = [] →
        s2.bulk_preempted_vcs = [] ∧ s2.inactive_vcs = s.inactive_vcs) ∧
      (s.bulk_preempted_vcs ≠ [] →
        s2.bulk_preempted_vcs = s.bulk_preempted_vcs.tail ∧
        s2.inactive_vcs = v :: s.inactive_vcs) := by
  have hnum : u32_sub (u32_add s.num_vcores 1) 1 = s.num_vcores := by
    have : s.num_vcores + 1 < U32_MOD := by omega
    rw [u32_add_small _ _ this, u32_sub_small _ _ (by omega) this]
    omega
  have hnv : next_vcs s 1 = [v] := by simp [next_vcs, hnext]
  have hon : (s.online_vcs ++ [v]).diff [v] = s.online_vcs := by
    simp [List.diff_cons, List.erase_append_right _ hvon]
  have hlen : ([pc] : List Nat).length ≤ (s.bulk_preempted_vcs ++ s.inactive_vcs).length := by
    simp [hnext]
  rcases hst with hst | hst
  · have hg := give_cores_runnable_eq MAX_NUM_CPUS s [pc] hst (by simp) hlen
      (by simp [hnv]) (by simpa [hnv] using hv) (by simpa using hmax) hM
    have ht := take_corelist_runnable_eq _ [pc] false
      (show ({ give_runnable_result s [pc] with
        amt_granted := sz_add (give_runnable_result s [pc]).amt_granted
          ([pc] : List Nat).length } : Sys).state = PROC_RUNNABLE_M from hst)
      (by simp)
      (by
        intro q hq
        simp only [List.mem_singleton] at hq
        subst hq
        simp [give_runnable_result, hnv, pcoremap_after, vcoremap_after, upd])
    refine ⟨_, _, hg, ht, ?_, ?_, ?_, ?_⟩
    · simpa [take_runnable_result, give_runnable_result] using hnum
    · simpa [take_runnable_result, give_runnable_result, vcs_of, hnv, pcoremap_after, upd]
        using hon
    · intro hb
      rw [hb] at hnext
      simp only [List.nil_append] at hnext
      simp [take_runnable_result, give_runnable_result, vcs_of, hnv, pcoremap_after, upd, hb,
        hnext]
    · intro hb
      obtain ⟨b, bs, hbs⟩ := List.exists_cons_of_ne_nil hb
      have hvb : v = b := by
        rw [hbs] at hnext
        simp only [List.cons_append, List.cons.injEq] at hnext
        exact hnext.1.symm
      simp [take_runnable_result, give_runnable_result, vcs_of, hnv, pcoremap_after, upd, hbs,
        hvb]
  · have hb := hrun hst
    have hi : s.inactive_vcs = v :: rest := by simpa [hb] using hnext
    have hg := give_cores_running_eq MAX_NUM_CPUS s [pc] hst hb (by simp [hi])
      (by simp [hi]) (by simpa [hi] using hv) (by simpa using hmax) hM
    have ht := take_corelist_running_eq _ [pc] false
      (show ({ give_running_result s [pc] with
        amt_granted := sz_add (give_running_result s [pc]).amt_granted
          ([pc] : List Nat).length } : Sys).state = PROC_RUNNING_M from hst)
      (by simp)
      (by
        intro q hq
        simp only [List.mem_singleton] at hq
        subst hq
        simp [give_running_result, hi, pcoremap_after, vcoremap_after, upd])
    refine ⟨_, _, hg, ht, ?_, ?_, ?_, ?_⟩
    · simpa [take_running_result, give_running_result] using hnum
    · simpa [take_running_result, give_running_result, vcs_of, hi, pcoremap_after, upd]
        using hon
    · intro _
      simp [take_running_result, give_running_result, vcs_of, hi, pcoremap_after, upd, hb]
    · intro h; exact absurd hb h

theorem give_take_round_trip_witness :
    ∃ s1 s2, __proc_give_cores 8 runnable_m_proc [9] = .ok s1 ∧
      __proc_take_corelist s1 [9] false = .ok s2 ∧
      s2.num_vcores = runnable_m_proc.num_vcores ∧
      s2.online_vcs = runnable_m_proc.online_vcs ∧
      (runnable_m_proc.bulk_preempted_vcs = [] →
        s2.bulk_preempted_vcs = [] ∧ s2.inactive_vcs = runnable_m_proc.inactive_vcs) ∧
      (runnable_m_proc.bulk_preempted_vcs ≠ [] →
        s2.bulk_preempted_vcs = runnable_m_proc.bulk_preempted_vcs.tail ∧
        s2.inactive_vcs = 2 :: runnable_m_proc.inactive_vcs) :=
  give_take_round_trip 8 runnable_m_proc 9 2 [0, 1, 3] (Or.inl rfl) rfl rfl (by decide)
    (by intro h; exact absurd h (by decide)) (by decide) (by decide)

/-! ## Effects of the per-core and reference-counting helpers -/

theorem set_state_ok {s s1 : Sys} {t : Nat} (h : __proc_set_state s t = .ok s1) :
    s1 = { s with state := t } := by
  unfold __proc_set_state fault at h
  simp only [] at h
  split_ifs at h <;> exact (Except.ok.inj h).symm

theorem proc_free_core {s s1 : Sys} (h : __proc_free s = .ok s1) : core s1 = core s := by
  unfold __proc_free fault at h
  split_ifs at h
  rw [← Except.ok.inj h]; rfl

theorem proc_decref_core {s s1 : Sys} {q : Nat} (h : proc_decref s q = .ok s1) :
    core s1 = core s := by
  unfold proc_decref at h
  simp only [] at h
  split_ifs at h
  · exact (proc_free_core h).trans rfl
  · rw [← Except.ok.inj h]; rfl
  · rw [← Except.ok.inj h]; rfl

theorem clear_owning_proc_core {s s1 : Sys} {c : Nat} (h : clear_owning_proc s c = .ok s1) :
    core s1 = core s := by
  unfold clear_owning_proc fault at h
  simp only [] at h
  split at h
  · cases h
  · exact (proc_decref_core h).trans rfl

theorem abandon_core_core {s s1 : Sys} {c : Nat} (h : abandon_core s c = .ok s1) :
    core s1 = core s := by
  unfold abandon_core at h
  simp only [] at h
  split_ifs at h
  · unfold __abandon_core fault at h
    split at h
    · cases h
    · split at h
      · cases h
      · rename_i s2 h2
        rw [← Except.ok.inj h]
        exact (proc_decref_core h2).trans rfl
  · rw [← Except.ok.inj h]; rfl

theorem out_yield_core_core {s s1 : Sys} {c : Nat} (h : out_yield_core s c = .ok s1) :
    core s1 = core s := by
  unfold out_yield_core at h
  split at h
  · cases h
  · rename_i s2 h2
    split at h
    · cases h
    · rename_i s3 h3
      exact (abandon_core_core h).trans ((clear_owning_proc_core h3).trans (proc_decref_core h2))

theorem set_proc_current_core {s s1 : Sys} {c : Nat} (h : __set_proc_current s c = .ok s1) :
    core s1 = core s := by
  unfold __set_proc_current at h
  simp only [] at h
  split_ifs at h
  · split at h
    · cases h
    · rename_i s2 h2
      rw [← Except.ok.inj h]
      split at h2
      · exact (proc_decref_core h2).trans rfl
      · rw [← Except.ok.inj h2]; rfl
  · rw [← Except.ok.inj h]

theorem set_curtf_core {s s1 : Sys} {c v : Nat} (h : __set_curtf_to_vcoreid s c v = .ok s1) :
    core s1 = core s := by
  unfold __set_curtf_to_vcoreid fault at h
  simp only [] at h
  split_ifs at h <;> (rw [← Except.ok.inj h]; rfl)

/-! ## The three lists keep the same vcores -/

theorem map_vcore_inv {s s1 : Sys} {v pc : Nat} (h : __map_vcore s v pc = .ok s1) :
    (s.vcoremap v).valid = false ∧ s1 = { s with
      vcoremap := upd s.vcoremap v { s.vcoremap v with pcoreid := pc, valid := true }
      pcoremap := upd s.pcoremap pc { vcoreid := v, valid := true } } := by
  unfold __map_vcore fault at h
  split_ifs at h with hv
  exact ⟨by simpa using hv, (Except.ok.inj h).symm⟩

theorem online_remove_inv {s s1 : Sys} {v : Nat} (hv : v ∈ s.online_vcs)
    (h : online_remove s v = .ok s1) :
    s1 = { s with online_vcs := s.online_vcs.erase v } := by
  unfold online_remove at h
  rw [if_pos hv] at h
  exact (Except.ok.inj h).symm

theorem inactive_remove_inv {s s1 : Sys} {v : Nat} (hv : v ∈ s.inactive_vcs)
    (h : inactive_remove s v = .ok s1) :
    s1 = { s with inactive_vcs := s.inactive_vcs.erase v } := by
  unfold inactive_remove at h
  rw [if_pos hv] at h
  exact (Except.ok.inj h).symm

theorem bulk_remove_inv {s s1 : Sys} {v : Nat} (hv : v ∈ s.bulk_preempted_vcs)
    (h : bulk_remove s v = .ok s1) :
    s1 = { s with bulk_preempted_vcs := s.bulk_preempted_vcs.erase v } := by
  unfold bulk_remove at h
  rw [if_pos hv] at h
  exact (Except.ok.inj h).symm

/-- Whatever list the entry is unlinked from, a `TAILQ_REMOVE` that the run is
followed through changes the three lists and nothing else. -/
theorem online_remove_frame {s s1 : Sys} {v : Nat} (h : online_remove s v = .ok s1) :
    ∃ o b i, s1 = { s with online_vcs := o, bulk_preempted_vcs := b, inactive_vcs := i } := by
  unfold online_remove fault at h
  split_ifs at h <;> exact ⟨_, _, _, (Except.ok.inj h).symm⟩

theorem bulk_remove_frame {s s1 : Sys} {v : Nat} (h : bulk_remove s v = .ok s1) :
    ∃ o b i, s1 = { s with online_vcs := o, bulk_preempted_vcs := b, inactive_vcs := i } := by
  unfold bulk_remove fault at h
  split_ifs at h <;> exact ⟨_, _, _, (Except.ok.inj h).symm⟩

/-- A `TAILQ_REMOVE` that the run is followed through never ends in a panic. -/
theorem online_remove_err {s s1 : Sys} {v : Nat} {f : Fault}
    (h : online_remove s v = .error (f, s1)) : f = .tailq ∨ f = .null_deref := by
  unfold online_remove fault at h
  split_ifs at h
  · exact Or.inl (congrArg Prod.fst (Except.error.inj h)).symm
  · exact Or.inr (congrArg Prod.fst (Except.error.inj h)).symm

theorem give_a_pcore_inv {s s1 : Sys} {pc : Nat} {l : VcList} {b : Bool}
    (h : __proc_give_a_pcore s pc l = .ok (b, s1)) :
    (b = false ∧ s1 = s ∧ vc_list_get s l = []) ∨
    (b = true ∧ ∃ v rest, vc_list_get s l = v :: rest ∧ (s.vcoremap v).valid = false ∧
      s1 = { (online_insert_tail (vc_list_set s l rest) v) with
        vcoremap := upd s.vcoremap v { s.vcoremap v with pcoreid := pc, valid := true }
        pcoremap := upd s.pcoremap pc { vcoreid := v, valid := true } }) := by
  unfold __proc_give_a_pcore at h
  split at h
  · rename_i hl
    have := Except.ok.inj h
    simp only [Prod.mk.injEq] at this
    exact Or.inl ⟨this.1.symm, this.2.symm, hl⟩
  · rename_i v rest hl
    split at h
    · rename_i s2 hm
      have := Except.ok.inj h
      simp only [Prod.mk.injEq] at this
      obtain ⟨hv, hs2⟩ := map_vcore_inv hm
      refine Or.inr ⟨this.1.symm, v, rest, hl, ?_, ?_⟩
      · cases l <;> simpa [online_insert_tail, vc_list_set] using hv
      · rw [← this.2, hs2]
        cases l <;> rfl
    · cases h

theorem perm_move_to_online (l0 l1 l2 : List Nat) (v : Nat) (rest : List Nat) :
    ((l0 ++ [v]) ++ (rest ++ l2)).Perm (l0 ++ ((v :: rest) ++ l2)) ∧
    ((l0 ++ [v]) ++ (l1 ++ rest)).Perm (l0 ++ (l1 ++ (v :: rest))) := by
  constructor
  · simp
  · simp only [List.append_assoc, List.singleton_append]
    apply List.Perm.append_left
    have hm : (l1 ++ v :: rest).Perm (v :: (l1 ++ rest)) := List.perm_middle
    exact hm.symm

theorem give_a_pcore_perm {s s1 : Sys} {pc : Nat} {l : VcList} {b : Bool}
    (h : __proc_give_a_pcore s pc l = .ok (b, s1)) : (all_vcs s1).Perm (all_vcs s) := by
  rcases give_a_pcore_inv h with ⟨_, rfl, _⟩ | ⟨_, v, rest, hl, _, rfl⟩
  · exact List.Perm.refl _
  · cases l
    · have hb : s.bulk_preempted_vcs = v :: rest := hl
      simp only [all_vcs, online_insert_tail, vc_list_set, hb]
      exact (perm_move_to_online _ [] _ v rest).1
    · have hi : s.inactive_vcs = v :: rest := hl
      simp only [all_vcs, online_insert_tail, vc_list_set, hi]
      exact (perm_move_to_online _ _ [] v rest).2

theorem give_cores_runnable_loop_perm (pcs : List Nat) :
    ∀ {s s1 : Sys}, give_cores_runnable_loop s pcs = .ok s1 → (all_vcs s1).Perm (all_vcs s) := by
  induction pcs with
  | nil => intro s s1 h; rw [← Except.ok.inj h]
  | cons pc pcs ih =>
    intro s s1 h
    simp only [give_cores_runnable_loop] at h
    split at h
    · cases h
    · rename_i s2 h2
      exact (ih h).trans (give_a_pcore_perm h2)
    · rename_i s2 h2
      split at h
      · cases h
      · rename_i s3 h3
        exact (ih h).trans ((give_a_pcore_perm h3).trans (give_a_pcore_perm h2))
      · cases h

theorem give_cores_running_loop_perm (pcs : List Nat) :
    ∀ {s s1 : Sys}, give_cores_running_loop s pcs = .ok s1 → (all_vcs s1).Perm (all_vcs s) := by
  induction pcs with
  | nil => intro s s1 h; rw [← Except.ok.inj h]
  | cons pc pcs ih =>
    intro s s1 h
    simp only [give_cores_running_loop] at h
    split at h
    · cases h
    · cases h
    · rename_i s2 h2
      have h3 : (all_vcs s1).Perm
          (all_vcs (send_kernel_message s2 pc Handler.startcore (some s2.pid))) := ih h
      have h4 : (all_vcs s1).Perm (all_vcs s2) := h3
      exact h4.trans (give_a_pcore_perm h2)

theorem put_idle_cores_core (pcs : List Nat) : ∀ s : Sys, core (put_idle_cores s pcs) = core s := by
  induction pcs with
  | nil => intro s; rfl
  | cons pc pcs ih => intro s; simp only [put_idle_cores]; rw [ih]; rfl

theorem all_vcs_of_core {s t : Sys} (h : core s = core t) : all_vcs s = all_vcs t := by
  have h1 := congrArg Core.online h
  have h2 := congrArg Core.bulk h
  have h3 := congrArg Core.inactive h
  simp only [core] at h1 h2 h3
  simp only [all_vcs, h1, h2, h3]

theorem give_cores_perm {M : Nat} {s s1 : Sys} {pcs : List Nat}
    (h : __proc_give_cores M s pcs = .ok s1) : (all_vcs s1).Perm (all_vcs s) := by
  unfold __proc_give_cores fault at h
  split_ifs at h
  · rw [← Except.ok.inj h, all_vcs_of_core (put_idle_cores_core pcs s)]
  · split at h
    · cases h
    · rename_i s2 h2
      have hs := Except.ok.inj h
      subst hs
      unfold __proc_give_cores_runnable fault at h2
      split_ifs at h2
      simp only [] at h2
      split at h2
      · cases h2
      · rename_i s3 h3
        have hs := Except.ok.inj h2
        subst hs
        have := give_cores_runnable_loop_perm pcs h3
        exact this
  · split at h
    · cases h
    · rename_i s2 h2
      have hs := Except.ok.inj h
      subst hs
      unfold __proc_give_cores_running fault at h2
      simp only [] at h2
      split_ifs at h2
      split at h2
      · cases h2
      · rename_i s3 h3
        have hs := Except.ok.inj h2
        subst hs
        have := give_cores_running_loop_perm pcs h3
        exact this

/-! ## Moves on the lists and maps, and the invariant -/

theorem Core.unmap_p_inv (c : Core) (v : Nat)
    (h : ∀ p, (c.pmap p).valid = true →
      c.vvalid (c.pmap p).vcoreid = true ∧ c.vpcore (c.pmap p).vcoreid = p) :
    ∀ p, ((c.unmap v).pmap p).valid = true →
      (c.unmap v).vvalid ((c.unmap v).pmap p).vcoreid = true ∧
      (c.unmap v).vpcore ((c.unmap v).pmap p).vcoreid = p := by
  intro p hp
  simp only [Core.unmap, upd] at hp ⊢
  by_cases hpv : p = c.vpcore v
  · simp [hpv] at hp
  · simp only [hpv, if_false] at hp ⊢
    obtain ⟨h1, h2⟩ := h p hp
    have hne : (c.pmap p).vcoreid ≠ v := by
      intro e; rw [e] at h2; exact hpv h2.symm
    simp only [hne, if_false]
    exact ⟨h1, h2⟩

theorem Core.map_p_inv (c : Core) (v pc : Nat) (hv : c.vvalid v = false)
    (h : ∀ p, (c.pmap p).valid = true →
      c.vvalid (c.pmap p).vcoreid = true ∧ c.vpcore (c.pmap p).vcoreid = p) :
    ∀ p, ((c.map v pc).pmap p).valid = true →
      (c.map v pc).vvalid ((c.map v pc).pmap p).vcoreid = true ∧
      (c.map v pc).vpcore ((c.map v pc).pmap p).vcoreid = p := by
  intro p hp
  simp only [Core.map, upd] at hp ⊢
  by_cases hpv : p = pc
  · subst hpv; simp
  · simp only [hpv, if_false] at hp ⊢
    obtain ⟨h1, h2⟩ := h p hp
    have hne : (c.pmap p).vcoreid ≠ v := by
      intro e; rw [e, hv] at h1; exact absurd h1 (by decide)
    simp only [hne, if_false]
    exact ⟨h1, h2⟩

theorem perm_online_to_list (l0 l1 l2 : List Nat) (v : Nat) (hv : v ∈ l0) :
    (l0.erase v ++ (l1 ++ v :: l2)).Perm (l0 ++ (l1 ++ l2)) := by
  have h1 : (l0.erase v ++ (l1 ++ v :: l2)).Perm (v :: (l0.erase v ++ (l1 ++ l2))) := by
    rw [← List.append_assoc, ← List.append_assoc]
    exact List.perm_middle
  exact h1.trans ((List.perm_cons_erase hv).symm.append_right _)

theorem perm_list_to_online (l0 l1 l2 : List Nat) (v : Nat) :
    (v ∈ l1 → ((l0 ++ [v]) ++ (l1.erase v ++ l2)).Perm (l0 ++ (l1 ++ l2))) ∧
    (v ∈ l2 → ((l0 ++ [v]) ++ (l1 ++ l2.erase v)).Perm (l0 ++ (l1 ++ l2))) := by
  constructor
  · intro hv
    rw [List.append_assoc]
    apply List.Perm.append_left
    exact ((List.perm_cons_erase hv).symm.append_right l2)
  · intro hv
    rw [List.append_assoc]
    apply List.Perm.append_left
    have h1 : ([v] ++ (l1 ++ l2.erase v)).Perm (l1 ++ v :: l2.erase v) := by
      simp only [List.singleton_append]
      have hm : (l1 ++ v :: l2.erase v).Perm (v :: (l1 ++ l2.erase v)) := List.perm_middle
      exact hm.symm
    exact h1.trans ((List.perm_cons_erase hv).symm.append_left l1)

theorem Core.give_all_perm (c : Core) (l : VcList) (v pc : Nat) (hl : v ∈ c.list l) :
    (c.give l v pc).all.Perm c.all := by
  cases l
  · exact (perm_list_to_online c.online c.bulk c.inactive v).1 hl
  · exact (perm_list_to_online c.online c.bulk c.inactive v).2 hl

theorem InvL.give {n : Nat} {c : Core} (hc : InvL n c) (l : VcList) (v pc : Nat)
    (hst : c.state = PROC_RUNNABLE_M ∨ c.state = PROC_RUNNING_M)
    (hl : v ∈ c.list l) (hv : c.vvalid v = false) (hpc : (c.pmap pc).valid = false) :
    InvL n (c.give l v pc) := by
  have hperm := Core.give_all_perm c l v pc hl
  have hstate : (c.give l v pc).state = c.state := by cases l <;> rfl
  have honl : (c.give l v pc).online = c.online ++ [v] := by cases l <;> rfl
  have hrev : (c.give l v pc).revokes = c.revokes := by cases l <;> rfl
  have hmcp : (c.give l v pc).is_mcp = c.is_mcp := by cases l <;> rfl
  have hvv : (c.give l v pc).vvalid = upd c.vvalid v true := by cases l <;> rfl
  have hvp : (c.give l v pc).vpcore = upd c.vpcore v pc := by cases l <;> rfl
  have hpm : (c.give l v pc).pmap = upd c.pmap pc ⟨v, true⟩ := by cases l <;> rfl
  have hdy : c.state ≠ PROC_DYING := by
    rcases hst with h | h <;> rw [h] <;> decide
  refine ⟨hperm.nodup_iff.mpr hc.nodup, hperm.length_eq.trans hc.len, ?_, ?_, ?_, ?_, ?_, ?_⟩
  · rw [hstate]
    rcases hst with h | h
    · exact Or.inl h
    · exact Or.inr (Or.inl h)
  · intro w hw
    rw [honl] at hw
    rw [hvv, hvp, hpm]
    rcases List.mem_append.mp hw with hw | hw
    · obtain ⟨h1, h2⟩ := hc.on_valid w hw
      have hne : w ≠ v := by intro e; rw [e, hv] at h1; exact absurd h1 (by decide)
      have hne2 : c.vpcore w ≠ pc := by
        intro e; rw [e] at h2; rw [h2] at hpc; simp at hpc
      simp only [upd, hne, hne2, if_false]
      exact ⟨h1, h2⟩
    · simp only [List.mem_singleton] at hw
      subst hw
      simp [upd]
  · have := Core.map_p_inv c v pc hv hc.p_inv
    intro p hp
    have h1 := this p (by simpa [hpm, Core.map] using hp)
    simpa [hvv, hvp, hpm, Core.map] using h1
  · rw [hstate, hrev, honl, hpm]
    rcases hc.rev with h | ⟨h1, h2⟩
    · exact absurd h hdy
    · refine Or.inr ⟨h1, ?_⟩
      intro p hp
      obtain ⟨h3, h4⟩ := h2 p hp
      have hne : p ≠ pc := by intro e; rw [e, hpc] at h3; exact absurd h3 (by decide)
      simp only [upd, hne, if_false]
      refine ⟨h3, ?_⟩
      intro hm
      rcases List.mem_append.mp hm with hm | hm
      · exact h4 hm
      · simp only [List.mem_singleton] at hm
        have := (hc.p_inv p h3).1
        rw [hm, hv] at this
        exact absurd this (by decide)
  · rw [hstate, hmcp]; exact hc.mcp
  · rw [hstate, hrev]; exact hc.s_rev

theorem state_m_not_dying {st : Nat} (h : st = PROC_RUNNABLE_M ∨ st = PROC_RUNNING_M) :
    st ≠ PROC_DYING ∧ st ≠ PROC_CREATED ∧ st ≠ PROC_RUNNABLE_S ∧ st ≠ PROC_RUNNING_S ∧
    st ≠ PROC_WAITING := by
  rcases h with h | h <;> subst h <;> decide

theorem InvL.state_m_of_online {n : Nat} {c : Core} (hc : InvL n c) {v : Nat}
    (hv : v ∈ c.online) : c.state = PROC_RUNNABLE_M ∨ c.state = PROC_RUNNING_M := by
  rcases hc.on_m with h | h | h
  · exact Or.inl h
  · exact Or.inr h
  · rw [h] at hv; simp at hv

theorem InvL.online_nodup {n : Nat} {c : Core} (hc : InvL n c) : c.online.Nodup :=
  (List.nodup_append.mp hc.nodup).1

theorem InvL.take_unmap {n : Nat} {c : Core} (hc : InvL n c) (pc : Nat)
    (hp : (c.pmap pc).valid = true) (hon : (c.pmap pc).vcoreid ∈ c.online) :
    InvL n (c.take_unmap pc) := by
  obtain ⟨hvv, hvp⟩ := hc.p_inv pc hp
  have hst := hc.state_m_of_online hon
  have hnd := hc.online_nodup
  have hperm : (c.take_unmap pc).all.Perm c.all :=
    perm_online_to_list c.online c.bulk c.inactive _ hon
  have hpne : ∀ w ∈ c.online, w ≠ (c.pmap pc).vcoreid → c.vpcore w ≠ pc := by
    intro w hw hne e
    have := (hc.on_valid w hw).2
    rw [e] at this
    rw [this] at hne
    exact hne rfl
  refine ⟨hperm.nodup_iff.mpr hc.nodup, hperm.length_eq.trans hc.len, ?_, ?_, ?_, ?_, hc.mcp,
    hc.s_rev⟩
  · rcases hst with h | h
    · exact Or.inl h
    · exact Or.inr (Or.inl h)
  · intro w hw
    have hw2 : w ∈ c.online.erase (c.pmap pc).vcoreid := hw
    obtain ⟨hne, hwo⟩ := (hnd.mem_erase_iff).mp hw2
    obtain ⟨h1, h2⟩ := hc.on_valid w hwo
    have hne2 := hpne w hwo hne
    simp only [Core.take_unmap, Core.unmap, upd, hvp, hne, hne2, if_false]
    exact ⟨h1, h2⟩
  · exact Core.unmap_p_inv _ _ hc.p_inv
  · rcases hc.rev with h | ⟨h1, h2⟩
    · exact absurd h (state_m_not_dying hst).1
    · refine Or.inr ⟨h1, ?_⟩
      intro p hpr
      obtain ⟨h3, h4⟩ := h2 p hpr
      have hne : p ≠ pc := by intro e; rw [e] at h4; exact h4 hon
      simp only [Core.take_unmap, Core.unmap, upd, hvp, hne, if_false]
      exact ⟨h3, fun hm => h4 (List.mem_of_mem_erase hm)⟩

theorem InvL.take_revoke {n : Nat} {c : Core} (hc : InvL n c) (pc : Nat)
    (hp : (c.pmap pc).valid = true) (hon : (c.pmap pc).vcoreid ∈ c.online) :
    InvL n (c.take_revoke pc) := by
  have hst := hc.state_m_of_online hon
  have hnd := hc.online_nodup
  have hperm : (c.take_revoke pc).all.Perm c.all :=
    perm_online_to_list c.online c.bulk c.inactive _ hon
  refine ⟨hperm.nodup_iff.mpr hc.nodup, hperm.length_eq.trans hc.len, ?_, ?_, hc.p_inv, ?_,
    hc.mcp, ?_⟩
  · rcases hst with h | h
    · exact Or.inl h
    · exact Or.inr (Or.inl h)
  · intro w hw
    exact hc.on_valid w (List.mem_of_mem_erase hw)
  · rcases hc.rev with h | ⟨h1, h2⟩
    · exact absurd h (state_m_not_dying hst).1
    · have hpc : pc ∉ c.revokes := fun h => (h2 pc h).2 hon
      refine Or.inr ⟨?_, ?_⟩
      · show (c.revokes ++ [pc]).Nodup
        rw [List.nodup_append]
        refine ⟨h1, List.nodup_singleton pc, ?_⟩
        intro a ha hb
        simp only [List.mem_singleton] at hb
        subst hb; exact hpc ha
      · intro p hpr
        have hpr2 : p ∈ c.revokes ++ [pc] := hpr
        rcases List.mem_append.mp hpr2 with h | h
        · obtain ⟨h3, h4⟩ := h2 p h
          exact ⟨h3, fun hm => h4 (List.mem_of_mem_erase hm)⟩
        · simp only [List.mem_singleton] at h
          subst h
          exact ⟨hp, fun hm => ((hnd.mem_erase_iff).mp hm).1 rfl⟩
  · intro h
    have := state_m_not_dying hst
    rcases h with h | h | h
    · exact absurd h this.2.1
    · exact absurd h this.2.2.1
    · exact absurd h this.2.2.2.1

theorem Core.move_all_perm (c : Core) (preempt : Bool) : (c.move_all preempt).all.Perm c.all := by
  cases preempt
  · simp only [Core.move_all, Core.all, Bool.false_eq_true, if_false, List.nil_append]
    have h1 : (c.bulk ++ (c.online.reverse ++ c.inactive)).Perm
        (c.online.reverse ++ (c.bulk ++ c.inactive)) := by
      rw [← List.append_assoc, ← List.append_assoc]
      exact List.perm_append_comm.append_right _
    exact h1.trans ((List.reverse_perm c.online).append_right _)
  · simp only [Core.move_all, Core.all, if_true, List.nil_append, List.append_assoc]
    exact (List.reverse_perm c.online).append_right _

theorem Core.unmap_list_fields (vs : List Nat) : ∀ c : Core,
    (c.unmap_list vs).state = c.state ∧ (c.unmap_list vs).online = c.online ∧
    (c.unmap_list vs).bulk = c.bulk ∧ (c.unmap_list vs).inactive = c.inactive ∧
    (c.unmap_list vs).num_vcores = c.num_vcores ∧ (c.unmap_list vs).is_mcp = c.is_mcp ∧
    (c.unmap_list vs).revokes = c.revokes ∧ (c.unmap_list vs).vpcore = c.vpcore := by
  induction vs with
  | nil => intro c; exact ⟨rfl, rfl, rfl, rfl, rfl, rfl, rfl, rfl⟩
  | cons v vs ih => intro c; exact ih (c.unmap v)

theorem Core.unmap_list_p_inv (vs : List Nat) : ∀ c : Core,
    (∀ p, (c.pmap p).valid = true →
      c.vvalid (c.pmap p).vcoreid = true ∧ c.vpcore (c.pmap p).vcoreid = p) →
    ∀ p, ((c.unmap_list vs).pmap p).valid = true →
      (c.unmap_list vs).vvalid ((c.unmap_list vs).pmap p).vcoreid = true ∧
      (c.unmap_list vs).vpcore ((c.unmap_list vs).pmap p).vcoreid = p := by
  induction vs with
  | nil => intro c h; exact h
  | cons v vs ih => intro c h; exact ih (c.unmap v) (Core.unmap_p_inv c v h)

theorem Core.unmap_list_pmap (vs : List Nat) : ∀ (c : Core) (p : Nat),
    (∀ v ∈ vs, c.vpcore v ≠ p) → (c.unmap_list vs).pmap p = c.pmap p := by
  induction vs with
  | nil => intro c p _; rfl
  | cons v vs ih =>
    intro c p h
    simp only [List.mem_cons, forall_eq_or_imp] at h
    simp only [Core.unmap_list]
    rw [ih (c.unmap v) p h.2]
    simp only [Core.unmap, upd]
    rw [if_neg (fun e => h.1 e.symm)]

theorem InvL.move_unmap_all {n : Nat} {c : Core} (hc : InvL n c) (preempt : Bool) :
    InvL n ((c.unmap_list c.online).move_all preempt) := by
  obtain ⟨f1, f2, f3, f4, -, f6, f7, f8⟩ := Core.unmap_list_fields c.online c
  have hall : (c.unmap_list c.online).all = c.all := by simp only [Core.all, f2, f3, f4]
  have hperm := (Core.move_all_perm (c.unmap_list c.online) preempt)
  rw [hall] at hperm
  have hstate : ((c.unmap_list c.online).move_all preempt).state = c.state := by
    cases preempt <;> exact f1
  have honl : ((c.unmap_list c.online).move_all preempt).online = [] := by
    cases preempt <;> rfl
  have hrev : ((c.unmap_list c.online).move_all preempt).revokes = c.revokes := by
    cases preempt <;> exact f7
  have hmcp : ((c.unmap_list c.online).move_all preempt).is_mcp = c.is_mcp := by
    cases preempt <;> exact f6
  have hpm : ((c.unmap_list c.online).move_all preempt).pmap = (c.unmap_list c.online).pmap := by
    cases preempt <;> rfl
  have hvv : ((c.unmap_list c.online).move_all preempt).vvalid =
      (c.unmap_list c.online).vvalid := by
    cases preempt <;> rfl
  have hvp : ((c.unmap_list c.online).move_all preempt).vpcore =
      (c.unmap_list c.online).vpcore := by
    cases preempt <;> rfl
  refine ⟨hperm.nodup_iff.mpr hc.nodup, hperm.length_eq.trans hc.len, ?_, ?_, ?_, ?_, ?_, ?_⟩
  · exact Or.inr (Or.inr honl)
  · intro w hw; rw [honl] at hw; simp at hw
  · rw [hpm, hvv, hvp]
    exact Core.unmap_list_p_inv c.online c hc.p_inv
  · rw [hstate, hrev, honl, hpm]
    rcases hc.rev with h | ⟨h1, h2⟩
    · exact Or.inl h
    · refine Or.inr ⟨h1, ?_⟩
      intro p hp
      obtain ⟨h3, h4⟩ := h2 p hp
      rw [Core.unmap_list_pmap c.online c p]
      · exact ⟨h3, by simp⟩
      · intro v hv e
        have := (hc.on_valid v hv).2
        rw [e] at this
        rw [this] at h4
        exact h4 hv
  · rw [hstate, hmcp]; exact hc.mcp
  · rw [hstate, hrev]; exact hc.s_rev

theorem InvL.move_revoke_all {n : Nat} {c : Core} (hc : InvL n c) (preempt : Bool)
    (hst : c.state = PROC_RUNNING_M) :
    InvL n (Core.move_all { c with revokes := c.revokes ++ c.online.map c.vpcore } preempt) := by
  have hperm := (Core.move_all_perm
    ({ c with revokes := c.revokes ++ c.online.map c.vpcore } : Core) preempt)
  have hall : ({ c with revokes := c.revokes ++ c.online.map c.vpcore } : Core).all = c.all := rfl
  rw [hall] at hperm
  have hnd := hc.online_nodup
  have hdy := (state_m_not_dying (Or.inr hst)).1
  refine ⟨hperm.nodup_iff.mpr hc.nodup, hperm.length_eq.trans hc.len, ?_, ?_, ?_, ?_, ?_, ?_⟩
  · cases preempt <;> exact Or.inr (Or.inr rfl)
  · intro w hw; cases preempt <;> simp [Core.move_all] at hw
  · cases preempt <;> exact hc.p_inv
  · rcases hc.rev with h | ⟨h1, h2⟩
    · exact absurd h hdy
    · have key : (c.revokes ++ c.online.map c.vpcore).Nodup ∧
          ∀ p ∈ c.revokes ++ c.online.map c.vpcore, (c.pmap p).valid = true := by
        constructor
        · rw [List.nodup_append]
          refine ⟨h1, ?_, ?_⟩
          · apply List.Nodup.map_on _ hnd
            intro x hx y hy e
            have hx2 := (hc.on_valid x hx).2
            have hy2 := (hc.on_valid y hy).2
            rw [e, hy2] at hx2
            exact (congrArg Pcore.vcoreid hx2).symm
          · intro a ha hb
            obtain ⟨v, hv, rfl⟩ := List.mem_map.mp hb
            have := (hc.on_valid v hv).2
            have h4 := (h2 _ ha).2
            rw [this] at h4
            exact h4 hv
        · intro p hp
          rcases List.mem_append.mp hp with h | h
          · exact (h2 p h).1
          · obtain ⟨v, hv, rfl⟩ := List.mem_map.mp h
            rw [(hc.on_valid v hv).2]
      cases preempt
      · exact Or.inr ⟨key.1, fun p hp => ⟨key.2 p hp, by simp [Core.move_all]⟩⟩
      · exact Or.inr ⟨key.1, fun p hp => ⟨key.2 p hp, by simp [Core.move_all]⟩⟩
  · cases preempt <;> exact hc.mcp
  · intro h
    have h2 : c.state = PROC_CREATED ∨ c.state = PROC_RUNNABLE_S ∨ c.state = PROC_RUNNING_S := by
      cases preempt <;> exact h
    have := state_m_not_dying (Or.inr hst)
    rcases h2 with h | h | h
    · exact absurd h this.2.1
    · exact absurd h this.2.2.1
    · exact absurd h this.2.2.2.1

theorem InvL.set_state {n : Nat} {c : Core} (hc : InvL n c) (t : Nat)
    (h1 : t = PROC_RUNNABLE_M ∨ t = PROC_RUNNING_M ∨ c.online = [])
    (h2 : t = PROC_DYING ∨ c.state ≠ PROC_DYING)
    (h3 : t = PROC_RUNNABLE_M ∨ t = PROC_RUNNING_M ∨ t = PROC_WAITING → c.is_mcp = true)
    (h4 : t = PROC_CREATED ∨ t = PROC_RUNNABLE_S ∨ t = PROC_RUNNING_S → c.revokes = []) :
    InvL n { c with state := t } := by
  refine ⟨hc.nodup, hc.len, h1, hc.on_valid, hc.p_inv, ?_, h3, h4⟩
  rcases h2 with h | h
  · exact Or.inl h
  · rcases hc.rev with h5 | h5
    · exact absurd h5 h
    · exact Or.inr h5

theorem InvL.set_num {n : Nat} {c : Core} (hc : InvL n c) (k : Nat) :
    InvL n { c with num_vcores := k } :=
  ⟨hc.nodup, hc.len, hc.on_m, hc.on_valid, hc.p_inv, hc.rev, hc.mcp, hc.s_rev⟩

theorem InvL.set_mcp {n : Nat} {c : Core} (hc : InvL n c) :
    InvL n { c with is_mcp := true } :=
  ⟨hc.nodup, hc.len, hc.on_m, hc.on_valid, hc.p_inv, hc.rev, fun _ => rfl, hc.s_rev⟩

theorem InvL.drain {n : Nat} {c : Core} (hc : InvL n c) :
    InvL n { c with bulk := [], inactive := c.bulk.reverse ++ c.inactive } := by
  have hperm : (c.online ++ ([] ++ (c.bulk.reverse ++ c.inactive))).Perm c.all := by
    simp only [Core.all, List.nil_append]
    apply List.Perm.append_left
    exact (List.reverse_perm c.bulk).append_right _
  exact ⟨hperm.nodup_iff.mpr hc.nodup, hperm.length_eq.trans hc.len, hc.on_m, hc.on_valid,
    hc.p_inv, hc.rev, hc.mcp, hc.s_rev⟩

theorem InvL.map_offline {n : Nat} {c : Core} (hc : InvL n c) (v pc : Nat)
    (hon : c.online = []) (hv : c.vvalid v = false) : InvL n (c.map v pc) := by
  refine ⟨hc.nodup, hc.len, hc.on_m, ?_, Core.map_p_inv c v pc hv hc.p_inv, ?_, hc.mcp,
    hc.s_rev⟩
  · intro w hw
    have : w ∈ c.online := hw
    rw [hon] at this; simp at this
  · rcases hc.rev with h | ⟨h1, h2⟩
    · exact Or.inl h
    · refine Or.inr ⟨h1, ?_⟩
      intro p hp
      have hno : ∀ x, x ∉ (c.map v pc).online := by
        intro x hx
        have : x ∈ c.online := hx
        rw [hon] at this; simp at this
      refine ⟨?_, hno _⟩
      simp only [Core.map, upd]
      split_ifs
      · rfl
      · exact (h2 p hp).1

theorem InvL.unmap_offline {n : Nat} {c : Core} (hc : InvL n c) (v : Nat)
    (hon : c.online = []) (hrev : c.revokes = []) : InvL n (c.unmap v) := by
  refine ⟨hc.nodup, hc.len, hc.on_m, ?_, Core.unmap_p_inv c v hc.p_inv, ?_, hc.mcp, hc.s_rev⟩
  · intro w hw
    have : w ∈ c.online := hw
    rw [hon] at this; simp at this
  · refine Or.inr ⟨?_, ?_⟩
    · show c.revokes.Nodup
      rw [hrev]; exact List.nodup_nil
    · intro p hp
      have : p ∈ c.revokes := hp
      rw [hrev] at this; simp at this

theorem InvL.add_revoke_dying {n : Nat} {c : Core} (hc : InvL n c) (pc : Nat)
    (hon : c.online = []) :
    InvL n { c with revokes := c.revokes ++ [pc], state := PROC_DYING } := by
  refine ⟨hc.nodup, hc.len, Or.inr (Or.inr hon), hc.on_valid, hc.p_inv, Or.inl rfl, ?_, ?_⟩
  · intro h
    have h2 : PROC_DYING = PROC_RUNNABLE_M ∨ PROC_DYING = PROC_RUNNING_M ∨
        PROC_DYING = PROC_WAITING := h
    exact absurd h2 (by decide)
  · intro h
    have h2 : PROC_DYING = PROC_CREATED ∨ PROC_DYING = PROC_RUNNABLE_S ∨
        PROC_DYING = PROC_RUNNING_S := h
    exact absurd h2 (by decide)

theorem InvL.drop_revoke {n : Nat} {c : Core} (hc : InvL n c) (pre post : List Nat) (pc : Nat)
    (hr : c.revokes = pre ++ pc :: post) :
    InvL n { c with revokes := pre ++ post } := by
  have hsub : (pre ++ post).Sublist c.revokes := by
    rw [hr]; exact List.Sublist.append_left (List.sublist_cons_self pc post) pre
  refine ⟨hc.nodup, hc.len, hc.on_m, hc.on_valid, hc.p_inv, ?_, hc.mcp, ?_⟩
  · rcases hc.rev with h | ⟨h1, h2⟩
    · exact Or.inl h
    · exact Or.inr ⟨h1.sublist hsub, fun p hp => h2 p (hsub.subset hp)⟩
  · intro h
    have := hc.s_rev h
    rw [hr] at this
    simp at this

theorem InvL.handler_unmap {n : Nat} {c : Core} (hc : InvL n c) (pre post : List Nat) (pc : Nat)
    (hr : c.revokes = pre ++ pc :: post) (hp : (c.pmap pc).valid = true) :
    InvL n (Core.unmap { c with revokes := pre ++ post } (c.pmap pc).vcoreid) := by
  obtain ⟨hvv, hvp⟩ := hc.p_inv pc hp
  have hd := hc.drop_revoke pre post pc hr
  have hmem : pc ∈ c.revokes := by rw [hr]; simp
  refine ⟨hc.nodup, hc.len, hc.on_m, ?_, Core.unmap_p_inv _ _ hd.p_inv, ?_, hc.mcp, hd.s_rev⟩
  · intro w hw
    have hwo : w ∈ c.online := hw
    obtain ⟨h1, h2⟩ := hc.on_valid w hwo
    have hst := hc.state_m_of_online hwo
    rcases hc.rev with h | ⟨h3, h4⟩
    · exact absurd h (state_m_not_dying hst).1
    · have hv := (h4 pc hmem).2
      have hne : w ≠ (c.pmap pc).vcoreid := fun e => hv (e ▸ hwo)
      have hne2 : c.vpcore w ≠ pc := by
        intro e; rw [e] at h2; rw [h2] at hne; exact hne rfl
      simp only [Core.unmap, upd, hvp, hne, hne2, if_false]
      exact ⟨h1, h2⟩
  · rcases hc.rev with h | ⟨h3, h4⟩
    · exact Or.inl h
    · have hnd : (pre ++ pc :: post).Nodup := hr ▸ h3
      have hnd2 : (pre ++ post).Nodup :=
        hnd.sublist (List.Sublist.append_left (List.sublist_cons_self pc post) pre)
      refine Or.inr ⟨hnd2, ?_⟩
      intro p hpp
      have hpp2 : p ∈ pre ++ post := hpp
      have hne : p ≠ pc := by
        intro e
        subst e
        have := List.nodup_middle.mp hnd
        exact (List.nodup_cons.mp this).1 hpp2
      have hpr : p ∈ c.revokes := by
        rw [hr]
        rcases List.mem_append.mp hpp2 with h | h
        · exact List.mem_append_left _ h
        · exact List.mem_append_right _ (List.mem_cons_of_mem _ h)
      obtain ⟨h5, h6⟩ := h4 p hpr
      simp only [Core.unmap, upd, hvp, hne, if_false]
      exact ⟨h5, h6⟩

/-! ## Effects of the operations on the lists and maps -/

theorem core_unmap (s : Sys) (v : Nat) : core (__unmap_vcore s v) = (core s).unmap v := by
  simp only [core, __unmap_vcore, Core.unmap, revokes, Core.mk.injEq, true_and, and_true]
  constructor <;> funext x <;> simp only [upd] <;> split_ifs with h <;>
    first | rfl | (subst h; rfl)

theorem core_map {s s1 : Sys} {v pc : Nat} (h : __map_vcore s v pc = .ok s1) :
    (core s).vvalid v = false ∧ core s1 = (core s).map v pc := by
  obtain ⟨hv, rfl⟩ := map_vcore_inv h
  refine ⟨hv, ?_⟩
  simp only [core, Core.map, revokes, Core.mk.injEq, true_and, and_true]
  constructor <;> funext x <;> simp only [upd] <;> split_ifs <;> rfl

theorem revokes_append (s : Sys) (m : KMsg) :
    revokes { s with kmsgs := s.kmsgs ++ [m] } =
      if is_revoke m then revokes s ++ [m.dst] else revokes s := by
  simp only [revokes, List.filter_append, List.map_append]
  cases h : is_revoke m <;> simp [List.filter, h]

theorem core_send_revoke (s : Sys) (dst : Nat) (h : Handler) (a0 : Option Nat)
    (hh : h = .preempt ∨ h = .death) :
    core (send_kernel_message s dst h a0) =
      { core s with revokes := (core s).revokes ++ [dst] } := by
  have : is_revoke ⟨dst, h, a0, 0, 0, true⟩ = true := by
    rcases hh with rfl | rfl <;> rfl
  simp only [core, send_kernel_message, revokes_append, this, if_true]

theorem core_send_other (s : Sys) (dst : Nat) (h : Handler) (a0 : Option Nat)
    (hh : h = .startcore ∨ h = .notify ∨ h = .tlbshootdown) :
    core (send_kernel_message s dst h a0) = core s := by
  have : is_revoke ⟨dst, h, a0, 0, 0, true⟩ = false := by
    rcases hh with rfl | rfl | rfl <;> rfl
  simp only [core, send_kernel_message, revokes_append, this]
  rfl

theorem core_set_vcore (s : Sys) (v : Nat) (vc : Vcore)
    (h1 : vc.valid = (s.vcoremap v).valid) (h2 : vc.pcoreid = (s.vcoremap v).pcoreid) :
    core (set_vcore s v vc) = core s := by
  simp only [core, set_vcore, revokes, Core.mk.injEq, true_and, and_true]
  constructor <;> funext x <;> simp only [upd] <;> split_ifs with h <;>
    first | rfl | (subst h; assumption)

theorem revoke_core_core {s s1 : Sys} {v : Nat} {preempt : Bool}
    (h : __proc_revoke_core s v preempt = .ok s1) :
    (core s).vvalid v = true ∧
    core s1 = { core s with revokes := (core s).revokes ++ [(core s).vpcore v] } := by
  unfold __proc_revoke_core get_pcoreid fault at h
  split at h
  · cases h
  · rename_i pcoreid hp
    split_ifs at hp with hv
    have hpc := Except.ok.inj hp
    refine ⟨hv, ?_⟩
    split_ifs at h
    · rw [← Except.ok.inj h, core_send_revoke _ _ _ _ (Or.inl rfl), ← hpc]
      rfl
    · rw [← Except.ok.inj h, core_send_revoke _ _ _ _ (Or.inr rfl), ← hpc]
      rfl

theorem take_corelist_step_core {s s1 : Sys} {pc : Nat} {preempt : Bool}
    (hdisc : (s.pcoremap pc).vcoreid ∈ s.online_vcs)
    (h : take_corelist_step s pc preempt = .ok s1) :
    ((core s).pmap pc).valid = true ∧ ((core s).pmap pc).vcoreid ∈ (core s).online ∧
    (core s).vpcore ((core s).pmap pc).vcoreid = pc ∧
    ((s.state = PROC_RUNNING_M ∧ core s1 = (core s).take_revoke pc) ∨
     (s.state = PROC_RUNNABLE_M ∧ core s1 = (core s).take_unmap pc)) := by
  unfold take_corelist_step get_vcoreid get_pcoreid fault at h
  by_cases hpv : is_mapped_vcore s pc = true
  · rw [if_pos hpv] at h
    simp only [] at h
    by_cases hvv : vcore_is_mapped s (s.pcoremap pc).vcoreid = true
    · rw [if_pos hvv] at h
      simp only [] at h
      by_cases hne : pc ≠ try_get_pcoreid s (s.pcoremap pc).vcoreid
      · rw [if_pos hne] at h; cases h
      · rw [if_neg hne] at h
        have hpceq : (s.vcoremap (s.pcoremap pc).vcoreid).pcoreid = pc := (not_not.mp hne).symm
        split at h
        · cases h
        · rename_i s2 hrev
          split at h
          · cases h
          · rename_i s3 hrem
            have hon2 : s2.online_vcs = s.online_vcs := by
              by_cases hst : s.state = PROC_RUNNING_M
              · rw [if_pos hst] at hrev
                exact congrArg Core.online (revoke_core_core hrev).2
              · rw [if_neg hst] at hrev
                by_cases hst2 : s.state ≠ PROC_RUNNABLE_M
                · rw [if_pos hst2] at hrev; cases hrev
                · rw [if_neg hst2] at hrev
                  rw [← Except.ok.inj hrev]; rfl
            have hmem : (s.pcoremap pc).vcoreid ∈ s2.online_vcs := by rw [hon2]; exact hdisc
            have e3 := online_remove_inv hmem hrem
            subst e3
            have hs1 := Except.ok.inj h
            subst hs1
            by_cases hst : s.state = PROC_RUNNING_M
            · rw [if_pos hst] at hrev
              obtain ⟨_, hc2⟩ := revoke_core_core hrev
              have hon : s2.online_vcs = s.online_vcs := congrArg Core.online hc2
              rw [hon] at hmem
              refine ⟨hpv, hmem, hpceq, Or.inl ⟨hst, ?_⟩⟩
              have e1 : core (inactive_insert_head
                  { s2 with online_vcs := s2.online_vcs.erase (s.pcoremap pc).vcoreid }
                  (s.pcoremap pc).vcoreid) =
                  { core s2 with
                    online := (core s2).online.erase (s.pcoremap pc).vcoreid
                    inactive := (s.pcoremap pc).vcoreid :: (core s2).inactive } := rfl
              have hpceq2 : (core s).vpcore (s.pcoremap pc).vcoreid = pc := hpceq
              rw [e1, hc2, hpceq2]
              rfl
            · rw [if_neg hst] at hrev
              by_cases hst2 : s.state ≠ PROC_RUNNABLE_M
              · rw [if_pos hst2] at hrev; cases hrev
              · rw [if_neg hst2] at hrev
                have hs2 := Except.ok.inj hrev
                subst hs2
                refine ⟨hpv, hmem, hpceq, Or.inr ⟨not_not.mp hst2, ?_⟩⟩
                have e1 : core (inactive_insert_head
                    { __unmap_vcore s (s.pcoremap pc).vcoreid with
                      online_vcs := (__unmap_vcore s (s.pcoremap pc).vcoreid).online_vcs.erase
                        (s.pcoremap pc).vcoreid }
                    (s.pcoremap pc).vcoreid) =
                    { core (__unmap_vcore s (s.pcoremap pc).vcoreid) with
                      online := (core s).online.erase (s.pcoremap pc).vcoreid
                      inactive := (s.pcoremap pc).vcoreid :: (core s).inactive } := rfl
                rw [e1, core_unmap]
                rfl
    · rw [if_neg hvv] at h; cases h
  · rw [if_neg hpv] at h; cases h

theorem InvL.online_le {n : Nat} {c : Core} (hc : InvL n c) : c.online.length ≤ n := by
  have := hc.len
  simp only [Core.all, List.length_append] at this
  omega

theorem Core.take_revoke_facts (c : Core) (pc : Nat) (hon : (c.pmap pc).vcoreid ∈ c.online) :
    (c.take_revoke pc).all.Perm c.all ∧ (c.take_revoke pc).state = c.state ∧
    (c.take_revoke pc).num_vcores = c.num_vcores ∧
    (c.take_revoke pc).online.length + 1 = c.online.length := by
  refine ⟨perm_online_to_list c.online c.bulk c.inactive _ hon, rfl, rfl, ?_⟩
  show (c.online.erase _).length + 1 = _
  rw [List.length_erase_of_mem hon]
  have := List.length_pos_of_mem hon
  omega

theorem Core.take_unmap_facts (c : Core) (pc : Nat) (hon : (c.pmap pc).vcoreid ∈ c.online) :
    (c.take_unmap pc).all.Perm c.all ∧ (c.take_unmap pc).state = c.state ∧
    (c.take_unmap pc).num_vcores = c.num_vcores ∧
    (c.take_unmap pc).online.length + 1 = c.online.length := by
  refine ⟨perm_online_to_list c.online c.bulk c.inactive _ hon, rfl, rfl, ?_⟩
  show (c.online.erase _).length + 1 = _
  rw [List.length_erase_of_mem hon]
  have := List.length_pos_of_mem hon
  omega

theorem take_corelist_step_keeps {s s1 : Sys} {pc : Nat} {preempt : Bool}
    (hdisc : (s.pcoremap pc).vcoreid ∈ s.online_vcs)
    (h : take_corelist_step s pc preempt = .ok s1) :
    s1.online_vcs = s.online_vcs.erase (s.pcoremap pc).vcoreid ∧
    ∀ q, (s1.pcoremap q).vcoreid = (s.pcoremap q).vcoreid := by
  obtain ⟨_, _, _, h2⟩ := take_corelist_step_core hdisc h
  rcases h2 with ⟨_, hc⟩ | ⟨_, hc⟩
  · exact ⟨congrArg Core.online hc, fun q => congrArg (fun c => (c.pmap q).vcoreid) hc⟩
  · refine ⟨congrArg Core.online hc, fun q => ?_⟩
    have e := congrArg (fun c => (c.pmap q).vcoreid) hc
    simp only [Core.take_unmap, Core.unmap, upd] at e
    split_ifs at e with hq
    · rw [hq] at e ⊢; exact e
    · exact e

theorem take_corelist_step_facts {s s1 : Sys} {pc : Nat} {preempt : Bool}
    (hdisc : (s.pcoremap pc).vcoreid ∈ s.online_vcs)
    (h : take_corelist_step s pc preempt = .ok s1) :
    (core s1).all.Perm (core s).all ∧ (core s1).state = (core s).state ∧
    (core s1).num_vcores = (core s).num_vcores ∧
    (core s1).online.length + 1 = (core s).online.length ∧
    (∀ n, InvL n (core s) → InvL n (core s1)) := by
  obtain ⟨hp, hon, _, h2⟩ := take_corelist_step_core hdisc h
  rcases h2 with ⟨_, hc⟩ | ⟨_, hc⟩
  · rw [hc]
    obtain ⟨f1, f2, f3, f4⟩ := Core.take_revoke_facts (core s) pc hon
    exact ⟨f1, f2, f3, f4, fun n hi => hi.take_revoke pc hp hon⟩
  · rw [hc]
    obtain ⟨f1, f2, f3, f4⟩ := Core.take_unmap_facts (core s) pc hon
    exact ⟨f1, f2, f3, f4, fun n hi => hi.take_unmap pc hp hon⟩

theorem take_corelist_loop_facts (preempt : Bool) (pcs : List Nat) :
    ∀ {s s1 : Sys}, take_list_online s pcs → take_corelist_loop s preempt pcs = .ok s1 →
      (core s1).all.Perm (core s).all ∧ (core s1).state = (core s).state ∧
      (core s1).num_vcores = (core s).num_vcores ∧
      (core s1).online.length + pcs.length = (core s).online.length ∧
      (∀ n, InvL n (core s) → InvL n (core s1)) := by
  induction pcs with
  | nil =>
    intro s s1 _ h
    rw [← Except.ok.inj h]
    exact ⟨List.Perm.refl _, rfl, rfl, rfl, fun _ hi => hi⟩
  | cons pc pcs ih =>
    intro s s1 hd h
    simp only [take_corelist_loop] at h
    split at h
    · cases h
    · rename_i s2 h2
      have hnd : (s.pcoremap pc).vcoreid ∉ vcs_of s pcs ∧ (vcs_of s pcs).Nodup :=
        List.nodup_cons.mp hd.1
      have hv : (s.pcoremap pc).vcoreid ∈ s.online_vcs := hd.2 _ (List.mem_cons_self _ _)
      obtain ⟨k1, k2⟩ := take_corelist_step_keeps hv h2
      have ev : vcs_of s2 pcs = vcs_of s pcs := List.map_congr_left (fun q _ => k2 q)
      have hd2 : take_list_online s2 pcs := by
        unfold take_list_online
        rw [ev, k1]
        refine ⟨hnd.2, fun w hw => ?_⟩
        exact (List.mem_erase_of_ne (ne_of_mem_of_not_mem hw hnd.1)).mpr
          (hd.2 w (List.mem_cons_of_mem _ hw))
      obtain ⟨f1, f2, f3, f4, f5⟩ := take_corelist_step_facts hv h2
      obtain ⟨g1, g2, g3, g4, g5⟩ := ih hd2 h
      refine ⟨g1.trans f1, g2.trans f2, g3.trans f3, ?_, fun n hi => g5 n (f5 n hi)⟩
      simp only [List.length_cons]
      omega

theorem take_corelist_facts {s s1 : Sys} {pcs : List Nat} {preempt : Bool}
    (hd : take_list_online s pcs)
    (h : __proc_take_corelist s pcs preempt = .ok s1) :
    (core s1).all.Perm (core s).all ∧ (core s1).state = (core s).state ∧
    (core s1).num_vcores = u32_sub (core s).num_vcores pcs.length ∧
    (core s1).online.length + pcs.length = (core s).online.length ∧
    (∀ n, InvL n (core s) → InvL n (core s1)) := by
  unfold __proc_take_corelist at h
  split at h
  · cases h
  · rename_i s2 h2
    obtain ⟨g1, g2, g3, g4, g5⟩ := take_corelist_loop_facts preempt pcs
      (show take_list_online (__seq_start_write s) pcs from hd) h2
    have hs := Except.ok.inj h
    subst hs
    have e : core (__seq_start_write s) = core s := rfl
    rw [e] at g1 g2 g3 g4 g5
    refine ⟨g1, g2, ?_, g4, fun n hi => (g5 n hi).set_num _⟩
    show u32_sub s2.num_vcores pcs.length = _
    have : s2.num_vcores = s.num_vcores := g3
    rw [this]; rfl

theorem take_corelist_inv {n : Nat} (hn : n < U32_MOD) {s s1 : Sys} {pcs : List Nat}
    {preempt : Bool} (hi : InvC n (core s)) (hd : take_list_online s pcs)
    (h : __proc_take_corelist s pcs preempt = .ok s1) :
    InvC n (core s1) ∧ (core s1).state = (core s).state := by
  obtain ⟨_, g2, g3, g4, g5⟩ := take_corelist_facts hd h
  refine ⟨⟨g5 n hi.1, ?_⟩, g2⟩
  rw [g3, hi.2]
  have := hi.1.online_le
  rw [u32_sub_small _ _ (by omega) (by omega)]
  omega

theorem give_a_pcore_core {s s1 : Sys} {pc : Nat} {l : VcList}
    (h : __proc_give_a_pcore s pc l = .ok (true, s1)) :
    ∃ v, v ∈ (core s).list l ∧ (core s).vvalid v = false ∧ core s1 = (core s).give l v pc := by
  rcases give_a_pcore_inv h with ⟨hb, _, _⟩ | ⟨_, v, rest, hl, hv, rfl⟩
  · cases hb
  · refine ⟨v, ?_, hv, ?_⟩
    · cases l
      · show v ∈ s.bulk_preempted_vcs
        have : s.bulk_preempted_vcs = v :: rest := hl
        rw [this]; exact List.mem_cons_self _ _
      · show v ∈ s.inactive_vcs
        have : s.inactive_vcs = v :: rest := hl
        rw [this]; exact List.mem_cons_self _ _
    · cases l
      · have hb : s.bulk_preempted_vcs = v :: rest := hl
        simp only [core, Core.give, Core.map, online_insert_tail, vc_list_set, revokes, hb,
          List.erase_cons_head, Core.mk.injEq, true_and, and_true]
        refine ⟨?_, ?_⟩ <;> funext x <;> simp only [upd] <;> split_ifs <;> rfl
      · have hi : s.inactive_vcs = v :: rest := hl
        simp only [core, Core.give, Core.map, online_insert_tail, vc_list_set, revokes, hi,
          List.erase_cons_head, Core.mk.injEq, true_and, and_true]
        refine ⟨?_, ?_⟩ <;> funext x <;> simp only [upd] <;> split_ifs <;> rfl

theorem Core.give_facts (c : Core) (l : VcList) (v pc : Nat) :
    (c.give l v pc).state = c.state ∧ (c.give l v pc).num_vcores = c.num_vcores ∧
    (c.give l v pc).online.length = c.online.length + 1 ∧
    (∀ q, q ≠ pc → (c.give l v pc).pmap q = c.pmap q) := by
  cases l
  · refine ⟨rfl, rfl, by simp [Core.give, Core.map], ?_⟩
    intro q hq; simp [Core.give, Core.map, upd, hq]
  · refine ⟨rfl, rfl, by simp [Core.give, Core.map], ?_⟩
    intro q hq; simp [Core.give, Core.map, upd, hq]

theorem give_a_pcore_facts {s s1 : Sys} {pc : Nat} {l : VcList}
    (h : __proc_give_a_pcore s pc l = .ok (true, s1)) :
    (core s1).state = (core s).state ∧ (core s1).num_vcores = (core s).num_vcores ∧
    (core s1).online.length = (core s).online.length + 1 ∧
    (∀ q, q ≠ pc → (core s1).pmap q = (core s).pmap q) ∧
    (∀ n, InvL n (core s) → (s.state = PROC_RUNNABLE_M ∨ s.state = PROC_RUNNING_M) →
      ((core s).pmap pc).valid = false → InvL n (core s1)) := by
  obtain ⟨v, hl, hv, hc⟩ := give_a_pcore_core h
  rw [hc]
  obtain ⟨f1, f2, f3, f4⟩ := Core.give_facts (core s) l v pc
  exact ⟨f1, f2, f3, f4, fun n hi hst hpc => hi.give l v pc hst hl hv hpc⟩

theorem give_cores_runnable_loop_facts (pcs : List Nat) :
    ∀ {s s1 : Sys}, give_cores_runnable_loop s pcs = .ok s1 →
      (core s1).state = (core s).state ∧ (core s1).num_vcores = (core s).num_vcores ∧
      (core s1).online.length = (core s).online.length + pcs.length ∧
      (∀ n, InvL n (core s) → (s.state = PROC_RUNNABLE_M ∨ s.state = PROC_RUNNING_M) →
        pcs.Nodup → (∀ pc ∈ pcs, ((core s).pmap pc).valid = false) → InvL n (core s1)) := by
  induction pcs with
  | nil =>
    intro s s1 h
    rw [← Except.ok.inj h]
    exact ⟨rfl, rfl, rfl, fun _ hi _ _ _ => hi⟩
  | cons pc pcs ih =>
    intro s s1 h
    simp only [give_cores_runnable_loop] at h
    have key : ∀ s2 l, __proc_give_a_pcore s pc l = .ok (true, s2) →
        give_cores_runnable_loop s2 pcs = .ok s1 →
        (core s1).state = (core s).state ∧ (core s1).num_vcores = (core s).num_vcores ∧
        (core s1).online.length = (core s).online.length + (pc :: pcs).length ∧
        (∀ n, InvL n (core s) → (s.state = PROC_RUNNABLE_M ∨ s.state = PROC_RUNNING_M) →
          (pc :: pcs).Nodup → (∀ q ∈ pc :: pcs, ((core s).pmap q).valid = false) →
          InvL n (core s1)) := by
      intro s2 l h2 h3
      obtain ⟨f1, f2, f3, f4, f5⟩ := give_a_pcore_facts h2
      obtain ⟨g1, g2, g3, g4⟩ := ih h3
      refine ⟨g1.trans f1, g2.trans f2, ?_, ?_⟩
      · rw [g3, f3]; simp only [List.length_cons]; omega
      · intro n hi hst hnd hun
        simp only [List.nodup_cons, List.mem_cons, forall_eq_or_imp] at hnd hun
        apply g4 n (f5 n hi hst hun.1) (by rw [show s2.state = s.state from f1]; exact hst) hnd.2
        intro q hq
        have hne : q ≠ pc := fun e => hnd.1 (e ▸ hq)
        rw [f4 q hne]
        exact hun.2 q hq
    split at h
    · cases h
    · rename_i s2 h2
      exact key s2 _ h2 h
    · rename_i s2 h2
      have hs2 : s2 = s := by
        rcases give_a_pcore_inv h2 with ⟨_, hs, _⟩ | ⟨hb, _⟩
        · exact hs
        · cases hb
      subst hs2
      split at h
      · cases h
      · rename_i s3 h3
        exact key s3 _ h3 h
      · cases h

theorem give_cores_running_loop_facts (pcs : List Nat) :
    ∀ {s s1 : Sys}, give_cores_running_loop s pcs = .ok s1 →
      (core s1).state = (core s).state ∧ (core s1).num_vcores = (core s).num_vcores ∧
      (core s1).online.length = (core s).online.length + pcs.length ∧
      (∀ n, InvL n (core s) → (s.state = PROC_RUNNABLE_M ∨ s.state = PROC_RUNNING_M) →
        pcs.Nodup → (∀ pc ∈ pcs, ((core s).pmap pc).valid = false) → InvL n (core s1)) := by
  induction pcs with
  | nil =>
    intro s s1 h
    rw [← Except.ok.inj h]
    exact ⟨rfl, rfl, rfl, fun _ hi _ _ _ => hi⟩
  | cons pc pcs ih =>
    intro s s1 h
    simp only [give_cores_running_loop] at h
    split at h
    · cases h
    · cases h
    · rename_i s2 h2
      obtain ⟨f1, f2, f3, f4, f5⟩ := give_a_pcore_facts h2
      obtain ⟨g1, g2, g3, g4⟩ := ih h
      have e : core (send_kernel_message s2 pc Handler.startcore (some s2.pid)) = core s2 :=
        core_send_other _ _ _ _ (Or.inl rfl)
      rw [e] at g1 g2 g3 g4
      refine ⟨g1.trans f1, g2.trans f2, ?_, ?_⟩
      · rw [g3, f3]; simp only [List.length_cons]; omega
      · intro n hi hst hnd hun
        simp only [List.nodup_cons, List.mem_cons, forall_eq_or_imp] at hnd hun
        apply g4 n (f5 n hi hst hun.1)
          (by show s2.state = _ ∨ s2.state = _; rw [show s2.state = s.state from f1]; exact hst)
          hnd.2
        intro q hq
        have hne : q ≠ pc := fun e => hnd.1 (e ▸ hq)
        rw [f4 q hne]
        exact hun.2 q hq

theorem give_cores_inv {M n : Nat} {s s1 : Sys} {pcs : List Nat} (hn : n < U32_MOD)
    (hi : InvC n (core s)) (hnd : pcs.Nodup)
    (hun : ∀ pc ∈ pcs, is_mapped_vcore s pc = false)
    (h : __proc_give_cores M s pcs = .ok s1) : InvC n (core s1) := by
  unfold __proc_give_cores at h
  by_cases c1 : ¬ (u32_add pcs.length s.num_vcores ≤ M)
  · rw [if_pos c1] at h; cases h
  rw [if_neg c1] at h
  by_cases c2 : s.state = PROC_RUNNABLE_S ∨ s.state = PROC_RUNNING_S
  · rw [if_pos c2] at h; cases h
  rw [if_neg c2] at h
  by_cases c3 : s.state = PROC_DYING ∨ s.state = PROC_WAITING
  · rw [if_pos c3] at h
    rw [← Except.ok.inj h, put_idle_cores_core]
    exact hi
  rw [if_neg c3] at h
  have fin : ∀ (s2 s3 : Sys), core s2 = { core s with num_vcores := u32_add s.num_vcores pcs.length } →
      ((core s3).state = (core s2).state ∧ (core s3).num_vcores = (core s2).num_vcores ∧
        (core s3).online.length = (core s2).online.length + pcs.length ∧
        (∀ n, InvL n (core s2) → (s2.state = PROC_RUNNABLE_M ∨ s2.state = PROC_RUNNING_M) →
          pcs.Nodup → (∀ pc ∈ pcs, ((core s2).pmap pc).valid = false) → InvL n (core s3))) →
      (s.state = PROC_RUNNABLE_M ∨ s.state = PROC_RUNNING_M) → InvC n (core s3) := by
    intro s2 s3 e2 ⟨f1, f2, f3, f4⟩ hst
    have hst2 : s2.state = s.state := by
      have := congrArg Core.state e2; exact this
    have hl : InvL n (core s3) := by
      apply f4 n
      · rw [e2]; exact hi.1.set_num _
      · rw [hst2]; exact hst
      · exact hnd
      · intro pc hpc; rw [e2]; exact hun pc hpc
    refine ⟨hl, ?_⟩
    rw [f2, f3, e2]
    have hle := hl.online_le
    rw [f3, e2] at hle
    have hnum : s.num_vcores = s.online_vcs.length := hi.2
    show u32_add s.num_vcores pcs.length = s.online_vcs.length + pcs.length
    rw [hnum]
    apply u32_add_small
    have : (core s).online = s.online_vcs := rfl
    simp only [this] at hle
    omega
  by_cases c4 : s.state = PROC_RUNNABLE_M
  · rw [if_pos c4] at h
    unfold __proc_give_cores_runnable at h
    rw [if_neg (by simpa using c4)] at h
    by_cases c5 : pcs.length = 0
    · rw [if_pos c5] at h; cases h
    rw [if_neg c5] at h
    simp only at h
    split at h
    · cases h
    · rename_i s4 h4
      split at h4
      · cases h4
      · rename_i s3 h3
        rw [← Except.ok.inj h, ← Except.ok.inj h4]
        exact fin _ s3 rfl (give_cores_runnable_loop_facts pcs h3) (Or.inl c4)
  · rw [if_neg c4] at h
    by_cases c6 : s.state = PROC_RUNNING_M
    · rw [if_pos c6] at h
      unfold __proc_give_cores_running at h
      simp only at h
      split at h
      · cases h
      · rename_i s4 h4
        split at h4
        · cases h4
        · split at h4
          · cases h4
          · rename_i s3 h3
            rw [← Except.ok.inj h, ← Except.ok.inj h4]
            exact fin _ s3 rfl (give_cores_running_loop_facts pcs h3) (Or.inr c6)
    · rw [if_neg c6] at h; cases h

theorem InvL.relist {n : Nat} {c : Core} (hc : InvL n c) (b i : List Nat)
    (hp : (c.online ++ (b ++ i)).Perm c.all) : InvL n { c with bulk := b, inactive := i } :=
  { nodup := hp.nodup_iff.mpr hc.nodup
    len := hp.length_eq.trans hc.len
    on_m := hc.on_m
    on_valid := hc.on_valid
    p_inv := hc.p_inv
    rev := hc.rev
    mcp := hc.mcp
    s_rev := hc.s_rev }

theorem send_bulkp_events_loop_facts (vcs : List Nat) :
    ∀ {s s1 : Sys} (rest : List Nat), s.bulk_preempted_vcs = vcs ++ rest →
      send_bulkp_events_loop s vcs = .ok s1 →
      ∃ b i, core s1 = { core s with bulk := b, inactive := i } ∧
        ((core s).online ++ (b ++ i)).Perm (core s).all := by
  induction vcs with
  | nil =>
    intro s s1 rest _ h
    rw [← Except.ok.inj h]
    exact ⟨_, _, rfl, List.Perm.refl _⟩
  | cons v vcs ih =>
    intro s s1 rest hb h
    simp only [send_bulkp_events_loop] at h
    split at h
    · cases h
    · rename_i s2 h2
      have hv : v ∈ s.bulk_preempted_vcs := by rw [hb]; simp
      have e2 := bulk_remove_inv (by exact hv) h2
      subst e2
      have hb2 : s.bulk_preempted_vcs.erase v = vcs ++ rest := by rw [hb]; simp
      obtain ⟨b, i, e, hp⟩ := ih rest (by exact hb2) h
      refine ⟨b, i, e, hp.trans ?_⟩
      have hv2 : v ∈ s.bulk_preempted_vcs := hv
      show (s.online_vcs ++ (s.bulk_preempted_vcs.erase v ++ v :: s.inactive_vcs)).Perm
        (s.online_vcs ++ (s.bulk_preempted_vcs ++ s.inactive_vcs))
      apply List.Perm.append_left
      have h1 : (s.bulk_preempted_vcs.erase v ++ v :: s.inactive_vcs).Perm
          (v :: (s.bulk_preempted_vcs.erase v ++ s.inactive_vcs)) := List.perm_middle
      refine h1.trans ?_
      have h3 : (v :: s.bulk_preempted_vcs.erase v).Perm s.bulk_preempted_vcs :=
        (List.perm_cons_erase hv2).symm
      exact List.Perm.append_right s.inactive_vcs h3

theorem run_m_startcores_core (vcs : List Nat) :
    ∀ s : Sys, core (run_m_startcores s vcs) = core s := by
  induction vcs with
  | nil => intro s; rfl
  | cons v vcs ih =>
    intro s
    simp only [run_m_startcores]
    rw [ih, core_send_other _ _ _ _ (Or.inl rfl)]

theorem run_m_facts {s s1 : Sys} (h : __proc_run_m s = .ok s1) :
    (core s1).all.Perm (core s).all ∧
    (∀ n, InvC n (core s) → InvC n (core s1)) := by
  unfold __proc_run_m at h
  by_cases c1 : s.state = PROC_DYING
  · rw [if_pos c1] at h; rw [← Except.ok.inj h]; exact ⟨List.Perm.refl _, fun _ hi => hi⟩
  rw [if_neg c1] at h
  by_cases c2 : s.state = PROC_RUNNABLE_M
  · rw [if_pos c2] at h
    by_cases c3 : s.num_vcores ≠ 0
    · rw [if_pos c3] at h
      split at h
      · cases h
      · rename_i s2 h2
        split at h
        · cases h
        · rename_i s3 h3
          have e3 := set_state_ok h3
          subst e3
          obtain ⟨b, i, e, hp⟩ := send_bulkp_events_loop_facts _ [] (List.append_nil _).symm h2
          simp only at h
          rw [← Except.ok.inj h, run_m_startcores_core]
          have ec : core (proc_incref { s2 with state := PROC_RUNNING_M }
              ((s2.num_vcores * 2) % U32_MOD)) = { core s2 with state := PROC_RUNNING_M } := rfl
          rw [ec, e]
          refine ⟨hp, ?_⟩
          intro n hi
          refine ⟨?_, hi.2⟩
          have h1 := hi.1.relist b i hp
          have h2 := h1.set_state PROC_RUNNING_M (Or.inr (Or.inl rfl)) (Or.inr c1)
            (fun _ => hi.1.mcp (Or.inl c2))
            (by simp [PROC_RUNNING_M, PROC_CREATED, PROC_RUNNABLE_S, PROC_RUNNING_S])
          exact h2
    · rw [if_neg c3] at h; rw [← Except.ok.inj h]; exact ⟨List.Perm.refl _, fun _ hi => hi⟩
  rw [if_neg c2] at h
  by_cases c4 : s.state = PROC_RUNNING_M ∨ s.state = PROC_WAITING
  · rw [if_pos c4] at h; rw [← Except.ok.inj h]; exact ⟨List.Perm.refl _, fun _ hi => hi⟩
  · rw [if_neg c4] at h; cases h

theorem revoke_allcores_loop_core (preempt : Bool) (vcs : List Nat) :
    ∀ {s s1 : Sys}, revoke_allcores_loop s preempt vcs = .ok s1 →
      core s1 = { core s with revokes := (core s).revokes ++ vcs.map (core s).vpcore } := by
  induction vcs with
  | nil =>
    intro s s1 h
    rw [← Except.ok.inj h]
    simp
  | cons v vcs ih =>
    intro s s1 h
    simp only [revoke_allcores_loop] at h
    split at h
    · cases h
    · rename_i s2 h2
      obtain ⟨_, e2⟩ := revoke_core_core h2
      rw [ih h, e2]
      simp

theorem unmap_allcores_loop_core (vcs : List Nat) :
    ∀ s : Sys, core (unmap_allcores_loop s vcs) = (core s).unmap_list vcs := by
  induction vcs with
  | nil => intro s; rfl
  | cons v vcs ih =>
    intro s
    simp only [unmap_allcores_loop, Core.unmap_list]
    rw [ih, core_unmap]

theorem take_allcores_move_core (preempt : Bool) (vcs : List Nat) :
    ∀ {s s1 : Sys} (rest : List Nat), s.online_vcs = vcs ++ rest →
      take_allcores_move s preempt vcs = .ok s1 →
      core s1 =
        if preempt then { core s with online := rest, bulk := vcs.reverse ++ (core s).bulk }
        else { core s with online := rest, inactive := vcs.reverse ++ (core s).inactive } := by
  induction vcs with
  | nil =>
    intro s s1 rest ho h
    rw [← Except.ok.inj h]
    have ho2 : (core s).online = rest := ho
    cases preempt <;> simp [← ho2]
  | cons v vcs ih =>
    intro s s1 rest ho h
    simp only [take_allcores_move] at h
    split at h
    · cases h
    · rename_i s2 h2
      have e2 := online_remove_inv (by rw [ho]; simp) h2
      subst e2
      have ho3 : (s.online_vcs).erase v = vcs ++ rest := by
        rw [ho]; simp
      cases preempt
      · simp only [Bool.false_eq_true, if_false] at h ⊢
        rw [ih rest (by exact ho3) h]
        simp [core, inactive_insert_head, revokes]
      · simp only [if_true] at h ⊢
        rw [ih rest (by exact ho3) h]
        simp [core, revokes]

theorem take_allcores_move_all {s s1 : Sys} {preempt : Bool}
    (h : take_allcores_move s preempt s.online_vcs = .ok s1) :
    core s1 = (core s).move_all preempt :=
  take_allcores_move_core preempt s.online_vcs [] (List.append_nil _).symm h

theorem take_allcores_facts {s s1 : Sys} {pcs : List Nat} {preempt : Bool}
    (h : __proc_take_allcores s preempt = .ok (pcs, s1)) :
    (core s1).all.Perm (core s).all ∧ (core s1).state = (core s).state ∧
    (s.state = PROC_RUNNING_M ∨ s.state = PROC_RUNNABLE_M) ∧
    (∀ n, InvL n (core s) → InvC n (core s1)) ∧ (core s1).online = [] := by
  unfold __proc_take_allcores at h
  simp only at h
  split at h
  · cases h
  · rename_i s2 h2
    split at h
    · cases h
    · rename_i s3 h3
      by_cases c1 : s3.online_vcs ≠ []
      · rw [if_pos c1] at h; cases h
      rw [if_neg c1] at h
      split at h
      · cases h
      · have h' := Except.ok.inj h
        have hs1 : s1 = { __seq_end_write { s3 with num_vcores := 0 } with amt_granted := 0 } :=
          (congrArg Prod.snd h').symm
        have ec : core s1 = { core s3 with num_vcores := 0 } := by rw [hs1]; rfl
        have e3 := take_allcores_move_all h3
        have hon : (core s3).online = [] := by
          rw [e3]; cases preempt <;> rfl
        by_cases c2 : s.state = PROC_RUNNING_M
        · have c2' : (__seq_start_write s).state = PROC_RUNNING_M := c2
          rw [if_pos c2'] at h2
          have e2 := revoke_allcores_loop_core preempt _ h2
          have e2' : core s2 = { core s with
              revokes := (core s).revokes ++ (core s).online.map (core s).vpcore } := e2
          refine ⟨?_, ?_, Or.inl c2, ?_, by rw [ec]; exact hon⟩
          · rw [ec]
            show (core s3).all.Perm (core s).all
            rw [e3]
            refine (Core.move_all_perm _ _).trans ?_
            rw [e2']
            exact List.Perm.refl _
          · rw [ec, e3, e2']; cases preempt <;> rfl
          · intro n hi
            have := hi.move_revoke_all preempt c2
            rw [← e2', ← e3] at this
            rw [ec]
            exact ⟨this.set_num 0, hon.symm ▸ rfl⟩
        · have c2' : ¬ (__seq_start_write s).state = PROC_RUNNING_M := c2
          rw [if_neg c2'] at h2
          by_cases c3 : (__seq_start_write s).state ≠ PROC_RUNNABLE_M
          · rw [if_pos c3] at h2; cases h2
          rw [if_neg c3] at h2
          have c3' : s.state = PROC_RUNNABLE_M := by
            have : (__seq_start_write s).state = PROC_RUNNABLE_M := by simpa using c3
            exact this
          have e2 : core s2 = (core s).unmap_list (core s).online := by
            rw [← Except.ok.inj h2]
            exact unmap_allcores_loop_core _ _
          obtain ⟨g1, g2, g3, g4, _⟩ := Core.unmap_list_fields (core s).online (core s)
          refine ⟨?_, ?_, Or.inr c3', ?_, by rw [ec]; exact hon⟩
          · rw [ec]
            show (core s3).all.Perm (core s).all
            rw [e3]
            refine (Core.move_all_perm _ _).trans ?_
            rw [e2]
            simp only [Core.all, g2, g3, g4]
            exact List.Perm.refl _
          · rw [ec, e3, e2]
            show (Core.move_all _ preempt).state = _
            cases preempt <;> exact g1
          · intro n hi
            have := hi.move_unmap_all preempt
            rw [← e2, ← e3] at this
            rw [ec]
            exact ⟨this.set_num 0, hon.symm ▸ rfl⟩

theorem take_allcores_dumb_facts {s s1 : Sys} {preempt : Bool}
    (h : __proc_take_allcores_dumb s preempt = .ok s1) :
    (core s1).all.Perm (core s).all ∧ (core s1).state = (core s).state ∧
    (s.state = PROC_RUNNING_M ∨ s.state = PROC_RUNNABLE_M) ∧
    (∀ n, InvL n (core s) → InvC n (core s1)) ∧ (core s1).online = [] := by
  unfold __proc_take_allcores_dumb at h
  split at h
  · cases h
  · rename_i pcs s2 h2
    rw [← Except.ok.inj h, put_idle_cores_core]
    exact take_allcores_facts h2

theorem yield_m_release_core (s : Sys) (pc v : Nat) (b : Bool) :
    core (yield_m_release s pc v b) =
      { ({ core s with inactive := v :: (core s).inactive } : Core).unmap v with
        num_vcores := u32_sub s.num_vcores 1 } := by
  have h1 : core (yield_m_release s pc v b) =
      { core (__unmap_vcore (inactive_insert_head s v) v) with
        num_vcores := u32_sub s.num_vcores 1 } := by
    cases b
    · simp only [yield_m_release, core, revokes, put_idle_core, __seq_end_write, __seq_start_write,
        set_vcpd, __unmap_vcore, inactive_insert_head]
      simp
    · simp only [yield_m_release, core, revokes, put_idle_core, __seq_end_write, __seq_start_write,
        set_vcpd, __unmap_vcore, inactive_insert_head]
      simp
  rw [h1, core_unmap]
  rfl

theorem yield_m_commit_core {s s1 : Sys} {pc : Nat} {being_nice : Bool}
    (hdisc : (s.pcoremap pc).vcoreid ∈ s.online_vcs)
    (hnp : (s.vcore_preempt_data (s.pcoremap pc).vcoreid).notif_pending = false)
    (h : yield_m_commit s pc (s.pcoremap pc).vcoreid being_nice = .ok s1) :
    (s.pcoremap pc).vcoreid ∈ s.online_vcs ∧
    ((u32_sub s.num_vcores 1 ≠ 0 ∧
      core s1 = { (core s).take_unmap pc with num_vcores := u32_sub s.num_vcores 1 }) ∨
     (u32_sub s.num_vcores 1 = 0 ∧
      core s1 = { (core s).take_unmap pc with
        num_vcores := u32_sub s.num_vcores 1, state := PROC_WAITING })) := by
  have key : ∀ s8 : Sys,
      core s8 = { (core s).take_unmap pc with num_vcores := u32_sub s.num_vcores 1 } →
      (match (if s8.num_vcores = 0 then __proc_set_state { s8 with amt_wanted := 1 } PROC_WAITING
          else .ok s8 : Res) with
        | .error e => .error e
        | .ok s9 => out_yield_core s9 pc : Res) = .ok s1 →
      ((u32_sub s.num_vcores 1 ≠ 0 ∧
        core s1 = { (core s).take_unmap pc with num_vcores := u32_sub s.num_vcores 1 }) ∨
       (u32_sub s.num_vcores 1 = 0 ∧
        core s1 = { (core s).take_unmap pc with
          num_vcores := u32_sub s.num_vcores 1, state := PROC_WAITING })) := by
    intro s8 e8 h8
    have hnum : s8.num_vcores = u32_sub s.num_vcores 1 := congrArg Core.num_vcores e8
    split at h8
    · cases h8
    · rename_i s9 h9
      rw [out_yield_core_core h8]
      by_cases hz : s8.num_vcores = 0
      · rw [if_pos hz] at h9
        rw [set_state_ok h9]
        right
        refine ⟨hnum ▸ hz, ?_⟩
        show { core s8 with state := PROC_WAITING } = _
        rw [e8]
      · rw [if_neg hz] at h9
        rw [← Except.ok.inj h9]
        left
        exact ⟨hnum ▸ hz, e8⟩
  unfold yield_m_commit at h
  split at h
  · cases h
  · rename_i s2 h2
    have e2 := online_remove_inv hdisc h2
    subst e2
    refine ⟨hdisc, ?_⟩
    have hnp2 : ¬ (({ s with online_vcs := s.online_vcs.erase (s.pcoremap pc).vcoreid } : Sys).vcore_preempt_data
        (s.pcoremap pc).vcoreid).notif_pending = true := by
      simp [hnp]
    rw [if_neg hnp2] at h
    refine key _ ?_ h
    rw [yield_m_release_core]
    rfl

theorem InvC.yield {n : Nat} {c : Core} (hn : n < U32_MOD) (hc : InvC n c) (pc : Nat)
    (hp : (c.pmap pc).valid = true) (hon : (c.pmap pc).vcoreid ∈ c.online)
    (hst : c.state = PROC_RUNNING_M) :
    (u32_sub c.num_vcores 1 ≠ 0 →
      InvC n { c.take_unmap pc with num_vcores := u32_sub c.num_vcores 1 }) ∧
    (u32_sub c.num_vcores 1 = 0 →
      InvC n { c.take_unmap pc with
        num_vcores := u32_sub c.num_vcores 1, state := PROC_WAITING }) := by
  have hL := hc.1.take_unmap pc hp hon
  obtain ⟨_, f2, _, f4⟩ := Core.take_unmap_facts c pc hon
  have hle := hc.1.online_le
  have hnum : u32_sub c.num_vcores 1 = (c.take_unmap pc).online.length := by
    rw [u32_sub_small _ _ (by rw [hc.2]; omega) (by rw [hc.2]; omega), hc.2]
    omega
  constructor
  · intro _
    exact ⟨hL.set_num _, hnum⟩
  · intro hz
    have hnil : (c.take_unmap pc).online = [] := by
      apply List.eq_nil_of_length_eq_zero
      rw [← hnum, hz]
    have hdy : (c.take_unmap pc).state ≠ PROC_DYING := by
      rw [f2, hst]; simp [PROC_RUNNING_M, PROC_DYING]
    have hm : (c.take_unmap pc).is_mcp = true := hc.1.mcp (Or.inr (Or.inl hst))
    have h2 := (hL.set_num (u32_sub c.num_vcores 1)).set_state PROC_WAITING
      (Or.inr (Or.inr hnil)) (Or.inr hdy) (fun _ => hm)
      (by simp [PROC_WAITING, PROC_CREATED, PROC_RUNNABLE_S, PROC_RUNNING_S])
    exact ⟨h2, hnum⟩

theorem core_schedule_scp (s : Sys) : core (schedule_scp s) = core s := rfl

theorem core_set_state (s : Sys) (t : Nat) :
    core { s with state := t } = { core s with state := t } := rfl

theorem proc_yield_s_core {s s1 : Sys} {pc : Nat} (h : __proc_yield_s s pc = .ok s1) :
    s.state = PROC_RUNNING_S ∧ core s1 = { (core s).unmap 0 with state := PROC_RUNNABLE_S } := by
  unfold __proc_yield_s at h
  by_cases c1 : s.state ≠ PROC_RUNNING_S
  · rw [if_pos c1] at h; cases h
  rw [if_neg c1] at h
  refine ⟨not_not.mp c1, ?_⟩
  split at h
  · cases h
  · rename_i tf htf
    simp only at h
    split at h
    · cases h
    · rename_i s2 h2
      rw [← Except.ok.inj h, set_state_ok h2]
      rw [core_schedule_scp, core_set_state, core_unmap]
      rfl

theorem InvC.yield_s {n : Nat} {c : Core} (hc : InvC n c) (hst : c.state = PROC_RUNNING_S) :
    InvC n { c.unmap 0 with state := PROC_RUNNABLE_S } := by
  have hon : c.online = [] := by
    rcases hc.1.on_m with h | h | h
    · rw [hst] at h; simp [PROC_RUNNING_S, PROC_RUNNABLE_M] at h
    · rw [hst] at h; simp [PROC_RUNNING_S, PROC_RUNNING_M] at h
    · exact h
  have hrev : c.revokes = [] := hc.1.s_rev (Or.inr (Or.inr hst))
  have h1 := hc.1.unmap_offline 0 hon hrev
  have h2 := h1.set_state PROC_RUNNABLE_S (Or.inr (Or.inr hon))
    (Or.inr (by show c.state ≠ _; rw [hst]; simp [PROC_RUNNING_S, PROC_DYING]))
    (by simp [PROC_RUNNABLE_S, PROC_RUNNABLE_M, PROC_RUNNING_M, PROC_WAITING])
    (fun _ => hrev)
  exact ⟨h2, hc.2⟩

theorem Core.take_unmap_perm_with (c : Core) (pc k t : Nat) (hon : (c.pmap pc).vcoreid ∈ c.online) :
    ({ c.take_unmap pc with num_vcores := k, state := t } : Core).all.Perm c.all :=
  (Core.take_unmap_facts c pc hon).1

theorem proc_yield_facts {s s1 : Sys} {pc : Nat} {b : Bool} (hd : caller_online s pc)
    (h : proc_yield s pc b = .ok s1) :
    (core s1).all.Perm (core s).all ∧
    (∀ n, n < U32_MOD → InvC n (core s) → InvC n (core s1)) := by
  have same : ∀ {t : Sys}, core t = core s → (core t).all.Perm (core s).all ∧
      (∀ n, n < U32_MOD → InvC n (core s) → InvC n (core t)) := by
    intro t e; rw [e]; exact ⟨List.Perm.refl _, fun _ _ hi => hi⟩
  unfold proc_yield at h
  by_cases c1 : s.state = PROC_RUNNING_S
  · rw [if_pos c1] at h
    split at h
    · cases h
    · rename_i s2 h2
      obtain ⟨_, e2⟩ := proc_yield_s_core h2
      rw [out_yield_core_core h, e2]
      exact ⟨List.Perm.refl _, fun n _ hi => hi.yield_s c1⟩
  rw [if_neg c1] at h
  by_cases c2 : s.state = PROC_RUNNING_M
  · rw [if_pos c2] at h
    by_cases c3 : (!is_mapped_vcore s pc) = true
    · rw [if_pos c3] at h; rw [← Except.ok.inj h]; exact same rfl
    rw [if_neg c3] at h
    have hmap : is_mapped_vcore s pc = true := by simpa using c3
    have hget : get_vcoreid s pc = .ok (s.pcoremap pc).vcoreid := by
      unfold get_vcoreid; rw [if_pos hmap]
    rw [hget] at h
    simp only at h
    by_cases c4 : b = true ∧ (s.vcoremap (s.pcoremap pc).vcoreid).preempt_pending = 0
    · rw [if_pos c4] at h; rw [← Except.ok.inj h]; exact same rfl
    rw [if_neg c4] at h
    by_cases c5 : (s.vcoremap (s.pcoremap pc).vcoreid).preempt_served = true
    · rw [if_pos c5] at h; rw [← Except.ok.inj h]; exact same rfl
    rw [if_neg c5] at h
    have hx : ∀ sx : Sys, sx = (if (s.vcoremap (s.pcoremap pc).vcoreid).preempt_pending ≠ 0 then
        set_vcore s (s.pcoremap pc).vcoreid
          { s.vcoremap (s.pcoremap pc).vcoreid with preempt_pending := 0 } else s) →
        core sx = core s ∧ sx.pcoremap = s.pcoremap ∧ sx.num_vcores = s.num_vcores ∧
        sx.online_vcs = s.online_vcs := by
      intro sx e
      by_cases c6 : (s.vcoremap (s.pcoremap pc).vcoreid).preempt_pending ≠ 0
      · rw [if_pos c6] at e
        rw [e]
        exact ⟨core_set_vcore _ _ _ rfl rfl, rfl, rfl, rfl⟩
      · rw [if_neg c6] at e
        rw [e]
        exact ⟨rfl, rfl, rfl, rfl⟩
    generalize hsx : (if (s.vcoremap (s.pcoremap pc).vcoreid).preempt_pending ≠ 0 then
        set_vcore s (s.pcoremap pc).vcoreid
          { s.vcoremap (s.pcoremap pc).vcoreid with preempt_pending := 0 } else s) = sx at h
    obtain ⟨x1, x2, x3, x4⟩ := hx sx hsx.symm
    by_cases c7 : (sx.vcore_preempt_data (s.pcoremap pc).vcoreid).notif_pending = true
    · rw [if_pos c7] at h; rw [← Except.ok.inj h]; exact same x1
    rw [if_neg c7] at h
    rw [← x2] at h
    obtain ⟨hon, hcase⟩ := yield_m_commit_core (by rw [x2, x4]; exact hd c2 hmap)
      (by rw [x2]; simpa using c7) h
    rw [x2, x4] at hon
    have hp : ((core s).pmap pc).valid = true := hmap
    rw [x1, x3] at hcase
    rcases hcase with ⟨hz, e⟩ | ⟨hz, e⟩
    · rw [e]
      exact ⟨Core.take_unmap_perm_with _ _ _ _ hon, fun n hn hi => (InvC.yield hn hi pc hp hon c2).1 hz⟩
    · rw [e]
      exact ⟨Core.take_unmap_perm_with _ _ _ _ hon, fun n hn hi => (InvC.yield hn hi pc hp hon c2).2 hz⟩
  rw [if_neg c2] at h
  by_cases c8 : s.state = PROC_DYING ∨ s.state = PROC_RUNNABLE_M
  · rw [if_pos c8] at h; rw [← Except.ok.inj h]; exact same rfl
  · rw [if_neg c8] at h; cases h

theorem preempt_warn_core (s : Sys) (v w : Nat) : core (__proc_preempt_warn s v w) = core s :=
  core_set_vcore s v _ rfl rfl

theorem preempt_warnall_loop_core (w : Nat) (vcs : List Nat) :
    ∀ s : Sys, core (preempt_warnall_loop s w vcs) = core s := by
  induction vcs with
  | nil => intro s; rfl
  | cons v vcs ih =>
    intro s
    simp only [preempt_warnall_loop]
    rw [ih, preempt_warn_core]

theorem preempt_all_loop_core (vcs : List Nat) :
    ∀ s : Sys, core (preempt_all_loop s vcs) = core s := by
  induction vcs with
  | nil => intro s; rfl
  | cons v vcs ih =>
    intro s
    simp only [preempt_all_loop]
    rw [ih]
    exact core_set_vcore s v _ rfl rfl

theorem InvC.to_runnable_m {n : Nat} {c : Core} (hc : InvC n c) (hst : c.state = PROC_RUNNING_M) :
    InvC n { c with state := PROC_RUNNABLE_M } :=
  ⟨hc.1.set_state PROC_RUNNABLE_M (Or.inl rfl)
    (Or.inr (by rw [hst]; simp [PROC_RUNNING_M, PROC_DYING]))
    (fun _ => hc.1.mcp (Or.inr (Or.inl hst)))
    (by simp [PROC_RUNNABLE_M, PROC_CREATED, PROC_RUNNABLE_S, PROC_RUNNING_S]), hc.2⟩

theorem preempt_core_inner_inv {n : Nat} {s s1 : Sys} {pc : Nat} (hn : n < U32_MOD)
    (hi : InvC n (core s)) (hd : (s.pcoremap pc).vcoreid ∈ s.online_vcs)
    (h : __proc_preempt_core s pc = .ok s1) :
    InvC n (core s1) ∧ (core s1).state = (core s).state := by
  unfold __proc_preempt_core at h
  split at h
  · cases h
  · rename_i v hv
    simp only at h
    split at h
    · cases h
    · rename_i s2 h2
      rw [← Except.ok.inj h]
      have e : core (set_vcore s v { s.vcoremap v with preempt_served := true }) = core s :=
        core_set_vcore s v _ rfl rfl
      have hd2 : take_list_online
          (set_vcore s v { s.vcoremap v with preempt_served := true }) [pc] :=
        ⟨List.nodup_singleton _, fun w hw => by
          rw [List.mem_singleton.mp hw]; exact hd⟩
      have := take_corelist_inv hn (by rw [e]; exact hi) hd2 h2
      rw [e] at this
      exact this

theorem proc_preempt_core_inv {n : Nat} {s s1 : Sys} {pc w : Nat} (hn : n < U32_MOD)
    (hi : InvC n (core s)) (hd : caller_online s pc)
    (h : proc_preempt_core s pc w = .ok s1) : InvC n (core s1) := by
  unfold proc_preempt_core at h
  by_cases c1 : s.state ≠ PROC_RUNNING_M
  · rw [if_pos c1] at h; rw [← Except.ok.inj h]; exact hi
  rw [if_neg c1] at h
  have hst : s.state = PROC_RUNNING_M := not_not.mp c1
  simp only at h
  split at h
  · cases h
  · rename_i s2 h2
    have h2i : InvC n (core s2) ∧ (core s2).state = (core s).state := by
      by_cases c2 : is_mapped_vcore s pc = true
      · rw [if_pos c2] at h2
        split at h2
        · cases h2
        · rename_i v hv
          split at h2
          · cases h2
          · rename_i s3 h3
            rw [← Except.ok.inj h2]
            have := preempt_core_inner_inv hn (by rw [preempt_warn_core]; exact hi)
              (by exact hd hst c2) h3
            rw [preempt_warn_core] at this
            exact this
      · rw [if_neg c2] at h2
        rw [← Except.ok.inj h2]
        exact ⟨hi, rfl⟩
    by_cases c3 : s2.num_vcores = 0
    · rw [if_pos c3] at h
      rw [set_state_ok h, core_set_state]
      exact h2i.1.to_runnable_m (h2i.2.trans hst)
    · rw [if_neg c3] at h
      rw [← Except.ok.inj h]
      exact h2i.1

theorem proc_preempt_all_inv {n : Nat} {s s1 : Sys} {w : Nat}
    (hi : InvC n (core s)) (h : proc_preempt_all s w = .ok s1) : InvC n (core s1) := by
  unfold proc_preempt_all at h
  by_cases c1 : s.state ≠ PROC_RUNNING_M
  · rw [if_pos c1] at h; rw [← Except.ok.inj h]; exact hi
  rw [if_neg c1] at h
  have hst : s.state = PROC_RUNNING_M := not_not.mp c1
  split at h
  · cases h
  · rename_i s2 h2
    by_cases c3 : s2.num_vcores ≠ 0
    · rw [if_pos c3] at h; cases h
    rw [if_neg c3] at h
    rw [set_state_ok h, core_set_state]
    unfold __proc_preempt_all __proc_preempt_warnall at h2
    obtain ⟨_, f2, _, f4, _⟩ := take_allcores_dumb_facts h2
    rw [preempt_all_loop_core, preempt_warnall_loop_core] at f2 f4
    exact (f4 n hi.1).to_runnable_m (f2.trans hst)

theorem change_to_vcore_core {s s1 : Sys} {pc new : Nat} {b : Bool}
    (hd : caller_online s pc) (hd2 : target_inactive s new)
    (h : proc_change_to_vcore s pc new b = .ok s1) :
    core s1 = core s ∨
    (s.state = PROC_RUNNING_M ∧ ((core s).pmap pc).valid = true ∧
      ((core s).pmap pc).vcoreid ∈ (core s).online ∧
      new ∈ ((core s).take_unmap pc).inactive ∧ ((core s).take_unmap pc).vvalid new = false ∧
      core s1 = ((core s).take_unmap pc).give .inactive new pc) := by
  unfold proc_change_to_vcore at h
  by_cases c0 : vcore_is_mapped s new = true
  · rw [if_pos c0] at h; rw [← Except.ok.inj h]; exact Or.inl rfl
  rw [if_neg c0] at h
  by_cases c1 : s.state = PROC_RUNNING_M
  · rw [if_pos c1] at h
    by_cases c3 : (!is_mapped_vcore s pc) = true
    · rw [if_pos c3] at h; rw [← Except.ok.inj h]; exact Or.inl rfl
    rw [if_neg c3] at h
    have hmap : is_mapped_vcore s pc = true := by simpa using c3
    have hget : get_vcoreid s pc = .ok (s.pcoremap pc).vcoreid := by
      unfold get_vcoreid; rw [if_pos hmap]
    rw [hget] at h
    simp only at h
    by_cases c4 : (!(s.vcore_preempt_data (s.pcoremap pc).vcoreid).notif_disabled) = true
    · rw [if_pos c4] at h; rw [← Except.ok.inj h]; exact Or.inl rfl
    rw [if_neg c4] at h
    by_cases c5 : (s.vcoremap (s.pcoremap pc).vcoreid).preempt_served = true
    · rw [if_pos c5] at h; rw [← Except.ok.inj h]; exact Or.inl rfl
    rw [if_neg c5] at h
    split at h
    · cases h
    · rename_i sa ha
      have hsa : ∃ d, sa = set_vcpd s (s.pcoremap pc).vcoreid d := by
        cases b
        · simp only [Bool.false_eq_true, if_false] at ha
          split at ha
          · cases ha
          · exact ⟨_, (Except.ok.inj ha).symm⟩
        · simp only [if_true] at ha
          exact ⟨_, (Except.ok.inj ha).symm⟩
      obtain ⟨d, rfl⟩ := hsa
      split at h
      · cases h
      · rename_i s2 h2
        have hon : (s.pcoremap pc).vcoreid ∈ s.online_vcs := hd c1 hmap
        have e2 := online_remove_inv (by exact hon) h2
        subst e2
        split at h
        · cases h
        · rename_i s3 h3
          have hin : new ∈ (s.pcoremap pc).vcoreid :: s.inactive_vcs :=
            List.mem_cons_of_mem _ (hd2 c1 (by simpa using c0))
          have e3 := inactive_remove_inv (by exact hin) h3
          subst e3
          split at h
          · cases h
          · rename_i s5 h5
            obtain ⟨hv, e5⟩ := core_map h5
            rw [core_unmap] at hv e5
            right
            refine ⟨c1, hmap, hon, hin, hv, ?_⟩
            rw [set_curtf_core h]
            exact e5
  rw [if_neg c1] at h
  by_cases c8 : s.state = PROC_RUNNING_S ∨ s.state = PROC_DYING ∨ s.state = PROC_RUNNABLE_M
  · rw [if_pos c8] at h; rw [← Except.ok.inj h]; exact Or.inl rfl
  · rw [if_neg c8] at h; cases h

theorem change_to_vcore_facts {s s1 : Sys} {pc new : Nat} {b : Bool}
    (hd : caller_online s pc) (hd2 : target_inactive s new)
    (h : proc_change_to_vcore s pc new b = .ok s1) :
    (core s1).all.Perm (core s).all ∧ (∀ n, InvC n (core s) → InvC n (core s1)) := by
  rcases change_to_vcore_core hd hd2 h with e | ⟨hst, hp, hon, hin, hv, e⟩
  · rw [e]; exact ⟨List.Perm.refl _, fun _ hi => hi⟩
  · rw [e]
    obtain ⟨f1, f2, f3, f4⟩ := Core.take_unmap_facts (core s) pc hon
    obtain ⟨g1, g2, g3, _⟩ := Core.give_facts ((core s).take_unmap pc) .inactive new pc
    refine ⟨(Core.give_all_perm _ .inactive new pc hin).trans f1, ?_⟩
    intro n hi
    have h1 := hi.1.take_unmap pc hp hon
    have hpc : (((core s).take_unmap pc).pmap pc).valid = false := by
      have := (hi.1.p_inv pc hp).2
      simp [Core.take_unmap, Core.unmap, upd, this]
    have h2 := h1.give .inactive new pc (Or.inr (f2.trans hst)) hin hv hpc
    refine ⟨h2, ?_⟩
    rw [g2, g3, f3, hi.2]
    omega

theorem InvL.online_nil_of_s {n : Nat} {c : Core} (hc : InvL n c)
    (hst : c.state ≠ PROC_RUNNABLE_M ∧ c.state ≠ PROC_RUNNING_M) : c.online = [] := by
  rcases hc.on_m with h | h | h
  · exact absurd h hst.1
  · exact absurd h hst.2
  · exact h

theorem InvC.to_dying {n : Nat} {c : Core} (hc : InvC n c) (hon : c.online = []) :
    InvC n { c with state := PROC_DYING } :=
  ⟨hc.1.set_state PROC_DYING (Or.inr (Or.inr hon)) (Or.inl rfl)
    (by simp [PROC_DYING, PROC_RUNNABLE_M, PROC_RUNNING_M, PROC_WAITING])
    (by simp [PROC_DYING, PROC_CREATED, PROC_RUNNABLE_S, PROC_RUNNING_S]), hc.2⟩

theorem proc_destroy_inv {n : Nat} {s s1 : Sys}
    (hi : InvC n (core s)) (h : proc_destroy s = .ok s1) : InvC n (core s1) := by
  unfold proc_destroy at h
  by_cases c1 : s.state = PROC_DYING
  · rw [if_pos c1] at h; rw [← Except.ok.inj h]; exact hi
  rw [if_neg c1] at h
  simp only at h
  split at h
  · cases h
  · rename_i s2 h2
    split at h
    · cases h
    · rename_i s3 h3
      rw [proc_decref_core h, set_state_ok h3]
      show InvC n { core s2 with state := PROC_DYING }
      have dumb : ∀ {t : Sys}, __proc_take_allcores_dumb s false = .ok t →
          InvC n { core t with state := PROC_DYING } := by
        intro t ht
        obtain ⟨_, _, _, f4, f5⟩ := take_allcores_dumb_facts ht
        exact (f4 n hi.1).to_dying f5
      have plain : ∀ st, s.state = st → st ≠ PROC_RUNNABLE_M → st ≠ PROC_RUNNING_M →
          InvC n { core s with state := PROC_DYING } := by
        intro st e h1 h2
        exact hi.to_dying (hi.1.online_nil_of_s ⟨by show s.state ≠ _; rw [e]; exact h1,
          by show s.state ≠ _; rw [e]; exact h2⟩)
      by_cases c2 : s.state = PROC_RUNNABLE_M
      · rw [if_pos c2] at h2; exact dumb h2
      rw [if_neg c2] at h2
      by_cases c3 : s.state = PROC_RUNNABLE_S
      · rw [if_pos c3] at h2; rw [← Except.ok.inj h2]
        exact plain _ c3 (by simp [PROC_RUNNABLE_S, PROC_RUNNABLE_M])
          (by simp [PROC_RUNNABLE_S, PROC_RUNNING_M])
      rw [if_neg c3] at h2
      by_cases c4 : s.state = PROC_RUNNING_S
      · rw [if_pos c4] at h2
        split at h2
        · cases h2
        · rename_i pc hpc
          rw [← Except.ok.inj h2]
          have e : core (__seq_end_write (__seq_start_write (send_kernel_message s pc .death none)))
              = { core s with revokes := (core s).revokes ++ [pc] } :=
            core_send_revoke s pc .death none (Or.inr rfl)
          rw [e]
          have hon : (core s).online = [] := hi.1.online_nil_of_s
            ⟨by show s.state ≠ _; rw [c4]; simp [PROC_RUNNING_S, PROC_RUNNABLE_M],
             by show s.state ≠ _; rw [c4]; simp [PROC_RUNNING_S, PROC_RUNNING_M]⟩
          exact ⟨hi.1.add_revoke_dying pc hon, hi.2⟩
      rw [if_neg c4] at h2
      by_cases c5 : s.state = PROC_RUNNING_M
      · rw [if_pos c5] at h2; exact dumb h2
      rw [if_neg c5] at h2
      by_cases c6 : s.state = PROC_CREATED
      · rw [if_pos c6] at h2; rw [← Except.ok.inj h2]
        exact plain _ c6 (by simp [PROC_CREATED, PROC_RUNNABLE_M])
          (by simp [PROC_CREATED, PROC_RUNNING_M])
      · rw [if_neg c6] at h2; cases h2

theorem core_ite (c : Prop) [Decidable c] (a b : Sys) (t : Core)
    (ha : core a = t) (hb : core b = t) : core (if c then a else b) = t := by
  split <;> assumption

theorem switch_to_m_inv {n : Nat} {s s1 : Sys} {coreid : Nat}
    (hi : InvC n (core s)) (h : __proc_switch_to_m s coreid = .ok s1) : InvC n (core s1) := by
  have key : ∀ s4 : Sys, core s4 = core s → s.state = PROC_RUNNING_S →
      (match __proc_set_state (__seq_end_write (__unmap_vcore (__seq_start_write s4) 0))
          PROC_RUNNABLE_M with
        | .error e => .error e
        | .ok s6 => .ok { s6 with is_mcp := true } : Res) = .ok s1 → InvC n (core s1) := by
    intro s4 e4 c1 h4
    split at h4
    · cases h4
    · rename_i s6 h6
      rw [← Except.ok.inj h4, set_state_ok h6]
      have : core { ({ __seq_end_write (__unmap_vcore (__seq_start_write s4) 0) with
          state := PROC_RUNNABLE_M } : Sys) with is_mcp := true } =
          { core (__unmap_vcore (__seq_start_write s4) 0) with
            state := PROC_RUNNABLE_M, is_mcp := true } := rfl
      rw [this, core_unmap]
      have e5 : core (__seq_start_write s4) = core s := e4
      rw [e5]
      have hon : (core s).online = [] := hi.1.online_nil_of_s
        ⟨by show s.state ≠ _; rw [c1]; simp [PROC_RUNNING_S, PROC_RUNNABLE_M],
         by show s.state ≠ _; rw [c1]; simp [PROC_RUNNING_S, PROC_RUNNING_M]⟩
      have hrev : (core s).revokes = [] := hi.1.s_rev (Or.inr (Or.inr c1))
      have h1 := (hi.1.unmap_offline 0 hon hrev).set_mcp
      have h2' := h1.set_state PROC_RUNNABLE_M (Or.inl rfl)
        (Or.inr (by show s.state ≠ _; rw [c1]; simp [PROC_RUNNING_S, PROC_DYING]))
        (fun _ => rfl)
        (by simp [PROC_RUNNABLE_M, PROC_CREATED, PROC_RUNNABLE_S, PROC_RUNNING_S])
      exact ⟨h2', hi.2⟩
  unfold __proc_switch_to_m at h
  by_cases c1 : s.state = PROC_RUNNING_S
  · rw [if_pos c1] at h
    by_cases c2 : (s.per_cpu_info coreid).cur_proc ≠ some s.pid
    · rw [if_pos c2] at h; cases h
    rw [if_neg c2] at h
    split at h
    · cases h
    · rename_i pc hpc
      by_cases c3 : pc ≠ coreid
      · rw [if_pos c3] at h; cases h
      rw [if_neg c3] at h
      by_cases c4 : (s.per_cpu_info coreid).cur_tf = .null
      · rw [if_pos c4] at h; cases h
      rw [if_neg c4] at h
      split at h
      · cases h
      · rename_i tf htf
        simp only at h
        split at h
        · cases h
        · rename_i s2 h2
          have e2 : core s2 = core s := (clear_owning_proc_core h2).trans rfl
          refine key _ ?_ c1 h
          exact core_ite _ _ _ _ e2 e2
  rw [if_neg c1] at h
  by_cases c6 : s.state = PROC_RUNNABLE_S
  · rw [if_pos c6] at h; cases h
  · rw [if_neg c6] at h; rw [← Except.ok.inj h]; exact hi

theorem proc_run_s_inv {n : Nat} {s s1 : Sys} {coreid : Nat}
    (hi : InvC n (core s)) (h : proc_run_s s coreid = .ok s1) : InvC n (core s1) := by
  unfold proc_run_s at h
  by_cases c1 : s.state = PROC_DYING
  · rw [if_pos c1] at h; rw [← Except.ok.inj h]; exact hi
  rw [if_neg c1] at h
  by_cases c2 : s.state = PROC_RUNNABLE_S
  · rw [if_pos c2] at h
    by_cases c3 : (s.per_cpu_info coreid).cur_proc = some s.pid
    · rw [if_pos c3] at h; cases h
    rw [if_neg c3] at h
    split at h
    · cases h
    · rename_i sa ha
      have ea := set_state_ok ha
      subst ea
      simp only at h
      split at h
      · cases h
      · rename_i s4 h4
        obtain ⟨hv, e4⟩ := core_map h4
        split at h
        · cases h
        · rename_i s7 h7
          rw [← Except.ok.inj h]
          have e7 : core s7 = core s4 := (set_proc_current_core h7).trans rfl
          show InvC n (core s7)
          rw [e7, e4]
          have hon : (core s).online = [] := hi.1.online_nil_of_s
            ⟨by show s.state ≠ _; rw [c2]; simp [PROC_RUNNABLE_S, PROC_RUNNABLE_M],
             by show s.state ≠ _; rw [c2]; simp [PROC_RUNNABLE_S, PROC_RUNNING_M]⟩
          have hrev : (core s).revokes = [] := hi.1.s_rev (Or.inr (Or.inl c2))
          have h1 := (hi.1.set_state PROC_RUNNING_S (Or.inr (Or.inr hon)) (Or.inr c1)
            (by simp [PROC_RUNNING_S, PROC_RUNNABLE_M, PROC_RUNNING_M, PROC_WAITING])
            (fun _ => hrev)).set_num 0
          have h2 := h1.map_offline 0 coreid hon hv
          exact ⟨h2, by show 0 = List.length (core s).online; rw [hon]; rfl⟩
  rw [if_neg c2] at h
  cases h

theorem wakeup_inv {n : Nat} {s s1 : Sys}
    (hi : InvC n (core s)) (h : __proc_wakeup s = .ok s1) : InvC n (core s1) := by
  unfold __proc_wakeup at h
  by_cases c1 : s.state ≠ PROC_WAITING
  · rw [if_pos c1] at h; rw [← Except.ok.inj h]; exact hi
  rw [if_neg c1] at h
  have hst : s.state = PROC_WAITING := not_not.mp c1
  have hm : s.is_mcp = true := hi.1.mcp (Or.inr (Or.inr hst))
  rw [if_pos hm] at h
  rw [set_state_ok h, core_set_state]
  exact ⟨hi.1.set_state PROC_RUNNABLE_M (Or.inl rfl)
    (Or.inr (by show s.state ≠ _; rw [hst]; simp [PROC_WAITING, PROC_DYING]))
    (fun _ => hm)
    (by simp [PROC_RUNNABLE_M, PROC_CREATED, PROC_RUNNABLE_S, PROC_RUNNING_S]), hi.2⟩

theorem make_runnable_inv {n : Nat} {s s1 : Sys} (hi : InvC n (core s))
    (hst : s.state = PROC_CREATED) (h : __proc_set_state s PROC_RUNNABLE_S = .ok s1) :
    InvC n (core s1) := by
  rw [set_state_ok h, core_set_state]
  have hon : (core s).online = [] := hi.1.online_nil_of_s
    ⟨by show s.state ≠ _; rw [hst]; simp [PROC_CREATED, PROC_RUNNABLE_M],
     by show s.state ≠ _; rw [hst]; simp [PROC_CREATED, PROC_RUNNING_M]⟩
  exact ⟨hi.1.set_state PROC_RUNNABLE_S (Or.inr (Or.inr hon))
    (Or.inr (by show s.state ≠ _; rw [hst]; simp [PROC_CREATED, PROC_DYING]))
    (by simp [PROC_RUNNABLE_S, PROC_RUNNABLE_M, PROC_RUNNING_M, PROC_WAITING])
    (fun _ => hi.1.s_rev (Or.inl hst)), hi.2⟩

theorem proc_notify_core (s : Sys) (v : Nat) : core (proc_notify s v) = core s := by
  unfold proc_notify
  simp only
  split
  · split
    · exact core_send_other _ _ _ _ (Or.inr (Or.inl rfl))
    · rfl
  · rfl

theorem startcore_core {s s1 : Sys} {c : Nat} {a0 : Option Nat}
    (h : __startcore s c a0 = .ok s1) : core s1 = core s := by
  unfold __startcore at h
  split at h
  · cases h
  · rename_i q
    simp only at h
    by_cases c1 : (s.per_cpu_info c).owning_proc.isSome = true
    · rw [if_pos c1] at h; cases h
    rw [if_neg c1] at h
    split at h
    · cases h
    · rename_i s2 h2
      have e2 : core s2 = core s := by
        split at h2
        · rw [← Except.ok.inj h2]; rfl
        · exact (proc_decref_core h2).trans rfl
      by_cases c2 : q ≠ s2.pid
      · rw [if_pos c2] at h; rw [← Except.ok.inj h]; exact e2
      rw [if_neg c2] at h
      split at h
      · cases h
      · exact (set_curtf_core h).trans e2

theorem notify_core {s s1 : Sys} {c : Nat} {a0 : Option Nat}
    (h : __notify s c a0 = .ok s1) : core s1 = core s := by
  unfold __notify at h
  simp only at h
  by_cases c1 : a0 ≠ (s.per_cpu_info c).owning_proc
  · rw [if_pos c1] at h; rw [← Except.ok.inj h]
  rw [if_neg c1] at h
  by_cases c2 : (s.per_cpu_info c).cur_tf = .null
  · rw [if_pos c2] at h; cases h
  rw [if_neg c2] at h
  by_cases c3 : (s.per_cpu_info c).cur_tf ≠ .actual_tf
  · rw [if_pos c3] at h; cases h
  rw [if_neg c3] at h
  by_cases c4 : a0 ≠ some s.pid
  · rw [if_pos c4] at h; rw [← Except.ok.inj h]
  rw [if_neg c4] at h
  split at h
  · cases h
  · rename_i v hv
    by_cases c5 : (s.vcore_preempt_data v).notif_disabled = true
    · rw [if_pos c5] at h; rw [← Except.ok.inj h]
    · rw [if_neg c5] at h; rw [← Except.ok.inj h]; rfl

theorem preempt_handler_core {s s1 : Sys} {c : Nat} {a0 : Option Nat}
    (h : __preempt s c a0 = .ok s1) :
    core s1 = core s ∨
    (((core s).pmap c).valid = true ∧ core s1 = (core s).unmap ((core s).pmap c).vcoreid) := by
  unfold __preempt at h
  simp only at h
  by_cases c1 : a0 = none
  · rw [if_pos c1] at h; cases h
  rw [if_neg c1] at h
  by_cases c2 : a0 ≠ (s.per_cpu_info c).owning_proc
  · rw [if_pos c2] at h; cases h
  rw [if_neg c2] at h
  by_cases c3 : (s.per_cpu_info c).cur_tf = .null
  · rw [if_pos c3] at h; cases h
  rw [if_neg c3] at h
  by_cases c4 : (s.per_cpu_info c).cur_tf ≠ .actual_tf
  · rw [if_pos c4] at h; cases h
  rw [if_neg c4] at h
  by_cases c5 : a0 ≠ some s.pid
  · rw [if_pos c5] at h; exact Or.inl (clear_owning_proc_core h)
  rw [if_neg c5] at h
  by_cases hmap : is_mapped_vcore s c = true
  · have hget : get_vcoreid s c = .ok (s.pcoremap c).vcoreid := by
      unfold get_vcoreid; rw [if_pos hmap]
    rw [hget] at h
    simp only at h
    right
    refine ⟨hmap, ?_⟩
    rw [clear_owning_proc_core h, core_unmap]
    have gen : ∀ d : PreemptData, core (set_vcpd (set_vcore s (s.pcoremap c).vcoreid
        { s.vcoremap (s.pcoremap c).vcoreid with preempt_served := false, preempt_pending := 0 })
        (s.pcoremap c).vcoreid d) = core s := fun d => core_set_vcore s _ _ rfl rfl
    rw [gen]
    rfl
  · have hget : get_vcoreid s c = fault .assertion s := by
      unfold get_vcoreid; rw [if_neg hmap]
    rw [hget] at h
    cases h

theorem death_handler_core {s s1 : Sys} {c : Nat} (h : __death s c = .ok s1) :
    core s1 = core s ∨
    (((core s).pmap c).valid = true ∧ core s1 = (core s).unmap ((core s).pmap c).vcoreid) := by
  unfold __death at h
  split at h
  · rw [← Except.ok.inj h]; exact Or.inl rfl
  · rename_i q hq
    by_cases c1 : q ≠ s.pid
    · rw [if_pos c1] at h; exact Or.inl (clear_owning_proc_core h)
    rw [if_neg c1] at h
    by_cases hmap : is_mapped_vcore s c = true
    · have hget : get_vcoreid s c = .ok (s.pcoremap c).vcoreid := by
        unfold get_vcoreid; rw [if_pos hmap]
      rw [hget] at h
      simp only at h
      right
      refine ⟨hmap, ?_⟩
      rw [clear_owning_proc_core h, core_unmap]
      rfl
    · have hget : get_vcoreid s c = fault .assertion s := by
        unfold get_vcoreid; rw [if_neg hmap]
      rw [hget] at h
      cases h

theorem revokes_split (s : Sys) (pre post : List KMsg) (m : KMsg)
    (hk : s.kmsgs = pre ++ m :: post) :
    core { s with kmsgs := pre ++ post } =
      { core s with
        revokes := (pre.filter is_revoke).map KMsg.dst ++ (post.filter is_revoke).map KMsg.dst } ∧
    (is_revoke m = false → core { s with kmsgs := pre ++ post } = core s) ∧
    (is_revoke m = true → (core s).revokes =
      (pre.filter is_revoke).map KMsg.dst ++ m.dst :: (post.filter is_revoke).map KMsg.dst) := by
  refine ⟨?_, ?_, ?_⟩
  · simp [core, revokes, List.filter_append]
  · intro hm
    simp [core, revokes, hk, List.filter_append, List.filter_cons, hm]
  · intro hm
    simp [core, revokes, hk, List.filter_append, List.filter_cons, hm]

theorem deliver_inv {n : Nat} {s s1 : Sys} {pre post : List KMsg} {m : KMsg}
    (hi : InvC n (core s)) (hk : s.kmsgs = pre ++ m :: post)
    (h : run_handler { s with kmsgs := pre ++ post } m = .ok s1) : InvC n (core s1) := by
  obtain ⟨e1, e2, e3⟩ := revokes_split s pre post m hk
  have revoke : is_revoke m = true →
      (core s1 = core { s with kmsgs := pre ++ post } ∨
       (((core { s with kmsgs := pre ++ post }).pmap m.dst).valid = true ∧
        core s1 = (core { s with kmsgs := pre ++ post }).unmap
          ((core { s with kmsgs := pre ++ post }).pmap m.dst).vcoreid)) → InvC n (core s1) := by
    intro hm hc
    have hr := e3 hm
    rcases hc with e | ⟨hp, e⟩
    · rw [e, e1]
      exact ⟨hi.1.drop_revoke _ _ m.dst hr, hi.2⟩
    · rw [e, e1]
      exact ⟨hi.1.handler_unmap _ _ m.dst hr hp, hi.2⟩
  unfold run_handler at h
  split at h
  · rename_i hh
    rw [startcore_core h, e2 (by simp [is_revoke, hh])]
    exact hi
  · rename_i hh
    rw [notify_core h, e2 (by simp [is_revoke, hh])]
    exact hi
  · rename_i hh
    exact revoke (by simp [is_revoke, hh]) (preempt_handler_core h)
  · rename_i hh
    exact revoke (by simp [is_revoke, hh]) (death_handler_core h)
  · rename_i hh
    rw [← Except.ok.inj h, e2 (by simp [is_revoke, hh])]
    exact hi

theorem proc_alloc_inv (pcpu : Nat → PerCpuInfo) (others : Nat → Int) (pid ppid n : Nat) :
    InvC n (core (proc_alloc pcpu others pid ppid n)) := by
  refine ⟨⟨?_, ?_, Or.inr (Or.inr rfl), ?_, ?_, Or.inr ⟨List.nodup_nil, ?_⟩, ?_, fun _ => rfl⟩, rfl⟩
  · show ([] ++ ([] ++ List.range n)).Nodup
    simpa using List.nodup_range n
  · show ([] ++ ([] ++ List.range n)).length = n
    simp
  · intro v hv; cases hv
  · intro p hp; cases hp
  · intro p hp; cases hp
  · intro hs
    simp [core, proc_alloc, PROC_CREATED, PROC_RUNNABLE_M, PROC_RUNNING_M, PROC_WAITING] at hs

theorem step_inv {M n : Nat} {s s1 : Sys} (hn : n < U32_MOD) (hi : InvC n (core s))
    (h : Step M s s1) : InvC n (core s1) := by
  cases h with
  | ready => exact hi
  | make_runnable hst h => exact make_runnable_inv hi hst h
  | run_s coreid h => exact proc_run_s_inv hi h
  | switch_to_m coreid h => exact switch_to_m_inv hi h
  | give_cores pcs hnd hun h => exact give_cores_inv hn hi hnd hun h
  | run_m h => exact (run_m_facts h).2 n hi
  | take_corelist pcs preempt hd h => exact (take_corelist_inv hn hi hd h).1
  | take_allcores preempt pcs h => exact (take_allcores_facts h).2.2.2.1 n hi.1
  | take_allcores_dumb preempt h => exact (take_allcores_dumb_facts h).2.2.2.1 n hi.1
  | yield coreid b hd h => exact (proc_yield_facts hd h).2 n hn hi
  | preempt_core pc w hd h => exact proc_preempt_core_inv hn hi hd h
  | preempt_all w h => exact proc_preempt_all_inv hi h
  | change_to_vcore c v b hd hd2 h => exact (change_to_vcore_facts hd hd2 h).2 n hi
  | destroy h => exact proc_destroy_inv hi h
  | wakeup h => exact wakeup_inv hi h
  | notify v => rw [proc_notify_core]; exact hi
  | incref v => exact hi
  | decref h => rw [proc_decref_core h]; exact hi
  | user_write v d => exact hi
  | deliver pre post m hk hpre h => exact deliver_inv hi hk h

theorem reachable_inv {M n : Nat} {s : Sys} (hn : n < U32_MOD) (h : Reachable M n s) :
    InvC n (core s) := by
  induction h with
  | alloc pcpu others pid ppid => exact proc_alloc_inv pcpu others pid ppid n
  | step _ _ hs ih => exact step_inv hn ih hs

/-! ## The claims on the lists in every state of a run -/

theorem lists_partition_iff (s : Sys) : lists_partition s ↔ (all_vcs s).Nodup := by
  unfold lists_partition all_vcs
  simp only [List.nodup_append, List.Disjoint, List.mem_append]
  constructor
  · rintro ⟨h1, h2, h3, h4, h5, h6⟩
    refine ⟨h1, ⟨h2, h3, fun a ha => h6 a ha⟩, ?_⟩
    intro a ha hb
    rcases hb with hb | hb
    · exact h4 a ha hb
    · exact h5 a ha hb
  · rintro ⟨h1, ⟨h2, h3, h6⟩, h45⟩
    exact ⟨h1, h2, h3, fun v hv hb => h45 hv (Or.inl hb), fun v hv hb => h45 hv (Or.inr hb),
      fun v hv hb => h6 hv hb⟩

theorem all_vcs_of_core_lists {s : Sys} {c : Core} (h : core s = c) : all_vcs s = c.all :=
  congrArg Core.all h

theorem perm_erase_three (a b c : List Nat) (v : Nat) :
    (v ∈ a → (v :: (a.erase v ++ (b ++ c))).Perm (a ++ (b ++ c))) ∧
    (v ∈ b → (v :: (a ++ (b.erase v ++ c))).Perm (a ++ (b ++ c))) ∧
    (v ∈ c → (v :: (a ++ (b ++ c.erase v))).Perm (a ++ (b ++ c))) := by
  refine ⟨fun hv => ?_, fun hv => ?_, fun hv => ?_⟩
  · exact (List.perm_cons_erase hv).symm.append_right _
  · refine List.perm_middle.symm.trans (List.Perm.append_left a ?_)
    exact (List.perm_cons_erase hv).symm.append_right c
  · refine List.perm_middle.symm.trans (List.Perm.append_left a ?_)
    refine List.perm_middle.symm.trans (List.Perm.append_left b ?_)
    exact (List.perm_cons_erase hv).symm

/-- Whatever list it unlinks the entry from, a `TAILQ_REMOVE` that the run is
followed through takes the entry, and nothing else, off the three lists. -/
theorem online_remove_perm {s s1 : Sys} {v : Nat} (h : online_remove s v = .ok s1) :
    (v :: all_vcs s1).Perm (all_vcs s) := by
  obtain ⟨p1, p2, p3⟩ := perm_erase_three s.online_vcs s.bulk_preempted_vcs s.inactive_vcs v
  unfold online_remove fault at h
  split_ifs at h with c1 c2 c3
  · rw [← Except.ok.inj h]; exact p1 c1
  · rw [← Except.ok.inj h]; exact p2 (List.mem_of_mem_dropLast c2)
  · rw [← Except.ok.inj h]; exact p3 (List.mem_of_mem_dropLast c3)

theorem inactive_remove_perm {s s1 : Sys} {v : Nat} (h : inactive_remove s v = .ok s1) :
    (v :: all_vcs s1).Perm (all_vcs s) := by
  obtain ⟨p1, p2, p3⟩ := perm_erase_three s.online_vcs s.bulk_preempted_vcs s.inactive_vcs v
  unfold inactive_remove fault at h
  split_ifs at h with c1 c2 c3
  · rw [← Except.ok.inj h]; exact p3 c1
  · rw [← Except.ok.inj h]; exact p1 (List.mem_of_mem_dropLast c2)
  · rw [← Except.ok.inj h]; exact p2 (List.mem_of_mem_dropLast c3)

theorem inactive_insert_head_perm (s : Sys) (v : Nat) :
    (all_vcs (inactive_insert_head s v)).Perm (v :: all_vcs s) := by
  show (s.online_vcs ++ (s.bulk_preempted_vcs ++ v :: s.inactive_vcs)).Perm
    (v :: (s.online_vcs ++ (s.bulk_preempted_vcs ++ s.inactive_vcs)))
  refine (List.Perm.append_left _ List.perm_middle).trans ?_
  exact List.perm_middle

theorem online_insert_tail_perm (s : Sys) (v : Nat) :
    (all_vcs (online_insert_tail s v)).Perm (v :: all_vcs s) := by
  show ((s.online_vcs ++ [v]) ++ (s.bulk_preempted_vcs ++ s.inactive_vcs)).Perm
    (v :: (s.online_vcs ++ (s.bulk_preempted_vcs ++ s.inactive_vcs)))
  rw [List.append_assoc]
  exact List.perm_middle

theorem take_corelist_step_perm {s s1 : Sys} {pc : Nat} {preempt : Bool}
    (h : take_corelist_step s pc preempt = .ok s1) : (all_vcs s1).Perm (all_vcs s) := by
  unfold take_corelist_step fault at h
  split at h
  · cases h
  · split at h
    · cases h
    · split_ifs at h with c1 d1 d2
      · simp only [] at h
        split at h
        · cases h
        · rename_i s2 h2
          split at h
          · cases h
          · rename_i s3 h3
            rw [← Except.ok.inj h]
            have e2 : all_vcs s2 = all_vcs s := all_vcs_of_core_lists (revoke_core_core h2).2
            rw [← e2]
            exact (inactive_insert_head_perm s3 _).trans (online_remove_perm h3)
      · simp only [] at h
        split at h
        · cases h
        · rename_i s3 h3
          rw [← Except.ok.inj h]
          have p := online_remove_perm h3
          exact (inactive_insert_head_perm s3 _).trans (p.trans (List.Perm.refl (all_vcs s)))

theorem take_corelist_loop_perm (preempt : Bool) (pcs : List Nat) :
    ∀ {s s1 : Sys}, take_corelist_loop s preempt pcs = .ok s1 →
      (all_vcs s1).Perm (all_vcs s) := by
  induction pcs with
  | nil => intro s s1 h; rw [← Except.ok.inj h]
  | cons pc pcs ih =>
    intro s s1 h
    simp only [take_corelist_loop] at h
    split at h
    · cases h
    · rename_i s2 h2
      exact (ih h).trans (take_corelist_step_perm h2)

theorem take_corelist_perm {s s1 : Sys} {pcs : List Nat} {preempt : Bool}
    (h : __proc_take_corelist s pcs preempt = .ok s1) : (all_vcs s1).Perm (all_vcs s) := by
  unfold __proc_take_corelist at h
  split at h
  · cases h
  · rename_i s2 h2
    rw [← Except.ok.inj h]
    have a := take_corelist_loop_perm preempt pcs h2
    exact a

theorem yield_m_commit_perm {s s1 : Sys} {pc v : Nat} {b : Bool}
    (h : yield_m_commit s pc v b = .ok s1) : (all_vcs s1).Perm (all_vcs s) := by
  unfold yield_m_commit at h
  split at h
  · cases h
  · rename_i s2 h2
    have p2 := online_remove_perm h2
    split_ifs at h with c1
    · rw [← Except.ok.inj h]
      exact (online_insert_tail_perm s2 v).trans p2
    · simp only [] at h
      split at h
      · cases h
      · rename_i s9 h9
        have e : all_vcs s1 = all_vcs s9 := all_vcs_of_core (out_yield_core_core h)
        have hr : all_vcs (yield_m_release s2 pc v b) = all_vcs (inactive_insert_head s2 v) :=
          all_vcs_of_core_lists (yield_m_release_core s2 pc v b)
        have e9 : all_vcs s9 = all_vcs (yield_m_release s2 pc v b) := by
          split_ifs at h9 with c2
          · rw [set_state_ok h9]; rfl
          · rw [← Except.ok.inj h9]
        rw [e, e9, hr]
        exact (inactive_insert_head_perm s2 v).trans p2

theorem proc_yield_perm {s s1 : Sys} {pc : Nat} {b : Bool} (h : proc_yield s pc b = .ok s1) :
    (all_vcs s1).Perm (all_vcs s) := by
  unfold proc_yield at h
  by_cases c1 : s.state = PROC_RUNNING_S
  · rw [if_pos c1] at h
    split at h
    · cases h
    · rename_i s2 h2
      obtain ⟨_, e2⟩ := proc_yield_s_core h2
      have a : all_vcs s1 = all_vcs s2 := all_vcs_of_core (out_yield_core_core h)
      have b2 : all_vcs s2 = all_vcs s := all_vcs_of_core_lists e2
      rw [a, b2]
  rw [if_neg c1] at h
  by_cases c2 : s.state = PROC_RUNNING_M
  · rw [if_pos c2] at h
    by_cases c3 : (!is_mapped_vcore s pc) = true
    · rw [if_pos c3] at h; rw [← Except.ok.inj h]
    rw [if_neg c3] at h
    have hmap : is_mapped_vcore s pc = true := by simpa using c3
    have hget : get_vcoreid s pc = .ok (s.pcoremap pc).vcoreid := by
      unfold get_vcoreid; rw [if_pos hmap]
    rw [hget] at h
    simp only at h
    by_cases c4 : b = true ∧ (s.vcoremap (s.pcoremap pc).vcoreid).preempt_pending = 0
    · rw [if_pos c4] at h; rw [← Except.ok.inj h]
    rw [if_neg c4] at h
    by_cases c5 : (s.vcoremap (s.pcoremap pc).vcoreid).preempt_served = true
    · rw [if_pos c5] at h; rw [← Except.ok.inj h]
    rw [if_neg c5] at h
    have hx : ∀ sx : Sys, sx = (if (s.vcoremap (s.pcoremap pc).vcoreid).preempt_pending ≠ 0 then
        set_vcore s (s.pcoremap pc).vcoreid
          { s.vcoremap (s.pcoremap pc).vcoreid with preempt_pending := 0 } else s) →
        all_vcs sx = all_vcs s := by
      intro sx e
      by_cases c6 : (s.vcoremap (s.pcoremap pc).vcoreid).preempt_pending ≠ 0
      · rw [if_pos c6] at e
        rw [e]
        rfl
      · rw [if_neg c6] at e
        rw [e]
    generalize hsx : (if (s.vcoremap (s.pcoremap pc).vcoreid).preempt_pending ≠ 0 then
        set_vcore s (s.pcoremap pc).vcoreid
          { s.vcoremap (s.pcoremap pc).vcoreid with preempt_pending := 0 } else s) = sx at h
    have x1 := hx sx hsx.symm
    by_cases c7 : (sx.vcore_preempt_data (s.pcoremap pc).vcoreid).notif_pending = true
    · rw [if_pos c7] at h; rw [← Except.ok.inj h, x1]
    rw [if_neg c7] at h
    rw [← x1]
    exact yield_m_commit_perm h
  rw [if_neg c2] at h
  by_cases c8 : s.state = PROC_DYING ∨ s.state = PROC_RUNNABLE_M
  · rw [if_pos c8] at h; rw [← Except.ok.inj h]
  · rw [if_neg c8] at h; cases h

theorem change_to_vcore_perm {s s1 : Sys} {pc new : Nat} {b : Bool}
    (h : proc_change_to_vcore s pc new b = .ok s1) : (all_vcs s1).Perm (all_vcs s) := by
  unfold proc_change_to_vcore at h
  by_cases c0 : vcore_is_mapped s new = true
  · rw [if_pos c0] at h; rw [← Except.ok.inj h]
  rw [if_neg c0] at h
  by_cases c1 : s.state = PROC_RUNNING_M
  · rw [if_pos c1] at h
    by_cases c3 : (!is_mapped_vcore s pc) = true
    · rw [if_pos c3] at h; rw [← Except.ok.inj h]
    rw [if_neg c3] at h
    have hmap : is_mapped_vcore s pc = true := by simpa using c3
    have hget : get_vcoreid s pc = .ok (s.pcoremap pc).vcoreid := by
      unfold get_vcoreid; rw [if_pos hmap]
    rw [hget] at h
    simp only at h
    by_cases c4 : (!(s.vcore_preempt_data (s.pcoremap pc).vcoreid).notif_disabled) = true
    · rw [if_pos c4] at h; rw [← Except.ok.inj h]
    rw [if_neg c4] at h
    by_cases c5 : (s.vcoremap (s.pcoremap pc).vcoreid).preempt_served = true
    · rw [if_pos c5] at h; rw [← Except.ok.inj h]
    rw [if_neg c5] at h
    split at h
    · cases h
    · rename_i sa ha
      have hsa : ∃ d, sa = set_vcpd s (s.pcoremap pc).vcoreid d := by
        cases b
        · simp only [Bool.false_eq_true, if_false] at ha
          split at ha
          · cases ha
          · exact ⟨_, (Except.ok.inj ha).symm⟩
        · simp only [if_true] at ha
          exact ⟨_, (Except.ok.inj ha).symm⟩
      obtain ⟨d, ed⟩ := hsa
      have ma : all_vcs sa = all_vcs s := by rw [ed]; rfl
      split at h
      · cases h
      · rename_i s2 h2
        have p2 := online_remove_perm h2
        split at h
        · cases h
        · rename_i s3 h3
          have p3 := inactive_remove_perm h3
          split at h
          · cases h
          · rename_i s5 h5
            obtain ⟨_, e5⟩ := core_map h5
            have m5 : all_vcs s5 = all_vcs (online_insert_tail s3 new) :=
              all_vcs_of_core_lists e5
            have m6 : all_vcs s1 = all_vcs s5 := all_vcs_of_core ((set_curtf_core h).trans rfl)
            rw [m6, m5, ← ma]
            refine (online_insert_tail_perm s3 new).trans (p3.trans ?_)
            exact (inactive_insert_head_perm s2 _).trans p2
  rw [if_neg c1] at h
  by_cases c8 : s.state = PROC_RUNNING_S ∨ s.state = PROC_DYING ∨ s.state = PROC_RUNNABLE_M
  · rw [if_pos c8] at h; rw [← Except.ok.inj h]
  · rw [if_neg c8] at h; cases h

theorem list_edit_perm {M : Nat} {s s1 : Sys} (h : ListEdit M s s1) :
    (all_vcs s1).Perm (all_vcs s) := by
  cases h with
  | give_cores pcs h => exact give_cores_perm h
  | take_corelist pcs preempt h => exact take_corelist_perm h
  | take_allcores preempt pcs h => exact (take_allcores_facts h).1
  | run_m h => exact (run_m_facts h).1
  | yield c b h => exact proc_yield_perm h
  | change_to_vcore c v b h => exact change_to_vcore_perm h

/-- On the runs that keep the three lists tail queues, every operation that
edits the vcore lists (`__proc_give_cores`, `__proc_take_corelist`,
`__proc_take_allcores`, `__proc_run_m` with its drain of the bulk-preempted
list, `proc_yield`, `proc_change_to_vcore`), when it runs to completion from a
state whose three lists are duplicate-free and pairwise disjoint, ends in a
state whose three lists are duplicate-free and pairwise disjoint and hold the
same vcores as before.  This holds also when a `TAILQ_REMOVE` names one list
and unlinks the vcore from another one in which it has a successor.  The runs
left out are those in which a `TAILQ_REMOVE` unlinks the last entry of another
list (`Fault.tailq`) or an entry that was never linked. -/
theorem list_edits_keep_partition (MAX_NUM_CPUS : Nat) (s s1 : Sys)
    (hp : lists_partition s) (h : ListEdit MAX_NUM_CPUS s s1) :
    lists_partition s1 ∧ ∀ v, v ∈ all_vcs s1 ↔ v ∈ all_vcs s := by
  have hperm := list_edit_perm h
  exact ⟨(lists_partition_iff s1).mpr (hperm.nodup_iff.mpr ((lists_partition_iff s).mp hp)),
    fun v => hperm.mem_iff⟩

theorem list_edits_keep_partition_runs :
    (∃ s1, __proc_give_cores 8 runnable_m_proc [9, 11] = .ok s1 ∧
      lists_partition runnable_m_proc ∧ s1.online_vcs = [2, 0] ∧
      lists_partition s1 ∧ ∀ v, v ∈ all_vcs s1 ↔ v ∈ all_vcs runnable_m_proc) ∧
    (∃ s1, __proc_take_corelist running_m_proc [5] true = .ok s1 ∧
      lists_partition running_m_proc ∧ s1.inactive_vcs = [2, 0, 1, 3] ∧
      lists_partition s1 ∧ ∀ v, v ∈ all_vcs s1 ↔ v ∈ all_vcs running_m_proc) ∧
    (∃ s1, __proc_take_allcores running_m_proc true = .ok ([5], s1) ∧
      lists_partition running_m_proc ∧ s1.bulk_preempted_vcs = [2] ∧
      lists_partition s1 ∧ ∀ v, v ∈ all_vcs s1 ↔ v ∈ all_vcs running_m_proc) ∧
    (∃ s1, __proc_run_m draining_proc = .ok s1 ∧
      lists_partition draining_proc ∧ s1.inactive_vcs = [2, 1, 3] ∧
      lists_partition s1 ∧ ∀ v, v ∈ all_vcs s1 ↔ v ∈ all_vcs draining_proc) ∧
    (∃ s1, proc_yield on_core_proc 5 false = .ok s1 ∧
      lists_partition on_core_proc ∧ s1.inactive_vcs = [2, 0, 1, 3] ∧
      lists_partition s1 ∧ ∀ v, v ∈ all_vcs s1 ↔ v ∈ all_vcs on_core_proc) ∧
    (∃ s1, proc_change_to_vcore on_core_proc 5 1 true = .ok s1 ∧
      lists_partition on_core_proc ∧ s1.online_vcs = [1] ∧ s1.inactive_vcs = [2, 0, 3] ∧
      lists_partition s1 ∧ ∀ v, v ∈ all_vcs s1 ↔ v ∈ all_vcs on_core_proc) :=
  ⟨⟨_, rfl, by decide, rfl,
      list_edits_keep_partition 8 _ _ (by decide) (ListEdit.give_cores [9, 11] rfl)⟩,
   ⟨_, rfl, by decide, rfl,
      list_edits_keep_partition 8 _ _ (by decide) (ListEdit.take_corelist [5] true rfl)⟩,
   ⟨_, rfl, by decide, rfl,
      list_edits_keep_partition 8 _ _ (by decide) (ListEdit.take_allcores true [5] rfl)⟩,
   ⟨_, rfl, by decide, rfl,
      list_edits_keep_partition 8 _ _ (by decide) (ListEdit.run_m rfl)⟩,
   ⟨_, rfl, by decide, rfl,
      list_edits_keep_partition 8 _ _ (by decide) (ListEdit.yield 5 false rfl)⟩,
   ⟨_, rfl, by decide, rfl, rfl,
      list_edits_keep_partition 8 _ _ (by decide) (ListEdit.change_to_vcore 5 1 true rfl)⟩⟩

/-- The linked cells and the lists of `Sys` agree on the list statements of
`proc_change_to_vcore` where the lists are followed: when the caller's vcore 0
is online, and when it sits on the inactive list with a successor (there
`TAILQ_REMOVE(&p->online_vcs, ...)` unlinks it from the inactive list). -/
theorem tq_cells_follow_lists :
    (∃ m, change_to_vcore_lists (tq_of_lists [0] [] [1, 2]) 0 1 = some m ∧
      tq_chain m .online 4 = [1] ∧ tq_chain m .bulk_preempted 4 = [] ∧
      tq_chain m .inactive 4 = [0, 2]) ∧
    (∃ m, change_to_vcore_lists (tq_of_lists [2] [] [0, 1, 3]) 0 1 = some m ∧
      tq_chain m .online 4 = [2, 1] ∧ tq_chain m .bulk_preempted 4 = [] ∧
      tq_chain m .inactive 4 = [0, 3]) ∧
    (∃ s2 s3, online_remove { dying_proc with online_vcs := [2], inactive_vcs := [0, 1, 3] } 0 =
        .ok s2 ∧
      inactive_remove (inactive_insert_head s2 0) 1 = .ok s3 ∧
      (online_insert_tail s3 1).online_vcs = [2, 1] ∧
      (online_insert_tail s3 1).bulk_preempted_vcs = [] ∧
      (online_insert_tail s3 1).inactive_vcs = [0, 3]) :=
  ⟨⟨_, rfl, rfl, rfl, rfl⟩, ⟨_, rfl, rfl, rfl, rfl⟩, ⟨_, _, rfl, rfl, rfl, rfl, rfl⟩⟩

/-- C3 fails in process.c.  On a two-core machine both vcores of a `RUNNING_M`
process are started, then revoked with `__proc_take_corelist(..., FALSE)`, and
pcore 7 handles its `__death`: the lists are a partition (online empty,
inactive 1, 0), vcore 0 is still mapped to pcore 5 and is the last entry of the
inactive list.  `proc_change_to_vcore(p, 1, TRUE)` on pcore 5 passes every
check and reaches `TAILQ_REMOVE(&p->online_vcs, caller_vc, list)`.  The lists
of `Sys` stop there (`Fault.tailq`); on the linked cells the four list
statements leave the online list empty and the inactive list with vcore 0
alone: vcore 1, which the function then maps to pcore 5, is on no list, its
`tqe_next` pointing to itself. -/
theorem change_to_vcore_loses_vcore :
    ∃ s s1, Reachable 8 2 s ∧ lists_partition s ∧ s.state = PROC_RUNNING_M ∧
      s.online_vcs = [] ∧ s.bulk_preempted_vcs = [] ∧ s.inactive_vcs = [1, 0] ∧
      s.pcoremap 5 = ⟨0, true⟩ ∧ (s.vcoremap 1).valid = false ∧
      1 ∈ all_vcs s ∧
      proc_change_to_vcore s 5 1 true = .error (.tailq, s1) ∧
      ∃ m, change_to_vcore_lists
          (tq_of_lists s.online_vcs s.bulk_preempted_vcs s.inactive_vcs) 0 1 = some m ∧
        tq_chain m .online 4 = [] ∧ tq_chain m .bulk_preempted 4 = [] ∧
        tq_chain m .inactive 4 = [0] ∧ m.tqe_next 1 = some 1 ∧
        1 ∉ tq_chain m .online 4 ++ (tq_chain m .bulk_preempted 4 ++ tq_chain m .inactive 4) := by
  have h6 : Reachable 8 2 _ := Reachable.step (Reachable.step (Reachable.step (Reachable.step
    (Reachable.step
    (Reachable.alloc (fun _ => PerCpuInfo.idle) (fun _ => 0) 1 0)
    rfl (Step.make_runnable rfl rfl)) rfl (Step.run_s 3 rfl)) rfl (Step.switch_to_m 3 rfl))
    rfl (Step.give_cores [5, 7] (by decide) (by decide) rfl)) rfl (Step.run_m rfl)
  have h8 : Reachable 8 2 _ := Reachable.step (Reachable.step h6
    rfl (Step.user_write _ 0 { PreemptData.zero with transition_stack := 64 }))
    rfl (Step.user_write _ 1 { PreemptData.zero with transition_stack := 64 })
  have h10 : Reachable 8 2 _ := Reachable.step (Reachable.step h8
    rfl (Step.deliver [] [⟨7, .startcore, some 1, 0, 0, true⟩] ⟨5, .startcore, some 1, 0, 0, true⟩
      rfl (by decide) rfl))
    rfl (Step.deliver [] [] ⟨7, .startcore, some 1, 0, 0, true⟩ rfl (by decide) rfl)
  have h12 : Reachable 8 2 _ := Reachable.step (Reachable.step h10
    rfl (Step.take_corelist [5] false (by decide) rfl))
    rfl (Step.take_corelist [7] false (by decide) rfl)
  have h13 : Reachable 8 2 _ := Reachable.step h12
    rfl (Step.deliver [⟨5, .death, none, 0, 0, true⟩] [] ⟨7, .death, none, 0, 0, true⟩
      rfl (by decide) rfl)
  exact ⟨_, _, h13, by decide, rfl, rfl, rfl, rfl, rfl, rfl, by decide, rfl, _, rfl, rfl, rfl,
    rfl, rfl, by decide⟩

/-- C4, as stated, fails: after `proc_alloc` on a four-core machine, the move to
`RUNNABLE_S` and `proc_run_s` on core 3, the process is in a reachable state in
which vcore 0 is mapped (`vcoremap[0].valid`) and is not on the online list. -/
theorem running_s_vcore_valid_not_online :
    ∃ s1 s2, __proc_set_state fresh_proc PROC_RUNNABLE_S = .ok s1 ∧ proc_run_s s1 3 = .ok s2 ∧
      Reachable 8 4 s2 ∧ s2.state = PROC_RUNNING_S ∧ s2.online_vcs = [] ∧
      (s2.vcoremap 0).valid = true ∧
      ¬ ((s2.vcoremap 0).valid = true ↔ 0 ∈ s2.online_vcs) :=
  ⟨_, _, rfl, rfl,
    Reachable.step (Reachable.step (Reachable.alloc (fun _ => PerCpuInfo.idle) (fun _ => 0) 1 0)
      rfl (Step.make_runnable rfl rfl)) rfl (Step.run_s 3 rfl),
    rfl, rfl, rfl, by decide⟩

/-- C4, amended: in every state a process reaches from `proc_alloc` by the
operations of process.c in a run in which every `TAILQ_REMOVE` is applied to an
entry of the list it names (the side conditions of `Step`), on a machine with
fewer than 2^32 cores, every vcore on the online list is mapped
(`vcoremap[v].valid`), and its pcore maps back to it.  Without the side
conditions process.c does not keep this: `death_after_change_unmaps_online`. -/
theorem online_vcores_are_valid (MAX_NUM_CPUS num_cpus : Nat) (s : Sys)
    (hn : num_cpus < U32_MOD) (h : Reachable MAX_NUM_CPUS num_cpus s) :
    ∀ v ∈ s.online_vcs, (s.vcoremap v).valid = true ∧
      s.pcoremap (s.vcoremap v).pcoreid = ⟨v, true⟩ :=
  (reachable_inv hn h).1.on_valid

theorem online_vcores_are_valid_witness :
    ∃ s, Reachable 8 4 s ∧ s.state = PROC_RUNNING_M ∧ s.online_vcs = [1] ∧
      s.inactive_vcs = [0, 2, 3] ∧ 4 < U32_MOD ∧
      ∀ v ∈ s.online_vcs, (s.vcoremap v).valid = true ∧
        s.pcoremap (s.vcoremap v).pcoreid = ⟨v, true⟩ := by
  have h6 : Reachable 8 4 _ := Reachable.step (Reachable.step (Reachable.step (Reachable.step
    (Reachable.step
    (Reachable.alloc (fun _ => PerCpuInfo.idle) (fun _ => 0) 1 0)
    rfl (Step.make_runnable rfl rfl)) rfl (Step.run_s 3 rfl)) rfl (Step.switch_to_m 3 rfl))
    rfl (Step.give_cores [5, 7] (by decide) (by decide) rfl)) rfl (Step.run_m rfl)
  have h8 : Reachable 8 4 _ := Reachable.step (Reachable.step h6
    rfl (Step.user_write _ 0 { PreemptData.zero with transition_stack := 64 }))
    rfl (Step.deliver [] [⟨7, .startcore, some 1, 0, 0, true⟩] ⟨5, .startcore, some 1, 0, 0, true⟩
      rfl (by decide) rfl)
  have hr : Reachable 8 4 _ := Reachable.step h8 rfl (Step.yield 5 false (by decide) rfl)
  exact ⟨_, hr, rfl, rfl, rfl, by decide, online_vcores_are_valid 8 4 _ (by decide) hr⟩

/-- The vcore that calls `proc_change_to_vcore` may be off the online list and
an online vcore may end unmapped: on a four-core machine vcore 0 is revoked
from pcore 5 of a `RUNNING_M` process with `__proc_take_corelist(..., FALSE)`;
before pcore 5 handles the `__death`, vcore 0 changes to vcore 2 there, and the
`__death` then unmaps vcore 2, which stays on the online list. -/
theorem death_after_change_unmaps_online :
    ∃ s s1 s2, Reachable 8 4 s ∧ s.state = PROC_RUNNING_M ∧ s.online_vcs = [1] ∧
      s.inactive_vcs = [0, 2, 3] ∧ s.pcoremap 5 = ⟨0, true⟩ ∧ ¬ caller_online s 5 ∧
      proc_change_to_vcore s 5 2 true = .ok s1 ∧ s1.online_vcs = [1, 2] ∧
      s1.kmsgs = [⟨7, .startcore, some 1, 0, 0, true⟩, ⟨5, .death, none, 0, 0, true⟩] ∧
      run_handler { s1 with kmsgs := [⟨7, .startcore, some 1, 0, 0, true⟩] }
        ⟨5, .death, none, 0, 0, true⟩ = .ok s2 ∧
      2 ∈ s2.online_vcs ∧ (s2.vcoremap 2).valid = false := by
  have h6 : Reachable 8 4 _ := Reachable.step (Reachable.step (Reachable.step (Reachable.step
    (Reachable.step
    (Reachable.alloc (fun _ => PerCpuInfo.idle) (fun _ => 0) 1 0)
    rfl (Step.make_runnable rfl rfl)) rfl (Step.run_s 3 rfl)) rfl (Step.switch_to_m 3 rfl))
    rfl (Step.give_cores [5, 7] (by decide) (by decide) rfl)) rfl (Step.run_m rfl)
  have h8 : Reachable 8 4 _ := Reachable.step (Reachable.step h6
    rfl (Step.user_write _ 0 { PreemptData.zero with transition_stack := 64 }))
    rfl (Step.user_write _ 2 { PreemptData.zero with transition_stack := 64 })
  have h10 : Reachable 8 4 _ := Reachable.step (Reachable.step h8
    rfl (Step.deliver [] [⟨7, .startcore, some 1, 0, 0, true⟩] ⟨5, .startcore, some 1, 0, 0, true⟩
      rfl (by decide) rfl))
    rfl (Step.take_corelist [5] false (by decide) rfl)
  exact ⟨_, _, _, h10, rfl, rfl, rfl, rfl, by decide, rfl, rfl, rfl, rfl, by decide, rfl⟩

/-- On the runs in which every `TAILQ_REMOVE` is applied to an entry of the
list it names (the side conditions of `Step`), in every state a process reaches
from `proc_alloc` by the operations of process.c, on a machine with fewer than
2^32 cores, `num_vcores` is the number of vcores on the online list. -/
theorem disciplined_num_vcores (MAX_NUM_CPUS num_cpus : Nat) (s : Sys)
    (hn : num_cpus < U32_MOD) (h : Reachable MAX_NUM_CPUS num_cpus s) :
    s.num_vcores = s.online_vcs.length :=
  (reachable_inv hn h).2

theorem disciplined_num_vcores_run :
    ∃ s, Reachable 8 4 s ∧ s.state = PROC_RUNNING_M ∧ s.online_vcs = [0, 1] ∧ 4 < U32_MOD ∧
      s.num_vcores = s.online_vcs.length := by
  have hr : Reachable 8 4 _ :=
    Reachable.step (Reachable.step (Reachable.step (Reachable.step (Reachable.step
      (Reachable.alloc (fun _ => PerCpuInfo.idle) (fun _ => 0) 1 0)
      rfl (Step.make_runnable rfl rfl)) rfl (Step.run_s 3 rfl)) rfl (Step.switch_to_m 3 rfl))
      rfl (Step.give_cores [3, 5] (by decide) (by decide) rfl)) rfl (Step.run_m rfl)
  exact ⟨_, hr, rfl, rfl, by decide, disciplined_num_vcores 8 4 _ (by decide) hr⟩

/-- C5 fails in process.c.  On a four-core machine vcore 0 of a `RUNNING_M`
process with two vcores is revoked from pcore 5 with
`__proc_take_corelist(..., FALSE)`: `num_vcores` is 1 and vcore 1 alone is
online.  Before pcore 5 handles the `__death`, vcore 0 calls `proc_yield`
there.  The process is not `DYING`, the pcore is still mapped and
`preempt_served` is clear, so the yield goes through, unlinks vcore 0 (from
the inactive list) and decrements `num_vcores`: the process ends `WAITING` with
`num_vcores` 0 and vcore 1 online. -/
theorem yield_after_take_miscounts :
    ∃ s s1 s2, Reachable 8 4 s ∧ s.state = PROC_RUNNING_M ∧ s.online_vcs = [0, 1] ∧
      s.num_vcores = 2 ∧
      __proc_take_corelist s [5] false = .ok s1 ∧ Reachable 8 4 s1 ∧
      s1.online_vcs = [1] ∧ s1.inactive_vcs = [0, 2, 3] ∧ s1.num_vcores = 1 ∧
      s1.pcoremap 5 = ⟨0, true⟩ ∧ ¬ caller_online s1 5 ∧
      proc_yield s1 5 false = .ok s2 ∧ s2.state = PROC_WAITING ∧
      s2.online_vcs = [1] ∧ s2.num_vcores = 0 ∧ s2.num_vcores ≠ s2.online_vcs.length := by
  have h6 : Reachable 8 4 _ := Reachable.step (Reachable.step (Reachable.step (Reachable.step
    (Reachable.step
    (Reachable.alloc (fun _ => PerCpuInfo.idle) (fun _ => 0) 1 0)
    rfl (Step.make_runnable rfl rfl)) rfl (Step.run_s 3 rfl)) rfl (Step.switch_to_m 3 rfl))
    rfl (Step.give_cores [5, 7] (by decide) (by decide) rfl)) rfl (Step.run_m rfl)
  have h8 : Reachable 8 4 _ := Reachable.step (Reachable.step h6
    rfl (Step.user_write _ 0 { PreemptData.zero with transition_stack := 64 }))
    rfl (Step.deliver [] [⟨7, .startcore, some 1, 0, 0, true⟩] ⟨5, .startcore, some 1, 0, 0, true⟩
      rfl (by decide) rfl)
  have h9 : Reachable 8 4 _ := Reachable.step h8
    rfl (Step.take_corelist [5] false (by decide) rfl)
  exact ⟨_, _, _, h8, rfl, rfl, rfl, rfl, h9, rfl, rfl, rfl, rfl, by decide, rfl, rfl, rfl, rfl,
    by decide⟩

/-! ## Bulk revocation -/

theorem revoke_allcores_loop_ok (preempt : Bool) (vs : List Nat) :
    ∀ s : Sys, (∀ v ∈ vs, (s.vcoremap v).valid = true) →
      revoke_allcores_loop s preempt vs = .ok { s with
        kmsgs := s.kmsgs ++ (pcs_of s vs).map (revoke_msg s preempt)
        vcore_preempt_data :=
          if preempt then vcpd_locked s.vcore_preempt_data vs else s.vcore_preempt_data } := by
  induction vs with
  | nil =>
    intro s _
    cases preempt <;> simp [revoke_allcores_loop, pcs_of, vcpd_locked]
  | cons v vs ih =>
    intro s h
    simp only [List.mem_cons, forall_eq_or_imp] at h
    obtain ⟨hv, hrest⟩ := h
    have hrev : __proc_revoke_core s v preempt = .ok
        (if preempt then
          send_kernel_message
            { s with vcore_preempt_data := vcpd_locked s.vcore_preempt_data [v] }
            (s.vcoremap v).pcoreid .preempt (some s.pid)
        else send_kernel_message s (s.vcoremap v).pcoreid .death none) := by
      unfold __proc_revoke_core get_pcoreid vcore_is_mapped try_get_pcoreid
      rw [if_pos hv]
      cases preempt <;> rfl
    simp only [revoke_allcores_loop]
    rw [hrev]
    simp only []
    cases preempt
    · simp only [Bool.false_eq_true, if_false]
      rw [ih]
      · congr 1
        apply Sys.ext <;> try rfl
        show (s.kmsgs ++ [⟨(s.vcoremap v).pcoreid, .death, none, 0, 0, true⟩]) ++
          (pcs_of s vs).map (revoke_msg s false) = s.kmsgs ++ (pcs_of s (v :: vs)).map (revoke_msg s false)
        simp [pcs_of, revoke_msg]
      · exact hrest
    · simp only [if_true]
      rw [ih]
      · congr 1
        apply Sys.ext <;> try rfl
        show (s.kmsgs ++ [⟨(s.vcoremap v).pcoreid, .preempt, some s.pid, 0, 0, true⟩]) ++
          (pcs_of s vs).map (revoke_msg s true) = s.kmsgs ++ (pcs_of s (v :: vs)).map (revoke_msg s true)
        simp [pcs_of, revoke_msg]
      · exact hrest

theorem take_allcores_move_ok (preempt : Bool) (vs : List Nat) :
    ∀ (s : Sys) (rest : List Nat), s.online_vcs = vs ++ rest →
      take_allcores_move s preempt vs = .ok { s with
        online_vcs := rest
        bulk_preempted_vcs :=
          if preempt then vs.reverse ++ s.bulk_preempted_vcs else s.bulk_preempted_vcs
        inactive_vcs :=
          if preempt then s.inactive_vcs else vs.reverse ++ s.inactive_vcs } := by
  induction vs with
  | nil =>
    intro s rest h
    simp only [List.nil_append] at h
    cases preempt <;> simp [take_allcores_move, ← h]
  | cons v vs ih =>
    intro s rest h
    have hrem : online_remove s v = .ok { s with online_vcs := vs ++ rest } := by
      unfold online_remove
      rw [if_pos (by rw [h]; simp), h]
      simp
    simp only [take_allcores_move]
    rw [hrem]
    simp only []
    cases preempt
    · simp only [Bool.false_eq_true, if_false]
      rw [ih _ rest rfl]
      congr 1
      apply Sys.ext <;> try rfl
      simp [inactive_insert_head]
    · simp only [if_true]
      rw [ih _ rest rfl]
      congr 1
      apply Sys.ext <;> try rfl
      simp

theorem unmap_loop_frame (vs : List Nat) :
    ∀ s : Sys, unmap_allcores_loop s vs = { s with
      vcoremap := (unmap_allcores_loop s vs).vcoremap
      pcoremap := (unmap_allcores_loop s vs).pcoremap } := by
  induction vs with
  | nil => intro s; rfl
  | cons v vs ih =>
    intro s
    simp only [unmap_allcores_loop]
    rw [ih]
    rfl

theorem take_allcores_eq (s : Sys) (preempt : Bool)
    (hst : s.state = PROC_RUNNABLE_M ∨ s.state = PROC_RUNNING_M)
    (hnum : s.num_vcores = s.online_vcs.length) (hlt : s.online_vcs.length < U32_MOD)
    (hval : s.state = PROC_RUNNING_M → ∀ v ∈ s.online_vcs, (s.vcoremap v).valid = true) :
    __proc_take_allcores s preempt = .ok (pcs_of s s.online_vcs, take_all_result s preempt) := by
  have hmod : (pcs_of s s.online_vcs).length % U32_MOD = s.online_vcs.length := by
    simp [pcs_of, Nat.mod_eq_of_lt hlt]
  unfold __proc_take_allcores
  simp only []
  rcases hst with hst | hst
  · have h1 : (__seq_start_write s).state ≠ PROC_RUNNING_M := by
      show s.state ≠ _; rw [hst]; decide
    have h2 : ¬ (__seq_start_write s).state ≠ PROC_RUNNABLE_M := by
      show ¬ s.state ≠ _; rw [hst]; simp
    have hneq : s.state ≠ PROC_RUNNING_M := by rw [hst]; decide
    have hc := unmap_loop_congr s.online_vcs (__seq_start_write s) s rfl rfl
    rw [if_neg h1, if_neg h2]
    simp only []
    unfold __proc_unmap_allcores
    rw [unmap_loop_frame]
    rw [take_allcores_move_ok preempt _ _ [] (by simp)]
    simp only []
    rw [if_neg (by simp), if_neg (by
      simp only [not_not]
      exact hmod.trans hnum.symm)]
    congr 1
    congr 1
    apply Sys.ext <;> try rfl
    · show (unmap_allcores_loop (__seq_start_write s) s.online_vcs).vcoremap = _
      simp only [take_all_result, if_neg hneq]
      exact hc.1
    · show (unmap_allcores_loop (__seq_start_write s) s.online_vcs).pcoremap = _
      simp only [take_all_result, if_neg hneq]
      exact hc.2
    · show s.vcore_preempt_data = _
      simp [take_all_result, hneq]
    · show s.kmsgs = _
      simp [take_all_result, hneq]
  · have h1 : (__seq_start_write s).state = PROC_RUNNING_M := hst
    rw [if_pos h1]
    unfold __proc_revoke_allcores
    rw [revoke_allcores_loop_ok preempt (__seq_start_write s).online_vcs (__seq_start_write s) (hval hst)]
    simp only []
    rw [take_allcores_move_ok preempt _ _ [] (by simp)]
    simp only []
    rw [if_neg (by simp), if_neg (by
      simp only [not_not]
      exact hmod.trans hnum.symm)]
    congr 1
    congr 1
    apply Sys.ext <;> try rfl
    · show s.vcoremap = _
      simp [take_all_result, hst]
    · show s.pcoremap = _
      simp [take_all_result, hst]
    · show (if preempt = true then vcpd_locked s.vcore_preempt_data s.online_vcs
        else s.vcore_preempt_data) = _
      simp [take_all_result, hst]
    · show s.kmsgs ++ (pcs_of s s.online_vcs).map (revoke_msg s preempt) = _
      simp [take_all_result, hst]

/-- C11: for a process in `RUNNABLE_M` or `RUNNING_M` whose `num_vcores` is the
length of its online list (whose vcores are mapped, in `RUNNING_M`),
`__proc_take_allcores` writes to `pc_arr` the pcore of each online vcore in
online-list order and returns their number, leaves `online_vcs` empty,
`num_vcores` and `amt_granted` zero, and puts every formerly online vcore on
`bulk_preempted_vcs` when `preempt` is set and on `inactive_vcs` when it is not
(each at the head, so the vcores come in reverse order before the old
entries); in `RUNNABLE_M` every such vcore is unmapped and no message is sent,
in `RUNNING_M` the maps are kept and one immediate `__preempt` (`preempt`) or
`__death` message is sent to each pcore, in online-list order. -/
theorem take_allcores_contract (s : Sys) (preempt : Bool)
    (hst : s.state = PROC_RUNNABLE_M ∨ s.state = PROC_RUNNING_M)
    (hnum : s.num_vcores = s.online_vcs.length) (hlt : s.online_vcs.length < U32_MOD)
    (hval : s.state = PROC_RUNNING_M → ∀ v ∈ s.online_vcs, (s.vcoremap v).valid = true) :
    ∃ s1, __proc_take_allcores s preempt =
        .ok (s.online_vcs.map (fun v => (s.vcoremap v).pcoreid), s1) ∧
      (s.online_vcs.map (fun v => (s.vcoremap v).pcoreid)).length = s.online_vcs.length ∧
      s1.online_vcs = [] ∧ s1.num_vcores = 0 ∧ s1.amt_granted = 0 ∧
      (preempt = true →
        s1.bulk_preempted_vcs = s.online_vcs.reverse ++ s.bulk_preempted_vcs ∧
        s1.inactive_vcs = s.inactive_vcs ∧ ∀ v ∈ s.online_vcs, v ∈ s1.bulk_preempted_vcs) ∧
      (preempt = false →
        s1.inactive_vcs = s.online_vcs.reverse ++ s.inactive_vcs ∧
        s1.bulk_preempted_vcs = s.bulk_preempted_vcs ∧ ∀ v ∈ s.online_vcs, v ∈ s1.inactive_vcs) ∧
      (s.state = PROC_RUNNABLE_M →
        s1.kmsgs = s.kmsgs ∧
        ∀ v ∈ s.online_vcs, (s1.vcoremap v).valid = false ∧
          (s1.pcoremap (s.vcoremap v).pcoreid).valid = false) ∧
      (s.state = PROC_RUNNING_M →
        s1.kmsgs = s.kmsgs ++ (s.online_vcs.map (fun v => (s.vcoremap v).pcoreid)).map (fun pc =>
          if preempt then ⟨pc, .preempt, some s.pid, 0, 0, true⟩
          else ⟨pc, .death, none, 0, 0, true⟩) ∧
        s1.vcoremap = s.vcoremap ∧ s1.pcoremap = s.pcoremap) := by
  have hne : PROC_RUNNABLE_M ≠ PROC_RUNNING_M := by decide
  refine ⟨take_all_result s preempt, take_allcores_eq s preempt hst hnum hlt hval,
    by simp, rfl, rfl, rfl, ?_, ?_, ?_, ?_⟩
  · intro hp
    subst hp
    refine ⟨by simp [take_all_result], by simp [take_all_result], ?_⟩
    intro v hv
    simp [take_all_result, hv]
  · intro hp
    subst hp
    refine ⟨by simp [take_all_result], by simp [take_all_result], ?_⟩
    intro v hv
    simp [take_all_result, hv]
  · intro h
    have hneq : s.state ≠ PROC_RUNNING_M := by rw [h]; exact hne
    refine ⟨by simp [take_all_result, hneq], ?_⟩
    intro v hv
    have := unmap_loop_unmapped s.online_vcs s v hv
    simpa [take_all_result, hneq] using this
  · intro h
    refine ⟨?_, by simp [take_all_result, h], by simp [take_all_result, h]⟩
    simp only [take_all_result, if_pos h, pcs_of]
    congr 1

theorem take_allcores_contract_witness :
    ∃ s1, __proc_take_allcores running_m_proc true =
        .ok (running_m_proc.online_vcs.map (fun v => (running_m_proc.vcoremap v).pcoreid), s1) ∧
      (running_m_proc.online_vcs.map (fun v => (running_m_proc.vcoremap v).pcoreid)).length =
        running_m_proc.online_vcs.length ∧
      s1.online_vcs = [] ∧ s1.num_vcores = 0 ∧ s1.amt_granted = 0 ∧
      (true = true →
        s1.bulk_preempted_vcs =
          running_m_proc.online_vcs.reverse ++ running_m_proc.bulk_preempted_vcs ∧
        s1.inactive_vcs = running_m_proc.inactive_vcs ∧
        ∀ v ∈ running_m_proc.online_vcs, v ∈ s1.bulk_preempted_vcs) ∧
      (true = false →
        s1.inactive_vcs = running_m_proc.online_vcs.reverse ++ running_m_proc.inactive_vcs ∧
        s1.bulk_preempted_vcs = running_m_proc.bulk_preempted_vcs ∧
        ∀ v ∈ running_m_proc.online_vcs, v ∈ s1.inactive_vcs) ∧
      (running_m_proc.state = PROC_RUNNABLE_M →
        s1.kmsgs = running_m_proc.kmsgs ∧
        ∀ v ∈ running_m_proc.online_vcs, (s1.vcoremap v).valid = false ∧
          (s1.pcoremap (running_m_proc.vcoremap v).pcoreid).valid = false) ∧
      (running_m_proc.state = PROC_RUNNING_M →
        s1.kmsgs = running_m_proc.kmsgs ++
          (running_m_proc.online_vcs.map (fun v => (running_m_proc.vcoremap v).pcoreid)).map
            (fun pc =>
              if true then ⟨pc, .preempt, some running_m_proc.pid, 0, 0, true⟩
              else ⟨pc, .death, none, 0, 0, true⟩) ∧
        s1.vcoremap = running_m_proc.vcoremap ∧ s1.pcoremap = running_m_proc.pcoremap) :=
  take_allcores_contract running_m_proc true (Or.inr rfl) rfl (by decide) (by decide)

/-! ## Restart after a bulk preemption -/

/-- C12, as stated, fails: a bulk preempt of a `RUNNABLE_M` process whose online
list is `[0, 1]` leaves the bulk-preempted list `[1, 0]`, and the grant of one
pcore that follows maps that pcore to vcore 1, the last vcore revoked, not to
vcore 0, the first. -/
theorem bulk_restart_starts_with_last :
    ∃ s1 s2, two_online_proc.online_vcs = [0, 1] ∧
      __proc_take_allcores two_online_proc true = .ok ([9, 11], s1) ∧
      s1.state = PROC_RUNNABLE_M ∧ s1.bulk_preempted_vcs = [1, 0] ∧
      __proc_give_cores 8 s1 [9] = .ok s2 ∧
      s2.online_vcs = [1] ∧ s2.pcoremap 9 = ⟨1, true⟩ ∧ (s2.pcoremap 9).vcoreid ≠ 0 ∧
      (s2.vcoremap 0).valid = false :=
  ⟨_, _, rfl, rfl, rfl, rfl, rfl, rfl, rfl, by decide, rfl⟩

/-- C12, amended: a bulk preempt (`__proc_take_allcores` with `preempt` set) of
a process whose online list is `[v1, ..., vk]` puts `vk, ..., v1` at the head of
`bulk_preempted_vcs`; a following `__proc_give_cores` of `n <= k` distinct
pcores to the process in `RUNNABLE_M`, with that bulk-preempted list and these
vcores unmapped, maps the i-th given pcore to the i-th vcore of `vk, ..., v1`:
the vcores restart in the reverse of the order in which they were revoked. -/
theorem bulk_restart_reverse_order (MAX_NUM_CPUS : Nat) (s s2 : Sys) (pcs : List Nat)
    (hst : s.state = PROC_RUNNABLE_M ∨ s.state = PROC_RUNNING_M)
    (hnum : s.num_vcores = s.online_vcs.length) (hlt : s.online_vcs.length < U32_MOD)
    (hval : s.state = PROC_RUNNING_M → ∀ v ∈ s.online_vcs, (s.vcoremap v).valid = true)
    (hnd : s.online_vcs.Nodup)
    (hne : pcs ≠ []) (hn : pcs.length ≤ s.online_vcs.length) (hpcs : pcs.Nodup)
    (h2st : s2.state = PROC_RUNNABLE_M)
    (h2b : s2.bulk_preempted_vcs = s.online_vcs.reverse ++ s.bulk_preempted_vcs)
    (h2un : ∀ v ∈ s.online_vcs.reverse.take pcs.length, (s2.vcoremap v).valid = false)
    (hmax : pcs.length + s2.num_vcores ≤ MAX_NUM_CPUS) (hM : MAX_NUM_CPUS < U32_MOD) :
    (∃ s1, __proc_take_allcores s true =
        .ok (s.online_vcs.map (fun v => (s.vcoremap v).pcoreid), s1) ∧
      s1.bulk_preempted_vcs = s.online_vcs.reverse ++ s.bulk_preempted_vcs) ∧
    (∃ s3, __proc_give_cores MAX_NUM_CPUS s2 pcs = .ok s3 ∧
      s3.online_vcs = s2.online_vcs ++ s.online_vcs.reverse.take pcs.length ∧
      s3.bulk_preempted_vcs = (s.online_vcs.reverse ++ s.bulk_preempted_vcs).drop pcs.length ∧
      s3.inactive_vcs = s2.inactive_vcs ∧
      ∀ p ∈ (s.online_vcs.reverse.take pcs.length).zip pcs,
        s3.vcoremap p.1 = { s2.vcoremap p.1 with pcoreid := p.2, valid := true } ∧
        s3.pcoremap p.2 = { vcoreid := p.1, valid := true }) := by
  constructor
  · exact ⟨take_all_result s true, take_allcores_eq s true hst hnum hlt hval,
      by simp [take_all_result]⟩
  · have hnext : next_vcs s2 pcs.length = s.online_vcs.reverse.take pcs.length := by
      unfold next_vcs
      rw [h2b, List.append_assoc, List.take_append_of_le_length (by simpa using hn)]
    have hlen : pcs.length ≤ (s2.bulk_preempted_vcs ++ s2.inactive_vcs).length := by
      rw [h2b]; simp; omega
    have hnd2 : (next_vcs s2 pcs.length).Nodup := by
      rw [hnext]
      exact (List.nodup_reverse.mpr hnd).sublist (List.take_sublist _ _)
    have heq := give_cores_runnable_eq MAX_NUM_CPUS s2 pcs h2st hne hlen hnd2
      (by rw [hnext]; exact h2un) hmax hM
    have hzl : ((next_vcs s2 pcs.length).zip pcs).map Prod.fst = next_vcs s2 pcs.length := by
      apply List.map_fst_zip
      rw [hnext]; simp
    have hzr : ((next_vcs s2 pcs.length).zip pcs).map Prod.snd = pcs := by
      apply List.map_snd_zip
      rw [hnext]; simp; exact hn
    refine ⟨_, heq, ?_, ?_, ?_, ?_⟩
    · show s2.online_vcs ++ next_vcs s2 pcs.length = _
      rw [hnext]
    · show s2.bulk_preempted_vcs.drop pcs.length = _
      rw [h2b]
    · show s2.inactive_vcs.drop (pcs.length - s2.bulk_preempted_vcs.length) = _
      have : pcs.length - s2.bulk_preempted_vcs.length = 0 := by
        rw [h2b]; simp; omega
      rw [this]; rfl
    · intro p hp
      rw [← hnext] at hp
      obtain ⟨v, pc⟩ := p
      constructor
      · show vcoremap_after s2.vcoremap ((next_vcs s2 pcs.length).zip pcs) v = _
        exact vcoremap_after_mem _ _ v pc (by rw [hzl]; exact hnd2) hp
      · show pcoremap_after s2.pcoremap ((next_vcs s2 pcs.length).zip pcs) pc = _
        exact pcoremap_after_mem _ _ v pc (by rw [hzr]; exact hpcs) hp

theorem bulk_restart_reverse_order_witness :
    (∃ s1, __proc_take_allcores two_online_proc true =
        .ok (two_online_proc.online_vcs.map (fun v => (two_online_proc.vcoremap v).pcoreid), s1) ∧
      s1.bulk_preempted_vcs =
        two_online_proc.online_vcs.reverse ++ two_online_proc.bulk_preempted_vcs) ∧
    (∃ s3, __proc_give_cores 8 (take_all_result two_online_proc true) [20, 21] = .ok s3 ∧
      s3.online_vcs = (take_all_result two_online_proc true).online_vcs ++
        two_online_proc.online_vcs.reverse.take 2 ∧
      s3.bulk_preempted_vcs =
        (two_online_proc.online_vcs.reverse ++ two_online_proc.bulk_preempted_vcs).drop 2 ∧
      s3.inactive_vcs = (take_all_result two_online_proc true).inactive_vcs ∧
      ∀ p ∈ (two_online_proc.online_vcs.reverse.take 2).zip [20, 21],
        s3.vcoremap p.1 =
          { (take_all_result two_online_proc true).vcoremap p.1 with
            pcoreid := p.2, valid := true } ∧
        s3.pcoremap p.2 = { vcoreid := p.1, valid := true }) :=
  bulk_restart_reverse_order 8 two_online_proc (take_all_result two_online_proc true) [20, 21]
    (Or.inl rfl) rfl (by decide) (by decide) (by decide) (by decide) (by decide) (by decide)
    rfl rfl (by decide) (by decide) (by decide)

/-! ## Starting the vcores of a process -/

theorem send_bulkp_events_loop_ok (vs : List Nat) :
    ∀ (s : Sys) (rest : List Nat), s.bulk_preempted_vcs = vs ++ rest →
      send_bulkp_events_loop s vs = .ok { s with
        bulk_preempted_vcs := rest
        inactive_vcs := vs.reverse ++ s.inactive_vcs
        events := s.events ++ vs.map bulkp_event } := by
  induction vs with
  | nil =>
    intro s rest h
    simp only [List.nil_append] at h
    simp [send_bulkp_events_loop, ← h]
  | cons v vs ih =>
    intro s rest h
    have hrem : bulk_remove (send_kernel_event s ⟨.EV_VCORE_PREEMPT, 0, v, 0⟩) v =
        .ok { send_kernel_event s ⟨.EV_VCORE_PREEMPT, 0, v, 0⟩ with
          bulk_preempted_vcs := vs ++ rest } := by
      unfold bulk_remove
      have hb : (send_kernel_event s ⟨.EV_VCORE_PREEMPT, 0, v, 0⟩).bulk_preempted_vcs =
          v :: (vs ++ rest) := h
      rw [if_pos (by rw [hb]; simp), hb]
      simp
    simp only [send_bulkp_events_loop]
    rw [hrem]
    simp only []
    rw [ih _ rest rfl]
    congr 1
    apply Sys.ext <;> try rfl
    · simp [inactive_insert_head, send_kernel_event]
    · simp [inactive_insert_head, send_kernel_event, bulkp_event]

theorem run_m_startcores_eq (vs : List Nat) :
    ∀ s : Sys, run_m_startcores s vs =
      { s with kmsgs := s.kmsgs ++ (pcs_of s vs).map (startcore_msg s) } := by
  induction vs with
  | nil => intro s; simp [run_m_startcores, pcs_of]
  | cons v vs ih =>
    intro s
    simp only [run_m_startcores]
    rw [ih]
    apply Sys.ext <;> try rfl
    show (s.kmsgs ++ [⟨(s.vcoremap v).pcoreid, .startcore, some s.pid, 0, 0, true⟩]) ++
      (pcs_of s vs).map (startcore_msg s) = s.kmsgs ++ (pcs_of s (v :: vs)).map (startcore_msg s)
    simp [pcs_of, startcore_msg]

theorem run_m_eq (s : Sys) (hst : s.state = PROC_RUNNABLE_M) (hnum : s.num_vcores ≠ 0) :
    __proc_run_m s = .ok (run_m_result s) := by
  unfold __proc_run_m
  rw [if_neg (by rw [hst]; decide), if_pos hst, if_pos hnum]
  unfold __send_bulkp_events
  rw [send_bulkp_events_loop_ok s.bulk_preempted_vcs s [] (by simp)]
  simp only []
  have hset : ∀ t : Sys, t.state = PROC_RUNNABLE_M →
      __proc_set_state t PROC_RUNNING_M = .ok { t with state := PROC_RUNNING_M } := by
    intro t ht
    unfold __proc_set_state
    simp [ht, PROC_RUNNABLE_M, PROC_RUNNING_M, PROC_CREATED, PROC_RUNNABLE_S, PROC_RUNNING_S,
      PROC_WAITING, PROC_DYING]
  rw [hset]
  · simp only []
    rw [run_m_startcores_eq]
    congr 1
  · exact hst

/-- C13, as stated, fails: `__proc_run_m` on a `RUNNABLE_M` process with one
online vcore and vcore 2 left on the bulk-preempted list posts for vcore 2 an
event of type `EV_VCORE_PREEMPT`; it posts no `EV_PREEMPT_PENDING` event. -/
theorem run_m_posts_vcore_preempt :
    ∃ s1, draining_proc.state = PROC_RUNNABLE_M ∧ draining_proc.num_vcores = 1 ∧
      draining_proc.bulk_preempted_vcs = [2] ∧ draining_proc.events = [] ∧
      __proc_run_m draining_proc = .ok s1 ∧
      s1.events = [⟨.EV_VCORE_PREEMPT, 0, 2, 0⟩] ∧
      ∀ e ∈ s1.events, e.ev_type ≠ .EV_PREEMPT_PENDING :=
  ⟨_, rfl, rfl, rfl, rfl, rfl, rfl, by decide⟩

/-- C13, amended: for a `RUNNABLE_M` process with `num_vcores = k > 0`,
`__proc_run_m` sets the state to `RUNNING_M`, adds `2 * k` (computed in
`uint32_t`) to the reference count, sends one immediate `__startcore` message
to the pcore of each online vcore in list order, and drains
`bulk_preempted_vcs`: every vcore on it goes to the head of `inactive_vcs` and
one `EV_VCORE_PREEMPT` event with `ev_arg2` that vcore is posted, in list order;
the online list, the maps and `num_vcores` are kept.  On a process that is
`RUNNING_M`, `WAITING` or `DYING`, or `RUNNABLE_M` with `num_vcores == 0`, it
returns with the state of the kernel unchanged. -/
theorem run_m_starts_vcores (s : Sys) :
    (s.state = PROC_RUNNABLE_M → s.num_vcores ≠ 0 →
      ∃ s1, __proc_run_m s = .ok s1 ∧ s1.state = PROC_RUNNING_M ∧
        s1.refcnt = s.refcnt + ((s.num_vcores * 2) % U32_MOD : Nat) ∧
        (s.num_vcores * 2 < U32_MOD → s1.refcnt = s.refcnt + 2 * (s.num_vcores : Int)) ∧
        s1.kmsgs = s.kmsgs ++ s.online_vcs.map (fun v =>
          ⟨(s.vcoremap v).pcoreid, .startcore, some s.pid, 0, 0, true⟩) ∧
        s1.bulk_preempted_vcs = [] ∧
        s1.inactive_vcs = s.bulk_preempted_vcs.reverse ++ s.inactive_vcs ∧
        s1.events = s.events ++ s.bulk_preempted_vcs.map (fun v =>
          ⟨.EV_VCORE_PREEMPT, 0, v, 0⟩) ∧
        s1.online_vcs = s.online_vcs ∧ s1.vcoremap = s.vcoremap ∧ s1.pcoremap = s.pcoremap ∧
        s1.num_vcores = s.num_vcores) ∧
    (s.state = PROC_RUNNING_M ∨ s.state = PROC_WAITING ∨ s.state = PROC_DYING ∨
      (s.state = PROC_RUNNABLE_M ∧ s.num_vcores = 0) → __proc_run_m s = .ok s) := by
  constructor
  · intro hst hnum
    refine ⟨run_m_result s, run_m_eq s hst hnum, rfl, rfl, ?_, ?_, rfl, rfl, rfl, rfl, rfl, rfl,
      rfl⟩
    · intro hlt
      show s.refcnt + ((s.num_vcores * 2) % U32_MOD : Nat) = _
      rw [Nat.mod_eq_of_lt hlt]
      push_cast
      ring
    · show s.kmsgs ++ (pcs_of s s.online_vcs).map (startcore_msg s) = _
      simp [pcs_of, startcore_msg]
  · intro h
    unfold __proc_run_m
    rcases h with h | h | h | ⟨h, hz⟩
    · rw [if_neg (by rw [h]; decide), if_neg (by rw [h]; decide), if_pos (Or.inl h)]
    · rw [if_neg (by rw [h]; decide), if_neg (by rw [h]; decide), if_pos (Or.inr h)]
    · rw [if_pos h]
    · rw [if_neg (by rw [h]; decide), if_pos h, if_neg (by simp [hz])]

theorem run_m_starts_vcores_witness :
    (∃ s1, __proc_run_m draining_proc = .ok s1 ∧ s1.state = PROC_RUNNING_M ∧
        s1.refcnt = draining_proc.refcnt + ((draining_proc.num_vcores * 2) % U32_MOD : Nat) ∧
        (draining_proc.num_vcores * 2 < U32_MOD →
          s1.refcnt = draining_proc.refcnt + 2 * (draining_proc.num_vcores : Int)) ∧
        s1.kmsgs = draining_proc.kmsgs ++ draining_proc.online_vcs.map (fun v =>
          ⟨(draining_proc.vcoremap v).pcoreid, .startcore, some draining_proc.pid, 0, 0, true⟩) ∧
        s1.bulk_preempted_vcs = [] ∧
        s1.inactive_vcs = draining_proc.bulk_preempted_vcs.reverse ++ draining_proc.inactive_vcs ∧
        s1.events = draining_proc.events ++ draining_proc.bulk_preempted_vcs.map (fun v =>
          ⟨.EV_VCORE_PREEMPT, 0, v, 0⟩) ∧
        s1.online_vcs = draining_proc.online_vcs ∧ s1.vcoremap = draining_proc.vcoremap ∧
        s1.pcoremap = draining_proc.pcoremap ∧ s1.num_vcores = draining_proc.num_vcores) ∧
    __proc_run_m dying_proc = .ok dying_proc :=
  ⟨(run_m_starts_vcores draining_proc).1 rfl (by decide),
   (run_m_starts_vcores dying_proc).2 (Or.inr (Or.inr (Or.inl rfl)))⟩

/-! ## Dispatching a single-core process -/

theorem set_state_running_s (s : Sys) (hst : s.state = PROC_RUNNABLE_S) :
    __proc_set_state s PROC_RUNNING_S = .ok { s with state := PROC_RUNNING_S } := by
  unfold __proc_set_state
  simp [hst, PROC_RUNNABLE_M, PROC_RUNNING_M, PROC_CREATED, PROC_RUNNABLE_S, PROC_RUNNING_S,
    PROC_WAITING, PROC_DYING]

theorem set_proc_current_eq (s : Sys) (coreid : Nat)
    (hcur : (s.per_cpu_info coreid).cur_proc ≠ some s.pid) :
    __set_proc_current s coreid = .ok
      { s with
        refcnt := s.refcnt + (1 : Nat)
        other_refcnt :=
          match (s.per_cpu_info coreid).cur_proc with
          | some q => upd s.other_refcnt q (s.other_refcnt q - 1)
          | none => s.other_refcnt
        per_cpu_info := upd s.per_cpu_info coreid
          { s.per_cpu_info coreid with cur_proc := some s.pid } } := by
  unfold __set_proc_current
  rw [if_pos (fun h => hcur h.symm)]
  cases hq : (s.per_cpu_info coreid).cur_proc with
  | none =>
    have h1 : ((proc_incref s 1).per_cpu_info coreid).cur_proc = none := hq
    simp only [h1]
    rfl
  | some q =>
    have h1 : ((proc_incref s 1).per_cpu_info coreid).cur_proc = some q := hq
    have hne : q ≠ (proc_incref s 1).pid := by
      intro h
      apply hcur
      rw [hq, h]
      rfl
    simp only [h1, proc_decref, if_neg hne]
    rfl

theorem proc_run_s_eq (s : Sys) (coreid : Nat) (hst : s.state = PROC_RUNNABLE_S)
    (hcur : (s.per_cpu_info coreid).cur_proc ≠ some s.pid)
    (hv0 : (s.vcoremap 0).valid = false) :
    proc_run_s s coreid = .ok (run_s_result s coreid) := by
  unfold proc_run_s
  rw [if_neg (by rw [hst]; decide), if_pos hst, if_neg hcur, set_state_running_s s hst]
  simp -zeta only []
  lift_lets
  intro s2 s3
  rw [map_vcore_ok s3 0 coreid hv0]
  simp -zeta only []
  lift_lets
  intro v0 s5 s6
  rw [set_proc_current_eq s6 coreid hcur]
  simp only []
  congr 1
  apply Sys.ext <;> try rfl
  funext j
  simp only [set_pcpui, run_s_result, upd]
  by_cases hj : j = coreid
  · simp only [hj, if_true]
    rfl
  · simp only [hj, if_false]
    rfl

/-- C14: for a `RUNNABLE_S` process `p` that is not the current process of the
calling core (and whose vcore 0 is unmapped), `proc_run_s` sets the state to
`RUNNING_S`, maps vcore 0 to the calling pcore in both maps, installs `p` as
`owning_proc` and `cur_proc` of the calling core with `cur_tf` pointing at
`p->env_tf`, which it leaves as saved, and raises the reference count of `p` by
exactly 2; on a `DYING` process it returns with no change; in every other state
it panics. -/
theorem proc_run_s_dispatch (s : Sys) (coreid : Nat) :
    (s.state = PROC_RUNNABLE_S → (s.per_cpu_info coreid).cur_proc ≠ some s.pid →
      (s.vcoremap 0).valid = false →
      ∃ s1, proc_run_s s coreid = .ok s1 ∧ s1.state = PROC_RUNNING_S ∧
        (s1.vcoremap 0).pcoreid = coreid ∧ (s1.vcoremap 0).valid = true ∧
        s1.pcoremap coreid = ⟨0, true⟩ ∧
        (s1.per_cpu_info coreid).owning_proc = some s.pid ∧
        (s1.per_cpu_info coreid).cur_proc = some s.pid ∧
        (s1.per_cpu_info coreid).cur_tf = .env_tf ∧ s1.env_tf = s.env_tf ∧
        s1.refcnt = s.refcnt + 2) ∧
    (s.state = PROC_DYING → proc_run_s s coreid = .ok s) ∧
    (s.state ≠ PROC_RUNNABLE_S → s.state ≠ PROC_DYING →
      proc_run_s s coreid = .error (.panic, s)) := by
  refine ⟨?_, ?_, ?_⟩
  · intro hst hcur hv0
    refine ⟨run_s_result s coreid, proc_run_s_eq s coreid hst hcur hv0, rfl, ?_, ?_, ?_, ?_, ?_,
      ?_, rfl, ?_⟩
    · simp [run_s_result, upd]
    · simp [run_s_result, upd]
    · simp [run_s_result, upd]
    · simp [run_s_result, upd]
    · simp [run_s_result, upd]
    · simp [run_s_result, upd]
    · show s.refcnt + (1 : Nat) + (1 : Nat) = s.refcnt + 2
      push_cast
      ring
  · intro h
    unfold proc_run_s
    rw [if_pos h]
  · intro h1 h2
    unfold proc_run_s
    rw [if_neg h2, if_neg h1]
    rfl

theorem proc_run_s_dispatch_witness :
    (∃ s1, proc_run_s runnable_s_proc 3 = .ok s1 ∧ s1.state = PROC_RUNNING_S ∧
        (s1.vcoremap 0).pcoreid = 3 ∧ (s1.vcoremap 0).valid = true ∧
        s1.pcoremap 3 = ⟨0, true⟩ ∧
        (s1.per_cpu_info 3).owning_proc = some runnable_s_proc.pid ∧
        (s1.per_cpu_info 3).cur_proc = some runnable_s_proc.pid ∧
        (s1.per_cpu_info 3).cur_tf = .env_tf ∧ s1.env_tf = runnable_s_proc.env_tf ∧
        s1.refcnt = runnable_s_proc.refcnt + 2) ∧
    proc_run_s dying_proc 3 = .ok dying_proc ∧
    proc_run_s running_m_proc 3 = .error (.panic, running_m_proc) :=
  ⟨(proc_run_s_dispatch runnable_s_proc 3).1 rfl (by decide) rfl,
   (proc_run_s_dispatch dying_proc 3).2.1 rfl,
   (proc_run_s_dispatch running_m_proc 3).2.2 (by decide) (by decide)⟩

/-- C15, as stated, fails: after `proc_alloc`, the move to `RUNNABLE_S` and
`proc_run_s` on core 3, the process is `RUNNING_S` with vcore 0 mapped and
`num_vcores` is 0, not 1. -/
theorem run_s_counts_no_vcore :
    ∃ s1 s2, __proc_set_state fresh_proc PROC_RUNNABLE_S = .ok s1 ∧ proc_run_s s1 3 = .ok s2 ∧
      s2.state = PROC_RUNNING_S ∧ (s2.vcoremap 0).valid = true ∧
      s2.num_vcores = 0 ∧ s2.num_vcores ≠ 1 :=
  ⟨_, _, rfl, rfl, rfl, rfl, rfl, by decide⟩

/-- C15, amended: after `proc_run_s` dispatches a `RUNNABLE_S` process (one that
is not current on the calling core and whose vcore 0 is unmapped),
`procinfo->num_vcores` is 0: the mapped vcore 0 is not counted. -/
theorem run_s_num_vcores_zero (s : Sys) (coreid : Nat) (hst : s.state = PROC_RUNNABLE_S)
    (hcur : (s.per_cpu_info coreid).cur_proc ≠ some s.pid)
    (hv0 : (s.vcoremap 0).valid = false) :
    ∃ s1, proc_run_s s coreid = .ok s1 ∧ s1.num_vcores = 0 ∧ (s1.vcoremap 0).valid = true :=
  ⟨run_s_result s coreid, proc_run_s_eq s coreid hst hcur hv0, rfl, by simp [run_s_result, upd]⟩

theorem run_s_num_vcores_zero_witness :
    ∃ s1, proc_run_s runnable_s_proc 3 = .ok s1 ∧ s1.num_vcores = 0 ∧
      (s1.vcoremap 0).valid = true :=
  run_s_num_vcores_zero runnable_s_proc 3 rfl (by decide) rfl

/-! ## Destroying a process -/

theorem proc_decref_self_eq (s : Sys) (h : s.refcnt = 1 → s.in_pid_hash = true) :
    proc_decref s s.pid = .ok (decref_result s) := by
  unfold proc_decref decref_result
  rw [if_pos rfl]
  simp only []
  by_cases hz : s.refcnt - 1 = 0
  · have h1 : s.refcnt = 1 := by omega
    rw [if_pos hz, if_pos hz]
    unfold __proc_free
    rw [if_neg (by simpa using hz)]
    simp [h h1]
  · rw [if_neg hz, if_neg hz]

theorem set_state_dying (s : Sys)
    (hst : s.state = PROC_CREATED ∨ s.state = PROC_RUNNABLE_S ∨ s.state = PROC_RUNNING_S ∨
      s.state = PROC_RUNNABLE_M ∨ s.state = PROC_RUNNING_M) :
    __proc_set_state s PROC_DYING = .ok { s with state := PROC_DYING } := by
  unfold __proc_set_state
  rcases hst with h | h | h | h | h <;>
    simp [h, PROC_RUNNABLE_M, PROC_RUNNING_M, PROC_CREATED, PROC_RUNNABLE_S, PROC_RUNNING_S,
      PROC_WAITING, PROC_DYING]

theorem put_idle_cores_frame (pcs : List Nat) :
    ∀ s : Sys, put_idle_cores s pcs = { s with idle_cores := s.idle_cores ++ pcs } := by
  induction pcs with
  | nil => intro s; simp [put_idle_cores]
  | cons pc pcs ih =>
    intro s
    simp only [put_idle_cores]
    rw [ih]
    simp [put_idle_core]

theorem proc_destroy_revoked (s : Sys)
    (hst : s.state = PROC_CREATED ∨ s.state = PROC_RUNNABLE_S ∨ s.state = PROC_RUNNING_S ∨
      s.state = PROC_RUNNABLE_M ∨ s.state = PROC_RUNNING_M)
    (hm : s.state = PROC_RUNNABLE_M ∨ s.state = PROC_RUNNING_M →
      s.num_vcores = s.online_vcs.length ∧ s.online_vcs.length < U32_MOD)
    (hval : s.state = PROC_RUNNING_M → ∀ v ∈ s.online_vcs, (s.vcoremap v).valid = true)
    (h0 : s.state = PROC_RUNNING_S → (s.vcoremap 0).valid = true) :
    ∃ s1 : Sys, proc_destroy s = proc_decref { s1 with state := PROC_DYING, files_closed := true } s.pid ∧
      s1.state = s.state ∧ s1.refcnt = s.refcnt ∧ s1.in_pid_hash = s.in_pid_hash ∧
      s1.pid = s.pid := by
  have hdy : s.state ≠ PROC_DYING := by
    rcases hst with h | h | h | h | h <;> rw [h] <;> decide
  have fin : ∀ s1 : Sys, s1.state = s.state → s1.pid = s.pid →
      (match __proc_set_state s1 PROC_DYING with
        | .error e => .error e
        | .ok s2 => proc_decref { s2 with files_closed := true } s2.pid : Res) =
      proc_decref { s1 with state := PROC_DYING, files_closed := true } s.pid := by
    intro s1 h1 h2
    rw [set_state_dying s1 (by rw [h1]; exact hst)]
    simp only []
    rw [← h2]
  unfold proc_destroy
  rw [if_neg hdy]
  lift_lets
  intro revoked
  have dumb : s.state = PROC_RUNNABLE_M ∨ s.state = PROC_RUNNING_M →
      __proc_take_allcores_dumb s false = .ok
        { take_all_result s false with
          idle_cores := s.idle_cores ++ pcs_of s s.online_vcs } := by
    intro h
    unfold __proc_take_allcores_dumb
    rw [take_allcores_eq s false (h.elim Or.inl Or.inr) (hm h).1 (hm h).2 hval]
    simp only []
    rw [put_idle_cores_frame]
    rfl
  rcases hst with h | h | h | h | h
  · have hr : revoked = .ok s := by
      simp [revoked, h, PROC_RUNNABLE_M, PROC_RUNNING_M, PROC_CREATED, PROC_RUNNABLE_S,
        PROC_RUNNING_S]
    rw [hr]
    exact ⟨s, fin s rfl rfl, rfl, rfl, rfl, rfl⟩
  · have hr : revoked = .ok s := by
      simp [revoked, h, PROC_RUNNABLE_M, PROC_RUNNABLE_S]
    rw [hr]
    exact ⟨s, fin s rfl rfl, rfl, rfl, rfl, rfl⟩
  · have hr : revoked = .ok (__seq_end_write (__seq_start_write
        (send_kernel_message s (s.vcoremap 0).pcoreid .death none))) := by
      simp [revoked, h, PROC_RUNNABLE_M, PROC_RUNNING_S, PROC_RUNNABLE_S, get_pcoreid,
        vcore_is_mapped, h0 h, try_get_pcoreid]
    rw [hr]
    exact ⟨_, fin _ rfl rfl, rfl, rfl, rfl, rfl⟩
  · have hr : revoked = .ok { take_all_result s false with
          idle_cores := s.idle_cores ++ pcs_of s s.online_vcs } := by
      simp only [revoked, if_pos h]
      exact dumb (Or.inl h)
    rw [hr]
    exact ⟨_, fin _ rfl rfl, rfl, rfl, rfl, rfl⟩
  · have hr : revoked = .ok { take_all_result s false with
          idle_cores := s.idle_cores ++ pcs_of s s.online_vcs } := by
      have e1 : s.state ≠ PROC_RUNNABLE_M := by rw [h]; decide
      have e2 : s.state ≠ PROC_RUNNABLE_S := by rw [h]; decide
      have e3 : s.state ≠ PROC_RUNNING_S := by rw [h]; decide
      simp only [revoked, if_neg e1, if_neg e2, if_neg e3, if_pos h]
      exact dumb (Or.inr h)
    rw [hr]
    exact ⟨_, fin _ rfl rfl, rfl, rfl, rfl, rfl⟩

theorem decref_result_fields (s : Sys) :
    (decref_result s).state = s.state ∧ (decref_result s).refcnt = s.refcnt - 1 := by
  unfold decref_result
  split <;> exact ⟨rfl, rfl⟩

/-- C16: for a process in `CREATED`, `RUNNABLE_S`, `RUNNING_S`, `RUNNABLE_M` or
`RUNNING_M` (in the `_M` states with `num_vcores` the length of the online
list, whose vcores are mapped when running; in `RUNNING_S` with vcore 0 mapped;
and in the pid hash if this is its last reference), `proc_destroy` leaves the
state `DYING` and the reference count exactly one lower; on a process that is
already `DYING` it changes nothing.  Hence a second `proc_destroy` returns the
state of the first: the existence reference is released once. -/
theorem proc_destroy_once (s : Sys) :
    ((s.state = PROC_CREATED ∨ s.state = PROC_RUNNABLE_S ∨ s.state = PROC_RUNNING_S ∨
        s.state = PROC_RUNNABLE_M ∨ s.state = PROC_RUNNING_M) →
      (s.state = PROC_RUNNABLE_M ∨ s.state = PROC_RUNNING_M →
        s.num_vcores = s.online_vcs.length ∧ s.online_vcs.length < U32_MOD) →
      (s.state = PROC_RUNNING_M → ∀ v ∈ s.online_vcs, (s.vcoremap v).valid = true) →
      (s.state = PROC_RUNNING_S → (s.vcoremap 0).valid = true) →
      (s.refcnt = 1 → s.in_pid_hash = true) →
      ∃ s1, proc_destroy s = .ok s1 ∧ s1.state = PROC_DYING ∧ s1.refcnt = s.refcnt - 1 ∧
        proc_destroy s1 = .ok s1) ∧
    (s.state = PROC_DYING → proc_destroy s = .ok s) := by
  have hdying : ∀ t : Sys, t.state = PROC_DYING → proc_destroy t = .ok t := by
    intro t ht
    unfold proc_destroy
    rw [if_pos ht]
  refine ⟨?_, hdying s⟩
  intro hst hm hval h0 hfree
  obtain ⟨s1, he, h1, h2, h3, h4⟩ := proc_destroy_revoked s hst hm hval h0
  have hd := proc_decref_self_eq { s1 with state := PROC_DYING, files_closed := true }
    (by
      show s1.refcnt = 1 → s1.in_pid_hash = true
      rw [h2, h3]; exact hfree)
  have hd2 : proc_decref { s1 with state := PROC_DYING, files_closed := true } s.pid =
      .ok (decref_result { s1 with state := PROC_DYING, files_closed := true }) := by
    rw [← h4]; exact hd
  obtain ⟨f1, f2⟩ := decref_result_fields { s1 with state := PROC_DYING, files_closed := true }
  refine ⟨_, he.trans hd2, f1, ?_, hdying _ f1⟩
  rw [f2]
  show s1.refcnt - 1 = _
  rw [h2]

theorem proc_destroy_once_witness :
    (∃ s1, proc_destroy running_m_proc = .ok s1 ∧ s1.state = PROC_DYING ∧
        s1.refcnt = running_m_proc.refcnt - 1 ∧ proc_destroy s1 = .ok s1) ∧
    (∃ s1, proc_destroy (run_s_result runnable_s_proc 3) = .ok s1 ∧ s1.state = PROC_DYING ∧
        s1.refcnt = (run_s_result runnable_s_proc 3).refcnt - 1 ∧ proc_destroy s1 = .ok s1) ∧
    (∃ s1, proc_destroy fresh_proc = .ok s1 ∧ s1.state = PROC_DYING ∧
        s1.refcnt = fresh_proc.refcnt - 1 ∧ proc_destroy s1 = .ok s1) ∧
    proc_destroy dying_proc = .ok dying_proc :=
  ⟨(proc_destroy_once running_m_proc).1 (by decide) (by decide) (by decide) (by decide)
      (by decide),
   (proc_destroy_once (run_s_result runnable_s_proc 3)).1 (by decide) (by decide) (by decide)
      (by decide) (by decide),
   (proc_destroy_once fresh_proc).1 (by decide) (by decide) (by decide) (by decide) (by decide),
   (proc_destroy_once dying_proc).2 rfl⟩

/-! ## Yielding a core -/

theorem proc_decref_self_live (s : Sys) (h : s.refcnt ≠ 1) :
    proc_decref s s.pid = .ok { s with refcnt := s.refcnt - 1 } := by
  unfold proc_decref
  rw [if_pos rfl]
  simp only []
  rw [if_neg (by omega)]

theorem out_yield_core_eq (s : Sys) (pcoreid : Nat)
    (ho : (s.per_cpu_info pcoreid).owning_proc = some s.pid)
    (hc : (s.per_cpu_info pcoreid).cur_proc = some s.pid) (hr : 3 < s.refcnt) :
    out_yield_core s pcoreid = .ok (yield_exit_result s pcoreid) := by
  unfold out_yield_core
  rw [proc_decref_self_live s (by omega)]
  simp only []
  unfold clear_owning_proc
  simp -zeta only []
  lift_lets
  intro p c1 s1
  have hp : p = some s.pid := ho
  rw [hp]
  simp only []
  have hd1 : proc_decref s1 s.pid = .ok { s1 with refcnt := s1.refcnt - 1 } :=
    proc_decref_self_live s1 (by show s.refcnt - 1 ≠ 1; omega)
  rw [hd1]
  simp only []
  unfold abandon_core
  simp -zeta only []
  lift_lets
  intro c2 s2
  have hcs : (s2.per_cpu_info pcoreid).cur_proc.isSome = true := by
    simp [s2, c2, s1, c1, set_pcpui, upd, hc]
  rw [if_pos hcs]
  unfold __abandon_core
  have hcp : (s2.per_cpu_info pcoreid).cur_proc = some s.pid := by
    simp [s2, c2, s1, c1, set_pcpui, upd, hc]
  rw [hcp]
  simp only []
  have hd2 : proc_decref s2 s.pid = .ok { s2 with refcnt := s2.refcnt - 1 } :=
    proc_decref_self_live s2 (by show s.refcnt - 1 - 1 ≠ 1; omega)
  rw [hd2]
  simp only []
  congr 1
  apply Sys.ext <;> try rfl
  funext j
  simp only [set_pcpui, yield_exit_result, upd, s2, c2, s1, c1]
  by_cases hj : j = pcoreid
  · simp only [hj, if_true]
  · simp only [hj, if_false]

theorem yield_m_release_frame (s : Sys) (pc v : Nat) (b : Bool) :
    (yield_m_release s pc v b).state = s.state ∧ (yield_m_release s pc v b).pid = s.pid ∧
    (yield_m_release s pc v b).refcnt = s.refcnt ∧
    (yield_m_release s pc v b).per_cpu_info = s.per_cpu_info ∧
    (yield_m_release s pc v b).num_vcores = u32_sub s.num_vcores 1 := by
  cases b <;>
    simp [yield_m_release, put_idle_core, __seq_end_write, __seq_start_write, set_vcpd,
      __unmap_vcore, inactive_insert_head]

theorem set_state_waiting (s : Sys) (hst : s.state = PROC_RUNNING_M) :
    __proc_set_state s PROC_WAITING = .ok { s with state := PROC_WAITING } := by
  unfold __proc_set_state
  simp [hst, PROC_RUNNABLE_M, PROC_RUNNING_M, PROC_CREATED, PROC_RUNNABLE_S, PROC_RUNNING_S,
    PROC_WAITING, PROC_DYING]

theorem yield_m_commit_eq (s : Sys) (pc v : Nat) (b : Bool) (hst : s.state = PROC_RUNNING_M)
    (hon : v ∈ s.online_vcs) (hnp : (s.vcore_preempt_data v).notif_pending = false)
    (ho : (s.per_cpu_info pc).owning_proc = some s.pid)
    (hc : (s.per_cpu_info pc).cur_proc = some s.pid) (hr : 3 < s.refcnt) :
    yield_m_commit s pc v b = .ok (yield_exit_result
      (if (yield_m_release { s with online_vcs := s.online_vcs.erase v } pc v b).num_vcores = 0
        then { yield_m_release { s with online_vcs := s.online_vcs.erase v } pc v b with
          amt_wanted := 1, state := PROC_WAITING }
        else yield_m_release { s with online_vcs := s.online_vcs.erase v } pc v b) pc) := by
  unfold yield_m_commit
  have hrem : online_remove s v = .ok { s with online_vcs := s.online_vcs.erase v } := by
    unfold online_remove
    rw [if_pos hon]
  rw [hrem]
  simp -zeta only []
  rw [if_neg (by simpa using hnp)]
  lift_lets
  intro s8 last
  obtain ⟨f1, f2, f3, f4, f5⟩ :=
    yield_m_release_frame { s with online_vcs := s.online_vcs.erase v } pc v b
  by_cases hz : s8.num_vcores = 0
  · have hl : last = .ok { s8 with amt_wanted := 1, state := PROC_WAITING } := by
      simp only [last, if_pos hz]
      rw [set_state_waiting _ (by show s8.state = _; exact f1.trans hst)]
    rw [hl]
    simp only []
    rw [out_yield_core_eq _ pc (by
        show ((yield_m_release _ pc v b).per_cpu_info pc).owning_proc = some (yield_m_release _ pc v b).pid
        rw [f4, f2]; exact ho) (by
        show ((yield_m_release _ pc v b).per_cpu_info pc).cur_proc = some (yield_m_release _ pc v b).pid
        rw [f4, f2]; exact hc) (by
        show 3 < (yield_m_release _ pc v b).refcnt
        rw [f3]; exact hr)]
    rw [if_pos hz]
  · have hl : last = .ok s8 := by
      simp only [last, if_neg hz]
    rw [hl]
    simp only []
    rw [out_yield_core_eq _ pc (by
        show ((yield_m_release _ pc v b).per_cpu_info pc).owning_proc = some (yield_m_release _ pc v b).pid
        rw [f4, f2]; exact ho) (by
        show ((yield_m_release _ pc v b).per_cpu_info pc).cur_proc = some (yield_m_release _ pc v b).pid
        rw [f4, f2]; exact hc) (by
        show 3 < (yield_m_release _ pc v b).refcnt
        rw [f3]; exact hr)]
    rw [if_neg hz]

theorem proc_yield_m_eq (s : Sys) (pc : Nat) (b : Bool) (hst : s.state = PROC_RUNNING_M)
    (hmap : is_mapped_vcore s pc = true)
    (hnice : b = true → (s.vcoremap (s.pcoremap pc).vcoreid).preempt_pending ≠ 0)
    (hserved : (s.vcoremap (s.pcoremap pc).vcoreid).preempt_served = false)
    (hnp : (s.vcore_preempt_data (s.pcoremap pc).vcoreid).notif_pending = false)
    (hon : (s.pcoremap pc).vcoreid ∈ s.online_vcs)
    (ho : (s.per_cpu_info pc).owning_proc = some s.pid)
    (hc : (s.per_cpu_info pc).cur_proc = some s.pid) (hr : 3 < s.refcnt) :
    proc_yield s pc b = .ok (yield_m_result s pc b) := by
  unfold proc_yield
  rw [if_neg (by rw [hst]; decide), if_pos hst, if_neg (by simp [hmap])]
  have hget : get_vcoreid s pc = .ok (s.pcoremap pc).vcoreid := by
    unfold get_vcoreid; rw [if_pos hmap]
  rw [hget]
  simp -zeta only []
  lift_lets
  intro vc s1
  have hvc : vc = s.vcoremap (s.pcoremap pc).vcoreid := rfl
  rw [if_neg (by
    rw [hvc]
    intro h
    exact hnice h.1 h.2)]
  rw [if_neg (by rw [hvc, hserved]; simp)]
  by_cases hpp : vc.preempt_pending ≠ 0
  · have hs1 : s1 = set_vcore s (s.pcoremap pc).vcoreid { vc with preempt_pending := 0 } := by
      simp only [s1, if_pos hpp]
    rw [hs1]
    rw [if_neg (by simpa [set_vcore] using hnp)]
    rw [yield_m_commit_eq
      (set_vcore s (s.pcoremap pc).vcoreid { vc with preempt_pending := 0 }) pc _ b
      hst hon hnp ho hc hr]
    rfl
  · have hs1 : s1 = s := by
      simp only [s1, if_neg hpp]
    have hpp0 : (s.vcoremap (s.pcoremap pc).vcoreid).preempt_pending = 0 := by
      rw [← hvc]; exact not_not.mp hpp
    have hvm : upd s.vcoremap (s.pcoremap pc).vcoreid
        { s.vcoremap (s.pcoremap pc).vcoreid with preempt_pending := 0 } = s.vcoremap := by
      funext j
      simp only [upd]
      by_cases hj : j = (s.pcoremap pc).vcoreid
      · rw [if_pos hj, hj]
        rw [← hpp0]
      · rw [if_neg hj]
    rw [hs1]
    rw [if_neg (by simpa using hnp)]
    rw [yield_m_commit_eq s pc _ b hst hon hnp ho hc hr]
    unfold yield_m_result
    simp only [hvm]

theorem yield_m_result_fields (s : Sys) (pc : Nat) (b : Bool) :
    (yield_m_result s pc b).online_vcs = s.online_vcs.erase (s.pcoremap pc).vcoreid ∧
    (yield_m_result s pc b).inactive_vcs = (s.pcoremap pc).vcoreid :: s.inactive_vcs ∧
    (yield_m_result s pc b).bulk_preempted_vcs = s.bulk_preempted_vcs ∧
    (yield_m_result s pc b).num_vcores = u32_sub s.num_vcores 1 ∧
    (yield_m_result s pc b).amt_granted = u32_sub s.num_vcores 1 % SIZE_MOD ∧
    (yield_m_result s pc b).idle_cores = s.idle_cores ++ [pc] ∧
    (yield_m_result s pc b).kmsgs = s.kmsgs ∧
    (yield_m_result s pc b).refcnt = s.refcnt - 3 ∧
    (yield_m_result s pc b).vcoremap =
      upd (upd s.vcoremap (s.pcoremap pc).vcoreid
          { s.vcoremap (s.pcoremap pc).vcoreid with preempt_pending := 0 })
        (s.pcoremap pc).vcoreid
        { s.vcoremap (s.pcoremap pc).vcoreid with preempt_pending := 0, valid := false } ∧
    (yield_m_result s pc b).pcoremap =
      upd s.pcoremap (s.vcoremap (s.pcoremap pc).vcoreid).pcoreid
        { s.pcoremap (s.vcoremap (s.pcoremap pc).vcoreid).pcoreid with valid := false } ∧
    (yield_m_result s pc b).vcore_preempt_data =
      upd s.vcore_preempt_data (s.pcoremap pc).vcoreid
        { s.vcore_preempt_data (s.pcoremap pc).vcoreid with notif_disabled := false } ∧
    (yield_m_result s pc b).state =
      (if u32_sub s.num_vcores 1 = 0 then PROC_WAITING else s.state) ∧
    (yield_m_result s pc b).amt_wanted =
      (if u32_sub s.num_vcores 1 = 0 then 1
       else if b then s.amt_wanted else u32_sub s.num_vcores 1 % SIZE_MOD) := by
  unfold yield_m_result
  simp only []
  obtain ⟨_, _, _, _, f5⟩ := yield_m_release_frame
    { s with
      vcoremap := upd s.vcoremap (s.pcoremap pc).vcoreid
        { s.vcoremap (s.pcoremap pc).vcoreid with preempt_pending := 0 }
      online_vcs := s.online_vcs.erase (s.pcoremap pc).vcoreid } pc (s.pcoremap pc).vcoreid b
  rw [f5]
  by_cases hz : u32_sub s.num_vcores 1 = 0
  · have hz' : u32_sub ({ s with
        vcoremap := upd s.vcoremap (s.pcoremap pc).vcoreid
          { s.vcoremap (s.pcoremap pc).vcoreid with preempt_pending := 0 }
        online_vcs := s.online_vcs.erase (s.pcoremap pc).vcoreid } : Sys).num_vcores 1 = 0 := hz
    rw [if_pos hz', if_pos hz, if_pos hz]
    cases b <;>
      simp [yield_exit_result, yield_m_release, put_idle_core, __seq_end_write, __seq_start_write,
        set_vcpd, __unmap_vcore, inactive_insert_head, upd]
    all_goals omega
  · have hz' : ¬ u32_sub ({ s with
        vcoremap := upd s.vcoremap (s.pcoremap pc).vcoreid
          { s.vcoremap (s.pcoremap pc).vcoreid with preempt_pending := 0 }
        online_vcs := s.online_vcs.erase (s.pcoremap pc).vcoreid } : Sys).num_vcores 1 = 0 := hz
    rw [if_neg hz', if_neg hz, if_neg hz]
    cases b <;>
      simp [yield_exit_result, yield_m_release, put_idle_core, __seq_end_write, __seq_start_write,
        set_vcpd, __unmap_vcore, inactive_insert_head, upd]
    all_goals omega

/-- C17: `proc_yield` on a `RUNNING_M` process returns with the state of the
kernel unchanged when the calling pcore is not mapped to a vcore of `p`, or
when `being_nice` is set and the vcore of the caller has `preempt_pending == 0`,
or when the vcore of the caller has `preempt_served` set; so it does on a
process that is `DYING` or `RUNNABLE_M`.  In particular a yield that returns
while `preempt_served` is set for the vcore of the caller leaves the online
list as it was. -/
theorem proc_yield_aborts (s : Sys) (pcoreid : Nat) (being_nice : Bool) :
    (s.state = PROC_RUNNING_M → is_mapped_vcore s pcoreid = false →
      proc_yield s pcoreid being_nice = .ok s) ∧
    (s.state = PROC_RUNNING_M → is_mapped_vcore s pcoreid = true → being_nice = true →
      (s.vcoremap (s.pcoremap pcoreid).vcoreid).preempt_pending = 0 →
      proc_yield s pcoreid being_nice = .ok s) ∧
    (s.state = PROC_RUNNING_M → is_mapped_vcore s pcoreid = true →
      (s.vcoremap (s.pcoremap pcoreid).vcoreid).preempt_served = true →
      proc_yield s pcoreid being_nice = .ok s) ∧
    (s.state = PROC_DYING ∨ s.state = PROC_RUNNABLE_M →
      proc_yield s pcoreid being_nice = .ok s) ∧
    (∀ s1, s.state = PROC_RUNNING_M → is_mapped_vcore s pcoreid = true →
      (s.vcoremap (s.pcoremap pcoreid).vcoreid).preempt_served = true →
      proc_yield s pcoreid being_nice = .ok s1 → s1.online_vcs = s.online_vcs) := by
  have hget : is_mapped_vcore s pcoreid = true →
      get_vcoreid s pcoreid = .ok (s.pcoremap pcoreid).vcoreid := by
    intro h; unfold get_vcoreid; rw [if_pos h]
  have hns : s.state = PROC_RUNNING_M → s.state ≠ PROC_RUNNING_S := by
    intro h; rw [h]; decide
  have hserved : s.state = PROC_RUNNING_M → is_mapped_vcore s pcoreid = true →
      (s.vcoremap (s.pcoremap pcoreid).vcoreid).preempt_served = true →
      proc_yield s pcoreid being_nice = .ok s := by
    intro hst hmap hps
    unfold proc_yield
    rw [if_neg (hns hst), if_pos hst, if_neg (by simp [hmap]), hget hmap]
    simp -zeta only []
    lift_lets
    intro vc s1
    by_cases c : being_nice = true ∧ vc.preempt_pending = 0
    · rw [if_pos c]
    · rw [if_neg c, if_pos hps]
  refine ⟨?_, ?_, hserved, ?_, ?_⟩
  · intro hst hmap
    unfold proc_yield
    rw [if_neg (hns hst), if_pos hst, if_pos (by simp [hmap])]
  · intro hst hmap hb hpp
    unfold proc_yield
    rw [if_neg (hns hst), if_pos hst, if_neg (by simp [hmap]), hget hmap]
    simp -zeta only []
    lift_lets
    intro vc s1
    rw [if_pos ⟨hb, hpp⟩]
  · intro h
    unfold proc_yield
    have h1 : s.state ≠ PROC_RUNNING_S := by rcases h with h | h <;> rw [h] <;> decide
    have h2 : s.state ≠ PROC_RUNNING_M := by rcases h with h | h <;> rw [h] <;> decide
    rw [if_neg h1, if_neg h2, if_pos h]
  · intro s1 hst hmap hps h
    rw [hserved hst hmap hps] at h
    rw [← Except.ok.inj h]

theorem proc_yield_aborts_witness :
    proc_yield on_core_proc 7 false = .ok on_core_proc ∧
    proc_yield on_core_proc 5 true = .ok on_core_proc ∧
    proc_yield served_proc 5 false = .ok served_proc ∧
    proc_yield dying_proc 5 false = .ok dying_proc :=
  ⟨(proc_yield_aborts on_core_proc 7 false).1 rfl rfl,
   (proc_yield_aborts on_core_proc 5 true).2.1 rfl rfl rfl rfl,
   (proc_yield_aborts served_proc 5 false).2.2.1 rfl rfl rfl,
   (proc_yield_aborts dying_proc 5 false).2.2.2.1 (Or.inl rfl)⟩

theorem u32_sub_mod_size (a b : Nat) : u32_sub a b % SIZE_MOD = u32_sub a b := by
  simp [u32_sub, SIZE_MOD, U32_MOD]

/-- C18, as stated, fails: when a `RUNNING_M` process yields its only online
vcore without being nice, `proc_yield` returns with `num_vcores` 0 and
`amt_wanted` 1, not the new `num_vcores`. -/
theorem yield_last_vcore_wants_one :
    ∃ s1, on_core_proc.state = PROC_RUNNING_M ∧ on_core_proc.online_vcs = [2] ∧
      on_core_proc.num_vcores = 1 ∧ on_core_proc.amt_granted = 1 ∧
      proc_yield on_core_proc 5 false = .ok s1 ∧
      s1.online_vcs = [] ∧ s1.inactive_vcs = [2, 0, 1, 3] ∧
      s1.num_vcores = 0 ∧ s1.amt_wanted = 1 ∧ s1.amt_wanted ≠ s1.num_vcores :=
  ⟨_, rfl, rfl, rfl, rfl, rfl, rfl, rfl, rfl, rfl, by decide⟩

/-- C18, amended: when `proc_yield` gives up a vcore of a `RUNNING_M` process
(the caller runs `p` on a pcore mapped to the online vcore `v`, `preempt_served`
and `notif_pending` are clear, `preempt_pending` is set if `being_nice`, and
`p` holds more than the three references dropped on the way out), it removes
`v` from `online_vcs` and inserts it at the head of `inactive_vcs`, sets the
`notif_disabled` of `v` to false and its `preempt_pending` to 0, unmaps `v`,
lowers `num_vcores` by one and sets `amt_granted` to the new `num_vcores` (one
lower when the two agreed), hands the pcore to the idle pool once, and leaves
the map entries of the other vcores and pcores as they were; `amt_wanted`
becomes the new `num_vcores` when not being nice and is kept when being nice,
unless no vcore is left, when it becomes 1. -/
theorem yield_gives_up_vcore (s : Sys) (pc : Nat) (b : Bool) (hst : s.state = PROC_RUNNING_M)
    (hmap : is_mapped_vcore s pc = true)
    (hnice : b = true → (s.vcoremap (s.pcoremap pc).vcoreid).preempt_pending ≠ 0)
    (hserved : (s.vcoremap (s.pcoremap pc).vcoreid).preempt_served = false)
    (hnp : (s.vcore_preempt_data (s.pcoremap pc).vcoreid).notif_pending = false)
    (hon : (s.pcoremap pc).vcoreid ∈ s.online_vcs)
    (ho : (s.per_cpu_info pc).owning_proc = some s.pid)
    (hc : (s.per_cpu_info pc).cur_proc = some s.pid) (hr : 3 < s.refcnt) :
    ∃ s1, proc_yield s pc b = .ok s1 ∧
      s1.online_vcs = s.online_vcs.erase (s.pcoremap pc).vcoreid ∧
      s1.inactive_vcs = (s.pcoremap pc).vcoreid :: s.inactive_vcs ∧
      s1.bulk_preempted_vcs = s.bulk_preempted_vcs ∧
      (s1.vcore_preempt_data (s.pcoremap pc).vcoreid).notif_disabled = false ∧
      (s1.vcoremap (s.pcoremap pc).vcoreid).preempt_pending = 0 ∧
      (s1.vcoremap (s.pcoremap pc).vcoreid).valid = false ∧
      (s1.pcoremap (s.vcoremap (s.pcoremap pc).vcoreid).pcoreid).valid = false ∧
      s1.num_vcores = u32_sub s.num_vcores 1 ∧
      (1 ≤ s.num_vcores → s.num_vcores < U32_MOD → s1.num_vcores + 1 = s.num_vcores) ∧
      s1.amt_granted = s1.num_vcores ∧
      (s.amt_granted = s.num_vcores → 1 ≤ s.num_vcores → s.num_vcores < U32_MOD →
        s1.amt_granted + 1 = s.amt_granted) ∧
      (b = false → s1.num_vcores ≠ 0 → s1.amt_wanted = s1.num_vcores) ∧
      (b = true → s1.num_vcores ≠ 0 → s1.amt_wanted = s.amt_wanted) ∧
      (s1.num_vcores = 0 → s1.amt_wanted = 1) ∧
      s1.idle_cores = s.idle_cores ++ [pc] ∧
      (∀ w, w ≠ (s.pcoremap pc).vcoreid →
        s1.vcoremap w = s.vcoremap w ∧ s1.vcore_preempt_data w = s.vcore_preempt_data w) ∧
      (∀ q, q ≠ (s.vcoremap (s.pcoremap pc).vcoreid).pcoreid → s1.pcoremap q = s.pcoremap q) := by
  obtain ⟨f1, f2, f3, f4, f5, f6, _, _, f9, f10, f11, _, f13⟩ := yield_m_result_fields s pc b
  have hsub : 1 ≤ s.num_vcores → s.num_vcores < U32_MOD →
      u32_sub s.num_vcores 1 + 1 = s.num_vcores := by
    intro h1 h2; rw [u32_sub_small _ _ h1 h2]; omega
  refine ⟨yield_m_result s pc b, proc_yield_m_eq s pc b hst hmap hnice hserved hnp hon ho hc hr,
    f1, f2, f3, ?_, ?_, ?_, ?_, f4, ?_, ?_, ?_, ?_, ?_, ?_, f6, ?_, ?_⟩
  · rw [f11]; simp [upd]
  · rw [f9]; simp [upd]
  · rw [f9]; simp [upd]
  · rw [f10]; simp [upd]
  · rw [f4]; exact hsub
  · rw [f5, f4, u32_sub_mod_size]
  · intro he h1 h2
    rw [f5, u32_sub_mod_size, he]
    exact hsub h1 h2
  · intro hb hz
    rw [f4] at hz
    rw [f13, f4, if_neg hz, hb, u32_sub_mod_size]
    simp
  · intro hb hz
    rw [f4] at hz
    rw [f13, if_neg hz, hb]
    simp
  · intro hz
    rw [f4] at hz
    rw [f13, if_pos hz]
  · intro w hw
    rw [f9, f11]
    simp [upd, hw]
  · intro q hq
    rw [f10]
    simp [upd, hq]

theorem yield_gives_up_vcore_witness :
    ∃ s1, proc_yield two_running_proc 9 false = .ok s1 ∧
      s1.online_vcs = two_running_proc.online_vcs.erase (two_running_proc.pcoremap 9).vcoreid ∧
      s1.inactive_vcs = (two_running_proc.pcoremap 9).vcoreid :: two_running_proc.inactive_vcs ∧
      s1.bulk_preempted_vcs = two_running_proc.bulk_preempted_vcs ∧
      (s1.vcore_preempt_data (two_running_proc.pcoremap 9).vcoreid).notif_disabled = false ∧
      (s1.vcoremap (two_running_proc.pcoremap 9).vcoreid).preempt_pending = 0 ∧
      (s1.vcoremap (two_running_proc.pcoremap 9).vcoreid).valid = false ∧
      (s1.pcoremap
        (two_running_proc.vcoremap (two_running_proc.pcoremap 9).vcoreid).pcoreid).valid = false ∧
      s1.num_vcores = u32_sub two_running_proc.num_vcores 1 ∧
      (1 ≤ two_running_proc.num_vcores → two_running_proc.num_vcores < U32_MOD →
        s1.num_vcores + 1 = two_running_proc.num_vcores) ∧
      s1.amt_granted = s1.num_vcores ∧
      (two_running_proc.amt_granted = two_running_proc.num_vcores →
        1 ≤ two_running_proc.num_vcores → two_running_proc.num_vcores < U32_MOD →
        s1.amt_granted + 1 = two_running_proc.amt_granted) ∧
      (false = false → s1.num_vcores ≠ 0 → s1.amt_wanted = s1.num_vcores) ∧
      (false = true → s1.num_vcores ≠ 0 → s1.amt_wanted = two_running_proc.amt_wanted) ∧
      (s1.num_vcores = 0 → s1.amt_wanted = 1) ∧
      s1.idle_cores = two_running_proc.idle_cores ++ [9] ∧
      (∀ w, w ≠ (two_running_proc.pcoremap 9).vcoreid →
        s1.vcoremap w = two_running_proc.vcoremap w ∧
        s1.vcore_preempt_data w = two_running_proc.vcore_preempt_data w) ∧
      (∀ q, q ≠ (two_running_proc.vcoremap (two_running_proc.pcoremap 9).vcoreid).pcoreid →
        s1.pcoremap q = two_running_proc.pcoremap q) :=
  yield_gives_up_vcore two_running_proc 9 false rfl rfl (by decide) rfl rfl (by decide) rfl rfl
    (by decide)

theorem set_state_runnable_m (s : Sys) (hst : s.state = PROC_RUNNING_M) :
    __proc_set_state s PROC_RUNNABLE_M = .ok { s with state := PROC_RUNNABLE_M } := by
  unfold __proc_set_state
  simp [hst, PROC_RUNNABLE_M, PROC_RUNNING_M, PROC_CREATED, PROC_RUNNABLE_S, PROC_RUNNING_S,
    PROC_WAITING, PROC_DYING]

theorem vcoremap_warned_apply (w : Nat) (vs : List Nat) :
    ∀ (vm : Nat → Vcore) (u : Nat), vcoremap_warned vm w vs u =
      if u ∈ vs then { vm u with preempt_pending := w } else vm u := by
  induction vs with
  | nil => intro vm u; simp [vcoremap_warned]
  | cons v vs ih =>
    intro vm u
    simp only [vcoremap_warned]
    rw [ih]
    by_cases huv : u = v
    · subst huv; by_cases hu : u ∈ vs <;> simp [upd, hu]
    · by_cases hu : u ∈ vs <;> simp [upd, hu, huv]

theorem vcoremap_served_apply (vs : List Nat) :
    ∀ (vm : Nat → Vcore) (u : Nat), vcoremap_served vm vs u =
      if u ∈ vs then { vm u with preempt_served := true } else vm u := by
  induction vs with
  | nil => intro vm u; simp [vcoremap_served]
  | cons v vs ih =>
    intro vm u
    simp only [vcoremap_served]
    rw [ih]
    by_cases huv : u = v
    · subst huv; by_cases hu : u ∈ vs <;> simp [upd, hu]
    · by_cases hu : u ∈ vs <;> simp [upd, hu, huv]

theorem preempt_warnall_loop_frame (w : Nat) (vs : List Nat) :
    ∀ s : Sys, preempt_warnall_loop s w vs =
      { s with vcoremap := vcoremap_warned s.vcoremap w vs
               events := s.events ++ vs.map warn_event } := by
  induction vs with
  | nil => intro s; simp [preempt_warnall_loop, vcoremap_warned]
  | cons v vs ih =>
    intro s
    simp only [preempt_warnall_loop]
    rw [ih]
    simp [__proc_preempt_warn, send_kernel_event, set_vcore, vcoremap_warned, warn_event]

theorem preempt_all_loop_frame (vs : List Nat) :
    ∀ s : Sys, preempt_all_loop s vs =
      { s with vcoremap := vcoremap_served s.vcoremap vs } := by
  induction vs with
  | nil => intro s; simp [preempt_all_loop, vcoremap_served]
  | cons v vs ih =>
    intro s
    simp only [preempt_all_loop]
    rw [ih]
    simp [set_vcore, vcoremap_served]

theorem preempt_all_prep (s : Sys) (w : Nat) :
    preempt_all_loop (__proc_preempt_warnall s w) (__proc_preempt_warnall s w).online_vcs =
      { s with
        vcoremap := vcoremap_served (vcoremap_warned s.vcoremap w s.online_vcs) s.online_vcs
        events := s.events ++ s.online_vcs.map warn_event } := by
  unfold __proc_preempt_warnall
  rw [preempt_warnall_loop_frame, preempt_all_loop_frame]

theorem vcoremap_prep_valid (vm : Nat → Vcore) (w : Nat) (vs : List Nat) (u : Nat) :
    (vcoremap_served (vcoremap_warned vm w vs) vs u).valid = (vm u).valid ∧
    (vcoremap_served (vcoremap_warned vm w vs) vs u).pcoreid = (vm u).pcoreid := by
  rw [vcoremap_served_apply, vcoremap_warned_apply]
  by_cases hu : u ∈ vs <;> simp [hu]

theorem proc_preempt_all_eq (s : Sys) (w : Nat) (hst : s.state = PROC_RUNNING_M)
    (hnum : s.num_vcores = s.online_vcs.length) (hlt : s.online_vcs.length < U32_MOD)
    (hval : ∀ v ∈ s.online_vcs, (s.vcoremap v).valid = true) :
    proc_preempt_all s w = .ok (preempt_all_result s w) := by
  have htake := take_allcores_eq
    (preempt_all_loop (__proc_preempt_warnall s w) (__proc_preempt_warnall s w).online_vcs) true
    (Or.inr (by rw [preempt_all_prep]; exact hst))
    (by rw [preempt_all_prep]; exact hnum) (by rw [preempt_all_prep]; exact hlt)
    (by
      rw [preempt_all_prep]
      intro _ v hv
      exact ((vcoremap_prep_valid s.vcoremap w s.online_vcs v).1).trans (hval v hv))
  unfold proc_preempt_all
  rw [if_neg (not_not.mpr hst)]
  unfold __proc_preempt_all __proc_take_allcores_dumb
  rw [htake]
  simp only []
  rw [if_neg (by
    rw [put_idle_cores_frame]
    simp [take_all_result])]
  rw [set_state_runnable_m]
  · rfl
  · rw [put_idle_cores_frame, preempt_all_prep]
    simp only [take_all_result]
    exact hst

theorem preempt_all_result_fields (s : Sys) (w : Nat) (hst : s.state = PROC_RUNNING_M) :
    (preempt_all_result s w).online_vcs = [] ∧
    (preempt_all_result s w).bulk_preempted_vcs = s.online_vcs.reverse ++ s.bulk_preempted_vcs ∧
    (preempt_all_result s w).inactive_vcs = s.inactive_vcs ∧
    (preempt_all_result s w).num_vcores = 0 ∧
    (preempt_all_result s w).amt_granted = 0 ∧
    (preempt_all_result s w).state = PROC_RUNNABLE_M ∧
    (preempt_all_result s w).vcoremap =
      vcoremap_served (vcoremap_warned s.vcoremap w s.online_vcs) s.online_vcs ∧
    (preempt_all_result s w).pcoremap = s.pcoremap ∧
    (preempt_all_result s w).events = s.events ++ s.online_vcs.map warn_event ∧
    (preempt_all_result s w).kmsgs = s.kmsgs ++ s.online_vcs.map
      (fun v => ⟨(s.vcoremap v).pcoreid, .preempt, some s.pid, 0, 0, true⟩) ∧
    (preempt_all_result s w).idle_cores = s.idle_cores ++ pcs_of s s.online_vcs ∧
    (preempt_all_result s w).vcore_preempt_data =
      vcpd_locked s.vcore_preempt_data s.online_vcs := by
  have hpcs : ∀ vs : List Nat,
      vs.map (fun v =>
        (vcoremap_served (vcoremap_warned s.vcoremap w s.online_vcs) s.online_vcs v).pcoreid) =
      vs.map (fun v => (s.vcoremap v).pcoreid) := by
    intro vs
    apply List.map_congr_left
    intro v _
    exact (vcoremap_prep_valid s.vcoremap w s.online_vcs v).2
  unfold preempt_all_result
  simp only []
  rw [preempt_all_prep, put_idle_cores_frame]
  refine ⟨?_, ?_, ?_, ?_, ?_, ?_, ?_, ?_, ?_, ?_, ?_, ?_⟩ <;>
  simp [take_all_result, hst, pcs_of, hpcs, revoke_msg, List.map_map, Function.comp_def]

/-- C21: for a `RUNNING_M` process whose `num_vcores` is the length of its online
list of mapped vcores, `proc_preempt_all` returns with `preempt_pending` set to
the warning time `w` and `preempt_served` true on every online vcore, one
`EV_PREEMPT_PENDING` event posted per online vcore and one immediate
`__preempt` message sent to the pcore of each, in list order, every online
vcore moved to the head of `bulk_preempted_vcs` and none to `inactive_vcs`,
`num_vcores` 0 and the state `RUNNABLE_M`; the maps of the other vcores and
`pcoremap` are untouched.  On a process that is not `RUNNING_M` it changes
nothing. -/
theorem preempt_all_contract (s : Sys) (w : Nat) :
    (s.state = PROC_RUNNING_M → s.num_vcores = s.online_vcs.length →
      s.online_vcs.length < U32_MOD → (∀ v ∈ s.online_vcs, (s.vcoremap v).valid = true) →
      ∃ s1, proc_preempt_all s w = .ok s1 ∧
        (∀ v ∈ s.online_vcs, (s1.vcoremap v).preempt_pending = w ∧
          (s1.vcoremap v).preempt_served = true ∧ (s1.vcoremap v).valid = true ∧
          (s1.vcoremap v).pcoreid = (s.vcoremap v).pcoreid) ∧
        (∀ v, v ∉ s.online_vcs → s1.vcoremap v = s.vcoremap v) ∧
        s1.pcoremap = s.pcoremap ∧
        s1.events = s.events ++ s.online_vcs.map (fun v => ⟨.EV_PREEMPT_PENDING, v, 0, v⟩) ∧
        s1.kmsgs = s.kmsgs ++ s.online_vcs.map
          (fun v => ⟨(s.vcoremap v).pcoreid, .preempt, some s.pid, 0, 0, true⟩) ∧
        s1.online_vcs = [] ∧
        s1.bulk_preempted_vcs = s.online_vcs.reverse ++ s.bulk_preempted_vcs ∧
        s1.inactive_vcs = s.inactive_vcs ∧
        s1.num_vcores = 0 ∧ s1.state = PROC_RUNNABLE_M) ∧
    (s.state ≠ PROC_RUNNING_M → proc_preempt_all s w = .ok s) := by
  constructor
  · intro hst hnum hlt hval
    obtain ⟨f1, f2, f3, f4, _, f6, f7, f8, f9, f10, _, _⟩ := preempt_all_result_fields s w hst
    refine ⟨preempt_all_result s w, proc_preempt_all_eq s w hst hnum hlt hval,
      ?_, ?_, f8, f9, f10, f1, f2, f3, f4, f6⟩
    · intro v hv
      rw [f7, vcoremap_served_apply, vcoremap_warned_apply]
      simp [hv, hval v hv]
    · intro v hv
      rw [f7, vcoremap_served_apply, vcoremap_warned_apply]
      simp [hv]
  · intro hst
    unfold proc_preempt_all
    rw [if_pos hst]

theorem preempt_all_contract_witness :
    (∃ s1, proc_preempt_all two_running_proc 700 = .ok s1 ∧
      s1.online_vcs = [] ∧ s1.bulk_preempted_vcs = [1, 0] ∧ s1.inactive_vcs = [2, 3] ∧
      s1.num_vcores = 0 ∧ s1.state = PROC_RUNNABLE_M ∧
      s1.events = [⟨.EV_PREEMPT_PENDING, 0, 0, 0⟩, ⟨.EV_PREEMPT_PENDING, 1, 0, 1⟩] ∧
      s1.kmsgs = [⟨9, .preempt, some 1, 0, 0, true⟩, ⟨11, .preempt, some 1, 0, 0, true⟩] ∧
      (s1.vcoremap 0).preempt_pending = 700 ∧ (s1.vcoremap 1).preempt_served = true) ∧
    proc_preempt_all dying_proc 700 = .ok dying_proc := by
  obtain ⟨s1, h, hv, _, _, he, hk, ho, hb, hi, hn, hs⟩ :=
    (preempt_all_contract two_running_proc 700).1 rfl rfl (by decide) (by decide)
  refine ⟨⟨s1, h, ho, ?_, ?_, hn, hs, ?_, ?_, (hv 0 (by decide)).1, (hv 1 (by decide)).2.1⟩,
    (preempt_all_contract dying_proc 700).2 (by decide)⟩
  · rw [hb]; rfl
  · rw [hi]; rfl
  · rw [he]; rfl
  · rw [hk]; rfl

theorem clear_owning_proc_self_eq (x : Sys) (c : Nat)
    (ho : (x.per_cpu_info c).owning_proc = some x.pid)
    (href : x.refcnt = 1 → x.in_pid_hash = true) :
    clear_owning_proc x c = .ok (decref_result (set_pcpui x c
      { x.per_cpu_info c with owning_proc := none, cur_tf := .null })) := by
  unfold clear_owning_proc
  simp only []
  rw [ho]
  simp only []
  exact proc_decref_self_eq (set_pcpui x c
    { x.per_cpu_info c with owning_proc := none, cur_tf := .null }) href

theorem preempt_handler_eq (s : Sys) (c : Nat)
    (ho : (s.per_cpu_info c).owning_proc = some s.pid)
    (htf : (s.per_cpu_info c).cur_tf = .actual_tf)
    (hp : (s.pcoremap c).valid = true)
    (href : s.refcnt = 1 → s.in_pid_hash = true) :
    __preempt s c (some s.pid) = .ok (preempt_handler_result s c) := by
  have hg : get_vcoreid s c = .ok (s.pcoremap c).vcoreid := by
    unfold get_vcoreid is_mapped_vcore
    rw [if_pos hp]
  unfold __preempt
  simp only []
  rw [if_neg (by simp), if_neg (by rw [ho]; simp), if_neg (by rw [htf]; simp),
    if_neg (by rw [htf]; simp), if_neg (by simp), hg]
  simp only []
  rw [clear_owning_proc_self_eq]
  · rfl
  · simp only [__unmap_vcore, set_vcpd, set_vcore]
    exact ho
  · simp only [__unmap_vcore, set_vcpd, set_vcore]
    exact href
theorem flags_preempted (f : Nat) :
    clear_bits (f ||| VC_PREEMPTED) VC_K_LOCK &&& VC_PREEMPTED = VC_PREEMPTED ∧
    clear_bits (f ||| VC_PREEMPTED) VC_K_LOCK &&& VC_K_LOCK = 0 := by
  unfold clear_bits VC_PREEMPTED VC_K_LOCK
  constructor
  · rw [Nat.and_assoc]
    have h : (0xFFFFFFFF ^^^ 1) &&& 2 = 2 := by decide
    rw [h]
    apply Nat.eq_of_testBit_eq
    intro i
    simp [Nat.testBit_and, Nat.testBit_or]
    exact fun h => Or.inr h
  · rw [Nat.and_assoc]
    have h : (0xFFFFFFFF ^^^ 1) &&& 1 = 0 := by decide
    rw [h, Nat.and_zero]

theorem decref_result_frame (x : Sys) :
    (decref_result x).vcoremap = x.vcoremap ∧ (decref_result x).pcoremap = x.pcoremap ∧
    (decref_result x).vcore_preempt_data = x.vcore_preempt_data ∧
    (decref_result x).per_cpu_info = x.per_cpu_info ∧
    (decref_result x).num_vcores = x.num_vcores ∧ (decref_result x).online_vcs = x.online_vcs ∧
    (decref_result x).bulk_preempted_vcs = x.bulk_preempted_vcs ∧
    (decref_result x).inactive_vcs = x.inactive_vcs ∧ (decref_result x).is_mcp = x.is_mcp ∧
    (decref_result x).kmsgs = x.kmsgs ∧ (decref_result x).events = x.events := by
  unfold decref_result
  split <;> exact ⟨rfl, rfl, rfl, rfl, rfl, rfl, rfl, rfl, rfl, rfl, rfl⟩

theorem preempt_handler_result_fields (s : Sys) (c : Nat) :
    (preempt_handler_result s c).vcoremap = upd
      (upd s.vcoremap (s.pcoremap c).vcoreid
        { s.vcoremap (s.pcoremap c).vcoreid with preempt_served := false, preempt_pending := 0 })
      (s.pcoremap c).vcoreid
      { s.vcoremap (s.pcoremap c).vcoreid with
        preempt_served := false, preempt_pending := 0, valid := false } ∧
    (preempt_handler_result s c).pcoremap = upd s.pcoremap
      (s.vcoremap (s.pcoremap c).vcoreid).pcoreid
      { s.pcoremap (s.vcoremap (s.pcoremap c).vcoreid).pcoreid with valid := false } ∧
    (preempt_handler_result s c).vcore_preempt_data (s.pcoremap c).vcoreid =
      { (if (s.vcore_preempt_data (s.pcoremap c).vcoreid).notif_disabled then
          { s.vcore_preempt_data (s.pcoremap c).vcoreid with
            preempt_tf := (s.per_cpu_info c).actual_tf }
         else
          { s.vcore_preempt_data (s.pcoremap c).vcoreid with
            notif_tf := (s.per_cpu_info c).actual_tf }) with
        preempt_anc := (s.per_cpu_info c).fpu
        flags := clear_bits
          ((s.vcore_preempt_data (s.pcoremap c).vcoreid).flags ||| VC_PREEMPTED) VC_K_LOCK } ∧
    (∀ u, u ≠ (s.pcoremap c).vcoreid →
      (preempt_handler_result s c).vcore_preempt_data u = s.vcore_preempt_data u) ∧
    (preempt_handler_result s c).per_cpu_info = upd s.per_cpu_info c
      { s.per_cpu_info c with owning_proc := none, cur_tf := .null } ∧
    (preempt_handler_result s c).refcnt = s.refcnt - 1 ∧
    (preempt_handler_result s c).state = s.state ∧
    (preempt_handler_result s c).num_vcores = s.num_vcores ∧
    (preempt_handler_result s c).online_vcs = s.online_vcs ∧
    (preempt_handler_result s c).bulk_preempted_vcs = s.bulk_preempted_vcs ∧
    (preempt_handler_result s c).inactive_vcs = s.inactive_vcs := by
  unfold preempt_handler_result
  simp only []
  obtain ⟨g1, g2, g3, g4, g5, g6, g7, g8, _, _, _⟩ := decref_result_frame
    (set_pcpui (__unmap_vcore (set_vcpd (set_vcore s (s.pcoremap c).vcoreid
      { s.vcoremap (s.pcoremap c).vcoreid with preempt_served := false, preempt_pending := 0 })
      (s.pcoremap c).vcoreid _) (s.pcoremap c).vcoreid) c _)
  obtain ⟨g9, g10⟩ := decref_result_fields
    (set_pcpui (__unmap_vcore (set_vcpd (set_vcore s (s.pcoremap c).vcoreid
      { s.vcoremap (s.pcoremap c).vcoreid with preempt_served := false, preempt_pending := 0 })
      (s.pcoremap c).vcoreid _) (s.pcoremap c).vcoreid) c _)
  refine ⟨?_, ?_, ?_, ?_, ?_, ?_, ?_, ?_, ?_, ?_, ?_⟩
  · rw [g1]; simp [set_pcpui, __unmap_vcore, set_vcpd, set_vcore, upd]
  · rw [g2]; simp [set_pcpui, __unmap_vcore, set_vcpd, set_vcore, upd]
  · rw [g3]
    by_cases hd : (s.vcore_preempt_data (s.pcoremap c).vcoreid).notif_disabled = true <;>
    simp [set_pcpui, __unmap_vcore, set_vcpd, set_vcore, upd, hd]
  · intro u hu
    rw [g3]; simp [set_pcpui, __unmap_vcore, set_vcpd, set_vcore, upd, hu]
  · rw [g4]; simp [set_pcpui, __unmap_vcore, set_vcpd, set_vcore]
  · rw [g10]; simp [set_pcpui, __unmap_vcore, set_vcpd, set_vcore]
  · rw [g9]; simp [set_pcpui, __unmap_vcore, set_vcpd, set_vcore]
  · rw [g5]; simp [set_pcpui, __unmap_vcore, set_vcpd, set_vcore]
  · rw [g6]; simp [set_pcpui, __unmap_vcore, set_vcpd, set_vcore]
  · rw [g7]; simp [set_pcpui, __unmap_vcore, set_vcpd, set_vcore]
  · rw [g8]; simp [set_pcpui, __unmap_vcore, set_vcpd, set_vcore]

/-- C22: the handler `__preempt`, run for `p` on a pcore that `p` owns (with
`cur_tf` pointing at the frame of the core) and that is mapped to vcore `v`,
returns with `preempt_served` and `preempt_pending` of `v` cleared, the
current frame copied into `preempt_tf` when `notif_disabled` of `v` is true
and into `notif_tf` otherwise (the other slot as it was), `VC_PREEMPTED` set
and `VC_K_LOCK` clear in the flags of `v`, `v` and its pcore unmapped,
`owning_proc` of the core cleared and one reference of `p` dropped;
`num_vcores`, the state and the three vcore lists are as before.  When the
process named by the message is not the owning process of the pcore, the
handler panics. -/
theorem preempt_handler_contract (s : Sys) (c : Nat) :
    ((s.per_cpu_info c).owning_proc = some s.pid →
      (s.per_cpu_info c).cur_tf = .actual_tf → (s.pcoremap c).valid = true →
      (s.refcnt = 1 → s.in_pid_hash = true) →
      ∃ s1, __preempt s c (some s.pid) = .ok s1 ∧
        (s1.vcoremap (s.pcoremap c).vcoreid).preempt_served = false ∧
        (s1.vcoremap (s.pcoremap c).vcoreid).preempt_pending = 0 ∧
        (s1.vcoremap (s.pcoremap c).vcoreid).valid = false ∧
        ((s.vcore_preempt_data (s.pcoremap c).vcoreid).notif_disabled = true →
          (s1.vcore_preempt_data (s.pcoremap c).vcoreid).preempt_tf =
            (s.per_cpu_info c).actual_tf ∧
          (s1.vcore_preempt_data (s.pcoremap c).vcoreid).notif_tf =
            (s.vcore_preempt_data (s.pcoremap c).vcoreid).notif_tf) ∧
        ((s.vcore_preempt_data (s.pcoremap c).vcoreid).notif_disabled = false →
          (s1.vcore_preempt_data (s.pcoremap c).vcoreid).notif_tf =
            (s.per_cpu_info c).actual_tf ∧
          (s1.vcore_preempt_data (s.pcoremap c).vcoreid).preempt_tf =
            (s.vcore_preempt_data (s.pcoremap c).vcoreid).preempt_tf) ∧
        (s1.vcore_preempt_data (s.pcoremap c).vcoreid).flags &&& VC_PREEMPTED = VC_PREEMPTED ∧
        (s1.vcore_preempt_data (s.pcoremap c).vcoreid).flags &&& VC_K_LOCK = 0 ∧
        (s1.pcoremap (s.vcoremap (s.pcoremap c).vcoreid).pcoreid).valid = false ∧
        ((s.vcoremap (s.pcoremap c).vcoreid).pcoreid = c → (s1.pcoremap c).valid = false) ∧
        (s1.per_cpu_info c).owning_proc = none ∧
        s1.refcnt = s.refcnt - 1 ∧
        s1.num_vcores = s.num_vcores ∧ s1.state = s.state ∧
        s1.online_vcs = s.online_vcs ∧ s1.bulk_preempted_vcs = s.bulk_preempted_vcs ∧
        s1.inactive_vcs = s.inactive_vcs ∧
        (∀ u, u ≠ (s.pcoremap c).vcoreid → s1.vcoremap u = s.vcoremap u)) ∧
    (∀ q, some q ≠ (s.per_cpu_info c).owning_proc →
      __preempt s c (some q) = fault .panic s) := by
  constructor
  · intro ho htf hp href
    obtain ⟨f1, f2, f3, _, f5, f6, f7, f8, f9, f10, f11⟩ := preempt_handler_result_fields s c
    obtain ⟨b1, b2⟩ := flags_preempted (s.vcore_preempt_data (s.pcoremap c).vcoreid).flags
    refine ⟨preempt_handler_result s c, preempt_handler_eq s c ho htf hp href,
      ?_, ?_, ?_, ?_, ?_, ?_, ?_, ?_, ?_, ?_, f6, f8, f7, f9, f10, f11, ?_⟩
    · rw [f1]; simp [upd]
    · rw [f1]; simp [upd]
    · rw [f1]; simp [upd]
    · intro hd; rw [f3]; simp [hd]
    · intro hd; rw [f3]; simp [hd]
    · rw [f3]
      by_cases hd : (s.vcore_preempt_data (s.pcoremap c).vcoreid).notif_disabled = true
      · simp only [hd, if_true]; exact b1
      · simp only [hd]; exact b1
    · rw [f3]
      by_cases hd : (s.vcore_preempt_data (s.pcoremap c).vcoreid).notif_disabled = true
      · simp only [hd, if_true]; exact b2
      · simp only [hd]; exact b2
    · rw [f2]; simp [upd]
    · intro hc; rw [f2, hc]; simp [upd]
    · rw [f5]; simp [upd]
    · intro u hu; rw [f1]; simp [upd, hu]
  · intro q hq
    unfold __preempt
    simp only []
    rw [if_neg (by simp), if_pos hq]

theorem preempt_handler_contract_witness :
    (∃ s1, __preempt on_core_proc 5 (some 1) = .ok s1 ∧
      (s1.vcoremap 2).valid = false ∧ (s1.pcoremap 5).valid = false ∧
      (s1.vcore_preempt_data 2).preempt_tf = .raw 7 ∧
      (s1.vcore_preempt_data 2).flags &&& VC_PREEMPTED = VC_PREEMPTED ∧
      (s1.vcore_preempt_data 2).flags &&& VC_K_LOCK = 0 ∧
      (s1.per_cpu_info 5).owning_proc = none ∧ s1.refcnt = 3 ∧
      s1.num_vcores = 1 ∧ s1.online_vcs = [2]) ∧
    __preempt on_core_proc 7 (some 1) = fault .panic on_core_proc := by
  obtain ⟨s1, h, _, _, hv, htf, _, hf1, hf2, _, hp, ho, hr, hn, _, hon, _, _, _⟩ :=
    (preempt_handler_contract on_core_proc 5).1 rfl rfl rfl (by decide)
  refine ⟨⟨s1, h, hv, hp rfl, (htf rfl).1, hf1, hf2, ho, ?_, ?_, ?_⟩,
    (preempt_handler_contract on_core_proc 7).2 1 (by decide)⟩
  · rw [hr]; rfl
  · rw [hn]; rfl
  · rw [hon]; rfl

theorem set_curtf_eq (s : Sys) (c v : Nat)
    (hts : (s.vcore_preempt_data v).notif_disabled = false →
      (s.vcore_preempt_data v).transition_stack ≠ 0) :
    __set_curtf_to_vcoreid s c v = .ok (set_curtf_result s c v) := by
  unfold __set_curtf_to_vcoreid set_curtf_result
  by_cases hd : (s.vcore_preempt_data v).notif_disabled = true
  · simp [hd, set_vcpd, set_pcpui]
  · have hd2 : (s.vcore_preempt_data v).notif_disabled = false := by simpa using hd
    simp [hd2, hts hd2, set_vcpd, set_pcpui]

theorem startcore_eq (s : Sys) (c : Nat)
    (ho : (s.per_cpu_info c).owning_proc = none)
    (hp : (s.pcoremap c).valid = true)
    (href : (s.per_cpu_info c).cur_proc ≠ none → s.refcnt ≠ 1)
    (hts : (s.vcore_preempt_data (s.pcoremap c).vcoreid).notif_disabled = false →
      (s.vcore_preempt_data (s.pcoremap c).vcoreid).transition_stack ≠ 0) :
    __startcore s c (some s.pid) =
      .ok (set_curtf_result (startcore_installed s c) c (s.pcoremap c).vcoreid) := by
  have hinst : ∀ x : Sys, x.pcoremap = s.pcoremap → x.vcore_preempt_data = s.vcore_preempt_data →
      x.pid = s.pid →
      (if s.pid ≠ x.pid then (.ok x : Res)
       else match get_vcoreid x c with
        | .error e => .error e
        | .ok vcoreid => __set_curtf_to_vcoreid x c vcoreid) =
      .ok (set_curtf_result x c (s.pcoremap c).vcoreid) := by
    intro x h1 h2 h3
    rw [if_neg (by rw [h3]; simp)]
    have hg : get_vcoreid x c = .ok (s.pcoremap c).vcoreid := by
      unfold get_vcoreid is_mapped_vcore
      rw [h1, if_pos hp]
    rw [hg]
    exact set_curtf_eq x c _ (by rw [h2]; exact hts)
  unfold __startcore
  simp only []
  rw [if_neg (by rw [ho]; simp)]
  by_cases hc : (s.per_cpu_info c).cur_proc = none
  · have h1 : startcore_installed s c = set_pcpui
        (set_pcpui s c { s.per_cpu_info c with owning_proc := some s.pid }) c
        { (set_pcpui s c { s.per_cpu_info c with owning_proc := some s.pid }).per_cpu_info c
          with cur_proc := some s.pid } := by
      unfold startcore_installed
      simp [hc]
    rw [h1, if_pos (by simp [set_pcpui, upd, hc])]
    simp only []
    refine hinst _ ?_ ?_ ?_ <;> rfl
  · have h1 : startcore_installed s c =
        { set_pcpui s c { s.per_cpu_info c with owning_proc := some s.pid } with
          refcnt := s.refcnt - 1 } := by
      unfold startcore_installed
      simp [hc, set_pcpui]
    rw [h1, if_neg (by simpa [set_pcpui, upd] using hc)]
    have hd : proc_decref (set_pcpui s c { s.per_cpu_info c with owning_proc := some s.pid })
        s.pid = .ok { set_pcpui s c { s.per_cpu_info c with owning_proc := some s.pid } with
          refcnt := s.refcnt - 1 } :=
      proc_decref_self_live
        (set_pcpui s c { s.per_cpu_info c with owning_proc := some s.pid }) (href hc)
    simp only [] at hd
    rw [hd]
    exact hinst { set_pcpui s c { s.per_cpu_info c with owning_proc := some s.pid } with
      refcnt := s.refcnt - 1 } rfl rfl rfl

theorem flags_not_preempted (f : Nat) : clear_bits f VC_PREEMPTED &&& VC_PREEMPTED = 0 := by
  unfold clear_bits VC_PREEMPTED
  rw [Nat.and_assoc]
  have h : (0xFFFFFFFF ^^^ 2) &&& 2 = 0 := by decide
  rw [h, Nat.and_zero]

theorem set_curtf_result_fields (s : Sys) (c v : Nat) :
    ((set_curtf_result s c v).vcore_preempt_data v).notif_disabled = true ∧
    ((set_curtf_result s c v).vcore_preempt_data v).can_rcv_msg = true ∧
    ((set_curtf_result s c v).vcore_preempt_data v).flags =
      clear_bits (s.vcore_preempt_data v).flags VC_PREEMPTED ∧
    ((set_curtf_result s c v).per_cpu_info c).cur_tf = .actual_tf ∧
    ((set_curtf_result s c v).per_cpu_info c).actual_tf =
      (if (s.vcore_preempt_data v).notif_disabled then .secured (s.vcore_preempt_data v).preempt_tf
       else .init v s.env_entry (s.vcore_preempt_data v).transition_stack) ∧
    ((set_curtf_result s c v).per_cpu_info c).owning_proc = (s.per_cpu_info c).owning_proc ∧
    ((set_curtf_result s c v).per_cpu_info c).cur_proc = (s.per_cpu_info c).cur_proc ∧
    (set_curtf_result s c v).refcnt = s.refcnt ∧
    (∀ u, u ≠ v → (set_curtf_result s c v).vcore_preempt_data u = s.vcore_preempt_data u) ∧
    (∀ d, d ≠ c → (set_curtf_result s c v).per_cpu_info d = s.per_cpu_info d) := by
  unfold set_curtf_result
  by_cases hd : (s.vcore_preempt_data v).notif_disabled = true
  · simp only [hd, if_true]
    refine ⟨?_, ?_, ?_, ?_, ?_, ?_, ?_, ?_, ?_, ?_⟩ <;>
    simp +contextual [set_pcpui, set_vcpd, upd, hd]
  · have hd2 : (s.vcore_preempt_data v).notif_disabled = false := by simpa using hd
    simp only [hd2]
    refine ⟨?_, ?_, ?_, ?_, ?_, ?_, ?_, ?_, ?_, ?_⟩ <;>
    simp +contextual [set_pcpui, set_vcpd, upd]

/-- C23, as stated, fails: after `proc_alloc`, the move to `RUNNABLE_S`,
`proc_run_s` on core 3, `__proc_switch_to_m`, the grant of pcores 3 and 5 and
`__proc_run_m`, a `__startcore` message is pending for core 3, which has no
owning process and is mapped to vcore 0; the control block of vcore 0 has
`notif_disabled` false and no transition stack, and the handler stops at the
assertion on `transition_stack`. -/
theorem startcore_needs_transition_stack :
    ∃ s1 s2 s3 s4 s5 e, __proc_set_state fresh_proc PROC_RUNNABLE_S = .ok s1 ∧
      proc_run_s s1 3 = .ok s2 ∧ __proc_switch_to_m s2 3 = .ok s3 ∧
      __proc_give_cores 8 s3 [3, 5] = .ok s4 ∧ __proc_run_m s4 = .ok s5 ∧
      s5.kmsgs = [⟨3, .startcore, some 1, 0, 0, true⟩, ⟨5, .startcore, some 1, 0, 0, true⟩] ∧
      s5.pid = 1 ∧ (s5.per_cpu_info 3).owning_proc = none ∧ s5.pcoremap 3 = ⟨0, true⟩ ∧
      (s5.vcore_preempt_data 0).notif_disabled = false ∧
      (s5.vcore_preempt_data 0).transition_stack = 0 ∧
      __startcore { s5 with kmsgs := [⟨5, .startcore, some 1, 0, 0, true⟩] } 3 (some 1) =
        .error (.assertion, e) :=
  ⟨_, _, _, _, _, _, rfl, rfl, rfl, rfl, rfl, rfl, rfl, rfl, rfl, rfl, rfl, rfl⟩

theorem startcore_installed_fields (s : Sys) (c : Nat) :
    ((startcore_installed s c).per_cpu_info c).owning_proc = some s.pid ∧
    ((s.per_cpu_info c).cur_proc = none →
      ((startcore_installed s c).per_cpu_info c).cur_proc = some s.pid ∧
      (startcore_installed s c).refcnt = s.refcnt) ∧
    ((s.per_cpu_info c).cur_proc ≠ none →
      ((startcore_installed s c).per_cpu_info c).cur_proc = (s.per_cpu_info c).cur_proc ∧
      (startcore_installed s c).refcnt = s.refcnt - 1) ∧
    (startcore_installed s c).vcore_preempt_data = s.vcore_preempt_data ∧
    (startcore_installed s c).env_entry = s.env_entry := by
  unfold startcore_installed
  by_cases hc : (s.per_cpu_info c).cur_proc = none
  · simp [hc, set_pcpui, upd]
  · obtain ⟨q, hq⟩ := Option.ne_none_iff_exists'.mp hc
    simp [hq, set_pcpui, upd]

/-- C23, amended: the handler `__startcore`, run for `p` on a pcore with no
owning process that is mapped to vcore `v` of `p`, when `v` has a transition
stack or `notif_disabled` set, installs `p` as `owning_proc`; installs `p` as
`cur_proc` without changing the reference count if `cur_proc` was empty, and
otherwise leaves `cur_proc` unchanged and drops one reference of `p` (which is
not its last); and afterwards `notif_disabled` and `can_rcv_msg` of `v` are
true, `VC_PREEMPTED` is clear and `cur_tf` points at `actual_tf`, which is the
secured saved `preempt_tf` if `notif_disabled` was already true and a fresh
frame at `env_entry` on the transition stack if it was false. -/
theorem startcore_installs (s : Sys) (c : Nat)
    (ho : (s.per_cpu_info c).owning_proc = none)
    (hp : (s.pcoremap c).valid = true)
    (href : (s.per_cpu_info c).cur_proc ≠ none → s.refcnt ≠ 1)
    (hts : (s.vcore_preempt_data (s.pcoremap c).vcoreid).notif_disabled = false →
      (s.vcore_preempt_data (s.pcoremap c).vcoreid).transition_stack ≠ 0) :
    ∃ s1, __startcore s c (some s.pid) = .ok s1 ∧
      (s1.per_cpu_info c).owning_proc = some s.pid ∧
      ((s.per_cpu_info c).cur_proc = none →
        (s1.per_cpu_info c).cur_proc = some s.pid ∧ s1.refcnt = s.refcnt) ∧
      ((s.per_cpu_info c).cur_proc ≠ none →
        (s1.per_cpu_info c).cur_proc = (s.per_cpu_info c).cur_proc ∧
        s1.refcnt = s.refcnt - 1) ∧
      (s1.vcore_preempt_data (s.pcoremap c).vcoreid).notif_disabled = true ∧
      (s1.vcore_preempt_data (s.pcoremap c).vcoreid).can_rcv_msg = true ∧
      (s1.vcore_preempt_data (s.pcoremap c).vcoreid).flags &&& VC_PREEMPTED = 0 ∧
      (s1.per_cpu_info c).cur_tf = .actual_tf ∧
      ((s.vcore_preempt_data (s.pcoremap c).vcoreid).notif_disabled = true →
        (s1.per_cpu_info c).actual_tf =
          .secured (s.vcore_preempt_data (s.pcoremap c).vcoreid).preempt_tf) ∧
      ((s.vcore_preempt_data (s.pcoremap c).vcoreid).notif_disabled = false →
        (s1.per_cpu_info c).actual_tf = .init (s.pcoremap c).vcoreid s.env_entry
          (s.vcore_preempt_data (s.pcoremap c).vcoreid).transition_stack) := by
  obtain ⟨g1, g2, g3, g4, g5, g6, g7, g8, _, _⟩ :=
    set_curtf_result_fields (startcore_installed s c) c (s.pcoremap c).vcoreid
  obtain ⟨i1, i2, i3, i4, i5⟩ := startcore_installed_fields s c
  rw [i4] at g3 g5
  rw [i5] at g5
  refine ⟨_, startcore_eq s c ho hp href hts, ?_, ?_, ?_, g1, g2, ?_, g4, ?_, ?_⟩
  · rw [g6]; exact i1
  · intro hc; rw [g7, g8]; exact i2 hc
  · intro hc; rw [g7, g8]; exact i3 hc
  · rw [g3]; exact flags_not_preempted _
  · intro hd; rw [g5, if_pos hd]
  · intro hd; rw [g5, hd]; rfl

theorem startcore_installs_witness :
    ∃ s1, __startcore { on_core_proc with per_cpu_info := fun _ => PerCpuInfo.idle } 5
        (some 1) = .ok s1 ∧
      (s1.per_cpu_info 5).owning_proc = some 1 ∧ (s1.per_cpu_info 5).cur_proc = some 1 ∧
      s1.refcnt = 4 ∧ (s1.vcore_preempt_data 2).notif_disabled = true ∧
      (s1.vcore_preempt_data 2).can_rcv_msg = true ∧
      (s1.per_cpu_info 5).cur_tf = .actual_tf ∧
      (s1.per_cpu_info 5).actual_tf = .secured (.raw 0) := by
  obtain ⟨s1, h, h1, h2, _, h4, h5, _, h7, h8, _⟩ :=
    startcore_installs { on_core_proc with per_cpu_info := fun _ => PerCpuInfo.idle } 5
      rfl rfl (by decide) (by decide)
  exact ⟨s1, h, h1, (h2 rfl).1, (h2 rfl).2, h4, h5, h7, h8 rfl⟩

theorem notify_eq (s : Sys) (c : Nat)
    (ho : (s.per_cpu_info c).owning_proc = some s.pid)
    (htf : (s.per_cpu_info c).cur_tf = .actual_tf) (hp : (s.pcoremap c).valid = true) :
    __notify s c (some s.pid) =
      .ok (if (s.vcore_preempt_data (s.pcoremap c).vcoreid).notif_disabled then s
        else notify_result s c) := by
  have hg : get_vcoreid s c = .ok (s.pcoremap c).vcoreid := by
    unfold get_vcoreid is_mapped_vcore
    rw [if_pos hp]
  unfold __notify
  simp only []
  rw [if_neg (by rw [ho]; simp), if_neg (by rw [htf]; simp), if_neg (by rw [htf]; simp),
    if_neg (by simp), hg]
  simp only []
  by_cases hd : (s.vcore_preempt_data (s.pcoremap c).vcoreid).notif_disabled = true
  · rw [if_pos hd, if_pos hd]
  · rw [if_neg hd, if_neg hd]
    rfl

theorem notify_result_fields (s : Sys) (c : Nat) :
    ((notify_result s c).vcore_preempt_data (s.pcoremap c).vcoreid).notif_disabled = true ∧
    ((notify_result s c).vcore_preempt_data (s.pcoremap c).vcoreid).notif_pending = false ∧
    ((notify_result s c).vcore_preempt_data (s.pcoremap c).vcoreid).notif_tf =
      (s.per_cpu_info c).actual_tf ∧
    ((notify_result s c).per_cpu_info c).actual_tf =
      .init (s.pcoremap c).vcoreid s.env_entry
        (s.vcore_preempt_data (s.pcoremap c).vcoreid).transition_stack ∧
    ((notify_result s c).per_cpu_info c).cur_tf = (s.per_cpu_info c).cur_tf ∧
    ((notify_result s c).per_cpu_info c).owning_proc = (s.per_cpu_info c).owning_proc ∧
    (notify_result s c).pcoremap = s.pcoremap ∧ (notify_result s c).pid = s.pid ∧
    (∀ u, u ≠ (s.pcoremap c).vcoreid →
      (notify_result s c).vcore_preempt_data u = s.vcore_preempt_data u) ∧
    (∀ d, d ≠ c → (notify_result s c).per_cpu_info d = s.per_cpu_info d) := by
  unfold notify_result
  refine ⟨?_, ?_, ?_, ?_, ?_, ?_, ?_, ?_, ?_, ?_⟩ <;>
  simp +contextual [set_pcpui, set_vcpd, upd]

theorem notify_twice {s s1 : Sys} {c : Nat} {a0 : Option Nat} (h : __notify s c a0 = .ok s1) :
    __notify s1 c a0 = .ok s1 := by
  by_cases h1 : a0 ≠ (s.per_cpu_info c).owning_proc
  · have hs : s1 = s := by
      unfold __notify at h
      simp only [] at h
      rw [if_pos h1] at h
      cases h
      rfl
    rw [hs]
    unfold __notify
    simp only []
    rw [if_pos h1]
  · have ho : a0 = (s.per_cpu_info c).owning_proc := not_not.mp h1
    by_cases h2 : (s.per_cpu_info c).cur_tf = .actual_tf
    · by_cases h3 : a0 ≠ some s.pid
      · have hs : s1 = s := by
          unfold __notify at h
          simp only [] at h
          rw [if_neg h1, if_neg (by rw [h2]; simp), if_neg (by rw [h2]; simp), if_pos h3] at h
          cases h
          rfl
        rw [hs]
        unfold __notify
        simp only []
        rw [if_neg h1, if_neg (by rw [h2]; simp), if_neg (by rw [h2]; simp), if_pos h3]
      · have ha : a0 = some s.pid := not_not.mp h3
        subst ha
        by_cases hp : (s.pcoremap c).valid = true
        · rw [notify_eq s c ho.symm h2 hp] at h
          by_cases hd : (s.vcore_preempt_data (s.pcoremap c).vcoreid).notif_disabled = true
          · rw [if_pos hd] at h
            cases h
            rw [notify_eq s c ho.symm h2 hp, if_pos hd]
          · rw [if_neg hd] at h
            cases h
            obtain ⟨f1, _, _, _, f5, f6, f7, f8, _, _⟩ := notify_result_fields s c
            have e := notify_eq (notify_result s c) c (by rw [f6, f8]; exact ho.symm)
              (by rw [f5]; exact h2) (by rw [f7]; exact hp)
            rw [f7, if_pos f1, f8] at e
            exact e
        · exfalso
          unfold __notify at h
          simp only [] at h
          rw [if_neg h1, if_neg (by rw [h2]; simp), if_neg (by rw [h2]; simp), if_neg h3] at h
          unfold get_vcoreid is_mapped_vcore at h
          rw [if_neg hp] at h
          cases h
    · exfalso
      unfold __notify at h
      simp only [] at h
      rw [if_neg h1] at h
      by_cases h4 : (s.per_cpu_info c).cur_tf = .null
      · rw [if_pos h4] at h; cases h
      · rw [if_neg h4, if_pos h2] at h; cases h

/-- C24: the handler `__notify` returns with the state unchanged when the
process of the message is not the owning process of the pcore, or when `p` owns
the pcore and `notif_disabled` of its vcore is true; when `p` owns the mapped
pcore and `notif_disabled` is false, it sets `notif_disabled`, clears
`notif_pending`, stores the current frame in `notif_tf` and replaces the
current frame by a fresh frame at `env_entry` on the transition stack,
touching nothing else.  A second `__notify` run on the state the first one
returned in returns that state: notify twice is notify once. -/
theorem notify_contract (s : Sys) (c : Nat) :
    (∀ a0, a0 ≠ (s.per_cpu_info c).owning_proc → __notify s c a0 = .ok s) ∧
    ((s.per_cpu_info c).owning_proc = some s.pid → (s.per_cpu_info c).cur_tf = .actual_tf →
      (s.pcoremap c).valid = true →
      ((s.vcore_preempt_data (s.pcoremap c).vcoreid).notif_disabled = true →
        __notify s c (some s.pid) = .ok s) ∧
      ((s.vcore_preempt_data (s.pcoremap c).vcoreid).notif_disabled = false →
        ∃ s1, __notify s c (some s.pid) = .ok s1 ∧
          s1 = { s with
            vcore_preempt_data := upd s.vcore_preempt_data (s.pcoremap c).vcoreid
              { s.vcore_preempt_data (s.pcoremap c).vcoreid with
                notif_disabled := true, notif_pending := false,
                notif_tf := (s.per_cpu_info c).actual_tf }
            per_cpu_info := upd s.per_cpu_info c
              { s.per_cpu_info c with
                actual_tf := .init (s.pcoremap c).vcoreid s.env_entry
                  (s.vcore_preempt_data (s.pcoremap c).vcoreid).transition_stack } } ∧
          __notify s1 c (some s.pid) = .ok s1)) ∧
    (∀ a0 s1, __notify s c a0 = .ok s1 → __notify s1 c a0 = .ok s1) := by
  refine ⟨?_, ?_, fun a0 s1 h => notify_twice h⟩
  · intro a0 h
    unfold __notify
    simp only []
    rw [if_pos h]
  · intro ho htf hp
    have e := notify_eq s c ho htf hp
    constructor
    · intro hd
      rw [e, if_pos hd]
    · intro hd
      rw [hd] at e
      exact ⟨notify_result s c, e, rfl, notify_twice e⟩

theorem notify_contract_witness :
    ∃ s1, __notify { on_core_proc with vcore_preempt_data := fun _ =>
          { PreemptData.zero with transition_stack := 64, notif_pending := true } } 5 (some 1) =
        .ok s1 ∧
      (s1.vcore_preempt_data 2).notif_disabled = true ∧
      (s1.vcore_preempt_data 2).notif_pending = false ∧
      (s1.vcore_preempt_data 2).notif_tf = .raw 7 ∧
      (s1.per_cpu_info 5).actual_tf = .init 2 0 64 ∧
      __notify s1 5 (some 1) = .ok s1 ∧
      __notify on_core_proc 5 (some 1) = .ok on_core_proc ∧
      __notify on_core_proc 5 (some 9) = .ok on_core_proc := by
  obtain ⟨s1, h, he, h2⟩ :=
    ((notify_contract { on_core_proc with vcore_preempt_data := fun _ =>
      { PreemptData.zero with transition_stack := 64, notif_pending := true } } 5).2.1
      rfl rfl rfl).2 rfl
  refine ⟨s1, h, ?_, ?_, ?_, ?_, h2,
    ((notify_contract on_core_proc 5).2.1 rfl rfl rfl).1 rfl,
    (notify_contract on_core_proc 5).1 (some 9) (by decide)⟩ <;>
  (rw [he]; rfl)

theorem set_state_s_to_runnable_m (s : Sys) (hst : s.state = PROC_RUNNING_S) :
    __proc_set_state s PROC_RUNNABLE_M = .ok { s with state := PROC_RUNNABLE_M } := by
  unfold __proc_set_state
  simp [hst, PROC_RUNNABLE_M, PROC_RUNNING_M, PROC_CREATED, PROC_RUNNABLE_S, PROC_RUNNING_S,
    PROC_WAITING, PROC_DYING]

theorem switch_to_m_eq (s : Sys) (c : Nat) (tf : TrapFrame) (hst : s.state = PROC_RUNNING_S)
    (hc : (s.per_cpu_info c).cur_proc = some s.pid)
    (ho : (s.per_cpu_info c).owning_proc = some s.pid)
    (hv : (s.vcoremap 0).valid = true) (hvp : (s.vcoremap 0).pcoreid = c)
    (htf : read_cur_tf s c = .ok tf)
    (href : s.refcnt = 1 → s.in_pid_hash = true) :
    __proc_switch_to_m s c = .ok (switch_to_m_result s c tf) := by
  have hnn : (s.per_cpu_info c).cur_tf ≠ .null := by
    intro h
    unfold read_cur_tf at htf
    rw [h] at htf
    cases htf
  have hg : get_pcoreid s 0 = .ok c := by
    unfold get_pcoreid vcore_is_mapped try_get_pcoreid
    rw [if_pos hv, hvp]
  unfold __proc_switch_to_m
  rw [if_pos hst, if_neg (not_not.mpr hc), hg]
  simp only []
  rw [if_neg (by simp), if_neg hnn, htf]
  simp only []
  rw [clear_owning_proc_self_eq]
  · simp only []
    rw [set_state_s_to_runnable_m]
    · rfl
    · simp only [__seq_end_write, __unmap_vcore, __seq_start_write]
      split <;> simp [set_vcpd, (decref_result_fields _).1, set_pcpui, hst]
  · exact ho
  · exact href

theorem switch_to_m_tail_fields (x : Sys) (c : Nat) :
    ((switch_to_m_tail x c).vcore_preempt_data 0).notif_tf = (x.vcore_preempt_data 0).notif_tf ∧
    ((switch_to_m_tail x c).vcore_preempt_data 0).notif_disabled = false ∧
    ((switch_to_m_tail x c).vcore_preempt_data 0).preempt_anc = (x.per_cpu_info c).fpu ∧
    ((switch_to_m_tail x c).vcoremap 0).valid = false ∧
    ((switch_to_m_tail x c).pcoremap (x.vcoremap 0).pcoreid).valid = false ∧
    (switch_to_m_tail x c).state = PROC_RUNNABLE_M ∧
    (switch_to_m_tail x c).is_mcp = true ∧
    (switch_to_m_tail x c).per_cpu_info = x.per_cpu_info ∧
    (switch_to_m_tail x c).refcnt = x.refcnt ∧
    (switch_to_m_tail x c).num_vcores = x.num_vcores ∧
    (switch_to_m_tail x c).online_vcs = x.online_vcs ∧
    (switch_to_m_tail x c).bulk_preempted_vcs = x.bulk_preempted_vcs ∧
    (switch_to_m_tail x c).inactive_vcs = x.inactive_vcs := by
  unfold switch_to_m_tail
  by_cases hd : (x.vcore_preempt_data 0).notif_disabled = true
  · refine ⟨?_, ?_, ?_, ?_, ?_, ?_, ?_, ?_, ?_, ?_, ?_, ?_, ?_⟩ <;>
    simp [__seq_end_write, __unmap_vcore, __seq_start_write, set_vcpd, upd, hd]
  · have hd2 : (x.vcore_preempt_data 0).notif_disabled = false := by simpa using hd
    refine ⟨?_, ?_, ?_, ?_, ?_, ?_, ?_, ?_, ?_, ?_, ?_, ?_, ?_⟩ <;>
    simp [__seq_end_write, __unmap_vcore, __seq_start_write, set_vcpd, upd, hd2]

theorem switch_to_m_result_fields (s : Sys) (c : Nat) (tf : TrapFrame) :
    ((switch_to_m_result s c tf).vcore_preempt_data 0).notif_tf = tf ∧
    ((switch_to_m_result s c tf).vcore_preempt_data 0).notif_disabled = false ∧
    ((switch_to_m_result s c tf).vcore_preempt_data 0).preempt_anc = (s.per_cpu_info c).fpu ∧
    ((switch_to_m_result s c tf).vcoremap 0).valid = false ∧
    ((switch_to_m_result s c tf).pcoremap (s.vcoremap 0).pcoreid).valid = false ∧
    (switch_to_m_result s c tf).state = PROC_RUNNABLE_M ∧
    (switch_to_m_result s c tf).is_mcp = true ∧
    ((switch_to_m_result s c tf).per_cpu_info c).owning_proc = none ∧
    ((switch_to_m_result s c tf).per_cpu_info c).cur_proc = (s.per_cpu_info c).cur_proc ∧
    (switch_to_m_result s c tf).refcnt = s.refcnt - 1 ∧
    (switch_to_m_result s c tf).num_vcores = s.num_vcores ∧
    (switch_to_m_result s c tf).online_vcs = s.online_vcs ∧
    (switch_to_m_result s c tf).bulk_preempted_vcs = s.bulk_preempted_vcs ∧
    (switch_to_m_result s c tf).inactive_vcs = s.inactive_vcs := by
  have he : switch_to_m_result s c tf = switch_to_m_tail (decref_result
      (set_pcpui (set_vcpd s 0 { s.vcore_preempt_data 0 with notif_tf := tf }) c
        { (set_vcpd s 0 { s.vcore_preempt_data 0 with notif_tf := tf }).per_cpu_info c with
          owning_proc := none, cur_tf := .null })) c := rfl
  obtain ⟨g1, g2, g3, g4, g5, g6, g7, g8, _, _, _⟩ := decref_result_frame
    (set_pcpui (set_vcpd s 0 { s.vcore_preempt_data 0 with notif_tf := tf }) c
      { (set_vcpd s 0 { s.vcore_preempt_data 0 with notif_tf := tf }).per_cpu_info c with
        owning_proc := none, cur_tf := .null })
  obtain ⟨_, g10⟩ := decref_result_fields
    (set_pcpui (set_vcpd s 0 { s.vcore_preempt_data 0 with notif_tf := tf }) c
      { (set_vcpd s 0 { s.vcore_preempt_data 0 with notif_tf := tf }).per_cpu_info c with
        owning_proc := none, cur_tf := .null })
  obtain ⟨t1, t2, t3, t4, t5, t6, t7, t8, t9, t10, t11, t12, t13⟩ := switch_to_m_tail_fields
    (decref_result
      (set_pcpui (set_vcpd s 0 { s.vcore_preempt_data 0 with notif_tf := tf }) c
        { (set_vcpd s 0 { s.vcore_preempt_data 0 with notif_tf := tf }).per_cpu_info c with
          owning_proc := none, cur_tf := .null })) c
  rw [he]
  rw [g3] at t1
  rw [g4] at t3
  rw [g1] at t5
  rw [g4] at t8
  rw [g10] at t9
  rw [g5] at t10
  rw [g6] at t11
  rw [g7] at t12
  rw [g8] at t13
  refine ⟨?_, t2, ?_, t4, t5, t6, t7, ?_, ?_, ?_, t10, t11, t12, t13⟩
  · rw [t1]; simp [set_pcpui, set_vcpd, upd]
  · rw [t3]; simp [set_pcpui, set_vcpd, upd]
  · rw [t8]; simp [set_pcpui, set_vcpd, upd]
  · rw [t8]; simp [set_pcpui, set_vcpd, upd]
  · rw [t9]; simp [set_pcpui, set_vcpd]

/-- C25: for a `RUNNING_S` process `p` that is current on (and owns) the calling
core, with vcore 0 mapped to that core, `__proc_switch_to_m` returns with the
current user frame stored in `notif_tf` of vcore 0, vcore 0 and the core
unmapped, the state `RUNNABLE_M`, `is_mcp` true, `notif_disabled` of vcore 0
false and `owning_proc` of the core cleared (the reference of the core
dropped); the lists and `num_vcores` are as before.  On a process in a state
other than `RUNNING_S` and `RUNNABLE_S` it returns with nothing changed. -/
theorem switch_to_m_contract (s : Sys) (c : Nat) :
    (∀ tf, s.state = PROC_RUNNING_S → (s.per_cpu_info c).cur_proc = some s.pid →
      (s.per_cpu_info c).owning_proc = some s.pid →
      (s.vcoremap 0).valid = true → (s.vcoremap 0).pcoreid = c →
      read_cur_tf s c = .ok tf → (s.refcnt = 1 → s.in_pid_hash = true) →
      ∃ s1, __proc_switch_to_m s c = .ok s1 ∧
        (s1.vcore_preempt_data 0).notif_tf = tf ∧
        (s1.vcoremap 0).valid = false ∧ (s1.pcoremap c).valid = false ∧
        s1.state = PROC_RUNNABLE_M ∧ s1.is_mcp = true ∧
        (s1.vcore_preempt_data 0).notif_disabled = false ∧
        (s1.vcore_preempt_data 0).preempt_anc = (s.per_cpu_info c).fpu ∧
        (s1.per_cpu_info c).owning_proc = none ∧
        (s1.per_cpu_info c).cur_proc = some s.pid ∧
        s1.refcnt = s.refcnt - 1 ∧ s1.num_vcores = s.num_vcores ∧
        s1.online_vcs = s.online_vcs ∧ s1.bulk_preempted_vcs = s.bulk_preempted_vcs ∧
        s1.inactive_vcs = s.inactive_vcs) ∧
    (s.state ≠ PROC_RUNNING_S → s.state ≠ PROC_RUNNABLE_S → __proc_switch_to_m s c = .ok s) := by
  constructor
  · intro tf hst hc ho hv hvp htf href
    obtain ⟨f1, f2, f3, f4, f5, f6, f7, f8, f9, f10, f11, f12, f13, f14⟩ :=
      switch_to_m_result_fields s c tf
    rw [hvp] at f5
    rw [hc] at f9
    exact ⟨_, switch_to_m_eq s c tf hst hc ho hv hvp htf href,
      f1, f4, f5, f6, f7, f2, f3, f8, f9, f10, f11, f12, f13, f14⟩
  · intro h1 h2
    unfold __proc_switch_to_m
    rw [if_neg h1, if_neg h2]

theorem switch_to_m_contract_witness :
    (∃ s1, __proc_switch_to_m (run_s_result runnable_s_proc 3) 3 = .ok s1 ∧
      (s1.vcore_preempt_data 0).notif_tf = .raw 0 ∧
      (s1.vcoremap 0).valid = false ∧ (s1.pcoremap 3).valid = false ∧
      s1.state = PROC_RUNNABLE_M ∧ s1.is_mcp = true ∧
      (s1.vcore_preempt_data 0).notif_disabled = false ∧
      (s1.per_cpu_info 3).owning_proc = none ∧ s1.refcnt = 3) ∧
    __proc_switch_to_m two_running_proc 9 = .ok two_running_proc := by
  obtain ⟨s1, h, h1, h2, h3, h4, h5, h6, _, h8, _, h10, _⟩ :=
    (switch_to_m_contract (run_s_result runnable_s_proc 3) 3).1 (.raw 0) rfl rfl rfl rfl rfl rfl
      (by decide)
  refine ⟨⟨s1, h, h1, h2, h3, h4, h5, h6, h8, ?_⟩,
    (switch_to_m_contract two_running_proc 9).2 (by decide) (by decide)⟩
  rw [h10]; rfl

/-- C26, as stated, fails: `__proc_switch_to_m` on a freshly allocated process
made `RUNNABLE_S` does not return; the kernel panics. -/
theorem switch_to_m_runnable_s_panics :
    ∃ s1, __proc_set_state fresh_proc PROC_RUNNABLE_S = .ok s1 ∧ s1.state = PROC_RUNNABLE_S ∧
      __proc_switch_to_m s1 3 = .error (.panic, s1) ∧
      ∀ s2, __proc_switch_to_m s1 3 ≠ .ok s2 :=
  ⟨_, rfl, rfl, rfl, by intro s2 h; cases h⟩

/-- C26, amended: `__proc_switch_to_m` on a process whose state is `RUNNABLE_S`
is fatal: the kernel panics, on every core, with the state of the process as it
was. -/
theorem switch_to_m_runnable_s_fatal (s : Sys) (c : Nat) (hst : s.state = PROC_RUNNABLE_S) :
    __proc_switch_to_m s c = .error (.panic, s) := by
  unfold __proc_switch_to_m
  rw [if_neg (by rw [hst]; decide), if_pos hst]
  rfl

theorem switch_to_m_runnable_s_fatal_witness :
    __proc_switch_to_m runnable_s_proc 0 = .error (.panic, runnable_s_proc) :=
  switch_to_m_runnable_s_fatal runnable_s_proc 0 rfl

theorem range_take_two (n : Nat) (hn : 2 ≤ n) : (List.range n).take 2 = [0, 1] := by
  obtain ⟨k, rfl⟩ : ∃ k, n = k + 2 := ⟨n - 2, by omega⟩
  simp [List.range_succ_eq_map]

theorem give_run_two (M n a b : Nat) (s3 : Sys) (hab : a ≠ b) (hn : 2 ≤ n)
    (F1 : s3.state = PROC_RUNNABLE_M) (F2 : s3.bulk_preempted_vcs = [])
    (F3 : s3.inactive_vcs = List.range n) (F4 : s3.online_vcs = [])
    (F5 : s3.num_vcores = 0) (F6 : ∀ v, (s3.vcoremap v).valid = false)
    (F7 : s3.kmsgs = []) (hM : 2 ≤ M) (hM2 : M < U32_MOD) :
    ∃ s4 s5, __proc_give_cores M s3 [a, b] = .ok s4 ∧ __proc_run_m s4 = .ok s5 ∧
      s5.state = PROC_RUNNING_M ∧ s5.num_vcores = 2 ∧ s5.online_vcs = [0, 1] ∧
      (s5.vcoremap 0).valid = true ∧ (s5.vcoremap 0).pcoreid = a ∧
      (s5.vcoremap 1).valid = true ∧ (s5.vcoremap 1).pcoreid = b ∧
      s5.pcoremap a = ⟨0, true⟩ ∧ s5.pcoremap b = ⟨1, true⟩ ∧
      s5.kmsgs = [⟨a, .startcore, some s3.pid, 0, 0, true⟩,
        ⟨b, .startcore, some s3.pid, 0, 0, true⟩] := by
  have hnext : next_vcs s3 2 = [0, 1] := by
    simp [next_vcs, F2, F3, range_take_two n hn]
  have h4 := give_cores_runnable_eq M s3 [a, b] F1 (by simp)
    (by simp [F2, F3]; omega) (by simp only [List.length]; rw [hnext]; decide)
    (by intro v _; exact F6 v) (by simp [F5]; omega) hM2
  have hst4 : ({ give_runnable_result s3 [a, b] with
      amt_granted := sz_add (give_runnable_result s3 [a, b]).amt_granted
        [a, b].length } : Sys).state = PROC_RUNNABLE_M := F1
  have h5 := run_m_eq _ hst4 (by simp [give_runnable_result, F5, u32_add, U32_MOD])
  refine ⟨_, _, h4, h5, ?_, ?_, ?_, ?_, ?_, ?_, ?_, ?_, ?_, ?_⟩ <;>
  simp [run_m_result, give_runnable_result, hnext, F2, F3, F4, F5, F7, vcoremap_after,
    pcoremap_after, upd, pcs_of, startcore_msg, u32_add, U32_MOD, hab, hab.symm]

theorem switch_to_m_tail_maps (x : Sys) (c : Nat) :
    (∀ u, ((switch_to_m_tail x c).vcoremap u).valid =
      if u = 0 then false else (x.vcoremap u).valid) ∧
    (switch_to_m_tail x c).kmsgs = x.kmsgs ∧ (switch_to_m_tail x c).pid = x.pid := by
  unfold switch_to_m_tail
  by_cases hd : (x.vcore_preempt_data 0).notif_disabled = true
  · refine ⟨?_, ?_, ?_⟩
    · intro u
      by_cases hu : u = 0 <;>
      simp [__seq_end_write, __unmap_vcore, __seq_start_write, set_vcpd, upd, hd, hu]
    · simp [__seq_end_write, __unmap_vcore, __seq_start_write, set_vcpd, upd, hd]
    · simp [__seq_end_write, __unmap_vcore, __seq_start_write, set_vcpd, upd, hd]
  · have hd2 : (x.vcore_preempt_data 0).notif_disabled = false := by simpa using hd
    refine ⟨?_, ?_, ?_⟩
    · intro u
      by_cases hu : u = 0 <;>
      simp [__seq_end_write, __unmap_vcore, __seq_start_write, set_vcpd, upd, hd2, hu]
    · simp [__seq_end_write, __unmap_vcore, __seq_start_write, set_vcpd, upd, hd2]
    · simp [__seq_end_write, __unmap_vcore, __seq_start_write, set_vcpd, upd, hd2]

theorem decref_result_pid (x : Sys) : (decref_result x).pid = x.pid := by
  unfold decref_result
  split <;> rfl

theorem switch_to_m_result_maps (s : Sys) (c : Nat) (tf : TrapFrame) :
    (∀ u, ((switch_to_m_result s c tf).vcoremap u).valid =
      if u = 0 then false else (s.vcoremap u).valid) ∧
    (switch_to_m_result s c tf).kmsgs = s.kmsgs ∧ (switch_to_m_result s c tf).pid = s.pid := by
  have he : switch_to_m_result s c tf = switch_to_m_tail (decref_result
      (set_pcpui (set_vcpd s 0 { s.vcore_preempt_data 0 with notif_tf := tf }) c
        { (set_vcpd s 0 { s.vcore_preempt_data 0 with notif_tf := tf }).per_cpu_info c with
          owning_proc := none, cur_tf := .null })) c := rfl
  obtain ⟨g1, _, _, _, _, _, _, _, _, g10, _⟩ := decref_result_frame
    (set_pcpui (set_vcpd s 0 { s.vcore_preempt_data 0 with notif_tf := tf }) c
      { (set_vcpd s 0 { s.vcore_preempt_data 0 with notif_tf := tf }).per_cpu_info c with
        owning_proc := none, cur_tf := .null })
  have g11 := decref_result_pid
    (set_pcpui (set_vcpd s 0 { s.vcore_preempt_data 0 with notif_tf := tf }) c
      { (set_vcpd s 0 { s.vcore_preempt_data 0 with notif_tf := tf }).per_cpu_info c with
        owning_proc := none, cur_tf := .null })
  obtain ⟨t1, t2, t3⟩ := switch_to_m_tail_maps
    (decref_result
      (set_pcpui (set_vcpd s 0 { s.vcore_preempt_data 0 with notif_tf := tf }) c
        { (set_vcpd s 0 { s.vcore_preempt_data 0 with notif_tf := tf }).per_cpu_info c with
          owning_proc := none, cur_tf := .null })) c
  rw [he]
  rw [g1] at t1
  rw [g10] at t2
  rw [g11] at t3
  exact ⟨t1, t2, t3⟩

/-- C27: from a freshly allocated process of a machine with at least two cores,
made `RUNNABLE_S` and dispatched with `proc_run_s` on pcore `a`, the sequence
`__proc_switch_to_m`, `__proc_give_cores(p, [a, b], 2)` with `a != b` and
`__proc_run_m` runs to completion and ends with the state `RUNNING_M`,
`num_vcores == 2`, the online list `[0, 1]`, vcore 0 mapped to `a` and vcore 1
to `b` in both maps, and exactly two messages sent, immediate `__startcore`
messages for `p`, one to `a` and then one to `b`. -/
theorem s_to_m_scenario (pcpu : Nat → PerCpuInfo) (others : Nat → Int)
    (pid ppid n a b M : Nat) (hn : 2 ≤ n) (hab : a ≠ b) (hM : 2 ≤ M) (hM2 : M < U32_MOD)
    (hcur : (pcpu a).cur_proc ≠ some pid) :
    ∃ s1 s2 s3 s4 s5,
      __proc_set_state (proc_alloc pcpu others pid ppid n) PROC_RUNNABLE_S = .ok s1 ∧
      proc_run_s s1 a = .ok s2 ∧ __proc_switch_to_m s2 a = .ok s3 ∧
      __proc_give_cores M s3 [a, b] = .ok s4 ∧ __proc_run_m s4 = .ok s5 ∧
      s5.state = PROC_RUNNING_M ∧ s5.num_vcores = 2 ∧ s5.online_vcs = [0, 1] ∧
      (s5.vcoremap 0).valid = true ∧ (s5.vcoremap 0).pcoreid = a ∧
      (s5.vcoremap 1).valid = true ∧ (s5.vcoremap 1).pcoreid = b ∧
      s5.pcoremap a = ⟨0, true⟩ ∧ s5.pcoremap b = ⟨1, true⟩ ∧
      s5.kmsgs = [⟨a, .startcore, some pid, 0, 0, true⟩,
        ⟨b, .startcore, some pid, 0, 0, true⟩] := by
  have h1 : __proc_set_state (proc_alloc pcpu others pid ppid n) PROC_RUNNABLE_S =
      .ok { proc_alloc pcpu others pid ppid n with state := PROC_RUNNABLE_S } := by
    unfold __proc_set_state
    simp [proc_alloc, PROC_RUNNABLE_M, PROC_RUNNING_M, PROC_CREATED, PROC_RUNNABLE_S,
      PROC_RUNNING_S, PROC_WAITING, PROC_DYING]
  have h2 := proc_run_s_eq { proc_alloc pcpu others pid ppid n with state := PROC_RUNNABLE_S } a
    rfl hcur rfl
  have h3 := switch_to_m_eq
    (run_s_result { proc_alloc pcpu others pid ppid n with state := PROC_RUNNABLE_S } a) a
    (.raw 0) rfl (by simp [run_s_result, upd, proc_alloc])
    (by simp [run_s_result, upd, proc_alloc]) (by simp [run_s_result, upd])
    (by simp [run_s_result, upd])
    (by simp [read_cur_tf, run_s_result, upd, proc_alloc])
    (by simp [run_s_result, proc_alloc])
  obtain ⟨_, _, _, _, _, f6, _, _, _, _, f11, f12, f13, f14⟩ := switch_to_m_result_fields
    (run_s_result { proc_alloc pcpu others pid ppid n with state := PROC_RUNNABLE_S } a) a
    (.raw 0)
  obtain ⟨m1, m2, m3⟩ := switch_to_m_result_maps
    (run_s_result { proc_alloc pcpu others pid ppid n with state := PROC_RUNNABLE_S } a) a
    (.raw 0)
  obtain ⟨s4, s5, h4, h5, r⟩ := give_run_two M n a b _ hab hn f6 f13 f14 f12 f11
    (by
      intro v
      rw [m1]
      by_cases hv : v = 0
      · simp [hv]
      · simp [hv, run_s_result, upd, proc_alloc, Vcore.zero])
    m2 hM hM2
  rw [m3] at r
  exact ⟨_, _, _, s4, s5, h1, h2, h3, h4, h5, r⟩

theorem s_to_m_scenario_witness :
    ∃ s1 s2 s3 s4 s5,
      __proc_set_state (proc_alloc (fun _ => PerCpuInfo.idle) (fun _ => 0) 1 0 4)
        PROC_RUNNABLE_S = .ok s1 ∧
      proc_run_s s1 3 = .ok s2 ∧ __proc_switch_to_m s2 3 = .ok s3 ∧
      __proc_give_cores 8 s3 [3, 5] = .ok s4 ∧ __proc_run_m s4 = .ok s5 ∧
      s5.state = PROC_RUNNING_M ∧ s5.num_vcores = 2 ∧ s5.online_vcs = [0, 1] ∧
      (s5.vcoremap 0).valid = true ∧ (s5.vcoremap 0).pcoreid = 3 ∧
      (s5.vcoremap 1).valid = true ∧ (s5.vcoremap 1).pcoreid = 5 ∧
      s5.pcoremap 3 = ⟨0, true⟩ ∧ s5.pcoremap 5 = ⟨1, true⟩ ∧
      s5.kmsgs = [⟨3, .startcore, some 1, 0, 0, true⟩,
        ⟨5, .startcore, some 1, 0, 0, true⟩] :=
  s_to_m_scenario (fun _ => PerCpuInfo.idle) (fun _ => 0) 1 0 4 3 5 8 (by decide) (by decide)
    (by decide) (by decide) (by decide)

theorem pid_hash_search_some {s : Sys} {others : Nat → Bool} {pid p : Nat}
    (h : pid_hash_search s others pid = some p) : p = pid := by
  unfold pid_hash_search at h
  split at h
  · split at h
    · exact (Option.some.inj h).symm
    · cases h
  · split at h
    · exact (Option.some.inj h).symm
    · cases h

theorem pid2proc_found (s : Sys) (others : Nat → Bool) (pid : Nat)
    (hreg : pid_hash_search s others pid = some pid) (hnz : refcnt_of s pid ≠ 0) :
    (pid2proc s others pid).1 = some pid ∧
    refcnt_of (pid2proc s others pid).2 pid = refcnt_of s pid + 1 ∧
    (pid2proc s others pid).2.pid = s.pid ∧
    (∀ q, q ≠ pid → refcnt_of (pid2proc s others pid).2 q = refcnt_of s q) := by
  unfold pid2proc
  rw [hreg]
  simp only []
  unfold kref_get_not_zero
  rw [if_neg hnz]
  by_cases hp : pid = s.pid
  · rw [if_pos hp]
    refine ⟨rfl, ?_, rfl, ?_⟩
    · simp [refcnt_of, proc_incref, hp]
    · intro q hq
      have hq2 : q ≠ s.pid := by rw [← hp]; exact hq
      simp [refcnt_of, proc_incref, hq2]
  · rw [if_neg hp]
    refine ⟨rfl, ?_, rfl, ?_⟩
    · simp [refcnt_of, hp, upd]
    · intro q hq
      by_cases hq2 : q = s.pid
      · simp [refcnt_of, hq2]
      · simp [refcnt_of, hq2, upd, hq]

theorem pid2proc_none (s : Sys) (others : Nat → Bool) (pid : Nat)
    (h : pid_hash_search s others pid = none ∨ refcnt_of s pid = 0) :
    pid2proc s others pid = (none, s) := by
  unfold pid2proc
  cases hreg : pid_hash_search s others pid with
  | none => rfl
  | some p =>
    have hp := pid_hash_search_some hreg
    subst hp
    rcases h with h | h
    · rw [hreg] at h; cases h
    · simp only []
      unfold kref_get_not_zero
      rw [if_pos h]

/-- C30: `pid2proc(pid)` returns the process registered under `pid` and raises
its reference count by exactly 1 if and only if `pid` is in the registry and
the count of that process is not zero, leaving every other count as it was;
when `pid` is not registered, or the count of the registered process is zero,
it returns null and changes nothing.  So a process that is returned had a
non-zero count, and holds a positive count on return. -/
theorem pid2proc_contract (s : Sys) (others : Nat → Bool) (pid : Nat) :
    (pid_hash_search s others pid = some pid → refcnt_of s pid ≠ 0 →
      (pid2proc s others pid).1 = some pid ∧
      refcnt_of (pid2proc s others pid).2 pid = refcnt_of s pid + 1 ∧
      (∀ q, q ≠ pid → refcnt_of (pid2proc s others pid).2 q = refcnt_of s q)) ∧
    (pid_hash_search s others pid = none ∨ refcnt_of s pid = 0 →
      pid2proc s others pid = (none, s)) ∧
    ((pid2proc s others pid).1 ≠ none ↔
      pid_hash_search s others pid = some pid ∧ refcnt_of s pid ≠ 0) ∧
    (∀ p, (pid2proc s others pid).1 = some p →
      p = pid ∧ refcnt_of s p ≠ 0 ∧
      (0 ≤ refcnt_of s p → 0 < refcnt_of (pid2proc s others pid).2 p)) := by
  have key : (pid2proc s others pid).1 ≠ none →
      pid_hash_search s others pid = some pid ∧ refcnt_of s pid ≠ 0 := by
    intro hne
    by_cases hz : refcnt_of s pid = 0
    · rw [pid2proc_none s others pid (Or.inr hz)] at hne
      exact absurd rfl hne
    · cases hreg : pid_hash_search s others pid with
      | none =>
        rw [pid2proc_none s others pid (Or.inl hreg)] at hne
        exact absurd rfl hne
      | some p =>
        rw [pid_hash_search_some hreg]
        exact ⟨rfl, hz⟩
  refine ⟨?_, pid2proc_none s others pid, ⟨key, ?_⟩, ?_⟩
  · intro hreg hnz
    obtain ⟨a, b, _, d⟩ := pid2proc_found s others pid hreg hnz
    exact ⟨a, b, d⟩
  · rintro ⟨hreg, hnz⟩
    rw [(pid2proc_found s others pid hreg hnz).1]
    simp
  · intro p hp
    obtain ⟨hreg, hnz⟩ := key (by rw [hp]; simp)
    obtain ⟨a, b, _, _⟩ := pid2proc_found s others pid hreg hnz
    have hpp : p = pid := by
      rw [a] at hp
      exact (Option.some.inj hp).symm
    subst hpp
    refine ⟨rfl, hnz, ?_⟩
    intro h0
    rw [b]
    omega

theorem pid2proc_contract_witness :
    ((pid2proc (__proc_ready fresh_proc) (fun _ => false) 1).1 = some 1 ∧
      refcnt_of (pid2proc (__proc_ready fresh_proc) (fun _ => false) 1).2 1 = 3) ∧
    pid2proc fresh_proc (fun _ => false) 1 = (none, fresh_proc) ∧
    pid2proc { __proc_ready fresh_proc with refcnt := 0 } (fun _ => false) 1 =
      (none, { __proc_ready fresh_proc with refcnt := 0 }) := by
  obtain ⟨h1, h2, _⟩ :=
    (pid2proc_contract (__proc_ready fresh_proc) (fun _ => false) 1).1 rfl (by decide)
  refine ⟨⟨h1, ?_⟩,
    (pid2proc_contract fresh_proc (fun _ => false) 1).2.1 (Or.inl rfl),
    (pid2proc_contract { __proc_ready fresh_proc with refcnt := 0 } (fun _ => false) 1).2.1
      (Or.inr rfl)⟩
  rw [h2]
  rfl

/-! ## The pid allocator -/

/-- The search loop when the next `n` bits from `i` on are all set: nothing is
found, the bitmap is as before and the cursor has moved `n` places. -/
theorem get_free_pid_loop_none (size : Nat) (hs : 0 < size) :
    ∀ (n i : Nat) (a : PidAlloc), a.next_free_pid = i → i < size →
      (∀ k, k < n → a.pid_bmask ((i + k) % size) = true) →
      get_free_pid_loop size n i a = (0, { a with next_free_pid := (i + n) % size }) := by
  intro n
  induction n with
  | zero =>
    intro i a hi hlt _
    simp only [get_free_pid_loop, Nat.add_zero, Nat.mod_eq_of_lt hlt]
    cases a; simp_all
  | succ n ih =>
    intro i a hi hlt hall
    have h0 : a.pid_bmask i = true := by
      have := hall 0 (Nat.succ_pos n)
      simpa [Nat.mod_eq_of_lt hlt] using this
    have hlt1 : (i + 1) % size < size := Nat.mod_lt _ hs
    have hall1 : ∀ k, k < n → a.pid_bmask (((i + 1) % size + k) % size) = true := by
      intro k hk
      have := hall (k + 1) (Nat.succ_lt_succ hk)
      have e : ((i + 1) % size + k) % size = (i + (k + 1)) % size := by
        rw [Nat.add_mod, Nat.mod_mod, ← Nat.add_mod]; congr 1; omega
      rw [e]; exact this
    have step := ih ((i + 1) % size)
      { a with next_free_pid := (a.next_free_pid + 1) % size } (by simp [hi]) hlt1 hall1
    simp only [get_free_pid_loop, GET_BITMASK_BIT, h0, Bool.not_true, Bool.false_eq_true,
      if_false]
    rw [step]
    have e : ((i + 1) % size + n) % size = (i + (n + 1)) % size := by
      rw [Nat.add_mod, Nat.mod_mod, ← Nat.add_mod]; congr 1; omega
    simp [e]

/-- The search loop when the first clear bit from `i` on is `j` places away:
that index is returned, its bit is set, the cursor is left one past it. -/
theorem get_free_pid_loop_some (size : Nat) (hs : 0 < size) :
    ∀ (n i j : Nat) (a : PidAlloc), a.next_free_pid = i → i < size → j < n →
      a.pid_bmask ((i + j) % size) = false →
      (∀ k, k < j → a.pid_bmask ((i + k) % size) = true) →
      get_free_pid_loop size n i a =
        ((i + j) % size,
         { pid_bmask := SET_BITMASK_BIT a.pid_bmask ((i + j) % size),
           next_free_pid := ((i + j) % size + 1) % size }) := by
  intro n
  induction n with
  | zero => intro i j a _ _ hj; omega
  | succ n ih =>
    intro i j a hi hlt hj hclr hall
    cases j with
    | zero =>
      have h0 : a.pid_bmask i = false := by simpa [Nat.mod_eq_of_lt hlt] using hclr
      simp [get_free_pid_loop, GET_BITMASK_BIT, h0, Nat.mod_eq_of_lt hlt, hi]
    | succ j =>
      have h0 : a.pid_bmask i = true := by
        have := hall 0 (Nat.succ_pos j)
        simpa [Nat.mod_eq_of_lt hlt] using this
      have hlt1 : (i + 1) % size < size := Nat.mod_lt _ hs
      have e : ∀ k, ((i + 1) % size + k) % size = (i + (k + 1)) % size := by
        intro k
        rw [Nat.add_mod, Nat.mod_mod, ← Nat.add_mod]; congr 1; omega
      have step := ih ((i + 1) % size) j
        { a with next_free_pid := (a.next_free_pid + 1) % size } (by simp [hi]) hlt1
        (by omega) (by simpa [e] using hclr)
        (by intro k hk; simpa [e] using hall (k + 1) (Nat.succ_lt_succ hk))
      simp only [get_free_pid_loop, GET_BITMASK_BIT, h0, Bool.not_true, Bool.false_eq_true,
        if_false]
      rw [step, e]

/-- Every index of the bitmap is some number of places from the cursor. -/
theorem circ_offset (size c i : Nat) (hc : c < size) (hi : i < size) :
    ∃ j, j < size ∧ (c + j) % size = i := by
  by_cases h : c ≤ i
  · exact ⟨i - c, by omega, by rw [show c + (i - c) = i by omega]; exact Nat.mod_eq_of_lt hi⟩
  · refine ⟨size - c + i, by omega, ?_⟩
    rw [show c + (size - c + i) = i + size by omega, Nat.add_mod_right]
    exact Nat.mod_eq_of_lt hi

/-- A clear bit has a first one in circular order from the cursor. -/
theorem first_clear_exists (size : Nat) (b : Nat → Bool) (c : Nat) (hc : c < size)
    (h : ∃ i, i < size ∧ b i = false) :
    ∃ j, j < size ∧ b ((c + j) % size) = false ∧ ∀ k, k < j → b ((c + k) % size) = true := by
  obtain ⟨i, hi, hb⟩ := h
  obtain ⟨j0, hj0, e⟩ := circ_offset size c i hc hi
  have hex : ∃ j, j < size ∧ b ((c + j) % size) = false := ⟨j0, hj0, by rw [e]; exact hb⟩
  classical
  refine ⟨Nat.find hex, (Nat.find_spec hex).1, (Nat.find_spec hex).2, ?_⟩
  intro k hk
  have hmin := Nat.find_min hex hk
  have hks : k < size := lt_trans hk (Nat.find_spec hex).1
  cases hbk : b ((c + k) % size) with
  | true => rfl
  | false => exact absurd ⟨hks, hbk⟩ hmin

/-- The call `get_free_pid` on a full bitmap: 0 is returned and nothing changes. -/
theorem get_free_pid_full (a : PidAlloc) (hc : a.next_free_pid ≤ PID_MAX)
    (hfull : ∀ i, i ≤ PID_MAX → a.pid_bmask i = true) :
    get_free_pid a = (0, a) := by
  have hs : 0 < PID_MAX + 1 := Nat.succ_pos _
  have hlt : a.next_free_pid < PID_MAX + 1 := Nat.lt_succ_of_le hc
  unfold get_free_pid
  rw [get_free_pid_loop_none (PID_MAX + 1) hs (PID_MAX + 1) a.next_free_pid a rfl hlt
    (fun k _ => hfull _ (Nat.le_of_lt_succ (Nat.mod_lt _ hs)))]
  rw [Nat.add_mod_right, Nat.mod_eq_of_lt hlt]

/-- The call `get_free_pid` when the first clear bit is `j` places from the
cursor. -/
theorem get_free_pid_first (a : PidAlloc) (hc : a.next_free_pid ≤ PID_MAX) (j : Nat)
    (hj : j ≤ PID_MAX)
    (hclr : a.pid_bmask ((a.next_free_pid + j) % (PID_MAX + 1)) = false)
    (hall : ∀ k, k < j → a.pid_bmask ((a.next_free_pid + k) % (PID_MAX + 1)) = true) :
    get_free_pid a =
      ((a.next_free_pid + j) % (PID_MAX + 1),
       { pid_bmask := SET_BITMASK_BIT a.pid_bmask ((a.next_free_pid + j) % (PID_MAX + 1)),
         next_free_pid := ((a.next_free_pid + j) % (PID_MAX + 1) + 1) % (PID_MAX + 1) }) :=
  get_free_pid_loop_some (PID_MAX + 1) (Nat.succ_pos _) (PID_MAX + 1) a.next_free_pid j a rfl
    (Nat.lt_succ_of_le hc) (Nat.lt_succ_of_le hj) hclr hall

/-- C31: with bit 0 of the bitmap set (and the cursor within `[0, PID_MAX]`),
`get_free_pid` returns the first index in circular order from the cursor whose
bit is clear, sets that bit and no other, and leaves the cursor one past it
modulo `PID_MAX + 1`; such an index exists whenever a bit is clear.  It returns
0 exactly when no bit of `[0, PID_MAX]` is clear, and then the bitmap and the
cursor are as before the call. -/
theorem get_free_pid_contract (a : PidAlloc) (h0 : a.pid_bmask 0 = true)
    (hc : a.next_free_pid ≤ PID_MAX) :
    (∀ j, j ≤ PID_MAX →
      a.pid_bmask ((a.next_free_pid + j) % (PID_MAX + 1)) = false →
      (∀ k, k < j → a.pid_bmask ((a.next_free_pid + k) % (PID_MAX + 1)) = true) →
      (get_free_pid a).1 = (a.next_free_pid + j) % (PID_MAX + 1) ∧
      (get_free_pid a).2.next_free_pid = ((get_free_pid a).1 + 1) % (PID_MAX + 1) ∧
      (get_free_pid a).2.pid_bmask (get_free_pid a).1 = true ∧
      ∀ k, k ≠ (get_free_pid a).1 → (get_free_pid a).2.pid_bmask k = a.pid_bmask k) ∧
    ((∃ i, i ≤ PID_MAX ∧ a.pid_bmask i = false) →
      ∃ j, j ≤ PID_MAX ∧ a.pid_bmask ((a.next_free_pid + j) % (PID_MAX + 1)) = false ∧
        ∀ k, k < j → a.pid_bmask ((a.next_free_pid + k) % (PID_MAX + 1)) = true) ∧
    ((get_free_pid a).1 = 0 ↔ ∀ i, i ≤ PID_MAX → a.pid_bmask i = true) ∧
    ((get_free_pid a).1 = 0 → get_free_pid a = (0, a)) := by
  have hs : 0 < PID_MAX + 1 := Nat.succ_pos _
  have hfirst : (∃ i, i ≤ PID_MAX ∧ a.pid_bmask i = false) →
      ∃ j, j ≤ PID_MAX ∧ a.pid_bmask ((a.next_free_pid + j) % (PID_MAX + 1)) = false ∧
        ∀ k, k < j → a.pid_bmask ((a.next_free_pid + k) % (PID_MAX + 1)) = true := by
    rintro ⟨i, hi, hb⟩
    obtain ⟨j, hj, h1, h2⟩ := first_clear_exists (PID_MAX + 1) a.pid_bmask a.next_free_pid
      (Nat.lt_succ_of_le hc) ⟨i, Nat.lt_succ_of_le hi, hb⟩
    exact ⟨j, Nat.le_of_lt_succ hj, h1, h2⟩
  have hiff : (get_free_pid a).1 = 0 ↔ ∀ i, i ≤ PID_MAX → a.pid_bmask i = true := by
    constructor
    · intro hz i hi
      cases hb : a.pid_bmask i with
      | true => rfl
      | false =>
        obtain ⟨j, hj, h1, h2⟩ := hfirst ⟨i, hi, hb⟩
        rw [get_free_pid_first a hc j hj h1 h2] at hz
        simp only [] at hz
        rw [hz, h0] at h1
        exact absurd h1 (by decide)
    · intro hfull
      rw [get_free_pid_full a hc hfull]
  refine ⟨?_, hfirst, hiff, ?_⟩
  · intro j hj h1 h2
    rw [get_free_pid_first a hc j hj h1 h2]
    refine ⟨rfl, rfl, by simp [SET_BITMASK_BIT], ?_⟩
    intro k hk
    simp only [SET_BITMASK_BIT]
    exact if_neg hk
  · intro hz
    exact get_free_pid_full a hc (hiff.1 hz)

/-- Witness for C31 on the allocator of `proc_init`: the first clear bit is the
one under the cursor, pid 1. -/
theorem get_free_pid_contract_witness :
    pid_bmask_init.pid_bmask 0 = true ∧ pid_bmask_init.next_free_pid ≤ PID_MAX ∧
    (get_free_pid pid_bmask_init).1 = (pid_bmask_init.next_free_pid + 0) % (PID_MAX + 1) ∧
    (pid_bmask_init.next_free_pid + 0) % (PID_MAX + 1) = 1 :=
  ⟨rfl, by decide,
   ((get_free_pid_contract pid_bmask_init rfl (by decide)).1 0 (by decide) rfl
      (fun k hk => absurd hk (Nat.not_lt_zero k))).1, by decide⟩

/-- The two outcomes of `get_free_pid`: the bitmap is full, 0 is returned and
nothing changes; or an index whose bit was clear is returned, with its bit set
and the cursor one past it. -/
theorem get_free_pid_cases (a : PidAlloc) (hc : a.next_free_pid ≤ PID_MAX) :
    ((∀ i, i ≤ PID_MAX → a.pid_bmask i = true) ∧ get_free_pid a = (0, a)) ∨
    (∃ i, i ≤ PID_MAX ∧ a.pid_bmask i = false ∧
      get_free_pid a =
        (i, { pid_bmask := SET_BITMASK_BIT a.pid_bmask i,
              next_free_pid := (i + 1) % (PID_MAX + 1) })) := by
  by_cases hfull : ∀ i, i ≤ PID_MAX → a.pid_bmask i = true
  · exact Or.inl ⟨hfull, get_free_pid_full a hc hfull⟩
  · right
    have hex : ∃ i, i < PID_MAX + 1 ∧ a.pid_bmask i = false := by
      by_contra hne
      apply hfull
      intro i hi
      cases hb : a.pid_bmask i with
      | true => rfl
      | false => exact absurd ⟨i, Nat.lt_succ_of_le hi, hb⟩ hne
    obtain ⟨j, hj, h1, h2⟩ := first_clear_exists (PID_MAX + 1) a.pid_bmask a.next_free_pid
      (Nat.lt_succ_of_le hc) hex
    exact ⟨(a.next_free_pid + j) % (PID_MAX + 1),
      Nat.le_of_lt_succ (Nat.mod_lt _ (Nat.succ_pos _)), h1,
      get_free_pid_first a hc j (Nat.le_of_lt_succ hj) h1 h2⟩

/-- The invariant holds after `proc_init`. -/
theorem pid_inv_init : PidInv pid_bmask_init [] :=
  ⟨rfl, by decide, List.nodup_nil, fun _ h => absurd h (List.not_mem_nil _),
   fun _ h => absurd h (List.not_mem_nil _)⟩

/-- A successful `get_free_pid` from a state with the invariant: the pid is in
`[1, PID_MAX]`, was not handed out, and the invariant holds with it added. -/
theorem pid_inv_get (a : PidAlloc) (live : List Nat) (h : PidInv a live)
    (hne : (get_free_pid a).1 ≠ 0) :
    1 ≤ (get_free_pid a).1 ∧ (get_free_pid a).1 ≤ PID_MAX ∧ (get_free_pid a).1 ∉ live ∧
    PidInv (get_free_pid a).2 ((get_free_pid a).1 :: live) := by
  rcases get_free_pid_cases a h.cursor with ⟨_, e⟩ | ⟨i, hi, hb, e⟩
  · rw [e] at hne; exact absurd rfl hne
  · rw [e]
    rw [e] at hne
    have hnl : i ∉ live := by
      intro hm
      have := h.set i hm
      rw [hb] at this
      exact absurd this (by decide)
    refine ⟨Nat.pos_of_ne_zero hne, hi, hnl, ?_⟩
    refine ⟨?_, ?_, List.nodup_cons.2 ⟨hnl, h.nodup⟩, ?_, ?_⟩
    · simp [SET_BITMASK_BIT, h.bit0]
    · exact Nat.le_of_lt_succ (Nat.mod_lt _ (Nat.succ_pos _))
    · intro p hp
      rcases List.mem_cons.1 hp with rfl | hp
      · simp [SET_BITMASK_BIT]
      · simp [SET_BITMASK_BIT, h.set p hp]
    · intro p hp
      rcases List.mem_cons.1 hp with rfl | hp
      · exact ⟨Nat.pos_of_ne_zero hne, hi⟩
      · exact h.range p hp

/-- A failed `get_free_pid` keeps the invariant. -/
theorem pid_inv_get_none (a : PidAlloc) (live : List Nat) (h : PidInv a live)
    (hz : (get_free_pid a).1 = 0) : PidInv (get_free_pid a).2 live := by
  rcases get_free_pid_cases a h.cursor with ⟨_, e⟩ | ⟨i, hi, hb, e⟩
  · rw [e]; exact h
  · rw [e] at hz
    simp only [] at hz
    rw [hz, h.bit0] at hb
    exact absurd hb (by decide)

/-- The call `put_free_pid` on a pid handed out keeps the invariant. -/
theorem pid_inv_put (a : PidAlloc) (live : List Nat) (pid : Nat) (h : PidInv a live)
    (hm : pid ∈ live) : PidInv (put_free_pid a pid) (live.erase pid) := by
  have hp := h.range pid hm
  refine ⟨?_, h.cursor, h.nodup.erase pid, ?_, ?_⟩
  · have : (0 : Nat) ≠ pid := by omega
    simp [put_free_pid, CLR_BITMASK_BIT, this, h.bit0]
  · intro p hp
    have hne : p ≠ pid := fun e => by
      rw [e] at hp
      exact (List.Nodup.not_mem_erase h.nodup) hp
    simp [put_free_pid, CLR_BITMASK_BIT, hne, h.set p (List.mem_of_mem_erase hp)]
  · intro p hp
    exact h.range p (List.mem_of_mem_erase hp)

/-- Every reachable allocator state has the invariant. -/
theorem pid_reachable_inv (a : PidAlloc) (live : List Nat) (h : PidReachable a live) :
    PidInv a live := by
  induction h with
  | init => exact pid_inv_init
  | get a live _ hne ih => exact (pid_inv_get a live ih hne).2.2.2
  | get_none a live _ hz ih => exact pid_inv_get_none a live ih hz
  | put a live pid _ hm ih => exact pid_inv_put a live pid ih hm

/-- C32: in every allocator state reachable from `proc_init` by `get_free_pid`
and by `put_free_pid` of a pid handed out and not yet given back, bit 0 is set,
the pids handed out are distinct and in `[1, PID_MAX]`, and a successful
`get_free_pid` returns a pid in `[1, PID_MAX]` that is none of them. -/
theorem pid_alloc_unique (a : PidAlloc) (live : List Nat) (h : PidReachable a live) :
    a.pid_bmask 0 = true ∧ live.Nodup ∧ (∀ p, p ∈ live → 1 ≤ p ∧ p ≤ PID_MAX) ∧
    ((get_free_pid a).1 ≠ 0 →
      1 ≤ (get_free_pid a).1 ∧ (get_free_pid a).1 ≤ PID_MAX ∧ (get_free_pid a).1 ∉ live) := by
  have hi := pid_reachable_inv a live h
  refine ⟨hi.bit0, hi.nodup, hi.range, fun hne => ?_⟩
  have := pid_inv_get a live hi hne
  exact ⟨this.1, this.2.1, this.2.2.1⟩

/-- The first call after `proc_init` hands out pid 1. -/
theorem get_free_pid_init :
    get_free_pid pid_bmask_init =
      (1, { pid_bmask := SET_BITMASK_BIT pid_bmask_init.pid_bmask 1, next_free_pid := 2 }) :=
  get_free_pid_first pid_bmask_init (by decide) 0 (by decide) rfl
    (fun k hk => absurd hk (Nat.not_lt_zero k))

/-- The state after the first call of `get_free_pid` is reachable, with pid 1
handed out. -/
theorem pid_reachable_one :
    PidReachable (get_free_pid pid_bmask_init).2 [(get_free_pid pid_bmask_init).1] :=
  PidReachable.get _ _ PidReachable.init (by rw [get_free_pid_init]; decide)

/-- Witness for C32: the state after pid 1 is handed out is reachable, and bit 0
is set in it. -/
theorem pid_alloc_unique_witness :
    PidReachable (get_free_pid pid_bmask_init).2 [(get_free_pid pid_bmask_init).1] ∧
    (get_free_pid pid_bmask_init).2.pid_bmask 0 = true :=
  ⟨pid_reachable_one, (pid_alloc_unique _ _ pid_reachable_one).1⟩

/-- Setting a clear bit of a bitmap over `[0, size)` leaves one clear bit less. -/
theorem clear_bits_card_set (size : Nat) (b : Nat → Bool) (i : Nat) (hi : i < size)
    (hb : b i = false) :
    ((Finset.range size).filter (fun k => SET_BITMASK_BIT b i k = false)).card + 1 =
      ((Finset.range size).filter (fun k => b k = false)).card := by
  have e : (Finset.range size).filter (fun k => SET_BITMASK_BIT b i k = false) =
      ((Finset.range size).filter (fun k => b k = false)).erase i := by
    ext k
    simp only [Finset.mem_filter, Finset.mem_range, Finset.mem_erase, SET_BITMASK_BIT]
    by_cases hk : k = i
    · simp [hk]
    · simp [hk]
  have hm : i ∈ (Finset.range size).filter (fun k => b k = false) := by
    simp [hi, hb]
  rw [e, Finset.card_erase_of_mem hm]
  have : 0 < ((Finset.range size).filter (fun k => b k = false)).card :=
    Finset.card_pos.2 ⟨i, hm⟩
  omega

/-- With bit 0 set, at most `size - 1` bits are clear. -/
theorem clear_bits_card_le (size : Nat) (b : Nat → Bool) (hs : 0 < size) (h0 : b 0 = true) :
    ((Finset.range size).filter (fun k => b k = false)).card ≤ size - 1 := by
  have hsub : (Finset.range size).filter (fun k => b k = false) ⊆ (Finset.range size).erase 0 := by
    intro k hk
    simp only [Finset.mem_filter, Finset.mem_range] at hk
    simp only [Finset.mem_erase, Finset.mem_range]
    refine ⟨fun e => ?_, hk.1⟩
    rw [e, h0] at hk
    exact absurd hk.2 (by decide)
  have := Finset.card_le_card hsub
  rw [Finset.card_erase_of_mem (Finset.mem_range.2 hs), Finset.card_range] at this
  exact this

/-- While the bit of `pid` is clear and at most `n` bits are clear, one of the
next `n` calls of `get_free_pid` returns `pid`, and the calls before it each
return another pid. -/
theorem get_free_pid_reaches (pid : Nat) (hp : pid ≤ PID_MAX) :
    ∀ (n : Nat) (a : PidAlloc), a.pid_bmask 0 = true → a.next_free_pid ≤ PID_MAX →
      a.pid_bmask pid = false →
      ((Finset.range (PID_MAX + 1)).filter (fun k => a.pid_bmask k = false)).card ≤ n →
      ∃ k, k < n ∧ (get_free_pid (get_free_pid_calls k a)).1 = pid ∧
        ∀ j, j < k → (get_free_pid (get_free_pid_calls j a)).1 ≠ 0 ∧
          (get_free_pid (get_free_pid_calls j a)).1 ≠ pid := by
  intro n
  induction n with
  | zero =>
    intro a _ _ hb hcard
    have hm : pid ∈ (Finset.range (PID_MAX + 1)).filter (fun k => a.pid_bmask k = false) := by
      simp only [Finset.mem_filter, Finset.mem_range]
      exact ⟨Nat.lt_succ_of_le hp, hb⟩
    have := Finset.card_pos.2 ⟨pid, hm⟩
    omega
  | succ n ih =>
    intro a h0 hc hb hcard
    rcases get_free_pid_cases a hc with ⟨hfull, _⟩ | ⟨i, hi, hbi, e⟩
    · rw [hfull pid hp] at hb
      exact absurd hb (by decide)
    · by_cases hip : i = pid
      · refine ⟨0, Nat.succ_pos n, ?_, fun j hj => absurd hj (Nat.not_lt_zero j)⟩
        show (get_free_pid a).1 = pid
        rw [e]; exact hip
      · have hi0 : i ≠ 0 := by
          intro h; rw [h, h0] at hbi; exact absurd hbi (by decide)
        have hcs := clear_bits_card_set (PID_MAX + 1) a.pid_bmask i (Nat.lt_succ_of_le hi) hbi
        have e2 : (get_free_pid a).2 =
            { pid_bmask := SET_BITMASK_BIT a.pid_bmask i,
              next_free_pid := (i + 1) % (PID_MAX + 1) } := by rw [e]
        have e1 : (get_free_pid a).1 = i := by rw [e]
        obtain ⟨k, hk, hres, hbefore⟩ := ih (get_free_pid a).2
          (by rw [e2]; simp [SET_BITMASK_BIT, h0])
          (by rw [e2]; exact Nat.le_of_lt_succ (Nat.mod_lt _ (Nat.succ_pos _)))
          (by rw [e2]; simp [SET_BITMASK_BIT, hb, Ne.symm hip])
          (by rw [e2]; show ((Finset.range (PID_MAX + 1)).filter
                (fun k => SET_BITMASK_BIT a.pid_bmask i k = false)).card ≤ n; omega)
        refine ⟨k + 1, Nat.succ_lt_succ hk, hres, ?_⟩
        intro j hj
        cases j with
        | zero =>
          show (get_free_pid a).1 ≠ 0 ∧ (get_free_pid a).1 ≠ pid
          rw [e1]; exact ⟨hi0, hip⟩
        | succ j => exact hbefore j (Nat.lt_of_succ_lt_succ hj)

/-- C33: after `put_free_pid(pid)` of a pid in `[1, PID_MAX]`, with bit 0 set
and the cursor within the bitmap, and no further `put_free_pid`: one of the
next `PID_MAX` calls of `get_free_pid` returns `pid`, and every call before it
is successful and returns another pid. -/
theorem pid_recycled (a : PidAlloc) (pid : Nat) (h0 : a.pid_bmask 0 = true)
    (hc : a.next_free_pid ≤ PID_MAX) (h1 : 1 ≤ pid) (h2 : pid ≤ PID_MAX) :
    ∃ k, k < PID_MAX ∧
      (get_free_pid (get_free_pid_calls k (put_free_pid a pid))).1 = pid ∧
      ∀ j, j < k →
        (get_free_pid (get_free_pid_calls j (put_free_pid a pid))).1 ≠ 0 ∧
        (get_free_pid (get_free_pid_calls j (put_free_pid a pid))).1 ≠ pid := by
  have hb0 : (put_free_pid a pid).pid_bmask 0 = true := by
    have : (0 : Nat) ≠ pid := by omega
    simp [put_free_pid, CLR_BITMASK_BIT, this, h0]
  refine get_free_pid_reaches pid h2 PID_MAX (put_free_pid a pid) hb0 hc
    (by simp [put_free_pid, CLR_BITMASK_BIT]) ?_
  exact clear_bits_card_le (PID_MAX + 1) _ (Nat.succ_pos _) hb0

/-- Witness for C33: pid 1, handed out first after `proc_init` and given back,
is handed out again. -/
theorem pid_recycled_witness :
    (get_free_pid pid_bmask_init).2.pid_bmask 0 = true ∧
    (get_free_pid pid_bmask_init).2.next_free_pid ≤ PID_MAX ∧
    ∃ k, k < PID_MAX ∧
      (get_free_pid (get_free_pid_calls k
        (put_free_pid (get_free_pid pid_bmask_init).2 1))).1 = 1 ∧
      ∀ j, j < k →
        (get_free_pid (get_free_pid_calls j
          (put_free_pid (get_free_pid pid_bmask_init).2 1))).1 ≠ 0 ∧
        (get_free_pid (get_free_pid_calls j
          (put_free_pid (get_free_pid pid_bmask_init).2 1))).1 ≠ 1 :=
  have hb : (get_free_pid pid_bmask_init).2.pid_bmask 0 = true := by
    rw [get_free_pid_init]; rfl
  have hc : (get_free_pid pid_bmask_init).2.next_free_pid ≤ PID_MAX := by
    rw [get_free_pid_init]; decide
  ⟨hb, hc, pid_recycled _ 1 hb hc (by decide) (by decide)⟩

/-! ## Allocation -/

/-- C34 as stated fails: on a machine with four cores `proc_alloc` links the
vcores 0 to 3 only; with a `vcoremap[]` of eight entries the inactive list is
not the list of all of them, and entry 4 is on none of the three lists. -/
theorem proc_alloc_skips_vcores :
    fresh_proc.inactive_vcs ≠ spec_inactive_vcs 8 ∧
    4 ∈ spec_inactive_vcs 8 ∧ 4 ∉ all_vcs fresh_proc := by
  decide

/-- C34 (amended): after a successful `proc_alloc` on a machine with `num_cpus`
cores the process has reference count 2, state `CREATED`, `num_vcores` 0,
`is_mcp` false, empty online and bulk-preempted lists, and an inactive list that
holds the vcores `0 .. num_cpus - 1`, each once and in index order; the three
lists partition that set of vcores. -/
theorem proc_alloc_contract (pcpu : Nat → PerCpuInfo) (others : Nat → Int)
    (pid ppid num_cpus : Nat) :
    (proc_alloc pcpu others pid ppid num_cpus).refcnt = 2 ∧
    (proc_alloc pcpu others pid ppid num_cpus).state = PROC_CREATED ∧
    (proc_alloc pcpu others pid ppid num_cpus).num_vcores = 0 ∧
    (proc_alloc pcpu others pid ppid num_cpus).is_mcp = false ∧
    (proc_alloc pcpu others pid ppid num_cpus).online_vcs = [] ∧
    (proc_alloc pcpu others pid ppid num_cpus).bulk_preempted_vcs = [] ∧
    (proc_alloc pcpu others pid ppid num_cpus).inactive_vcs = List.range num_cpus ∧
    lists_partition (proc_alloc pcpu others pid ppid num_cpus) ∧
    (∀ v, v ∈ all_vcs (proc_alloc pcpu others pid ppid num_cpus) ↔ v < num_cpus) := by
  refine ⟨rfl, rfl, rfl, rfl, rfl, rfl, rfl, ?_, ?_⟩
  · refine ⟨List.nodup_nil, List.nodup_nil, List.nodup_range num_cpus, ?_, ?_, ?_⟩
    · intro v hv; exact absurd hv (List.not_mem_nil v)
    · intro v hv; exact absurd hv (List.not_mem_nil v)
    · intro v hv; exact absurd hv (List.not_mem_nil v)
  · intro v
    show v ∈ [] ++ ([] ++ List.range num_cpus) ↔ v < num_cpus
    simp

/-! ## Resource counts and the seqlock counter -/

theorem proc_free_acct {s s1 : Sys} (h : __proc_free s = .ok s1) : acct s1 = acct s := by
  unfold __proc_free fault at h
  split_ifs at h
  rw [← Except.ok.inj h]; rfl

theorem proc_decref_acct {s s1 : Sys} {q : Nat} (h : proc_decref s q = .ok s1) :
    acct s1 = acct s := by
  unfold proc_decref at h
  simp only [] at h
  split_ifs at h
  · exact (proc_free_acct h).trans rfl
  · rw [← Except.ok.inj h]; rfl
  · rw [← Except.ok.inj h]; rfl

theorem clear_owning_proc_acct {s s1 : Sys} {c : Nat} (h : clear_owning_proc s c = .ok s1) :
    acct s1 = acct s := by
  unfold clear_owning_proc fault at h
  simp only [] at h
  split at h
  · cases h
  · exact (proc_decref_acct h).trans rfl

theorem abandon_core_acct {s s1 : Sys} {c : Nat} (h : abandon_core s c = .ok s1) :
    acct s1 = acct s := by
  unfold abandon_core at h
  simp only [] at h
  split_ifs at h
  · unfold __abandon_core fault at h
    split at h
    · cases h
    · split at h
      · cases h
      · rename_i s2 h2
        rw [← Except.ok.inj h]
        exact (proc_decref_acct h2).trans rfl
  · rw [← Except.ok.inj h]; rfl

theorem out_yield_core_acct {s s1 : Sys} {c : Nat} (h : out_yield_core s c = .ok s1) :
    acct s1 = acct s := by
  unfold out_yield_core at h
  split at h
  · cases h
  · rename_i s2 h2
    split at h
    · cases h
    · rename_i s3 h3
      exact (abandon_core_acct h).trans ((clear_owning_proc_acct h3).trans (proc_decref_acct h2))

theorem coremaps_of_core {s t : Sys} (h : core s = core t) : coremaps s = coremaps t := by
  have h1 : (fun v => (s.vcoremap v).valid) = (fun v => (t.vcoremap v).valid) :=
    congrArg Core.vvalid h
  have h2 : (fun v => (s.vcoremap v).pcoreid) = (fun v => (t.vcoremap v).pcoreid) :=
    congrArg Core.vpcore h
  have h3 : s.pcoremap = t.pcoremap := congrArg Core.pmap h
  unfold coremaps
  rw [h3]
  congr 1
  funext v
  rw [congrFun h1 v, congrFun h2 v]

theorem yield_m_release_acct (s : Sys) (pc v : Nat) (b : Bool) :
    acct (yield_m_release s pc v b) =
      { amt_wanted := if b then s.amt_wanted else u32_sub s.num_vcores 1 % SIZE_MOD,
        amt_granted := u32_sub s.num_vcores 1 % SIZE_MOD,
        num_vcores := u32_sub s.num_vcores 1,
        coremap_seqctr := u32_add (u32_add s.coremap_seqctr 1) 1 } := by
  cases b
  · simp [yield_m_release, acct, put_idle_core, __seq_end_write, __seq_start_write,
      set_vcpd, __unmap_vcore, inactive_insert_head]
  · simp [yield_m_release, acct, put_idle_core, __seq_end_write, __seq_start_write,
      set_vcpd, __unmap_vcore, inactive_insert_head]

/-- What the committed part of a `RUNNING_M` yield does to the counts and to the
mapping: either the late `notif_pending` check aborts it and both are as
before, or a vcore is given up. -/
theorem yield_m_commit_acct {s s1 : Sys} {pc v : Nat} {b : Bool}
    (h : yield_m_commit s pc v b = .ok s1) :
    (acct s1 = acct s ∧ coremaps s1 = coremaps s) ∨
    acct s1 =
      { amt_wanted := if u32_sub s.num_vcores 1 = 0 then 1
          else if b then s.amt_wanted else u32_sub s.num_vcores 1 % SIZE_MOD,
        amt_granted := u32_sub s.num_vcores 1 % SIZE_MOD,
        num_vcores := u32_sub s.num_vcores 1,
        coremap_seqctr := u32_add (u32_add s.coremap_seqctr 1) 1 } := by
  unfold yield_m_commit at h
  split at h
  · cases h
  · rename_i s2 h2
    obtain ⟨lo, lb, li, rfl⟩ := online_remove_frame h2
    split_ifs at h with c1
    · left
      rw [← Except.ok.inj h]
      exact ⟨rfl, rfl⟩
    · right
      simp only [] at h
      split at h
      · cases h
      · rename_i s9 h9
        rw [out_yield_core_acct h]
        have hr := yield_m_release_acct
          { s with online_vcs := lo, bulk_preempted_vcs := lb, inactive_vcs := li } pc v b
        have hn : (yield_m_release { s with online_vcs := lo, bulk_preempted_vcs := lb, inactive_vcs := li } pc v b).num_vcores
            = u32_sub s.num_vcores 1 := congrArg Acct.num_vcores hr
        split_ifs at h9 with c2
        · rw [set_state_ok h9]
          rw [hn] at c2
          have e1 := congrArg Acct.amt_granted hr
          have e4 := congrArg Acct.coremap_seqctr hr
          simp only [acct] at e1 e4 ⊢
          simp only [if_pos c2, e1, e4, hn]
        · rw [← Except.ok.inj h9, hr]
          rw [hn] at c2
          simp only [if_neg c2]

theorem proc_yield_s_acct {s s1 : Sys} {pc : Nat} (h : __proc_yield_s s pc = .ok s1) :
    acct s1 = acct s := by
  unfold __proc_yield_s at h
  by_cases c1 : s.state ≠ PROC_RUNNING_S
  · rw [if_pos c1] at h; cases h
  rw [if_neg c1] at h
  split at h
  · cases h
  · rename_i tf htf
    simp only at h
    split at h
    · cases h
    · rename_i s2 h2
      rw [← Except.ok.inj h, set_state_ok h2]
      rfl

/-- What `proc_yield` does to the counts and to the mapping: a `RUNNING_S`
process keeps its counts; an aborted yield keeps counts and mapping; a
`RUNNING_M` process that gives up a vcore has both counts one lower, the
seqlock counter two higher, and wants one core when none is left. -/
theorem proc_yield_acct {s s1 : Sys} {pc : Nat} {b : Bool} (h : proc_yield s pc b = .ok s1) :
    (s.state = PROC_RUNNING_S ∧ acct s1 = acct s) ∨
    (s.state ≠ PROC_RUNNING_S ∧ acct s1 = acct s ∧ coremaps s1 = coremaps s) ∨
    (s.state = PROC_RUNNING_M ∧
      acct s1 =
        { amt_wanted := if u32_sub s.num_vcores 1 = 0 then 1
            else if b then s.amt_wanted else u32_sub s.num_vcores 1 % SIZE_MOD,
          amt_granted := u32_sub s.num_vcores 1 % SIZE_MOD,
          num_vcores := u32_sub s.num_vcores 1,
          coremap_seqctr := u32_add (u32_add s.coremap_seqctr 1) 1 }) := by
  unfold proc_yield at h
  by_cases c1 : s.state = PROC_RUNNING_S
  · rw [if_pos c1] at h
    split at h
    · cases h
    · rename_i s2 h2
      exact Or.inl ⟨c1, (out_yield_core_acct h).trans (proc_yield_s_acct h2)⟩
  rw [if_neg c1] at h
  right
  by_cases c2 : s.state = PROC_RUNNING_M
  · rw [if_pos c2] at h
    by_cases c3 : (!is_mapped_vcore s pc) = true
    · rw [if_pos c3] at h; rw [← Except.ok.inj h]; exact Or.inl ⟨c1, rfl, rfl⟩
    rw [if_neg c3] at h
    have hmap : is_mapped_vcore s pc = true := by simpa using c3
    have hget : get_vcoreid s pc = .ok (s.pcoremap pc).vcoreid := by
      unfold get_vcoreid; rw [if_pos hmap]
    rw [hget] at h
    simp only at h
    by_cases c4 : b = true ∧ (s.vcoremap (s.pcoremap pc).vcoreid).preempt_pending = 0
    · rw [if_pos c4] at h; rw [← Except.ok.inj h]; exact Or.inl ⟨c1, rfl, rfl⟩
    rw [if_neg c4] at h
    by_cases c5 : (s.vcoremap (s.pcoremap pc).vcoreid).preempt_served = true
    · rw [if_pos c5] at h; rw [← Except.ok.inj h]; exact Or.inl ⟨c1, rfl, rfl⟩
    rw [if_neg c5] at h
    have hx : ∀ sx : Sys, sx = (if (s.vcoremap (s.pcoremap pc).vcoreid).preempt_pending ≠ 0 then
        set_vcore s (s.pcoremap pc).vcoreid
          { s.vcoremap (s.pcoremap pc).vcoreid with preempt_pending := 0 } else s) →
        acct sx = acct s ∧ coremaps sx = coremaps s := by
      intro sx e
      by_cases c6 : (s.vcoremap (s.pcoremap pc).vcoreid).preempt_pending ≠ 0
      · rw [if_pos c6] at e
        rw [e]
        exact ⟨rfl, coremaps_of_core (core_set_vcore _ _ _ rfl rfl)⟩
      · rw [if_neg c6] at e
        rw [e]
        exact ⟨rfl, rfl⟩
    generalize hsx : (if (s.vcoremap (s.pcoremap pc).vcoreid).preempt_pending ≠ 0 then
        set_vcore s (s.pcoremap pc).vcoreid
          { s.vcoremap (s.pcoremap pc).vcoreid with preempt_pending := 0 } else s) = sx at h
    obtain ⟨x1, x2⟩ := hx sx hsx.symm
    have y1 : sx.num_vcores = s.num_vcores := congrArg Acct.num_vcores x1
    have y2 : sx.amt_wanted = s.amt_wanted := congrArg Acct.amt_wanted x1
    have y3 : sx.coremap_seqctr = s.coremap_seqctr := congrArg Acct.coremap_seqctr x1
    by_cases c7 : (sx.vcore_preempt_data (s.pcoremap pc).vcoreid).notif_pending = true
    · rw [if_pos c7] at h; rw [← Except.ok.inj h]; exact Or.inl ⟨c1, x1, x2⟩
    rw [if_neg c7] at h
    rcases yield_m_commit_acct h with ⟨e1, e2⟩ | e
    · exact Or.inl ⟨c1, e1.trans x1, e2.trans x2⟩
    · refine Or.inr ⟨c2, ?_⟩
      rw [e, y1, y2, y3]
  rw [if_neg c2] at h
  by_cases c8 : s.state = PROC_DYING ∨ s.state = PROC_RUNNABLE_M
  · rw [if_pos c8] at h; rw [← Except.ok.inj h]; exact Or.inl ⟨c1, rfl, rfl⟩
  · rw [if_neg c8] at h; cases h

/-! ## Yielding nicely -/

/-- C36 fails in process.c: a `RUNNING_M` process that wants four cores and
yields its only vcore, being nice after a preemption warning, returns from
`proc_yield` wanting one core, against the comment of `proc_yield` (`No matter
what, don't adjust the number of cores wanted`). -/
theorem nice_yield_last_vcore_wants_one :
    ∃ s1, warned_proc.state = PROC_RUNNING_M ∧ warned_proc.amt_wanted = 4 ∧
      proc_yield warned_proc 5 true = .ok s1 ∧ s1.amt_wanted = 1 ∧
      s1.amt_wanted ≠ warned_proc.amt_wanted :=
  ⟨_, rfl, rfl, rfl, rfl, by decide⟩

/-- C36, what process.c does: `proc_yield` with `being_nice` set leaves
`amt_wanted` as it was, whether the yield aborts or gives up a vcore, unless it
gives up the last vcore of a `RUNNING_M` process: then `num_vcores` is 0
afterwards and `amt_wanted` is 1. -/
theorem nice_yield_amt_wanted (s s1 : Sys) (pc : Nat)
    (h : proc_yield s pc true = .ok s1) :
    s1.amt_wanted = s.amt_wanted ∨
    (s.state = PROC_RUNNING_M ∧ s1.num_vcores = 0 ∧ s1.amt_wanted = 1) := by
  rcases proc_yield_acct h with ⟨_, e⟩ | ⟨_, e, _⟩ | ⟨hst, e⟩
  · exact Or.inl (congrArg Acct.amt_wanted e)
  · exact Or.inl (congrArg Acct.amt_wanted e)
  · have e1 := congrArg Acct.amt_wanted e
    have e3 := congrArg Acct.num_vcores e
    by_cases hz : u32_sub s.num_vcores 1 = 0
    · rw [if_pos hz] at e1
      exact Or.inr ⟨hst, e3.trans hz, e1⟩
    · rw [if_neg hz, if_pos rfl] at e1
      exact Or.inl e1

/-- Witness for C36: a process that wants four cores and yields one of
its two vcores, being nice, still wants four. -/
theorem nice_yield_amt_wanted_witness :
    ∃ s1, proc_yield warned_two_proc 9 true = .ok s1 ∧ s1.num_vcores = 1 ∧
      (s1.amt_wanted = warned_two_proc.amt_wanted ∨
       (warned_two_proc.state = PROC_RUNNING_M ∧ s1.num_vcores = 0 ∧ s1.amt_wanted = 1)) :=
  ⟨_, rfl, rfl, nice_yield_amt_wanted warned_two_proc _ 9 rfl⟩

/-! ## Granted cores -/

/-- C38: what the code of `clear_owning_proc` does on core `c`.  With an owner
it clears `owning_proc` and `cur_tf` and drops one reference of the owner, of
`p` itself or of another process.  With no owner it clears the two fields and
still calls `proc_decref`, on the null pointer: the statement `if (p);` guards
nothing. -/
theorem clear_owning_proc_contract (s : Sys) (c : Nat) :
    ((s.per_cpu_info c).owning_proc = some s.pid → 1 < s.refcnt →
      clear_owning_proc s c =
        .ok { set_pcpui s c { s.per_cpu_info c with owning_proc := none, cur_tf := .null } with
              refcnt := s.refcnt - 1 }) ∧
    (∀ q, (s.per_cpu_info c).owning_proc = some q → q ≠ s.pid →
      clear_owning_proc s c =
        .ok { set_pcpui s c { s.per_cpu_info c with owning_proc := none, cur_tf := .null } with
              other_refcnt := upd s.other_refcnt q (s.other_refcnt q - 1) }) ∧
    ((s.per_cpu_info c).owning_proc = none →
      clear_owning_proc s c =
        fault .null_deref
          (set_pcpui s c { s.per_cpu_info c with owning_proc := none, cur_tf := .null })) := by
  refine ⟨?_, ?_, ?_⟩
  · intro ho hr
    unfold clear_owning_proc
    simp only [ho]
    unfold proc_decref set_pcpui
    simp only [if_true]
    have : ¬ (s.refcnt - 1 = 0) := by omega
    rw [if_neg this]
  · intro q ho hq
    unfold clear_owning_proc
    simp only [ho]
    unfold proc_decref set_pcpui
    simp only [if_neg hq]
  · intro ho
    unfold clear_owning_proc
    simp only [ho]

/-- Witness for C38: on an idle core of a fresh process `clear_owning_proc`
ends in a null dereference. -/
theorem clear_owning_proc_contract_witness :
    (fresh_proc.per_cpu_info 0).owning_proc = none ∧
    clear_owning_proc fresh_proc 0 =
      fault .null_deref
        (set_pcpui fresh_proc 0
          { fresh_proc.per_cpu_info 0 with owning_proc := none, cur_tf := .null }) :=
  ⟨rfl, (clear_owning_proc_contract fresh_proc 0).2.2 rfl⟩

/-! ## Destroying a waiting process -/

theorem proc_free_err {x x1 : Sys} {f : Fault} (h : __proc_free x = .error (f, x1)) :
    x1 = x := by
  unfold __proc_free fault at h
  split_ifs at h
  · exact (Prod.mk.inj (Except.error.inj h)).2.symm
  · exact (Prod.mk.inj (Except.error.inj h)).2.symm

theorem proc_decref_err {x x1 : Sys} {q : Nat} {f : Fault}
    (h : proc_decref x q = .error (f, x1)) : x1.state = x.state := by
  unfold proc_decref at h
  simp only [] at h
  split_ifs at h
  rw [proc_free_err h]

theorem revoke_core_err {s s1 : Sys} {v : Nat} {preempt : Bool} {f : Fault}
    (h : __proc_revoke_core s v preempt = .error (f, s1)) : f = .assertion := by
  unfold __proc_revoke_core get_pcoreid fault at h
  split at h
  · rename_i e he
    split_ifs at he
    rw [← Except.error.inj he] at h
    exact (Prod.mk.inj (Except.error.inj h)).1.symm
  · split_ifs at h

theorem revoke_allcores_loop_err (preempt : Bool) (vcs : List Nat) :
    ∀ {s s1 : Sys} {f : Fault}, revoke_allcores_loop s preempt vcs = .error (f, s1) →
      f = .assertion := by
  induction vcs with
  | nil => intro s s1 f h; cases h
  | cons v vcs ih =>
    intro s s1 f h
    simp only [revoke_allcores_loop] at h
    split at h
    · rename_i e he
      rw [Except.error.inj h] at he
      exact revoke_core_err he
    · exact ih h

theorem take_allcores_move_err (preempt : Bool) (vcs : List Nat) :
    ∀ {s s1 : Sys} {f : Fault}, take_allcores_move s preempt vcs = .error (f, s1) →
      f = .tailq ∨ f = .null_deref := by
  induction vcs with
  | nil => intro s s1 f h; cases h
  | cons v vcs ih =>
    intro s s1 f h
    simp only [take_allcores_move] at h
    split at h
    · rename_i e he
      rw [Except.error.inj h] at he
      exact online_remove_err he
    · split_ifs at h
      · exact ih h
      · exact ih h

theorem take_allcores_err {s s1 : Sys} {preempt : Bool} {f : Fault}
    (h : __proc_take_allcores s preempt = .error (f, s1)) : f ≠ .panic := by
  unfold __proc_take_allcores fault at h
  simp only [] at h
  split at h
  · rename_i e he
    rw [Except.error.inj h] at he
    split_ifs at he
    · rw [revoke_allcores_loop_err preempt _ he]; decide
    · rw [(Prod.mk.inj (Except.error.inj he)).1.symm]; decide
  · split at h
    · rename_i e he
      rw [Except.error.inj h] at he
      rcases take_allcores_move_err preempt _ he with e | e <;> rw [e] <;> decide
    · split_ifs at h
      · rw [(Prod.mk.inj (Except.error.inj h)).1.symm]; decide
      · rw [(Prod.mk.inj (Except.error.inj h)).1.symm]; decide

theorem take_allcores_dumb_err {s s1 : Sys} {preempt : Bool} {f : Fault}
    (h : __proc_take_allcores_dumb s preempt = .error (f, s1)) : f ≠ .panic := by
  unfold __proc_take_allcores_dumb at h
  split at h
  · rename_i e he
    rw [Except.error.inj h] at he
    exact take_allcores_err he
  · cases h

/-- An error of `proc_destroy` on a process in one of the five states it
revokes from is not the panic of its `default` case: it is another fault, or
the process is `DYING` when it occurs. -/
theorem proc_destroy_err {s s1 : Sys} {f : Fault}
    (hst : s.state = PROC_CREATED ∨ s.state = PROC_RUNNABLE_S ∨ s.state = PROC_RUNNING_S ∨
      s.state = PROC_RUNNABLE_M ∨ s.state = PROC_RUNNING_M)
    (h : proc_destroy s = .error (f, s1)) : f ≠ .panic ∨ s1.state = PROC_DYING := by
  have hdy : s.state ≠ PROC_DYING := by
    rcases hst with h | h | h | h | h <;> rw [h] <;> decide
  have fin : ∀ x : Sys, x.state = s.state →
      (match __proc_set_state x PROC_DYING with
        | .error e => .error e
        | .ok s2 => proc_decref { s2 with files_closed := true } s2.pid : Res) = .error (f, s1) →
      s1.state = PROC_DYING := by
    intro x hx hm
    rw [set_state_dying x (by rw [hx]; exact hst)] at hm
    simp only [] at hm
    exact proc_decref_err hm
  unfold proc_destroy at h
  rw [if_neg hdy] at h
  simp only [] at h
  split at h
  · rename_i e he
    rw [Except.error.inj h] at he
    left
    split_ifs at he with c1 c2 c3 c4 c5
    · exact take_allcores_dumb_err he
    · unfold get_pcoreid fault at he
      split at he
      · rename_i e2 he2
        split_ifs at he2
        rw [← Except.error.inj he2] at he
        rw [(Prod.mk.inj (Except.error.inj he)).1.symm]; decide
      · cases he
    · exact take_allcores_dumb_err he
    · exfalso
      rcases hst with h | h | h | h | h
      · exact c5 h
      · exact c2 h
      · exact c3 h
      · exact c1 h
      · exact c4 h
  · rename_i x hx
    right
    refine fin x ?_ h
    unfold fault at hx
    split_ifs at hx with c1 c2 c3 c4 c5
    · exact (take_allcores_dumb_facts hx).2.1
    · rw [← Except.ok.inj hx]
    · unfold get_pcoreid fault at hx
      split at hx
      · cases hx
      · rw [← Except.ok.inj hx]; rfl
    · exact (take_allcores_dumb_facts hx).2.1
    · rw [← Except.ok.inj hx]

/-- C39: `proc_destroy` handles the states `CREATED`, `RUNNABLE_S`, `RUNNING_S`,
`RUNNABLE_M`, `RUNNING_M` and `DYING` and no other: among the seven process
states it ends in the panic of its `default` case, with the process as it was,
exactly on `WAITING`.  The process is then not `DYING` and holds the references
it held, and `__proc_set_state` panics on `WAITING -> DYING` as well. -/
theorem proc_destroy_waiting_panics (s : Sys) (hs : s.state ∈ ALL_STATES) :
    (proc_destroy s = fault .panic s ↔ s.state = PROC_WAITING) ∧
    (s.state = PROC_WAITING →
      (∀ f s1, proc_destroy s = .error (f, s1) →
        f = .panic ∧ s1.state = PROC_WAITING ∧ s1.refcnt = s.refcnt) ∧
      (∀ s1, proc_destroy s ≠ .ok s1) ∧
      __proc_set_state s PROC_DYING = fault .panic s) := by
  have hw : s.state = PROC_WAITING → proc_destroy s = fault .panic s := by
    intro h
    unfold proc_destroy
    simp [h, fault, PROC_RUNNABLE_M, PROC_RUNNING_M, PROC_CREATED, PROC_RUNNABLE_S,
      PROC_RUNNING_S, PROC_WAITING, PROC_DYING]
  refine ⟨⟨?_, hw⟩, ?_⟩
  · intro h
    simp only [ALL_STATES, List.mem_cons, List.mem_singleton, List.not_mem_nil, or_false] at hs
    rcases hs with h1 | h1 | h1 | h1 | h1 | h1 | h1
    · rcases proc_destroy_err (Or.inl h1) h with hf | hd
      · exact absurd rfl hf
      · rw [h1] at hd; exact absurd hd (by decide)
    · rcases proc_destroy_err (Or.inr (Or.inl h1)) h with hf | hd
      · exact absurd rfl hf
      · rw [h1] at hd; exact absurd hd (by decide)
    · rcases proc_destroy_err (Or.inr (Or.inr (Or.inl h1))) h with hf | hd
      · exact absurd rfl hf
      · rw [h1] at hd; exact absurd hd (by decide)
    · exact h1
    · unfold proc_destroy at h
      rw [if_pos h1] at h
      cases h
    · rcases proc_destroy_err (Or.inr (Or.inr (Or.inr (Or.inl h1)))) h with hf | hd
      · exact absurd rfl hf
      · rw [h1] at hd; exact absurd hd (by decide)
    · rcases proc_destroy_err (Or.inr (Or.inr (Or.inr (Or.inr h1)))) h with hf | hd
      · exact absurd rfl hf
      · rw [h1] at hd; exact absurd hd (by decide)
  · intro h
    refine ⟨?_, ?_, ?_⟩
    · intro f s1 he
      rw [hw h] at he
      have := Prod.mk.inj (Except.error.inj he)
      rw [← this.1, ← this.2]
      exact ⟨rfl, h, rfl⟩
    · intro s1 he
      rw [hw h] at he
      cases he
    · unfold __proc_set_state
      simp +decide [h, PROC_RUNNABLE_M, PROC_RUNNING_M, PROC_CREATED, PROC_RUNNABLE_S,
        PROC_RUNNING_S, PROC_WAITING, PROC_DYING]

/-- Witness for C39: a waiting process. -/
theorem proc_destroy_waiting_panics_witness :
    ({ running_m_proc with state := PROC_WAITING } : Sys).state ∈ ALL_STATES ∧
    proc_destroy { running_m_proc with state := PROC_WAITING } =
      fault .panic { running_m_proc with state := PROC_WAITING } :=
  ⟨by decide,
   (proc_destroy_waiting_panics { running_m_proc with state := PROC_WAITING } (by decide)).1.2
     rfl⟩

/-! ## A yield that finds a notification pending -/

theorem upd_preempt_pending_self (f : Nat → Vcore) (v : Nat) (h : (f v).preempt_pending = 0) :
    upd f v { f v with preempt_pending := 0 } = f := by
  funext x
  unfold upd
  split_ifs with hx
  · subst hx
    cases hfv : f x
    rw [hfv] at h
    simp only [] at h
    simp [h]
  · rfl

theorem set_preempt_pending_self (s : Sys) (v : Nat) (h : (s.vcoremap v).preempt_pending = 0) :
    ({ s with vcoremap := upd s.vcoremap v { s.vcoremap v with preempt_pending := 0 } } : Sys)
      = s := by
  rw [upd_preempt_pending_self s.vcoremap v h]

/-- C40: when `proc_yield` is called on a `RUNNING_M` process from a mapped
pcore whose vcore has `preempt_served` clear and `notif_pending` set, it
returns; the state it returns in differs from the one before in nothing but the
`preempt_pending` of the calling vcore, which is 0: the three lists, the pcore
map, `num_vcores`, the resource counts, the state, the reference count and the
other fields of every vcore entry are as before. -/
theorem yield_notif_pending_abort (s : Sys) (pc : Nat) (b : Bool)
    (hst : s.state = PROC_RUNNING_M) (hmap : is_mapped_vcore s pc = true)
    (hserved : (s.vcoremap (s.pcoremap pc).vcoreid).preempt_served = false)
    (hnp : (s.vcore_preempt_data (s.pcoremap pc).vcoreid).notif_pending = true) :
    ∃ s1, proc_yield s pc b = .ok s1 ∧
      s1 = { s with vcoremap := (upd s.vcoremap (s.pcoremap pc).vcoreid
              { s.vcoremap (s.pcoremap pc).vcoreid with preempt_pending := 0 }) } ∧
      s1.online_vcs = s.online_vcs ∧ s1.bulk_preempted_vcs = s.bulk_preempted_vcs ∧
      s1.inactive_vcs = s.inactive_vcs ∧ s1.pcoremap = s.pcoremap ∧
      s1.num_vcores = s.num_vcores ∧ s1.amt_wanted = s.amt_wanted ∧
      s1.amt_granted = s.amt_granted ∧ s1.state = s.state ∧ s1.refcnt = s.refcnt ∧
      s1.coremap_seqctr = s.coremap_seqctr ∧
      (s1.vcoremap (s.pcoremap pc).vcoreid).preempt_pending = 0 ∧
      (∀ v, (s1.vcoremap v).valid = (s.vcoremap v).valid ∧
        (s1.vcoremap v).pcoreid = (s.vcoremap v).pcoreid ∧
        (s1.vcoremap v).preempt_served = (s.vcoremap v).preempt_served) ∧
      (∀ v, v ≠ (s.pcoremap pc).vcoreid → s1.vcoremap v = s.vcoremap v) := by
  refine ⟨_, ?_, rfl, rfl, rfl, rfl, rfl, rfl, rfl, rfl, rfl, rfl, rfl, ?_, ?_, ?_⟩
  · have hns : s.state ≠ PROC_RUNNING_S := by rw [hst]; decide
    have hget : get_vcoreid s pc = .ok (s.pcoremap pc).vcoreid := by
      unfold get_vcoreid; rw [if_pos hmap]
    unfold proc_yield
    rw [if_neg hns, if_pos hst, hmap]
    simp only [Bool.not_true, Bool.false_eq_true, if_false]
    rw [hget]
    simp only []
    by_cases c4 : b = true ∧ (s.vcoremap (s.pcoremap pc).vcoreid).preempt_pending = 0
    · rw [if_pos c4, set_preempt_pending_self s _ c4.2]
    have c5 : ¬ (s.vcoremap (s.pcoremap pc).vcoreid).preempt_served = true := by
      rw [hserved]; decide
    rw [if_neg c4, if_neg c5]
    by_cases c6 : (s.vcoremap (s.pcoremap pc).vcoreid).preempt_pending ≠ 0
    · rw [if_pos c6]
      exact (if_pos hnp).trans rfl
    · rw [if_neg c6, if_pos hnp, set_preempt_pending_self s _ (not_not.mp c6)]
  · simp [upd]
  · intro v
    by_cases hv : v = (s.pcoremap pc).vcoreid
    · subst hv; simp [upd]
    · simp [upd, hv]
  · intro v hv
    simp [upd, hv]

/-- Witness for C40: the process `notified_proc` yields from pcore 5; only the
warning of a preemption is taken back. -/
theorem yield_notif_pending_abort_witness :
    notified_proc.state = PROC_RUNNING_M ∧ is_mapped_vcore notified_proc 5 = true ∧
    (notified_proc.vcoremap (notified_proc.pcoremap 5).vcoreid).preempt_served = false ∧
    (notified_proc.vcore_preempt_data (notified_proc.pcoremap 5).vcoreid).notif_pending = true ∧
    (notified_proc.vcoremap 2).preempt_pending = 1000 ∧
    ∃ s1, proc_yield notified_proc 5 false = .ok s1 ∧
      (s1.vcoremap 2).preempt_pending = 0 ∧ s1.online_vcs = [2] ∧ s1.num_vcores = 1 := by
  refine ⟨rfl, rfl, rfl, rfl, rfl, ?_⟩
  obtain ⟨s1, h1, _, h3, _, _, _, h7, _, _, _, _, _, h13, _⟩ :=
    yield_notif_pending_abort notified_proc 5 false rfl rfl rfl rfl
  exact ⟨s1, h1, h13, h3, h7⟩

/-! ## The seqlock around the maps -/

/-- What `__proc_yield_s` does to the seqlock: `proc_yield` on a `RUNNING_S`
process unmaps vcore 0 under the process lock and leaves `coremap_seqctr` as it
was, where `__proc_switch_to_m` and the `RUNNING_M` branch of `proc_yield` put
the same `__unmap_vcore` between `__seq_start_write` and `__seq_end_write`. -/
theorem yield_s_unmap_unwrapped :
    (∀ s pc b s1, s.state = PROC_RUNNING_S → proc_yield s pc b = .ok s1 →
      s1.coremap_seqctr = s.coremap_seqctr) ∧
    (∃ s1, proc_yield (run_s_result runnable_s_proc 3) 3 false = .ok s1 ∧
      (run_s_result runnable_s_proc 3).state = PROC_RUNNING_S ∧
      ((run_s_result runnable_s_proc 3).vcoremap 0).valid = true ∧
      (s1.vcoremap 0).valid = false ∧
      ((run_s_result runnable_s_proc 3).pcoremap 3).valid = true ∧
      (s1.pcoremap 3).valid = false ∧
      s1.coremap_seqctr = (run_s_result runnable_s_proc 3).coremap_seqctr) := by
  refine ⟨?_, ⟨_, rfl, rfl, rfl, rfl, rfl, rfl, rfl⟩⟩
  intro s pc b s1 hst h
  rcases proc_yield_acct h with ⟨_, e⟩ | ⟨h1, _, _⟩ | ⟨h1, _⟩
  · exact congrArg Acct.coremap_seqctr e
  · exact absurd hst h1
  · rw [hst] at h1; exact absurd h1 (by decide)

end Akaros
